import Mathlib

/-!
# Eureka DOOM Editor: the software 3D renderer (`r_software.cc`)

A shallow embedding of the renderer's data model and operations.

Conventions of the embedding.

* C++ `int` is `Int` (no claim here depends on wrap-around); `/` on ints is
  `Int.tdiv` (truncation toward zero).
* C++ `float` / `double` are an arbitrary linearly ordered field `F` with a
  floor function (`ℚ` is executable, `ℝ` is the exact reals).  The conversion
  `int(f)` is `toInt` (truncation toward zero).  The transcendental functions
  of `<math.h>` are the fields of a `MathLib F` that the operations take as an
  argument; `realMath` is the exact one on `ℝ`.
* A pointer to a map object (`LineDef *`, `SideDef *`, `Sector *`) is the
  index of the object in its table, `NULL` is `none`.
* A `DrawWall *` is an index into `RendInfo.heap`, which holds every object
  made by `new DrawWall`; pointer equality is index equality.
-/

set_option linter.unusedSectionVars false

namespace Eureka

/-! ## Map objects (every field is a plain `int`, see `e_basis.h`) -/

structure Vertex where
  x : Int
  y : Int
deriving Repr, DecidableEq, Inhabited

/-- A linedef: `right` and `left` are sidedef numbers, `-1` meaning "no sidedef". -/
structure LineDef where
  start : Int
  end_ : Int
  right : Int
  left : Int
  flags : Int
deriving Repr, DecidableEq, Inhabited

/-- A sidedef: texture names are offsets into the string table. -/
structure SideDef where
  x_offset : Int
  y_offset : Int
  upper_tex : Int
  mid_tex : Int
  lower_tex : Int
  sector : Int
deriving Repr, DecidableEq, Inhabited

structure Sector where
  floorh : Int
  ceilh : Int
  floor_tex : Int
  ceil_tex : Int
  light : Int
deriving Repr, DecidableEq, Inhabited

structure Thing where
  x : Int
  y : Int
  z : Int
  type : Int
deriving Repr, DecidableEq, Inhabited

/-- The global object tables `Vertices`, `LineDefs`, `SideDefs`, `Sectors`, `Things`. -/
structure Doc where
  Vertices : Array Vertex
  LineDefs : Array LineDef
  SideDefs : Array SideDef
  Sectors : Array Sector
  Things : Array Thing
deriving Inhabited

def Doc.NumVertices (doc : Doc) : Int := doc.Vertices.size
def Doc.NumLineDefs (doc : Doc) : Int := doc.LineDefs.size
def Doc.NumSectors (doc : Doc) : Int := doc.Sectors.size
def Doc.NumThings (doc : Doc) : Int := doc.Things.size

/-- The object `Vertices[n]`. -/
def Doc.vertex (doc : Doc) (n : Int) : Vertex := doc.Vertices.getD n.toNat default
/-- The object `LineDefs[n]`. -/
def Doc.lineDef (doc : Doc) (n : Nat) : LineDef := doc.LineDefs.getD n default
/-- The object `SideDefs[n]`. -/
def Doc.sideDef (doc : Doc) (n : Nat) : SideDef := doc.SideDefs.getD n default
/-- The object `Sectors[n]`. -/
def Doc.sector (doc : Doc) (n : Nat) : Sector := doc.Sectors.getD n default
/-- The object `Things[n]`. -/
def Doc.thing (doc : Doc) (n : Int) : Thing := doc.Things.getD n.toNat default

/-- Modelled from the spec: `is_vertex` is declared outside the available
sources; a vertex number is valid when it indexes the vertex table. -/
def is_vertex (doc : Doc) (n : Int) : Bool := decide (0 ≤ n ∧ n < doc.NumVertices)

/-- Modelled from the spec: `is_sector` is declared outside the available
sources; a sector number is valid when it indexes the sector table. -/
def is_sector (doc : Doc) (n : Int) : Bool := decide (0 ≤ n ∧ n < doc.NumSectors)

/-- Modelled from the spec: `LineDef::TouchesVertex` is declared outside the
available sources; a linedef touches a vertex when it starts or ends there
("two linedefs share a vertex"). -/
def LineDef.TouchesVertex (L : LineDef) (v : Int) : Bool := L.start == v || L.end_ == v

/-- Modelled from the spec: `LineDef::Right` is declared outside the available
sources; the right sidedef pointer, `NULL` when the number is `-1`
(`e_basis.h`: "the left and right fields can contain -1 to mean no sidedef"). -/
def LineDef.Right (L : LineDef) : Option Nat := if 0 ≤ L.right then some L.right.toNat else none

/-- Modelled from the spec: `LineDef::Left` is declared outside the available
sources; the left sidedef pointer, `NULL` when the number is `-1`. -/
def LineDef.Left (L : LineDef) : Option Nat := if 0 ≤ L.left then some L.left.toNat else none

def LineDef.Start (doc : Doc) (L : LineDef) : Vertex := doc.vertex L.start
def LineDef.End (doc : Doc) (L : LineDef) : Vertex := doc.vertex L.end_

/-- Modelled from the spec: `PointOnLineSide` is declared outside the available
sources; the side of the infinite line through `(lx1,ly1)`-`(lx2,ly2)` on
which the point `(x,y)` lies, as a sign (`0` on the line). -/
def PointOnLineSide_model (x y lx1 ly1 lx2 ly2 : Int) : Int :=
  let tmp := (x - lx1) * (ly2 - ly1) - (y - ly1) * (lx2 - lx1)
  if tmp < 0 then -1 else if tmp > 0 then 1 else 0

/-! ## Numbers -/

section Numbers
variable {F : Type} [LinearOrderedField F] [FloorRing F]

/-- The C++ conversion `int(f)` of a floating value: truncation toward zero. -/
def toInt (r : F) : Int := if 0 ≤ r then ⌊r⌋ else ⌈r⌉

/-- The macro `MAX`. -/
def MAX {α : Type} [LinearOrder α] (a b : α) : α := if a > b then a else b
/-- The macro `MIN`. -/
def MIN {α : Type} [LinearOrder α] (a b : α) : α := if a < b then a else b

end Numbers

/-- The functions of `<math.h>` that the renderer calls, and the constant `M_PI`. -/
structure MathLib (F : Type) where
  pi : F
  tan : F → F
  atan : F → F
  atan2 : F → F → F
  cos : F → F
  sin : F → F
  sqrt : F → F

/-! ## Images and external services -/

/-- An image (`Img_c`): its size and its pixels. -/
structure Img where
  width : Int
  height : Int
  buf : Int → Nat

instance : Inhabited Img := ⟨⟨0, 0, fun _ => 0⟩⟩

/-- Flags of a thing type (`THINGDEF_*`) and its sprite scale; `M_GetThingType`
always gives one (the code reads `info->scale` without a null test). -/
structure thingtype_t (F : Type) where
  flags : Int
  scale : F

/-- The collaborators that live outside `r_software.cc`: geometry helpers,
the game definition, the asset lookup and the preferences. -/
structure Ext (F : Type) where
  PointOnLineSide : Int → Int → Int → Int → Int → Int → Int
  GetString : Int → String
  is_sky : String → Bool
  is_null_tex : String → Bool
  W_GetFlat : String → Option Img
  W_GetTexture : String → Option Img
  W_GetSprite : Int → Option Img
  IM_UnknownFlat : Img
  IM_MissingTex : Img
  IM_UnknownTex : Img
  IM_UnknownSprite : Img
  M_GetThingType : Int → thingtype_t F
  sky_color : Nat
  floor_color1 : Nat
  wall_color1 : Nat
  HashedFloorColor : String → Nat
  HashedWallColor : String → Nat
  render_high_detail : Bool
  render_missing_bright : Bool
  render_unknown_bright : Bool
  R_DoomLightingEquation : Int → F → Int
  raw_colormap : Int → Nat → Nat
  MLF_LowerUnpegged : Int
  MLF_UpperUnpegged : Int
  THINGDEF_INVIS : Int
  THINGDEF_CEIL : Int
  THINGDEF_LIT : Int
  IS_RGB_PIXEL : Nat
  TRANS_PIXEL : Nat
  IMG_PIXEL_RED : Nat → Int
  IMG_PIXEL_GREEN : Nat → Int
  IMG_PIXEL_BLUE : Nat → Int
  IMG_PIXEL_MAKE_RGB : Int → Int → Int → Nat

def Sector.CeilTex {F : Type} (X : Ext F) (s : Sector) : String := X.GetString s.ceil_tex
def Sector.FloorTex {F : Type} (X : Ext F) (s : Sector) : String := X.GetString s.floor_tex
def SideDef.UpperTex {F : Type} (X : Ext F) (s : SideDef) : String := X.GetString s.upper_tex
def SideDef.MidTex {F : Type} (X : Ext F) (s : SideDef) : String := X.GetString s.mid_tex
def SideDef.LowerTex {F : Type} (X : Ext F) (s : SideDef) : String := X.GetString s.lower_tex

/-! ## Surfaces and entities -/

/-- The `kind` of a `DrawSurf`. -/
inductive SurfKind where
  | K_INVIS
  | K_FLAT
  | K_TEXTURE
deriving Repr, DecidableEq, Inhabited

def SOLID_ABOVE : Int := 1
def SOLID_BELOW : Int := 2

structure DrawSurf where
  kind : SurfKind
  h1 : Int
  h2 : Int
  tex_h : Int
  img : Option Img
  col : Nat
  y_clip : Int
  fullbright : Bool

/-- The constructor `DrawSurf()`. -/
def DrawSurf.new : DrawSurf :=
  { kind := SurfKind.K_INVIS, h1 := 0, h2 := 0, tex_h := 0, img := none, col := 0,
    y_clip := 0, fullbright := false }

instance : Inhabited DrawSurf := ⟨DrawSurf.new⟩

/-- Modelled from the spec: the side constants are declared outside the
available sources; two distinct tags for the right and the left side. -/
def SIDE_RIGHT : Int := 1
/-- Modelled from the spec: see `SIDE_RIGHT`. -/
def SIDE_LEFT : Int := -1

/-- A projected drawable: a wall (`th = -1`, `ld`/`sd`/`sec` set) or a sprite
(`th ≥ 0`, `ld`/`sd`/`sec` null). -/
structure DrawWall (F : Type) where
  th : Int
  ld : Option Nat
  sd : Option Nat
  sec : Option Nat
  side : Int
  wall_light : Int
  delta_ang : F
  dist : F
  t_dist : F
  normal : F
  iz1 : F
  iz2 : F
  diz : F
  cur_iz : F
  mid_iz : F
  spr_tx1 : F
  sx1 : Int
  sx2 : Int
  oy1 : Int
  oy2 : Int
  ceil : DrawSurf
  upper : DrawSurf
  lower : DrawSurf
  floor : DrawSurf
  rail : DrawSurf

/-- The object made by `new DrawWall`: the five surfaces are constructed
(`K_INVIS`), the plain fields are not initialised (zero here). -/
def DrawWall.new {F : Type} [Zero F] : DrawWall F :=
  { th := 0, ld := none, sd := none, sec := none, side := 0, wall_light := 0,
    delta_ang := 0, dist := 0, t_dist := 0, normal := 0, iz1 := 0, iz2 := 0, diz := 0,
    cur_iz := 0, mid_iz := 0, spr_tx1 := 0, sx1 := 0, sx2 := 0, oy1 := 0, oy2 := 0,
    ceil := DrawSurf.new, upper := DrawSurf.new, lower := DrawSurf.new,
    floor := DrawSurf.new, rail := DrawSurf.new }

instance {F : Type} [Zero F] : Inhabited (DrawWall F) := ⟨DrawWall.new⟩

/-- The part of a wall under a pixel (`obj3d_type_e`). -/
inductive obj3d_type_e where
  | OB3D_None
  | OB3D_Floor
  | OB3D_Ceil
  | OB3D_Lower
  | OB3D_Upper
  | OB3D_Rail
  | OB3D_Thing
deriving Repr, DecidableEq, Inhabited

/-- The part of the view state (`r_view`) that the renderer reads; `hl_thing`
is the number of the highlighted thing, if the highlight is a thing.  The
pixel buffer behind `r_view.screen` is the field `screen` of `RendInfo`. -/
structure View (F : Type) where
  x : F
  y : F
  z : F
  angle : F
  Sin : F
  Cos : F
  screen_w : Int
  screen_h : Int
  aspect_sw : F
  aspect_sh : F
  texturing : Bool
  lighting : Bool
  sprites : Bool
  thing_sectors : Array Int
  hl_thing : Option Int

section Comparator
variable {F : Type} [LinearOrderedField F] [FloorRing F]

/-- The method `DrawWall::IsCloser`: is the wall at `a` closer to the camera
than the wall at `b` (both pointers into `heap`). -/
def IsCloser (X : Ext F) (doc : Doc) (view : View F) (heap : Array (DrawWall F))
    (a b : Nat) : Bool :=
  let A := heap.getD a default
  let B := heap.getD b default
  if a = b then false
  else
    match A.ld, B.ld with
    | some la, some lb =>
      let LA := doc.lineDef la
      let LB := doc.lineDef lb
      let A_other : Int :=
        if LB.TouchesVertex LA.start then LA.end_
        else if LB.TouchesVertex LA.end_ then LA.start
        else -1
      if A_other ≥ 0 then
        let ax := (doc.vertex A_other).x
        let ay := (doc.vertex A_other).y
        let bx1 := (LB.Start doc).x
        let by1 := (LB.Start doc).y
        let bx2 := (LB.End doc).x
        let by2 := (LB.End doc).y
        let cx := toInt view.x
        let cy := toInt view.y
        let A_side := X.PointOnLineSide ax ay bx1 by1 bx2 by2
        let C_side := X.PointOnLineSide cx cy bx1 by1 bx2 by2
        decide (A_side * C_side ≥ 0)
      else decide (A.cur_iz > B.cur_iz)
    | _, _ =>
      if A.th ≥ 0 ∧ B.th ≥ 0 then
        let TA := doc.thing A.th
        let TB := doc.thing B.th
        if TA.x = TB.x ∧ TA.y = TB.y then decide (A.th > B.th)
        else decide (A.cur_iz > B.cur_iz)
      else decide (A.cur_iz > B.cur_iz)

end Comparator

/-! ## Surface resolver -/

section Surfaces
variable {F : Type} [LinearOrderedField F]

/-- The method `DrawSurf::FindFlat` (its `Sector *` argument is unused). -/
def DrawSurf.FindFlat (X : Ext F) (view : View F) (s : DrawSurf) (fname : String) : DrawSurf :=
  let s := { s with fullbright := false }
  if X.is_sky fname then
    { s with col := X.sky_color, fullbright := true }
  else if view.texturing then
    match X.W_GetFlat fname with
    | some img => { s with img := some img }
    | none => { s with img := some X.IM_UnknownFlat, fullbright := X.render_unknown_bright }
  else if view.lighting then
    { s with col := X.floor_color1 }
  else
    { s with col := X.HashedFloorColor fname }

/-- The method `DrawSurf::FindTex` (its `LineDef *` argument is unused). -/
def DrawSurf.FindTex (X : Ext F) (view : View F) (s : DrawSurf) (tname : String) : DrawSurf :=
  let s := { s with fullbright := false }
  if view.texturing then
    if X.is_null_tex tname then
      { s with img := some X.IM_MissingTex, fullbright := X.render_missing_bright }
    else
      match X.W_GetTexture tname with
      | some img => { s with img := some img }
      | none => { s with img := some X.IM_UnknownTex, fullbright := X.render_unknown_bright }
  else if view.lighting then
    { s with col := X.wall_color1 }
  else
    { s with col := X.HashedWallColor tname }

/-- The sector across the line: `back` of `ComputeWallSurface`. -/
def backSector (doc : Doc) (dw : DrawWall F) : Option Nat :=
  let ld := doc.lineDef (dw.ld.getD 0)
  let back_sd := if dw.side = SIDE_LEFT then ld.Right else ld.Left
  back_sd.map (fun i => (doc.sideDef i).sector.toNat)

/-- The local `sky_upper` of `ComputeWallSurface`. -/
def skyUpper (X : Ext F) (doc : Doc) (dw : DrawWall F) : Bool :=
  let front := doc.sector (dw.sec.getD 0)
  match backSector doc dw with
  | some b => X.is_sky (front.CeilTex X) && X.is_sky ((doc.sector b).CeilTex X)
  | none => false

/-- The local `self_ref` of `ComputeWallSurface`: `front == back` on pointers. -/
def selfRef (doc : Doc) (dw : DrawWall F) : Bool := decide (dw.sec = backSector doc dw)

/-- The ceiling flat of `ComputeWallSurface`. -/
def ceilSurf (X : Ext F) (doc : Doc) (view : View F) (dw : DrawWall F) : DrawSurf :=
  let front := doc.sector (dw.sec.getD 0)
  if ((front.ceilh : F) > view.z ∨ X.is_sky (front.CeilTex X) = true)
      ∧ ¬ skyUpper X doc dw = true ∧ ¬ selfRef doc dw = true then
    let c := { dw.ceil with kind := SurfKind.K_FLAT, h1 := front.ceilh, h2 := 99999,
                            tex_h := front.ceilh, y_clip := SOLID_ABOVE }
    c.FindFlat X view (front.CeilTex X)
  else dw.ceil

/-- The floor flat of `ComputeWallSurface`. -/
def floorSurf (X : Ext F) (doc : Doc) (view : View F) (dw : DrawWall F) : DrawSurf :=
  let front := doc.sector (dw.sec.getD 0)
  if (front.floorh : F) < view.z ∧ ¬ selfRef doc dw = true then
    let f := { dw.floor with kind := SurfKind.K_FLAT, h1 := -99999, h2 := front.floorh,
                             tex_h := front.floorh, y_clip := SOLID_BELOW }
    f.FindFlat X view (front.FloorTex X)
  else dw.floor

/-- The single band of a ONE-sided line in `ComputeWallSurface`. -/
def lowerOneSided (X : Ext F) (doc : Doc) (view : View F) (dw : DrawWall F) : DrawSurf :=
  let ld := doc.lineDef (dw.ld.getD 0)
  let sd := doc.sideDef (dw.sd.getD 0)
  let front := doc.sector (dw.sec.getD 0)
  let l := { dw.lower with kind := SurfKind.K_TEXTURE, h1 := front.floorh, h2 := front.ceilh,
                           y_clip := Int.lor SOLID_ABOVE SOLID_BELOW }
  let l := l.FindTex X view (sd.MidTex X)
  let tex_h :=
    match l.img with
    | some img =>
      if Int.land ld.flags X.MLF_LowerUnpegged ≠ 0 then l.h1 + img.height else l.h2
    | none => l.h2
  { l with tex_h := tex_h + sd.y_offset }

/-- The upper band of a TWO-sided line (`b` is the far sector). -/
def upperSurf (X : Ext F) (doc : Doc) (view : View F) (dw : DrawWall F) (b : Nat) : DrawSurf :=
  let ld := doc.lineDef (dw.ld.getD 0)
  let sd := doc.sideDef (dw.sd.getD 0)
  let front := doc.sector (dw.sec.getD 0)
  let back := doc.sector b
  if back.ceilh < front.ceilh ∧ ¬ skyUpper X doc dw = true ∧ ¬ selfRef doc dw = true then
    let u := { dw.upper with kind := SurfKind.K_TEXTURE, h1 := back.ceilh, h2 := front.ceilh,
                             y_clip := SOLID_ABOVE }
    let u := u.FindTex X view (sd.UpperTex X)
    let tex_h :=
      match u.img with
      | some img =>
        if ¬ (Int.land ld.flags X.MLF_UpperUnpegged ≠ 0) then u.h1 + img.height else u.h2
      | none => u.h2
    { u with tex_h := tex_h + sd.y_offset }
  else dw.upper

/-- The lower band of a TWO-sided line (`b` is the far sector). -/
def lowerTwoSided (X : Ext F) (doc : Doc) (view : View F) (dw : DrawWall F) (b : Nat) :
    DrawSurf :=
  let ld := doc.lineDef (dw.ld.getD 0)
  let sd := doc.sideDef (dw.sd.getD 0)
  let front := doc.sector (dw.sec.getD 0)
  let back := doc.sector b
  if back.floorh > front.floorh ∧ ¬ selfRef doc dw = true then
    let l := { dw.lower with kind := SurfKind.K_TEXTURE, h1 := front.floorh, h2 := back.floorh,
                             y_clip := SOLID_BELOW }
    let l := l.FindTex X view (sd.LowerTex X)
    let tex_h :=
      if Int.land ld.flags X.MLF_LowerUnpegged ≠ 0 then
        (if skyUpper X doc dw then back.ceilh else front.ceilh)
      else l.h2
    { l with tex_h := tex_h + sd.y_offset }
  else dw.lower

/-- The mid-masked texture (rail) of a TWO-sided line (`b` is the far sector). -/
def railSurf (X : Ext F) (doc : Doc) (view : View F) (dw : DrawWall F) (b : Nat) : DrawSurf :=
  let ld := doc.lineDef (dw.ld.getD 0)
  let sd := doc.sideDef (dw.sd.getD 0)
  let front := doc.sector (dw.sec.getD 0)
  let back := doc.sector b
  if ¬ view.texturing = true then dw.rail
  else if X.is_null_tex (sd.MidTex X) then dw.rail
  else
    let r := dw.rail.FindTex X view (sd.MidTex X)
    match r.img with
    | none => r
    | some img =>
      let c_h := MIN front.ceilh back.ceilh
      let f_h := MAX front.floorh back.floorh
      let r_h := img.height
      if f_h ≥ c_h then r
      else
        let r :=
          if Int.land ld.flags X.MLF_LowerUnpegged ≠ 0 then
            { r with h1 := f_h + sd.y_offset, h2 := f_h + sd.y_offset + r_h }
          else
            { r with h2 := c_h + sd.y_offset, h1 := c_h + sd.y_offset - r_h }
        let r := { r with kind := SurfKind.K_TEXTURE, y_clip := 0, tex_h := r.h2 }
        let r :=
          if ¬ (skyUpper X doc dw = true ∨
                (back.ceilh = front.ceilh ∧ back.ceil_tex = front.ceil_tex
                  ∧ back.light = front.light)) then
            { r with h2 := MIN c_h r.h2 }
          else r
        if ¬ (back.floorh = front.floorh ∧ back.floor_tex = front.floor_tex
                ∧ back.light = front.light) then
          { r with h1 := MAX f_h r.h1 }
        else r

/-- The method `DrawWall::ComputeWallSurface`: each of the five surfaces is
written by its own block of the method, from the fields of the wall and the
map; a ONE-sided line returns after its `lower` band. -/
def ComputeWallSurface (X : Ext F) (doc : Doc) (view : View F) (dw : DrawWall F) : DrawWall F :=
  match backSector doc dw with
  | none =>
    { dw with ceil := ceilSurf X doc view dw, floor := floorSurf X doc view dw,
              lower := lowerOneSided X doc view dw }
  | some b =>
    { dw with ceil := ceilSurf X doc view dw, floor := floorSurf X doc view dw,
              upper := upperSurf X doc view dw b, lower := lowerTwoSided X doc view dw b,
              rail := railSurf X doc view dw b }

end Surfaces

/-! ## A small concrete scene

Two rooms side by side.  Linedef 0 is the one-sided west wall of sector 0,
linedef 1 the two-sided line between sector 0 and sector 1 (both with a sky
ceiling), linedef 2 a one-sided wall that leaves vertex 2 at a right angle.
The camera stands in sector 0 and looks east. -/

/-- The names of the demo scene: offset 0 is the null texture, 1 the sky flat. -/
def demoString (n : Int) : String :=
  if n = 0 then "-" else if n = 1 then "F_SKY1" else if n = 2 then "FLOOR4_8" else "STARTAN3"

def demoImg : Img := { width := 64, height := 128, buf := fun _ => 7 }

/-- Collaborators for the demo scenes. -/
def demoExt {F : Type} [One F] : Ext F :=
  { PointOnLineSide := PointOnLineSide_model
    GetString := demoString
    is_sky := fun s => s == "F_SKY1"
    is_null_tex := fun s => s == "-"
    W_GetFlat := fun _ => some demoImg
    W_GetTexture := fun _ => some demoImg
    W_GetSprite := fun _ => some demoImg
    IM_UnknownFlat := demoImg
    IM_MissingTex := demoImg
    IM_UnknownTex := demoImg
    IM_UnknownSprite := demoImg
    M_GetThingType := fun _ => { flags := 0, scale := 1 }
    sky_color := 5
    floor_color1 := 6
    wall_color1 := 7
    HashedFloorColor := fun _ => 6
    HashedWallColor := fun _ => 7
    render_high_detail := true
    render_missing_bright := true
    render_unknown_bright := true
    R_DoomLightingEquation := fun _ _ => 0
    raw_colormap := fun _ p => p
    MLF_LowerUnpegged := 16
    MLF_UpperUnpegged := 8
    THINGDEF_INVIS := 1
    THINGDEF_CEIL := 2
    THINGDEF_LIT := 4
    IS_RGB_PIXEL := 32768
    TRANS_PIXEL := 247
    IMG_PIXEL_RED := fun p => (p / 1024) % 32
    IMG_PIXEL_GREEN := fun p => (p / 32) % 32
    IMG_PIXEL_BLUE := fun p => p % 32
    IMG_PIXEL_MAKE_RGB := fun r g b => 32768 + (r * 1024 + g * 32 + b).toNat }

def demoDoc : Doc :=
  { Vertices := #[⟨0, 0⟩, ⟨0, 128⟩, ⟨128, 128⟩, ⟨128, 0⟩, ⟨256, 128⟩]
    LineDefs := #[⟨0, 1, 0, -1, 0⟩, ⟨1, 2, 1, 2, 0⟩, ⟨2, 3, 3, -1, 0⟩]
    SideDefs := #[⟨0, 0, 0, 3, 0, 0⟩, ⟨0, 0, 3, 0, 3, 0⟩, ⟨0, 0, 3, 0, 3, 1⟩, ⟨0, 0, 0, 3, 0, 0⟩]
    Sectors := #[⟨0, 128, 2, 1, 160⟩, ⟨0, 128, 2, 1, 160⟩]
    Things := #[⟨64, 64, 0, 1⟩, ⟨64, 64, 0, 1⟩] }

/-- The camera of the demo scene: in sector 0, looking east (angle 0). -/
def demoView : View ℚ :=
  { x := 64, y := 64, z := 41, angle := 0, Sin := 0, Cos := 1,
    screen_w := 8, screen_h := 6, aspect_sw := 4, aspect_sh := 4,
    texturing := true, lighting := false, sprites := true,
    thing_sectors := #[0, 0], hl_thing := none }

/-- The wall entity of `demoDoc` for linedef `n` seen from its right side. -/
def demoWall (n : Nat) (iz : ℚ) : DrawWall ℚ :=
  { (DrawWall.new : DrawWall ℚ) with
    th := -1, ld := some n,
    sd := ((demoDoc.lineDef n).Right),
    sec := ((demoDoc.lineDef n).Right).map (fun i => (demoDoc.sideDef i).sector.toNat),
    side := SIDE_RIGHT, iz1 := iz, iz2 := iz, cur_iz := iz, mid_iz := iz }

/-- Three wall entities, one per linedef of `demoDoc`. -/
def demoHeap : Array (DrawWall ℚ) := #[demoWall 0 (1/64), demoWall 1 (1/64), demoWall 2 (1/100)]

/-! ## The renderer state -/

/-- The state of a `RendInfo`, with the destination pixel buffer
(`r_view.screen`, address to pixel) and the objects made by `new DrawWall`
(`heap`, a `DrawWall *` being an index).  The vectors `walls` and `active` hold
pointers; `depth_x` maps a column to its inverse distance. -/
structure RendInfo (F : Type) where
  heap : Array (DrawWall F)
  walls : List Nat
  active : List Nat
  query_mode : Int
  query_sx : Int
  query_sy : Int
  query_wall : Option Nat
  query_part : obj3d_type_e
  depth_x : Int → F
  open_y1 : Int
  open_y2 : Int
  screen : Int → Nat

/-- The constructor `RendInfo()` on a given pixel buffer. -/
def RendInfo.new {F : Type} [Zero F] (screen : Int → Nat) : RendInfo F :=
  { heap := #[], walls := [], active := [], query_mode := 0, query_sx := 0, query_sy := 0,
    query_wall := none, query_part := obj3d_type_e.OB3D_None, depth_x := fun _ => 0,
    open_y1 := 0, open_y2 := 0, screen := screen }

/-- The loop `for (x = lo ; ... ; x++)` run for `n` rounds. -/
def forRange {σ : Type} (lo : Int) (n : Nat) (body : Int → σ → σ) (s : σ) : σ :=
  match n with
  | 0 => s
  | n + 1 => forRange (lo + 1) n body (body lo s)

/-- The loop `for (x = lo ; x <= hi ; x++)`. -/
def forUpTo {σ : Type} (lo hi : Int) (body : Int → σ → σ) (s : σ) : σ :=
  forRange lo (hi + 1 - lo).toNat body s

/-! ## Projection math -/

section Projection
variable {F : Type} [LinearOrderedField F] [FloorRing F]

def PointToAngle (m : MathLib F) (x y : F) : F :=
  if -(1 / 100) < x ∧ x < 1 / 100 then
    (if y > 0 then m.pi / 2 else 3 * m.pi / 2)
  else
    let angle := m.atan2 y x
    if angle < 0 then angle + 2 * m.pi else angle

def AngleToX (m : MathLib F) (view : View F) (ang : F) : Int :=
  let t := m.tan (m.pi / 2 - ang)
  let x := toInt (view.aspect_sw * t)
  let x := Int.tdiv (view.screen_w + x) 2
  if x < 0 then 0 else if x > view.screen_w then view.screen_w else x

def XToAngle (m : MathLib F) (view : View F) (x : Int) : F :=
  let x := x * 2 - view.screen_w
  let ang := m.pi / 2 + m.atan ((x : F) / view.aspect_sw)
  if ang < 0 then 0 else if ang > m.pi then m.pi else ang

def DeltaToX (view : View F) (iz tx : F) : Int :=
  let x := toInt (view.aspect_sw * tx * iz)
  Int.tdiv (x + view.screen_w) 2

def XToDelta (view : View F) (x : Int) (iz : F) : F :=
  let x := x * 2 - view.screen_w
  (x : F) / iz / view.aspect_sw

def DistToY (view : View F) (iz : F) (sec_h : Int) : Int :=
  if sec_h > 32770 then -9999
  else if sec_h < -32770 then 9999
  else
    let y := toInt (view.aspect_sh * ((sec_h : F) - view.z) * iz)
    Int.tdiv (view.screen_h - y) 2

def YToDist (view : View F) (y : Int) (sec_h : Int) : F :=
  let y := view.screen_h - y * 2
  if y = 0 then 999999 else view.aspect_sh * ((sec_h : F) - view.z) / (y : F)

def YToSecH (view : View F) (y : Int) (iz : F) : F :=
  let y := y * 2 - view.screen_h
  view.z - ((y : F) / view.aspect_sh / iz)

end Projection

/-! ## Projector / entity builder -/

section Builder
variable {F : Type} [LinearOrderedField F] [FloorRing F]

/-- The locals `tx1`, `ty1`, `tx2`, `ty2` of `RendInfo::AddLine`: the two ends
of the linedef in view coordinates. -/
def lineEnds (doc : Doc) (view : View F) (ld : LineDef) : F × F × F × F :=
  let x1 : F := ((ld.Start doc).x : F) - view.x
  let y1 : F := ((ld.Start doc).y : F) - view.y
  let x2 : F := ((ld.End doc).x : F) - view.x
  let y2 : F := ((ld.End doc).y : F) - view.y
  (x1 * view.Sin - y1 * view.Cos, x1 * view.Cos + y1 * view.Sin,
   x2 * view.Sin - y2 * view.Cos, x2 * view.Cos + y2 * view.Sin)

/-- The local `side` of `RendInfo::AddLine`: the left side when the angular
span is at least `M_PI`, else the right side. -/
def lineSide (m : MathLib F) (angle1 angle2 : F) : Int :=
  let span := angle1 - angle2
  let span := if span < 0 then span + 2 * m.pi else span
  if span ≥ m.pi then SIDE_LEFT else SIDE_RIGHT

/-- The first part of `RendInfo::AddLine`: the view angles of the two ends of
linedef `ld` and the side that faces the camera.  Gives the side, the facing
sidedef, and the angles `angle1`, `angle2` (swapped for the left side); `none`
where the method returns early. -/
def lineAngles (m : MathLib F) (doc : Doc) (view : View F) (ld : LineDef) :
    Option (Int × Nat × F × F) :=
  if ¬ is_vertex doc ld.start = true ∨ ¬ is_vertex doc ld.end_ = true then none
  else if ld.Right = none then none
  -- reject line if complete behind viewplane
  else if (lineEnds doc view ld).2.1 ≤ 0 ∧ (lineEnds doc view ld).2.2.2 ≤ 0 then none
  else
    let angle1 := PointToAngle m (lineEnds doc view ld).1 (lineEnds doc view ld).2.1
    let angle2 := PointToAngle m (lineEnds doc view ld).2.2.1 (lineEnds doc view ld).2.2.2
    let side := lineSide m angle1 angle2
    -- ignore the line when there is no facing sidedef
    match (if side = SIDE_LEFT then ld.Left else ld.Right) with
    | none => none
    | some sd =>
      if side = SIDE_LEFT then some (side, sd, angle2, angle1)
      else some (side, sd, angle1, angle2)

/-- The second part of `RendInfo::AddLine`: clip the angles to the view
volume; `none` where the line is totally off an edge. -/
def clipAngles (m : MathLib F) (angle1 angle2 : F) : Option (F × F) :=
  let leftclip := 3 * m.pi / 4
  let rightclip := m.pi / 4
  let tspan1 := angle1 - rightclip
  let tspan2 := leftclip - angle2
  let tspan1 := if tspan1 < 0 then tspan1 + 2 * m.pi else tspan1
  let tspan2 := if tspan2 < 0 then tspan2 + 2 * m.pi else tspan2
  if tspan1 > m.pi / 2 ∧ tspan2 ≥ m.pi then none
  else if tspan2 > m.pi / 2 ∧ tspan1 ≥ m.pi then none
  else
    some (if tspan1 > m.pi / 2 then leftclip else angle1,
          if tspan2 > m.pi / 2 then rightclip else angle2)

/-- The local `dist` of `RendInfo::AddLine`: distance from eye to wall. -/
def wallDist (m : MathLib F) (doc : Doc) (view : View F) (ld : LineDef) : F :=
  let x1 : F := ((ld.Start doc).x : F) - view.x
  let y1 : F := ((ld.Start doc).y : F) - view.y
  let x2 : F := ((ld.End doc).x : F) - view.x
  let y2 : F := ((ld.End doc).y : F) - view.y
  let wdx := x2 - x1
  let wdy := y2 - y1
  let wlen := m.sqrt (wdx * wdx + wdy * wdy)
  |(y1 * wdx / wlen) - (x1 * wdy / wlen)|

/-- The local `normal` of `RendInfo::AddLine`: normal of the wall in
translated coordinates. -/
def wallNormal (m : MathLib F) (doc : Doc) (view : View F) (ld : LineDef) (side : Int) : F :=
  let tx1 := (lineEnds doc view ld).1
  let ty1 := (lineEnds doc view ld).2.1
  let tx2 := (lineEnds doc view ld).2.2.1
  let ty2 := (lineEnds doc view ld).2.2.2
  if side = SIDE_LEFT then PointToAngle m (ty2 - ty1) (tx1 - tx2)
  else PointToAngle m (ty1 - ty2) (tx2 - tx1)

/-- The inverse distance of a wall at view angle `ang`. -/
def wallIz (m : MathLib F) (normal dist ang : F) : F :=
  m.cos (normal - ang) / dist / m.cos (m.pi / 2 - ang)

/-- The wall light of `RendInfo::AddLine`, with the "fake contrast" for
axis-aligned walls. -/
def wallLight (doc : Doc) (ld : LineDef) (sec : Nat) : Int :=
  let light := (doc.sector sec).light
  if (ld.Start doc).x = (ld.End doc).x then light + 16
  else if (ld.Start doc).y = (ld.End doc).y then light - 16
  else light

/-- The last part of `RendInfo::AddLine`: the `DrawWall` structure made from
the side, the sidedef, the unclipped first angle `base_ang`, the clipped
angles and the screen span. -/
def mkWall (m : MathLib F) (doc : Doc) (view : View F) (ld_index : Nat) (side : Int) (sd : Nat)
    (base_ang angle1 angle2 : F) (sx1 sx2 : Int) : DrawWall F :=
  let ld := doc.lineDef ld_index
  let dist := wallDist m doc view ld
  let normal := wallNormal m doc view ld side
  let iz1 := wallIz m normal dist angle1
  let iz2 := wallIz m normal dist angle2
  let diz := (iz2 - iz1) / ((MAX 1 (sx2 - sx1) : Int) : F)
  let sec := (doc.sideDef sd).sector.toNat
  { (DrawWall.new : DrawWall F) with
    th := -1, ld := some ld_index, sd := some sd, sec := some sec,
    side := side, wall_light := wallLight doc ld sec,
    delta_ang := angle1 + XToAngle m view sx1 - normal,
    dist := dist, normal := normal,
    t_dist := m.tan (base_ang - normal) * dist,
    iz1 := iz1, iz2 := iz2, diz := diz,
    mid_iz := iz1 + ((sx2 - sx1 + 1 : Int) : F) * diz / 2,
    sx1 := sx1, sx2 := sx2 }

/-- The body of `RendInfo::AddLine` up to the `push_back`: the wall entity of
linedef `ld_index`, or `none` where the method returns early. -/
def AddLine_wall (m : MathLib F) (doc : Doc) (view : View F) (r : RendInfo F)
    (ld_index : Nat) : Option (DrawWall F) :=
  match lineAngles m doc view (doc.lineDef ld_index) with
  | none => none
  | some (side, sd, base_ang, angle2) =>
    match clipAngles m base_ang angle2 with
    | none => none
    | some (angle1, angle2) =>
      -- convert angles to on-screen X positions
      let sx1 := AngleToX m view angle1
      let sx2 := AngleToX m view angle2 - 1
      if sx1 > sx2 then none
      -- optimisation for query mode
      else if r.query_mode ≠ 0 ∧ (sx2 < r.query_sx ∨ sx1 > r.query_sx) then none
      else if wallDist m doc view (doc.lineDef ld_index) < 1 / 100 then none
      else some (mkWall m doc view ld_index side sd base_ang angle1 angle2 sx1 sx2)

/-- The statement `walls.push_back(dw)` for a freshly allocated `dw`. -/
def RendInfo.push (r : RendInfo F) (dw : DrawWall F) : RendInfo F :=
  { r with heap := r.heap.push dw, walls := r.walls ++ [r.heap.size] }

/-- The method `RendInfo::AddLine`. -/
def AddLine (m : MathLib F) (doc : Doc) (view : View F) (r : RendInfo F)
    (ld_index : Nat) : RendInfo F :=
  match AddLine_wall m doc view r ld_index with
  | none => r
  | some dw => r.push dw

/-- The locals `tx`, `ty` of `RendInfo::AddThing`: the thing in view coordinates. -/
def thingTxTy (doc : Doc) (view : View F) (th_index : Nat) : F × F :=
  let th := doc.thing th_index
  let x : F := (th.x : F) - view.x
  let y : F := (th.y : F) - view.y
  (x * view.Sin - y * view.Cos, x * view.Cos + y * view.Sin)

/-- The local `sprite` of `RendInfo::AddThing`, the unknown sprite when the
lookup fails. -/
def thingSprite (X : Ext F) (doc : Doc) (th_index : Nat) : Img :=
  (X.W_GetSprite (doc.thing th_index).type).getD X.IM_UnknownSprite

/-- The locals `tx1`, `tx2` of `RendInfo::AddThing`: the two edges of the billboard. -/
def thingEdges (X : Ext F) (doc : Doc) (view : View F) (th_index : Nat) : F × F :=
  let info := X.M_GetThingType (doc.thing th_index).type
  let sprite := thingSprite X doc th_index
  let tx := (thingTxTy doc view th_index).1
  (tx - (sprite.width : F) * info.scale / 2, tx + (sprite.width : F) * info.scale / 2)

/-- The locals `sx1`, `sx2` of `RendInfo::AddThing` after clamping to the screen. -/
def thingSpan (X : Ext F) (doc : Doc) (view : View F) (th_index : Nat) : Int × Int :=
  let iz := 1 / (thingTxTy doc view th_index).2
  let sx1 := DeltaToX view iz (thingEdges X doc view th_index).1
  let sx2 := DeltaToX view iz (thingEdges X doc view th_index).2 - 1
  (if sx1 < 0 then 0 else sx1, if sx2 ≥ view.screen_w then view.screen_w - 1 else sx2)

/-- The locals `h1`, `h2` of `RendInfo::AddThing`: the billboard hangs from the
ceiling for `THINGDEF_CEIL` things and stands on the floor otherwise. -/
def thingHeights (X : Ext F) (doc : Doc) (view : View F) (th_index : Nat) : Int × Int :=
  let th := doc.thing th_index
  let info := X.M_GetThingType th.type
  let sprite := thingSprite X doc th_index
  let thsec := view.thing_sectors.getD th_index 0
  if Int.land info.flags X.THINGDEF_CEIL ≠ 0 then
    let h2 : Int := (if is_sector doc thsec then (doc.sector thsec.toNat).ceilh else 192) - th.z
    (toInt ((h2 : F) - (sprite.height : F) * info.scale), h2)
  else
    let h1 : Int := (if is_sector doc thsec then (doc.sector thsec.toNat).floorh else 0) + th.z
    (h1, toInt ((h1 : F) + (sprite.height : F) * info.scale))

/-- The field `side` of a sprite: the thing flags, lit when the sprite is
unknown or the thing is highlighted. -/
def thingFlags (X : Ext F) (doc : Doc) (view : View F) (th_index : Nat) : Int :=
  let th := doc.thing th_index
  let side := (X.M_GetThingType th.type).flags
  if (X.W_GetSprite th.type).isNone = true ∧ X.render_unknown_bright = true then
    Int.lor side X.THINGDEF_LIT
  else if view.hl_thing = some (th_index : Int) then Int.lor side X.THINGDEF_LIT
  else side

/-- The body of `RendInfo::AddThing` up to the `push_back`: the sprite entity
of thing `th_index`, or `none` where the method returns early. -/
def AddThing_wall (X : Ext F) (doc : Doc) (view : View F) (r : RendInfo F)
    (th_index : Nat) : Option (DrawWall F) :=
  -- reject sprite if complete behind viewplane
  if (thingTxTy doc view th_index).2 < 4 then none
  else if (thingSpan X doc view th_index).1 > (thingSpan X doc view th_index).2 then none
  -- optimisation for query mode
  else if r.query_mode ≠ 0 ∧ ((thingSpan X doc view th_index).2 < r.query_sx
      ∨ (thingSpan X doc view th_index).1 > r.query_sx) then none
  else
    some { (DrawWall.new : DrawWall F) with
      th := th_index, ld := none, sd := none, sec := none,
      side := thingFlags X doc view th_index,
      spr_tx1 := (thingEdges X doc view th_index).1,
      normal := (X.M_GetThingType (doc.thing th_index).type).scale,
      iz1 := 1 / (thingTxTy doc view th_index).2,
      mid_iz := 1 / (thingTxTy doc view th_index).2,
      diz := 0,
      sx1 := (thingSpan X doc view th_index).1,
      sx2 := (thingSpan X doc view th_index).2,
      ceil := { DrawSurf.new with img := some (thingSprite X doc th_index),
                                  h1 := (thingHeights X doc view th_index).1,
                                  h2 := (thingHeights X doc view th_index).2 } }

/-- The method `RendInfo::AddThing`. -/
def AddThing (X : Ext F) (doc : Doc) (view : View F) (r : RendInfo F)
    (th_index : Nat) : RendInfo F :=
  match AddThing_wall X doc view r th_index with
  | none => r
  | some dw => r.push dw

/-- The method `RendInfo::ComputeSurfaces`: every wall entity of `walls` gets
its surfaces. -/
def ComputeSurfaces (X : Ext F) (doc : Doc) (view : View F) (r : RendInfo F) : RendInfo F :=
  { r with heap := r.walls.foldl (fun heap p =>
      if (heap.getD p default).ld.isSome then
        heap.setD p (ComputeWallSurface X doc view (heap.getD p default))
      else heap) r.heap }

end Builder

/-! ## The exact math library, and a scene with a one-column wall -/

/-- The functions of `<math.h>` as the exact real functions; `atan2 y x` is the
angle of the point `(x, y)` in `(-π, π]`. -/
noncomputable def realMath : MathLib ℝ :=
  { pi := Real.pi
    tan := Real.tan
    atan := Real.arctan
    atan2 := fun y x =>
      if 0 < x then Real.arctan (y / x)
      else if x < 0 then
        (if 0 ≤ y then Real.arctan (y / x) + Real.pi else Real.arctan (y / x) - Real.pi)
      else if 0 < y then Real.pi / 2
      else if y < 0 then -(Real.pi / 2)
      else 0
    cos := Real.cos
    sin := Real.sin
    sqrt := Real.sqrt }

/-- A map with the single one-sided linedef from `(8, 0)` to `(4, -3)`. -/
def sliverDoc : Doc :=
  { Vertices := #[⟨8, 0⟩, ⟨4, -3⟩]
    LineDefs := #[⟨0, 1, 0, -1, 0⟩]
    SideDefs := #[⟨0, 0, 0, 3, 0, 0⟩]
    Sectors := #[⟨0, 128, 2, 2, 160⟩]
    Things := #[] }

/-- A camera at the origin looking east (angle 0) on a screen of 8 columns:
the linedef of `sliverDoc` then covers the single column 4. -/
def sliverView {F : Type} [LinearOrderedField F] : View F :=
  { x := 0, y := 0, z := 41, angle := 0, Sin := 0, Cos := 1,
    screen_w := 8, screen_h := 6, aspect_sw := 4, aspect_sh := 4,
    texturing := true, lighting := false, sprites := true,
    thing_sectors := #[], hl_thing := none }

/-! ## Occlusion clipper -/

/-- The call `std::sort(first, last, lt)`: the elements in an order that `lt`
never contradicts.  The order of elements that `lt` does not separate is
unspecified in C++; this model keeps their original order. -/
def stdSort {α : Type} (lt : α → α → Bool) (l : List α) : List α :=
  l.insertionSort (fun a b => lt b a = false)

section Clipper
variable {F : Type} [LinearOrderedField F]

/-- The predicate `DrawWall::MidDistCmp` on pointers. -/
def MidDistCmp (heap : Array (DrawWall F)) (a b : Nat) : Bool :=
  decide ((heap.getD a default).mid_iz > (heap.getD b default).mid_iz)

/-- The predicate `DrawWall::SX1Cmp` on pointers. -/
def SX1Cmp (heap : Array (DrawWall F)) (a b : Nat) : Bool :=
  decide ((heap.getD a default).sx1 < (heap.getD b default).sx1)

/-- The method `RendInfo::InitDepthBuf`: `width` entries, all zero. -/
def InitDepthBuf (r : RendInfo F) (_width : Int) : RendInfo F :=
  { r with depth_x := fun _ => 0 }

/-- The local `one_sided` of `ClipSolids`: a wall whose linedef has no left side. -/
def oneSided (doc : Doc) (dw : DrawWall F) : Bool :=
  match dw.ld with
  | some l => (doc.lineDef l).Left = none
  | none => false

/-- The inverse distance of an entity at column `x`:
`dw->iz1 + (dw->diz * (x - dw->sx1))`. -/
def izAt (dw : DrawWall F) (x : Int) : F := dw.iz1 + dw.diz * ((x - dw.sx1 : Int) : F)

/-- One round of the column loop of `ClipSolids` on `(vis_count, depth_x)`. -/
def clipColumn (dw : DrawWall F) (one_sided : Bool) (x : Int) (s : Int × (Int → F)) :
    Int × (Int → F) :=
  let iz := izAt dw x
  if iz < s.2 x then (s.1 - 1, s.2)
  else if one_sided then (s.1, Function.update s.2 x iz)
  else s

/-- The body of the entity loop of `ClipSolids` for one entity: the final
`vis_count` and the depth buffer. -/
def clipEntity (doc : Doc) (dw : DrawWall F) (depth : Int → F) : Int × (Int → F) :=
  forUpTo dw.sx1 dw.sx2 (clipColumn dw (oneSided doc dw)) (dw.sx2 - dw.sx1 + 1, depth)

/-- The entity loop of `ClipSolids`, from closest to furthest: an entity whose
`vis_count` reaches zero is deleted and its slot becomes `NULL`. -/
def clipLoop (doc : Doc) (heap : Array (DrawWall F)) :
    List Nat → (Int → F) → List (Option Nat) × (Int → F)
  | [], depth => ([], depth)
  | p :: rest, depth =>
    let res := clipEntity doc (heap.getD p default) depth
    let slot := if res.1 = 0 then none else some p
    let out := clipLoop doc heap rest res.2
    (slot :: out.1, out.2)

/-- The method `RendInfo::ClipSolids`: a rough depth sort, the entity loop,
then the null pointers are removed. -/
def ClipSolids (doc : Doc) (r : RendInfo F) : RendInfo F :=
  let sorted := stdSort (MidDistCmp r.heap) r.walls
  let out := clipLoop doc r.heap sorted r.depth_x
  { r with walls := out.1.filterMap id, depth_x := out.2 }

end Clipper

/-! ## Sorting the active list -/

/-- The element `active[i]`. -/
def getAt (active : List Nat) (i : Int) : Nat := active.getD i.toNat 0

/-- The method `RendInfo::Sort_Swap`. -/
def Sort_Swap (active : List Nat) (i k : Int) : List Nat :=
  let A := getAt active i
  let B := getAt active k
  (active.set k.toNat A).set i.toNat B

/-- The loop `while (s <= e && active[s]->IsCloser(pivot)) s++` of
`Sort_Partition`; gives the final `s`. -/
def scanUp (closer : Nat → Nat → Bool) (pivot : Nat) (active : List Nat) (s e : Int) :
    { s' : Int // s ≤ s' } :=
  if h : s ≤ e ∧ closer (getAt active s) pivot = true then
    ⟨(scanUp closer pivot active (s + 1) e).1,
      le_trans (by omega) (scanUp closer pivot active (s + 1) e).2⟩
  else ⟨s, le_refl s⟩
termination_by (e + 1 - s).toNat
decreasing_by omega

/-- The loop `while (e >= s && ! active[e]->IsCloser(pivot)) e--` of
`Sort_Partition`; gives the final `e`. -/
def scanDown (closer : Nat → Nat → Bool) (pivot : Nat) (active : List Nat) (s e : Int) :
    { e' : Int // e' ≤ e } :=
  if h : e ≥ s ∧ ¬ closer (getAt active e) pivot = true then
    ⟨(scanDown closer pivot active s (e - 1)).1,
      le_trans (scanDown closer pivot active s (e - 1)).2 (by omega)⟩
  else ⟨e, le_refl e⟩
termination_by (e + 1 - s).toNat
decreasing_by omega

/-- The loop `for (;;)` of `Sort_Partition` from the state `(s, e)`; gives the
returned index and the active list. -/
def partitionLoop (closer : Nat → Nat → Bool) (pivot : Nat) (lo hi pivot_idx : Int)
    (active : List Nat) (s e : Int) : Int × List Nat :=
  match scanUp closer pivot active s e with
  | ⟨s1, _⟩ =>
    if s1 > hi then
      -- all values were < pivot, including the pivot itself!
      (hi - 1, if pivot_idx ≠ hi then Sort_Swap active pivot_idx hi else active)
    else
      match scanDown closer pivot active s1 e with
      | ⟨e1, _⟩ =>
        if e1 < lo then
          -- all values were >= pivot
          (lo, if pivot_idx ≠ lo then Sort_Swap active pivot_idx lo else active)
        else if h : s1 < e1 then
          partitionLoop closer pivot lo hi pivot_idx (Sort_Swap active s1 e1) (s1 + 1) (e1 - 1)
        else (s1 - 1, active)
termination_by (e + 1 - s).toNat
decreasing_by omega

/-- The method `RendInfo::Sort_Partition` (Hoare's algorithm), for the
comparator `closer a b` = `a->IsCloser(b)`. -/
def Sort_Partition (closer : Nat → Nat → Bool) (active : List Nat) (lo hi pivot_idx : Int) :
    Int × List Nat :=
  partitionLoop closer (getAt active pivot_idx) lo hi pivot_idx active lo hi

/-- The method `RendInfo::Sort_Range`. -/
def Sort_Range (closer : Nat → Nat → Bool) (active : List Nat) (s e : Int) : List Nat :=
  if _h : s < e then
    if s = e - 1 then
      if closer (getAt active e) (getAt active s) then Sort_Swap active s e else active
    else
      -- the wall in the middle is highly likely to be a good pivot
      match Sort_Partition closer active s e ((s + e) >>> 1) with
      | (mid, active) =>
        -- handle degenerate cases
        if h1 : mid ≤ s then Sort_Range closer active (s + 1) e
        else if h2 : mid + 1 ≥ e then Sort_Range closer active s (e - 1)
        -- only use recursion on the smallest group
        else if mid - s < e - mid then
          Sort_Range closer (Sort_Range closer active s mid) (mid + 1) e
        else
          Sort_Range closer (Sort_Range closer active (mid + 1) e) s mid
  else active
termination_by (e - s).toNat
decreasing_by all_goals omega

/-- The method `RendInfo::SortActiveList`. -/
def SortActiveList (closer : Nat → Nat → Bool) (active : List Nat) : List Nat :=
  if active.length < 2 then active
  else Sort_Range closer active 0 ((active.length : Int) - 1)

/-! ## Column painters -/

section Painters
variable {F : Type} [LinearOrderedField F] [FloorRing F]

/-- The function `DoomLightRemap`. -/
def DoomLightRemap (X : Ext F) (light : Int) (dist : F) (pixel : Nat) : Nat :=
  let map := X.R_DoomLightingEquation light dist
  if Nat.land pixel X.IS_RGB_PIXEL ≠ 0 then
    let map := Int.xor map 31 + 1
    let r := X.IMG_PIXEL_RED pixel
    let g := X.IMG_PIXEL_GREEN pixel
    let b := X.IMG_PIXEL_BLUE pixel
    X.IMG_PIXEL_MAKE_RGB ((r * map) >>> 5) ((g * map) >>> 5) ((b * map) >>> 5)
  else X.raw_colormap map pixel

/-- The address `x + y * r_view.screen_w` of pixel `(x, y)` in the buffer. -/
def pixelAt (view : View F) (x y : Int) : Int := x + y * view.screen_w

/-- The method `RendInfo::RenderFlatColumn`. -/
def RenderFlatColumn (m : MathLib F) (X : Ext F) (doc : Doc) (view : View F) (r : RendInfo F)
    (dw : DrawWall F) (surf : DrawSurf) (x y1 y2 : Int) : RendInfo F :=
  let img := surf.img.getD default
  let tw := img.width
  let th := img.height
  let ang := XToAngle m view x
  let modv := m.cos (ang - m.pi / 2)
  let t_cos := m.cos (m.pi + -view.angle + ang) / modv
  let t_sin := m.sin (m.pi + -view.angle + ang) / modv
  let light := (doc.sector (dw.sec.getD 0)).light
  { r with screen := forUpTo y1 y2 (fun y screen =>
      let dist := YToDist view y surf.tex_h
      let tx := Int.land (toInt (view.x - t_sin * dist)) (tw - 1)
      let ty := Int.land (toInt (-view.y + t_cos * dist)) (th - 1)
      let pix := img.buf (ty * tw + tx)
      Function.update screen (pixelAt view x y)
        (if view.lighting = true ∧ ¬ surf.fullbright = true then DoomLightRemap X light dist pix
         else pix)) r.screen }

/-- The method `RendInfo::RenderTexColumn`; the loop state is `(hh, screen)`. -/
def RenderTexColumn (m : MathLib F) (X : Ext F) (doc : Doc) (view : View F) (r : RendInfo F)
    (dw : DrawWall F) (surf : DrawSurf) (x y1 y2 : Int) : RendInfo F :=
  let img := surf.img.getD default
  let tw := img.width
  let th := img.height
  let light := dw.wall_light
  let dist : F := 1 / dw.cur_iz
  -- compute texture X coord
  let cur_ang := dw.delta_ang - XToAngle m view x
  let tx := toInt (dw.t_dist - m.tan cur_ang * dw.dist)
  let tx := Int.land ((doc.sideDef (dw.sd.getD 0)).x_offset + tx) (tw - 1)
  -- compute texture Y coords
  let hh : F := (surf.tex_h : F) - YToSecH view y1 dw.cur_iz
  let dh : F := (surf.tex_h : F) - YToSecH view y2 dw.cur_iz
  let dh := (dh - hh) / ((MAX 1 (y2 - y1) : Int) : F)
  let hh := hh + 2 / 10
  { r with screen := (forUpTo y1 y2 (fun y (s : F × (Int → Nat)) =>
      let ty := Int.tmod ⌊s.1⌋ th
      -- handle negative values (use % twice)
      let ty := Int.tmod (ty + th) th
      let pix := img.buf (tx + ty * tw)
      if pix = X.TRANS_PIXEL then (s.1 + dh, s.2)
      else
        (s.1 + dh, Function.update s.2 (pixelAt view x y)
          (if view.lighting = true ∧ ¬ surf.fullbright = true then
            DoomLightRemap X light dist pix
           else pix))) (hh, r.screen)).2 }

/-- The method `RendInfo::SolidFlatColumn`. -/
def SolidFlatColumn (X : Ext F) (doc : Doc) (view : View F) (r : RendInfo F)
    (dw : DrawWall F) (surf : DrawSurf) (x y1 y2 : Int) : RendInfo F :=
  let light := (doc.sector (dw.sec.getD 0)).light
  { r with screen := forUpTo y1 y2 (fun y screen =>
      let dist := YToDist view y surf.tex_h
      Function.update screen (pixelAt view x y)
        (if view.lighting = true ∧ ¬ surf.fullbright = true then
          DoomLightRemap X light dist surf.col
         else surf.col)) r.screen }

/-- The method `RendInfo::SolidTexColumn`. -/
def SolidTexColumn (X : Ext F) (view : View F) (r : RendInfo F)
    (dw : DrawWall F) (surf : DrawSurf) (x y1 y2 : Int) : RendInfo F :=
  let light := dw.wall_light
  let dist : F := 1 / dw.cur_iz
  { r with screen := forUpTo y1 y2 (fun y screen =>
      Function.update screen (pixelAt view x y)
        (if view.lighting = true ∧ ¬ surf.fullbright = true then
          DoomLightRemap X light dist surf.col
         else surf.col)) r.screen }

/-- The method `RendInfo::RenderWallSurface` for the entity at pointer `p`
and its surface `surf`. -/
def RenderWallSurface (m : MathLib F) (X : Ext F) (doc : Doc) (view : View F) (r : RendInfo F)
    (p : Nat) (surf : DrawSurf) (x : Int) (part : obj3d_type_e) : RendInfo F :=
  let dw := r.heap.getD p default
  if surf.kind = SurfKind.K_INVIS then r
  else
    let y1 := DistToY view dw.cur_iz surf.h2
    let y2 := DistToY view dw.cur_iz surf.h1 - 1
    -- clip to the open region
    let y1 := if y1 < r.open_y1 then r.open_y1 else y1
    let y2 := if y2 > r.open_y2 then r.open_y2 else y2
    -- update open region based on ends which are "solid"
    let open_y1 := if Int.land surf.y_clip SOLID_ABOVE ≠ 0 then MAX r.open_y1 (y2 + 1)
                   else r.open_y1
    let open_y2 := if Int.land surf.y_clip SOLID_BELOW ≠ 0 then MIN r.open_y2 (y1 - 1)
                   else r.open_y2
    let r := { r with open_y1 := open_y1, open_y2 := open_y2 }
    if y1 > y2 then r
    -- query mode : is mouse over this wall part?
    else if r.query_mode ≠ 0 then
      if y1 ≤ r.query_sy ∧ r.query_sy ≤ y2 then
        { r with query_wall := some p, query_part := part }
      else r
    -- fill pixels
    else
      match surf.img with
      | none =>
        if surf.kind = SurfKind.K_FLAT then SolidFlatColumn X doc view r dw surf x y1 y2
        else SolidTexColumn X view r dw surf x y1 y2
      | some _ =>
        match surf.kind with
        | SurfKind.K_FLAT => RenderFlatColumn m X doc view r dw surf x y1 y2
        | SurfKind.K_TEXTURE => RenderTexColumn m X doc view r dw surf x y1 y2
        | SurfKind.K_INVIS => r

/-- The pixel loop of `RendInfo::RenderSprite`; the loop state is `(hh, screen)`. -/
def spriteColumn (X : Ext F) (doc : Doc) (view : View F) (dw : DrawWall F)
    (x y1 y2 tx : Int) (screen : Int → Nat) : Int → Nat :=
  let img := dw.ceil.img.getD default
  let tw := img.width
  let th := img.height
  let scale := dw.normal
  let hh : F := (dw.ceil.h2 : F) - YToSecH view y1 dw.cur_iz
  let dh : F := (dw.ceil.h2 : F) - YToSecH view y2 dw.cur_iz
  let dh := (dh - hh) / ((MAX 1 (y2 - y1) : Int) : F)
  let thsec := view.thing_sectors.getD dw.th.toNat 0
  let light := if is_sector doc thsec then (doc.sector thsec.toNat).light else 255
  let dist : F := 1 / dw.cur_iz
  (forUpTo y1 y2 (fun y (s : F × (Int → Nat)) =>
    let ty := toInt (s.1 / scale)
    if ty < 0 ∨ ty ≥ th then (s.1 + dh, s.2)
    else
      let pix := img.buf (tx + ty * tw)
      if pix = X.TRANS_PIXEL then (s.1 + dh, s.2)
      else if Int.land dw.side X.THINGDEF_INVIS ≠ 0 then
        let old := s.2 (pixelAt view x y)
        (s.1 + dh, Function.update s.2 (pixelAt view x y)
          (if Nat.land old X.IS_RGB_PIXEL ≠ 0 then
            Nat.lor X.IS_RGB_PIXEL ((Nat.land old 0x7bde) >>> 1)
           else X.raw_colormap 14 old))
      else
        (s.1 + dh, Function.update s.2 (pixelAt view x y)
          (if view.lighting = true ∧ ¬ (Int.land dw.side X.THINGDEF_LIT ≠ 0) then
            DoomLightRemap X light dist pix
           else pix))) (hh, screen)).2

/-- The method `RendInfo::RenderSprite` for the entity at pointer `p`. -/
def RenderSprite (X : Ext F) (doc : Doc) (view : View F) (r : RendInfo F)
    (p : Nat) (x : Int) : RendInfo F :=
  let dw := r.heap.getD p default
  let y1 := DistToY view dw.cur_iz dw.ceil.h2
  let y2 := DistToY view dw.cur_iz dw.ceil.h1 - 1
  let y1 := if y1 < dw.oy1 then dw.oy1 else y1
  let y2 := if y2 > dw.oy2 then dw.oy2 else y2
  if y1 > y2 then r
  else if r.query_mode ≠ 0 then
    if y1 ≤ r.query_sy ∧ r.query_sy ≤ y2 then
      { r with query_wall := some p, query_part := obj3d_type_e.OB3D_Thing }
    else r
  else
    let tw := (dw.ceil.img.getD default).width
    let tx := toInt ((XToDelta view x dw.cur_iz - dw.spr_tx1) / dw.normal)
    if tx < 0 ∨ tx ≥ tw then r
    else { r with screen := spriteColumn X doc view dw x y1 y2 tx r.screen }

/-- The method `RendInfo::RenderMidMasker` for the entity at pointer `p`. -/
def RenderMidMasker (m : MathLib F) (X : Ext F) (doc : Doc) (view : View F) (r : RendInfo F)
    (p : Nat) (surf : DrawSurf) (x : Int) : RendInfo F :=
  let dw := r.heap.getD p default
  if surf.kind = SurfKind.K_INVIS then r
  else if surf.img.isNone then r
  else if r.query_mode ≠ 0 then r
  else
    let y1 := DistToY view dw.cur_iz surf.h2
    let y2 := DistToY view dw.cur_iz surf.h1 - 1
    let y1 := if y1 < dw.oy1 then dw.oy1 else y1
    let y2 := if y2 > dw.oy2 then dw.oy2 else y2
    if y1 > y2 then r
    else RenderTexColumn m X doc view r dw surf x y1 y2

end Painters

/-! ## Active-list compositor -/

section Compositor
variable {F : Type} [LinearOrderedField F] [FloorRing F]

/-- The constant `IZ_EPSILON`. -/
def IZ_EPSILON : F := 1 / 100000

/-- One round of the loop of `UpdateActiveList` that calculates the new depth
values: the entity at `p` gets its `cur_iz` for column `x`; the flag is raised
when it is not clearly behind its predecessor.  The state is the heap, the
flag `changes` and the previous pointer (`none` at the start, `P == S`). -/
def depthStep (x : Int) (s : Array (DrawWall F) × Bool × Option Nat) (p : Nat) :
    Array (DrawWall F) × Bool × Option Nat :=
  let heap := s.1.setD p { s.1.getD p default with cur_iz := izAt (s.1.getD p default) x }
  let changes :=
    match s.2.2 with
    | some q =>
      if (heap.getD q default).cur_iz < (heap.getD p default).cur_iz + IZ_EPSILON then true
      else s.2.1
    | none => s.2.1
  (heap, changes, some p)

/-- The loop of `UpdateActiveList` that calculates the new depth values of
the active entities. -/
def depthLoop (x : Int) (active : List Nat) (s : Array (DrawWall F) × Bool × Option Nat) :
    Array (DrawWall F) × Bool × Option Nat :=
  active.foldl (depthStep x) s

/-- The method `RendInfo::UpdateActiveList`.  On `walls`, sorted by `sx1`,
`std::lower_bound` and `std::upper_bound` give the ends of the run of entities
that start in column `x`. -/
def UpdateActiveList (X : Ext F) (doc : Doc) (view : View F) (r : RendInfo F) (x : Int) :
    RendInfo F :=
  -- remove walls that have finished.
  let kept := r.active.filter (fun p => ! decide ((r.heap.getD p default).sx2 < x))
  let changes := decide (kept.length ≠ r.active.length)
  -- add new walls that start in this column.
  let S := r.walls.dropWhile (fun p => decide ((r.heap.getD p default).sx1 < x))
  let added := S.takeWhile (fun p => ! decide (x < (r.heap.getD p default).sx1))
  let changes := changes || decide (added ≠ [])
  let active := kept ++ added
  -- calculate new depth values
  let res := depthLoop x active (r.heap, changes, none)
  -- if there are changes, re-sort the active list...
  if res.2.1 = true ∧ active.length > 0 then
    { r with heap := res.1, active := SortActiveList (IsCloser X doc view res.1) active }
  else
    { r with heap := res.1, active := active }

/-- The four opaque bands of one wall in the front-to-back pass. -/
def renderBands (m : MathLib F) (X : Ext F) (doc : Doc) (view : View F) (r : RendInfo F)
    (p : Nat) (x : Int) : RendInfo F :=
  let r := RenderWallSurface m X doc view r p (r.heap.getD p default).ceil x
            obj3d_type_e.OB3D_Ceil
  let r := RenderWallSurface m X doc view r p (r.heap.getD p default).floor x
            obj3d_type_e.OB3D_Floor
  let r := RenderWallSurface m X doc view r p (r.heap.getD p default).upper x
            obj3d_type_e.OB3D_Upper
  RenderWallSurface m X doc view r p (r.heap.getD p default).lower x obj3d_type_e.OB3D_Lower

/-- The front-to-back loop of `RenderWalls` over the rest of the active list
from position `k`; gives the position `P` where the loop stopped (the length
of the list when it ran to the end) and the state. -/
def frontToBack (m : MathLib F) (X : Ext F) (doc : Doc) (view : View F) (x : Int) :
    List Nat → Nat → RendInfo F → Nat × RendInfo F
  | [], k, r => (k, r)
  | p :: rest, k, r =>
    -- for things, just remember the open space
    let dw := r.heap.getD p default
    let r := { r with heap := r.heap.setD p { dw with oy1 := r.open_y1, oy2 := r.open_y2 } }
    if (r.heap.getD p default).th ≥ 0 then frontToBack m X doc view x rest (k + 1) r
    else
      let r := renderBands m X doc view r p x
      if r.open_y1 > r.open_y2 then (k, r)
      else frontToBack m X doc view x rest (k + 1) r

/-- The back-to-front loop of `RenderWalls` over the pointers from `*P` down
to the first: things, and mid-masked textures. -/
def backToFront (m : MathLib F) (X : Ext F) (doc : Doc) (view : View F) (x : Int) :
    List Nat → RendInfo F → RendInfo F
  | [], r => r
  | p :: rest, r =>
    let dw := r.heap.getD p default
    let r := if dw.th ≥ 0 then RenderSprite X doc view r p x
             else RenderMidMasker m X doc view r p dw.rail x
    backToFront m X doc view x rest r

/-- The body of the column loop of `RenderWalls`. -/
def renderColumn (m : MathLib F) (X : Ext F) (doc : Doc) (view : View F) (x : Int)
    (r : RendInfo F) : RendInfo F :=
  -- clear vertical depth buffer
  let r := { r with open_y1 := 0, open_y2 := view.screen_h - 1 }
  let r := UpdateActiveList X doc view r x
  -- in query mode, only care about a single column
  if r.query_mode ≠ 0 ∧ x ≠ r.query_sx then r
  else
    -- render, front to back
    let res := frontToBack m X doc view x r.active 0 r
    -- now render things, back to front
    let last := if res.1 = r.active.length then res.1 else res.1 + 1
    backToFront m X doc view x (r.active.take last).reverse res.2

/-- The method `RendInfo::RenderWalls`. -/
def RenderWalls (m : MathLib F) (X : Ext F) (doc : Doc) (view : View F) (r : RendInfo F) :
    RendInfo F :=
  -- sort walls by their starting column, to allow binary search.
  let r := { r with walls := stdSort (SX1Cmp r.heap) r.walls, active := [] }
  forRange 0 view.screen_w.toNat (renderColumn m X doc view) r

/-- The method `RendInfo::ClearScreen`: the `screen_w * screen_h` pixels of the
buffer become colour 0. -/
def ClearScreen (view : View F) (r : RendInfo F) : RendInfo F :=
  let total := view.screen_w * view.screen_h
  { r with screen := fun a => if 0 ≤ a ∧ a < total then 0 else r.screen a }

/-- The two loops of `RendInfo::Render` that build the entity list: `AddLine`
for every linedef, then `AddThing` for every thing when sprites are shown. -/
def addEntities (m : MathLib F) (X : Ext F) (doc : Doc) (view : View F) (r : RendInfo F) :
    RendInfo F :=
  let r := (List.range doc.LineDefs.size).foldl (AddLine m doc view) r
  if view.sprites then (List.range doc.Things.size).foldl (AddThing X doc view) r else r

/-- The method `RendInfo::Render`.  The calls `r_view.SaveOffsets()` and
`r_view.RestoreOffsets()` belong to the view and leave the renderer state
alone. -/
def Render (m : MathLib F) (X : Ext F) (doc : Doc) (view : View F) (r : RendInfo F) :
    RendInfo F :=
  let r := if r.query_mode = 0 then ClearScreen view r else r
  let r := InitDepthBuf r view.screen_w
  let r := addEntities m X doc view r
  let r := ClipSolids doc r
  let r := ComputeSurfaces X doc view r
  RenderWalls m X doc view r

/-- The method `RendInfo::Query`. -/
def Query (m : MathLib F) (X : Ext F) (doc : Doc) (view : View F) (r : RendInfo F)
    (qx qy : Int) : RendInfo F :=
  let r := { r with query_mode := 1, query_wall := none, query_sx := qx, query_sy := qy }
  let r := Render m X doc view r
  { r with query_mode := 0 }

/-- The part of `Obj3d_t` that `SW_QueryPoint` writes. -/
structure Obj3d_t where
  type : obj3d_type_e
  num : Int
  side : Int
deriving Repr, DecidableEq

/-- Modelled from the spec: `Obj3d_t::valid` is declared outside the available
sources; an object reference is valid when it names an object. -/
def Obj3d_t.valid (o : Obj3d_t) : Bool := decide (0 ≤ o.num)

/-- The loop `for (n = 0 ; n < count ; n++) if (ptr == Table[n]) num = n` of
`SW_QueryPoint`, a pointer being an index. -/
def findIndex (count : Nat) (ptr : Option Nat) (num : Int) : Int :=
  (List.range count).foldl (fun num n => if ptr = some n then (n : Int) else num) num

/-- The function `SW_QueryPoint` on the pixel buffer `screen`: the result and
the object written to `hl`. -/
def SW_QueryPoint (m : MathLib F) (X : Ext F) (doc : Doc) (view : View F)
    (screen : Int → Nat) (hl : Obj3d_t) (qx qy : Int) : Bool × Obj3d_t :=
  let qx := if ¬ X.render_high_detail = true then Int.tdiv qx 2 else qx
  let qy := if ¬ X.render_high_detail = true then Int.tdiv qy 2 else qy
  -- this runs the renderer, but *no* drawing is done
  let rend := Query m X doc view (RendInfo.new screen) qx qy
  match rend.query_wall with
  | none => (false, hl)
  | some p =>
    let dw := rend.heap.getD p default
    let hl := { hl with type := rend.query_part }
    let hl :=
      if hl.type = obj3d_type_e.OB3D_Thing then { hl with num := dw.th }
      else if hl.type = obj3d_type_e.OB3D_Floor ∨ hl.type = obj3d_type_e.OB3D_Ceil then
        { hl with num := findIndex doc.Sectors.size dw.sec hl.num }
      else
        { hl with side := dw.side, num := findIndex doc.LineDefs.size dw.ld hl.num }
    (hl.valid, hl)

end Compositor

/-! ## Scenes for the clipper and the renderer -/

/-- A map without linedefs and things. -/
def emptyDoc : Doc :=
  { Vertices := #[], LineDefs := #[], SideDefs := #[], Sectors := #[], Things := #[] }

/-- A sprite entity of `demoDoc` for thing `k` over the columns `sx1 .. sx2`. -/
def demoSprite (k : Int) (iz : ℚ) (sx1 sx2 : Int) : DrawWall ℚ :=
  { (DrawWall.new : DrawWall ℚ) with
    th := k, iz1 := iz, mid_iz := iz, diz := 0, sx1 := sx1, sx2 := sx2,
    ceil := { DrawSurf.new with img := some demoImg, h1 := 0, h2 := 56 } }

/-- A renderer state on `demoDoc` before clipping: the one-sided wall of
linedef 0 over columns 0 to 3 at inverse distance 1/10, and behind it, over
columns 1 to 2 at inverse distance 1/100, a sprite and the two-sided wall of
linedef 1. -/
def hiddenScene : RendInfo ℚ :=
  { (RendInfo.new (fun _ => 0) : RendInfo ℚ) with
    heap := #[{ demoWall 0 (1/10) with sx1 := 0, sx2 := 3 },
              demoSprite 0 (1/100) 1 2,
              { demoWall 1 (1/100) with sx1 := 1, sx2 := 2 }]
    walls := [0, 1, 2] }

/-- A renderer state on `demoDoc` before clipping: the one-sided wall of
linedef 0 over columns 0 to 3, sloping from inverse distance 7/100 at column 0
to 1/100 at column 3 (so its `mid_iz` is 3/100), and a sprite in column 0 at
inverse distance 1/20, which is behind the wall in that column. -/
def slopedScene : RendInfo ℚ :=
  { (RendInfo.new (fun _ => 0) : RendInfo ℚ) with
    heap := #[{ demoWall 0 (7/100) with
                iz2 := 1/100, diz := -(1/50), mid_iz := 3/100, sx1 := 0, sx2 := 3 },
              demoSprite 0 (1/20) 0 0]
    walls := [0, 1] }

/-! ## Predicates used in the statements about the renderer -/

/-- What the renderer relies on in a wall entity made by `AddLine`: it is
marked as a wall, its linedef exists, its upper surface is as constructed, it
faces right when the linedef has no left side, and it starts on the screen. -/
def WallBuilt {F : Type} (doc : Doc) (view : View F) (dw : DrawWall F) : Prop :=
  ∀ l, dw.ld = some l →
    dw.th = -1 ∧ l < doc.LineDefs.size ∧ dw.upper.kind = SurfKind.K_INVIS
    ∧ ((doc.lineDef l).Left = none → dw.side = SIDE_RIGHT)
    ∧ (0 ≤ view.screen_w → 0 ≤ dw.sx1)

/-- An entity as the column loop of `RenderWalls` may have left it: only the
per-column fields `cur_iz`, `oy1`, `oy2` differ from `E`. -/
def sameEntity {F : Type} (e E : DrawWall F) : Prop :=
  ∃ (c : F) (o1 o2 : Int), e = { E with cur_iz := c, oy1 := o1, oy2 := o2 }

/-- The entity list that `Query (qx, qy)` builds on a fresh `RendInfo`: the
state of `Render` after its `AddLine` and `AddThing` loops. -/
def queryEntities {F : Type} [LinearOrderedField F] [FloorRing F] (m : MathLib F) (X : Ext F)
    (doc : Doc) (view : View F) (screen : Int → Nat) (qx qy : Int) : RendInfo F :=
  addEntities m X doc view
    (InitDepthBuf { (RendInfo.new screen : RendInfo F) with
        query_mode := 1, query_wall := none, query_sx := qx, query_sy := qy } view.screen_w)

/-- A map with one room wall: the one-sided linedef from `(100, 100)` to
`(100, -100)` of a sector with floor 0 and ceiling 128. -/
def wallDoc : Doc :=
  { Vertices := #[⟨100, 100⟩, ⟨100, -100⟩]
    LineDefs := #[⟨0, 1, 0, -1, 0⟩]
    SideDefs := #[⟨0, 0, 0, 3, 0, 0⟩]
    Sectors := #[⟨0, 128, 2, 2, 160⟩]
    Things := #[] }

/-- A camera at the origin, at height 64, looking east at the wall of
`wallDoc` from distance 100, on a screen of 8 columns and 200 rows. -/
def wallView {F : Type} [LinearOrderedField F] : View F :=
  { x := 0, y := 0, z := 64, angle := 0, Sin := 0, Cos := 1,
    screen_w := 8, screen_h := 200, aspect_sw := 4, aspect_sh := 100,
    texturing := true, lighting := false, sprites := true,
    thing_sectors := #[], hl_thing := none }

/-- The opening `(f_h, c_h)` of a two-sided line: the higher floor and the lower
ceiling of the sector of the entity and the sector `b` across the line. -/
def railOpening {F : Type} (doc : Doc) (dw : DrawWall F) (b : Nat) : Int × Int :=
  (MAX (doc.sector (dw.sec.getD 0)).floorh (doc.sector b).floorh,
   MIN (doc.sector (dw.sec.getD 0)).ceilh (doc.sector b).ceilh)

/-- The extent `(h1, h2)` at which `ComputeWallSurface` places the rail image
`img` before clipping: it sits on the floor of the opening for a lower-unpegged
line and hangs from its ceiling otherwise, moved by the sidedef's `y_offset`. -/
def railPlaced {F : Type} (X : Ext F) (doc : Doc) (dw : DrawWall F) (b : Nat) (img : Img) :
    Int × Int :=
  if Int.land (doc.lineDef (dw.ld.getD 0)).flags X.MLF_LowerUnpegged ≠ 0 then
    ((railOpening doc dw b).1 + (doc.sideDef (dw.sd.getD 0)).y_offset,
     (railOpening doc dw b).1 + (doc.sideDef (dw.sd.getD 0)).y_offset + img.height)
  else
    ((railOpening doc dw b).2 + (doc.sideDef (dw.sd.getD 0)).y_offset - img.height,
     (railOpening doc dw b).2 + (doc.sideDef (dw.sd.getD 0)).y_offset)

/-- A map with two two-sided lines that carry a mid-masked texture.  Linedef 0
lies between sector 0 (floor 0, ceiling 128) and sector 1 (floor 0, ceiling 64),
its front sidedef has `y_offset` 200.  Linedef 1 lies between the sky sectors 2
(floor 0) and 3 (floor 64), with `y_offset` 0. -/
def railDoc : Doc :=
  { Vertices := #[⟨0, 0⟩, ⟨0, 128⟩, ⟨128, 128⟩]
    LineDefs := #[⟨0, 1, 0, 1, 0⟩, ⟨1, 2, 2, 3, 0⟩]
    SideDefs := #[⟨0, 200, 3, 3, 3, 0⟩, ⟨0, 0, 3, 0, 3, 1⟩, ⟨0, 0, 3, 3, 3, 2⟩, ⟨0, 0, 3, 0, 3, 3⟩]
    Sectors := #[⟨0, 128, 2, 2, 160⟩, ⟨0, 64, 2, 2, 160⟩, ⟨0, 128, 2, 1, 160⟩,
                 ⟨64, 128, 2, 1, 160⟩]
    Things := #[] }

/-- The freshly made wall entity of `railDoc` for linedef `n`, seen from its
right side. -/
def railWall (n : Nat) : DrawWall ℚ :=
  { (DrawWall.new : DrawWall ℚ) with
    th := -1, ld := some n,
    sd := ((railDoc.lineDef n).Right),
    sec := ((railDoc.lineDef n).Right).map (fun i => (railDoc.sideDef i).sector.toNat),
    side := SIDE_RIGHT }

/-- The calls `UpdateActiveList(0)`, `UpdateActiveList(1)`, ...,
`UpdateActiveList(n - 1)` in this order. -/
def updateColumns {F : Type} [LinearOrderedField F] [FloorRing F] (X : Ext F) (doc : Doc)
    (view : View F) (r : RendInfo F) (n : Nat) : RendInfo F :=
  forRange 0 n (fun x r => UpdateActiveList X doc view r x) r

/-- The pointers of the entity list `walls` whose span `sx1 .. sx2` holds the
column `x`. -/
def spanning {F : Type} [LinearOrderedField F] (r : RendInfo F) (x : Int) : List Nat :=
  r.walls.filter (fun p =>
    decide ((r.heap.getD p default).sx1 ≤ x ∧ x ≤ (r.heap.getD p default).sx2))

/-- Collaborators like `demoExt`, but with an asset lookup that resolves no
name and with the preferences `render_missing_bright` and
`render_unknown_bright` switched off. -/
def dimExt : Ext ℚ :=
  { (demoExt : Ext ℚ) with
    W_GetFlat := fun _ => none
    W_GetTexture := fun _ => none
    render_missing_bright := false
    render_unknown_bright := false }

/-- The camera of the demo scene lifted to height 200, above every ceiling of
`demoDoc`. -/
def highView : View ℚ :=
  { x := 64, y := 64, z := 200, angle := 0, Sin := 0, Cos := 1,
    screen_w := 8, screen_h := 6, aspect_sw := 4, aspect_sh := 4,
    texturing := true, lighting := false, sprites := true,
    thing_sectors := #[0, 0], hl_thing := none }

/-! ## Utilities of `lib_util.cc` -/

/-- The loop `for (int tmp = x >> 1 ; tmp ; tmp >>= 1) x |= tmp` of `RoundPOW2`
from the state `(x, tmp)`.  A negative `tmp` stays negative under `>>`, so the
loop would never end: `none`. -/
def RoundPOW2_loop (x tmp : Int) : Option Int :=
  if tmp = 0 then some x
  else if _h : tmp < 0 then none
  else RoundPOW2_loop (Int.lor x tmp) (tmp >>> 1)
termination_by tmp.toNat
decreasing_by
  have h1 : tmp = ((tmp.toNat : Nat) : Int) := (Int.toNat_of_nonneg (by omega)).symm
  have h2 : tmp >>> (1 : Int) = ((tmp.toNat / 2 : Nat) : Int) := by
    rw [h1]
    have h3 := Int.shiftRight_coe_nat tmp.toNat 1
    rw [Nat.shiftRight_eq_div_pow] at h3
    simpa using h3
  rw [h2]
  have h4 : 0 < tmp.toNat := by omega
  simp only [Int.toNat_ofNat]
  omega

/-- The function `RoundPOW2` of `lib_util.cc` ("rounds the value up to the
nearest power of two").  The `int` values are taken without wrap-around. -/
def RoundPOW2 (x : Int) : Option Int :=
  if x ≤ 2 then some x
  else (RoundPOW2_loop (x - 1) ((x - 1) >>> 1)).map (fun r => r + 1)

/-- The function `tolower` of `<ctype.h>` in the "C" locale, on the value of an
`unsigned char`: the upper-case ASCII letters move to lower case. -/
def tolower (c : Nat) : Nat := if 65 ≤ c ∧ c ≤ 90 then c + 32 else c

/-- The character `*s` of a NUL-terminated string, held as the list of its
characters (values of `unsigned char`) before the terminator: NUL at the end. -/
def deref (s : List Nat) : Nat := s.headD 0

/-- The function `strcmp` of `<string.h>`: the difference of the first two
characters that differ, as `unsigned char`, and 0 for equal strings. -/
def strcmp : List Nat → List Nat → Int
  | [], [] => 0
  | [], c2 :: _ => 0 - (c2 : Int)
  | c1 :: _, [] => (c1 : Int) - 0
  | c1 :: t1, c2 :: t2 => if c1 ≠ c2 then (c1 : Int) - (c2 : Int) else strcmp t1 t2

/-- The function `y_stricmp` of `lib_util.cc` ("a case-insensitive strcmp()"). -/
def y_stricmp (s1 s2 : List Nat) : Int :=
  if tolower (deref s1) ≠ tolower (deref s2) then (deref s1 : Int) - (deref s2 : Int)
  else if _h : deref s1 ≠ 0 ∧ deref s2 ≠ 0 then y_stricmp s1.tail s2.tail
  -- both *s1 and *s2 must be zero
  else 0
termination_by s1.length
decreasing_by
  cases s1 with
  | nil => exact absurd rfl _h.1
  | cons c t => simp

/-! ## The error dialog of `ui_dialog.cc` -/

/-- Modelled from the spec: the class `SString` is declared outside the
available sources; its `find` is the `find` of `std::string`, the position of
the first occurrence of `pat` in `s` (`npos` is `none`). -/
def SString_find (pat : List Char) : List Char → Option Nat
  | [] => if pat = [] then some 0 else none
  | c :: s =>
    if pat.isPrefixOf (c :: s) then some 0
    else (SString_find pat s).map (fun n => n + 1)

/-- The function `ParseHyperLink` of `ui_dialog.cc` on the three strings it is
given by reference; `erase (pos, npos)` is `take pos` and `erase (0, n)` is
`drop n`. -/
def ParseHyperLink (message url linkTitle : List Char) :
    List Char × List Char × List Char :=
  let text := message
  match SString_find ['<', ' ', 'a'] text with
  | none => (message, url, linkTitle)
  | some pos =>
    -- terminate the rest of the message here
    let message := text.take pos ++ [Char.ofNat 10]
    let url := text.drop (pos + 3)
    match SString_find ['>'] url with
    | none => (message, url, linkTitle)   -- malformed : oh well
    | some pos =>
      let linkTitle := url.drop (pos + 1)
      -- terminate the URL here
      let url := url.take pos
      match SString_find ['<'] linkTitle with
      | some pos => (message, url, linkTitle.take pos)
      | none => (message, url, linkTitle)

/-- The list `act` comes from `act0` by moving elements inside the positions
`lo .. hi` only: it is a rearrangement of `act0`, every position outside
`lo .. hi` holds what it held, and whatever holds of all the elements of `act0`
at `lo .. hi` holds of all the elements of `act` there. -/
def RangeKeeps (act0 act : List Nat) (lo hi : Int) : Prop :=
  act.Perm act0
  ∧ (∀ j, 0 ≤ j → (j < lo ∨ hi < j) → getAt act j = getAt act0 j)
  ∧ (∀ Q : Nat → Prop, (∀ i, lo ≤ i → i ≤ hi → Q (getAt act0 i)) →
      ∀ i, lo ≤ i → i ≤ hi → Q (getAt act i))

/-- A wall and a sprite of the demo scene with their depth for the current
column: the wall of linedef 2 at inverse distance 1/100 and, nearer, the sprite
of thing 0 at 1/64. -/
def mixedHeap : Array (DrawWall ℚ) :=
  #[demoWall 2 (1/100), { demoSprite 0 (1/64) 1 2 with cur_iz := 1/64 }]

/-! ## The rows of a column

The row ranges at which the painters of one column are called, in the order
of the calls, and the bands that close the open region. -/

section Rows
variable {F : Type} [LinearOrderedField F] [FloorRing F]

/-- A call that gets to its row range: the entity, the part of it, and the
rows `y1 .. y2`. -/
structure RowCall where
  wall : Nat
  part : obj3d_type_e
  y1 : Int
  y2 : Int
deriving Repr, DecidableEq

/-- The locals `y1`, `y2` of `RendInfo::RenderWallSurface` after the clip to
the open region. -/
def bandRows (view : View F) (r : RendInfo F) (p : Nat) (surf : DrawSurf) : Int × Int :=
  let dw := r.heap.getD p default
  let y1 := DistToY view dw.cur_iz surf.h2
  let y2 := DistToY view dw.cur_iz surf.h1 - 1
  (if y1 < r.open_y1 then r.open_y1 else y1, if y2 > r.open_y2 then r.open_y2 else y2)

/-- The locals `y1`, `y2` of `RendInfo::RenderSprite` and of
`RendInfo::RenderMidMasker` after the clip to the region `oy1 .. oy2` that the
entity remembers. -/
def maskedRows (view : View F) (dw : DrawWall F) (surf : DrawSurf) : Int × Int :=
  let y1 := DistToY view dw.cur_iz surf.h2
  let y2 := DistToY view dw.cur_iz surf.h1 - 1
  (if y1 < dw.oy1 then dw.oy1 else y1, if y2 > dw.oy2 then dw.oy2 else y2)

/-- The row range of one call of `RenderWallSurface`, painted in a normal
render and tested against the query row in query mode: nothing for an
invisible surface or an empty range. -/
def surfaceCalls (view : View F) (r : RendInfo F) (p : Nat) (surf : DrawSurf)
    (part : obj3d_type_e) : List RowCall :=
  if surf.kind = SurfKind.K_INVIS then []
  else if (bandRows view r p surf).1 > (bandRows view r p surf).2 then []
  else [⟨p, part, (bandRows view r p surf).1, (bandRows view r p surf).2⟩]

/-- The row ranges of the four calls of `RenderWallSurface` for one wall, in
the order of the calls. -/
def bandsCalls (m : MathLib F) (X : Ext F) (doc : Doc) (view : View F) (r : RendInfo F)
    (p : Nat) (x : Int) : List RowCall :=
  let c1 := surfaceCalls view r p (r.heap.getD p default).ceil obj3d_type_e.OB3D_Ceil
  let r := RenderWallSurface m X doc view r p (r.heap.getD p default).ceil x
            obj3d_type_e.OB3D_Ceil
  let c2 := surfaceCalls view r p (r.heap.getD p default).floor obj3d_type_e.OB3D_Floor
  let r := RenderWallSurface m X doc view r p (r.heap.getD p default).floor x
            obj3d_type_e.OB3D_Floor
  let c3 := surfaceCalls view r p (r.heap.getD p default).upper obj3d_type_e.OB3D_Upper
  let r := RenderWallSurface m X doc view r p (r.heap.getD p default).upper x
            obj3d_type_e.OB3D_Upper
  let c4 := surfaceCalls view r p (r.heap.getD p default).lower obj3d_type_e.OB3D_Lower
  c1 ++ (c2 ++ (c3 ++ c4))

/-- The statements `dw->oy1 = open_y1; dw->oy2 = open_y2` of the front-to-back
loop of `RenderWalls` for the entity at pointer `p`. -/
def rememberOpen (r : RendInfo F) (p : Nat) : RendInfo F :=
  let dw := r.heap.getD p default
  { r with heap := r.heap.setD p { dw with oy1 := r.open_y1, oy2 := r.open_y2 } }

/-- The row ranges of the calls of `RenderWallSurface` in the front-to-back
loop of `RenderWalls` over the list of pointers, in the order of the calls. -/
def frontCalls (m : MathLib F) (X : Ext F) (doc : Doc) (view : View F) (x : Int) :
    List Nat → RendInfo F → List RowCall
  | [], _ => []
  | p :: rest, r =>
    let dw := r.heap.getD p default
    let r := { r with heap := r.heap.setD p { dw with oy1 := r.open_y1, oy2 := r.open_y2 } }
    if (r.heap.getD p default).th ≥ 0 then frontCalls m X doc view x rest r
    else
      let c := bandsCalls m X doc view r p x
      let r := renderBands m X doc view r p x
      if r.open_y1 > r.open_y2 then c
      else c ++ frontCalls m X doc view x rest r

/-- The row range of one call of `RenderSprite`: nothing for an empty range. -/
def spriteCalls (view : View F) (r : RendInfo F) (p : Nat) : List RowCall :=
  let dw := r.heap.getD p default
  if (maskedRows view dw dw.ceil).1 > (maskedRows view dw dw.ceil).2 then []
  else [⟨p, obj3d_type_e.OB3D_Thing, (maskedRows view dw dw.ceil).1,
         (maskedRows view dw dw.ceil).2⟩]

/-- The row range of one call of `RenderMidMasker`: nothing for an invisible
surface, a surface without image, in query mode, or for an empty range. -/
def railCalls (view : View F) (r : RendInfo F) (p : Nat) (surf : DrawSurf) : List RowCall :=
  let dw := r.heap.getD p default
  if surf.kind = SurfKind.K_INVIS then []
  else if surf.img.isNone then []
  else if r.query_mode ≠ 0 then []
  else if (maskedRows view dw surf).1 > (maskedRows view dw surf).2 then []
  else [⟨p, obj3d_type_e.OB3D_Rail, (maskedRows view dw surf).1, (maskedRows view dw surf).2⟩]

/-- The row ranges of the calls of `RenderSprite` and `RenderMidMasker` in the
back-to-front loop of `RenderWalls` over the list of pointers, in the order of
the calls. -/
def backCalls (m : MathLib F) (X : Ext F) (doc : Doc) (view : View F) (x : Int) :
    List Nat → RendInfo F → List RowCall
  | [], _ => []
  | p :: rest, r =>
    let dw := r.heap.getD p default
    let c := if dw.th ≥ 0 then spriteCalls view r p else railCalls view r p dw.rail
    let r := if dw.th ≥ 0 then RenderSprite X doc view r p x
             else RenderMidMasker m X doc view r p dw.rail x
    c ++ backCalls m X doc view x rest r

/-- The row ranges of all the painter calls of one column of `RenderWalls`,
for the state `r` that `UpdateActiveList` has left: the front-to-back loop,
then the back-to-front loop from the position where the first loop stopped. -/
def columnCalls (m : MathLib F) (X : Ext F) (doc : Doc) (view : View F) (x : Int)
    (r : RendInfo F) : List RowCall :=
  let res := frontToBack m X doc view x r.active 0 r
  let last := if res.1 = r.active.length then res.1 else res.1 + 1
  frontCalls m X doc view x r.active r
    ++ backCalls m X doc view x (r.active.take last).reverse res.2

/-- The candidates of a query in front-to-back order of the list of pointers,
up to the entity where the front-to-back loop stops: for a sprite the row range
of its billboard in the open region that the loop remembers for it, for a wall
the row ranges of its four bands. -/
def queryCandidates (m : MathLib F) (X : Ext F) (doc : Doc) (view : View F) (x : Int) :
    List Nat → RendInfo F → List RowCall
  | [], _ => []
  | p :: rest, r =>
    let dw := r.heap.getD p default
    let r := { r with heap := r.heap.setD p { dw with oy1 := r.open_y1, oy2 := r.open_y2 } }
    if (r.heap.getD p default).th ≥ 0 then
      spriteCalls view r p ++ queryCandidates m X doc view x rest r
    else
      let c := bandsCalls m X doc view r p x
      let r := renderBands m X doc view r p x
      if r.open_y1 > r.open_y2 then c
      else c ++ queryCandidates m X doc view x rest r

/-- The row range of the call holds the row `y`. -/
def RowCall.holds (e : RowCall) (y : Int) : Bool := decide (e.y1 ≤ y ∧ y ≤ e.y2)

/-- The address `a` is a pixel of column `x` in the rows of one of the calls
`L`. -/
def Covers (view : View F) (x : Int) (L : List RowCall) (a : Int) : Prop :=
  ∃ e ∈ L, ∃ y, e.y1 ≤ y ∧ y ≤ e.y2 ∧ a = pixelAt view x y

/-- A surface that closes the open region where it is drawn: it is invisible,
or its `y_clip` has one of the flags `SOLID_ABOVE` and `SOLID_BELOW`. -/
def Solid (surf : DrawSurf) : Prop :=
  surf.kind = SurfKind.K_INVIS ∨ Int.land surf.y_clip SOLID_ABOVE ≠ 0
    ∨ Int.land surf.y_clip SOLID_BELOW ≠ 0

/-- An entity whose four bands close the open region where they are drawn. -/
def Banded (dw : DrawWall F) : Prop :=
  Solid dw.ceil ∧ Solid dw.floor ∧ Solid dw.upper ∧ Solid dw.lower

/-- A state whose pointers are good: every pointer of `walls` names an entity,
no pointer comes twice, and the bands of every entity have solid ends. -/
def Tidy (r : RendInfo F) : Prop :=
  (∀ p ∈ r.walls, p < r.heap.size) ∧ r.walls.Nodup ∧ ∀ j, Banded (r.heap.getD j default)

/-- The calls `L` were made while the open region went from `a .. b` to
`a2 .. b2`: the region did not grow, and every call lies in the region of the
start with a range that is not empty. -/
def Within (a b a2 b2 : Int) (L : List RowCall) : Prop :=
  a ≤ a2 ∧ b2 ≤ b ∧ ∀ e ∈ L, a ≤ e.y1 ∧ e.y1 ≤ e.y2 ∧ e.y2 ≤ b

/-- The calls `L` were made while the open region went from `a .. b` to
`a2 .. b2` and each of them closed its rows: as `Within`, and no call meets the
region of the end, and no two calls meet. -/
def Sweep (a b a2 b2 : Int) (L : List RowCall) : Prop :=
  Within a b a2 b2 L
  ∧ (∀ e ∈ L, e.y2 < a2 ∨ b2 < e.y1)
  ∧ L.Pairwise (fun e f => e.y2 < f.y1 ∨ f.y2 < e.y1)

/-- The entity and part that a query for row `y` reports from the candidates
`L` in their order: the first candidate whose rows hold `y`, and the given
record when there is none. -/
def firstHit (L : List RowCall) (y : Int) (w : Option Nat) (pt : obj3d_type_e) :
    Option Nat × obj3d_type_e :=
  match L.find? (fun e => e.holds y) with
  | some e => (some e.wall, e.part)
  | none => (w, pt)

/-- The pointers that the front-to-back loop of `RenderWalls` visits: the list
up to and with the wall at which the open region closes. -/
def visitedOf (m : MathLib F) (X : Ext F) (doc : Doc) (view : View F) (x : Int) :
    List Nat → RendInfo F → List Nat
  | [], _ => []
  | p :: rest, r =>
    let dw := r.heap.getD p default
    let r := { r with heap := r.heap.setD p { dw with oy1 := r.open_y1, oy2 := r.open_y2 } }
    if (r.heap.getD p default).th ≥ 0 then p :: visitedOf m X doc view x rest r
    else
      let r := renderBands m X doc view r p x
      if r.open_y1 > r.open_y2 then [p]
      else p :: visitedOf m X doc view x rest r

/-- The body of the column loop of `RenderWalls` after the call of
`UpdateActiveList`. -/
def columnPasses (m : MathLib F) (X : Ext F) (doc : Doc) (view : View F) (x : Int)
    (r : RendInfo F) : RendInfo F :=
  if r.query_mode ≠ 0 ∧ x ≠ r.query_sx then r
  else
    let res := frontToBack m X doc view x r.active 0 r
    let last := if res.1 = r.active.length then res.1 else res.1 + 1
    backToFront m X doc view x (r.active.take last).reverse res.2

/-- The state in which `Render` calls `RenderWalls`. -/
def renderPrepared (m : MathLib F) (X : Ext F) (doc : Doc) (view : View F) (r : RendInfo F) :
    RendInfo F :=
  ComputeSurfaces X doc view (ClipSolids doc (addEntities m X doc view
    (InitDepthBuf (if r.query_mode = 0 then ClearScreen view r else r) view.screen_w)))

/-- The state of `RenderWalls` in column `x` after the call `UpdateActiveList(x)`,
the columns before `x` being done. -/
def columnStart (m : MathLib F) (X : Ext F) (doc : Doc) (view : View F) (r : RendInfo F)
    (x : Nat) : RendInfo F :=
  UpdateActiveList X doc view
    { forRange 0 x (renderColumn m X doc view)
        { r with walls := stdSort (SX1Cmp r.heap) r.walls, active := [] } with
      open_y1 := 0, open_y2 := view.screen_h - 1 } x

/-- The state of `Render` in column `x` of `RenderWalls`, after the call
`UpdateActiveList(x)`. -/
def renderColumnState (m : MathLib F) (X : Ext F) (doc : Doc) (view : View F) (r : RendInfo F)
    (x : Nat) : RendInfo F :=
  columnStart m X doc view (renderPrepared m X doc view r) x

/-- What the column loop of `RenderWalls` keeps, for the state `W` with which
it starts and the state `s` before column `x`: the list of entities, the
entities but for their per-column fields, the query request, and an active
list without repetition whose entities are of the list and start before `x`. -/
def ColumnInv (W : RendInfo F) (x : Int) (s : RendInfo F) : Prop :=
  s.walls = W.walls ∧ s.heap.size = W.heap.size
  ∧ (∀ j, sameEntity (s.heap.getD j default) (W.heap.getD j default))
  ∧ s.active.Nodup
  ∧ (∀ p ∈ s.active, p ∈ W.walls ∧ (W.heap.getD p default).sx1 < x)
  ∧ s.query_mode = W.query_mode ∧ s.query_sx = W.query_sx ∧ s.query_sy = W.query_sy

end Rows

/-! # Properties -/


/-! ## The comparator `IsCloser` -/

section ComparatorFacts
variable {F : Type} [LinearOrderedField F] [FloorRing F]

/-- Claim C1: `IsCloser` is irreflexive: whatever the entity at `a` is (wall or
sprite, any field values), comparing it with itself gives `false`. -/
theorem IsCloser_irrefl (X : Ext F) (doc : Doc) (view : View F) (heap : Array (DrawWall F))
    (a : Nat) : IsCloser X doc view heap a a = false := by
  simp [IsCloser]

/-- Claim C2: two distinct wall entities `a`, `b` whose linedefs share the vertex
`v`, `o` being the other endpoint of the linedef of `a` (not on the linedef of
`b`): when `o` and the camera are on the same side of (or on) the line through
the linedef of `b`, `a` is closer than `b`, whatever `cur_iz` says. -/
theorem IsCloser_shared_vertex (X : Ext F) (doc : Doc) (view : View F)
    (heap : Array (DrawWall F)) (a b la lb : Nat) (v o : Int)
    (hab : a ≠ b)
    (hA : (heap.getD a default).ld = some la) (hB : (heap.getD b default).ld = some lb)
    (hends : ((doc.lineDef la).start = v ∧ (doc.lineDef la).end_ = o)
              ∨ ((doc.lineDef la).end_ = v ∧ (doc.lineDef la).start = o))
    (hshare : (doc.lineDef lb).TouchesVertex v = true)
    (hother : (doc.lineDef lb).TouchesVertex o = false)
    (hvalid : 0 ≤ o)
    (hside : X.PointOnLineSide (doc.vertex o).x (doc.vertex o).y
                ((doc.lineDef lb).Start doc).x ((doc.lineDef lb).Start doc).y
                ((doc.lineDef lb).End doc).x ((doc.lineDef lb).End doc).y
              * X.PointOnLineSide (toInt view.x) (toInt view.y)
                ((doc.lineDef lb).Start doc).x ((doc.lineDef lb).Start doc).y
                ((doc.lineDef lb).End doc).x ((doc.lineDef lb).End doc).y ≥ 0) :
    IsCloser X doc view heap a b = true := by
  unfold IsCloser
  simp only [hab, if_false, hA, hB]
  rcases hends with ⟨hs, he⟩ | ⟨he, hs⟩
  · subst hs he
    simp only [hshare, if_true, ge_iff_le, hvalid]
    simpa using hside
  · subst hs he
    simp only [hother, hshare, Bool.false_eq_true, if_false, if_true, ge_iff_le, hvalid]
    simpa using hside

/-- Witness for C2: in the demo scene the walls of linedefs 0 and 1 share
vertex 1, and vertex 0 lies with the camera on the same side of linedef 1. -/
theorem IsCloser_shared_vertex_witness : IsCloser demoExt demoDoc demoView demoHeap 0 1 = true :=
  IsCloser_shared_vertex demoExt demoDoc demoView demoHeap 0 1 0 1 1 0
    (by decide) (by rfl) (by rfl) (by decide) (by decide) (by decide) (by decide)
    (by simp [demoExt, demoDoc, demoView, Doc.vertex, Doc.lineDef, LineDef.Start, LineDef.End,
          PointOnLineSide_model, toInt])

end ComparatorFacts

/-! ## The surface resolver `ComputeWallSurface` -/

section ResolverFacts
variable {F : Type} [LinearOrderedField F]

/-- Claim C9: a two-sided wall whose back sector has the ceiling height of the
front sector gets no upper surface: its kind stays `K_INVIS`. -/
theorem upper_invis_of_equal_ceilings (X : Ext F) (doc : Doc) (view : View F) (dw : DrawWall F)
    (b : Nat) (hback : backSector doc dw = some b)
    (hceil : (doc.sector b).ceilh = (doc.sector (dw.sec.getD 0)).ceilh)
    (hnew : dw.upper.kind = SurfKind.K_INVIS) :
    (ComputeWallSurface X doc view dw).upper.kind = SurfKind.K_INVIS := by
  unfold ComputeWallSurface
  simp only [hback, upperSurf, hceil, lt_self_iff_false, false_and, if_false, hnew]

/-- Witness for C9: the two-sided linedef 1 of the demo scene. -/
theorem upper_invis_of_equal_ceilings_witness :
    (ComputeWallSurface demoExt demoDoc demoView (demoWall 1 (1/64))).upper.kind
      = SurfKind.K_INVIS :=
  upper_invis_of_equal_ceilings demoExt demoDoc demoView (demoWall 1 (1/64)) 1
    (by rfl) (by decide) (by rfl)

/-- Claim C10: a two-sided wall whose front and back sectors both have a sky
ceiling gets neither an upper surface nor a ceiling surface, for all ceiling
heights and every camera height. -/
theorem sky_over_sky_no_upper_no_ceil (X : Ext F) (doc : Doc) (view : View F) (dw : DrawWall F)
    (b : Nat) (hback : backSector doc dw = some b)
    (hfront : X.is_sky ((doc.sector (dw.sec.getD 0)).CeilTex X) = true)
    (hsky : X.is_sky ((doc.sector b).CeilTex X) = true)
    (hnewu : dw.upper.kind = SurfKind.K_INVIS) (hnewc : dw.ceil.kind = SurfKind.K_INVIS) :
    (ComputeWallSurface X doc view dw).upper.kind = SurfKind.K_INVIS
    ∧ (ComputeWallSurface X doc view dw).ceil.kind = SurfKind.K_INVIS := by
  have hsu : skyUpper X doc dw = true := by
    simp [skyUpper, hback, hfront, hsky]
  unfold ComputeWallSurface
  simp only [hback, upperSurf, ceilSurf, hsu, not_true_eq_false, false_and, and_false, if_false,
    hnewu, hnewc, and_self]

/-- Witness for C10: linedef 1 of the demo scene separates two sky sectors. -/
theorem sky_over_sky_no_upper_no_ceil_witness :
    (ComputeWallSurface demoExt demoDoc demoView (demoWall 1 (1/64))).upper.kind
      = SurfKind.K_INVIS
    ∧ (ComputeWallSurface demoExt demoDoc demoView (demoWall 1 (1/64))).ceil.kind
      = SurfKind.K_INVIS :=
  sky_over_sky_no_upper_no_ceil demoExt demoDoc demoView (demoWall 1 (1/64)) 1
    (by rfl) (by decide) (by decide) (by rfl) (by rfl)

end ResolverFacts

/-! ## The entity builder: `AddLine`, `AddThing` -/

section BuilderFacts
variable {F : Type} [LinearOrderedField F] [FloorRing F]

theorem getD_push_size {α : Type} (a : Array α) (x d : α) : (a.push x).getD a.size d = x := by
  simp [Array.getD]

theorem getD_push_lt {α : Type} (a : Array α) (x d : α) (i : Nat) (h : i < a.size) :
    (a.push x).getD i d = a.getD i d := by
  simp [Array.getD, h, Nat.lt_succ_of_lt h, Array.getElem_push_lt]

theorem toInt_intCast {F : Type} [LinearOrderedField F] [FloorRing F] (z : Int) :
    toInt (z : F) = z := by
  unfold toInt
  split_ifs <;> simp

theorem AngleToX_bounds (m : MathLib F) (view : View F) (ang : F) (hw : 0 ≤ view.screen_w) :
    0 ≤ AngleToX m view ang ∧ AngleToX m view ang ≤ view.screen_w := by
  unfold AngleToX
  simp only []
  split_ifs <;> constructor <;> omega

/-- What `AddLine` stores in the entity it creates: the span comes from
`AngleToX`, is not empty, and `diz` is the depth difference over
`MAX(1, sx2 - sx1)` columns. -/
theorem AddLine_wall_some (m : MathLib F) (doc : Doc) (view : View F) (r : RendInfo F)
    (i : Nat) (dw : DrawWall F) (h : AddLine_wall m doc view r i = some dw) :
    (∃ a1 a2 : F, dw.sx1 = AngleToX m view a1 ∧ dw.sx2 = AngleToX m view a2 - 1)
    ∧ dw.sx1 ≤ dw.sx2
    ∧ dw.diz = (dw.iz2 - dw.iz1) / ((MAX 1 (dw.sx2 - dw.sx1) : Int) : F)
    ∧ dw.th = -1 ∧ dw.ld = some i := by
  unfold AddLine_wall at h
  split at h
  · exact absurd h (by simp)
  · split at h
    · exact absurd h (by simp)
    · simp only [] at h
      split_ifs at h with h1 h2 h3
      simp only [Option.some.injEq] at h
      subst h
      exact ⟨⟨_, _, rfl, rfl⟩, by simpa using h1, rfl, rfl, rfl⟩

/-- What `AddThing` stores in the entity it creates. -/
theorem AddThing_wall_some (X : Ext F) (doc : Doc) (view : View F) (r : RendInfo F)
    (k : Nat) (dw : DrawWall F) (h : AddThing_wall X doc view r k = some dw) :
    0 ≤ dw.sx1 ∧ dw.sx1 ≤ dw.sx2 ∧ dw.sx2 ≤ view.screen_w - 1 ∧ dw.th = k ∧ dw.ld = none
    ∧ dw.diz = 0 := by
  unfold AddThing_wall at h
  split_ifs at h with h1 h2 h3
  simp only [Option.some.injEq] at h
  subst h
  simp only [true_and, and_true]
  refine ⟨?_, by simpa using h2, ?_⟩
  · unfold thingSpan
    simp only []
    split_ifs <;> omega
  · unfold thingSpan
    simp only []
    split_ifs <;> omega

/-- Claim C4 (amended): for the wall entity that `AddLine` creates, in exact
arithmetic, the inverse depth interpolated at the last column,
`iz1 + diz * (sx2 - sx1)`, is `iz2` when the span has more than one column and
`iz1` when the span is a single column (`diz` is then `(iz2 - iz1) / 1`). -/
theorem AddLine_interpolation (m : MathLib F) (doc : Doc) (view : View F) (r : RendInfo F)
    (i : Nat) (dw : DrawWall F) (h : AddLine_wall m doc view r i = some dw) :
    dw.iz1 + dw.diz * ((dw.sx2 - dw.sx1 : Int) : F)
      = if dw.sx1 < dw.sx2 then dw.iz2 else dw.iz1 := by
  obtain ⟨-, hle, hdiz, -, -⟩ := AddLine_wall_some m doc view r i dw h
  rw [hdiz]
  unfold MAX
  by_cases hlt : dw.sx1 < dw.sx2
  · have h1 : ¬ (1 > dw.sx2 - dw.sx1) := by omega
    have hne : ((dw.sx2 - dw.sx1 : Int) : F) ≠ 0 := by
      have : dw.sx2 - dw.sx1 ≠ 0 := by omega
      exact_mod_cast this
    rw [if_neg h1, if_pos hlt, div_mul_cancel₀ _ hne]
    ring
  · have h0 : dw.sx2 - dw.sx1 = 0 := by omega
    rw [if_neg hlt, h0]
    simp

/-- Claim C5: every entity that `AddLine` or `AddThing` appends to the entity
list (a pointer `p` in the new list that was not in the old one) has a span
with `0 ≤ sx1 ≤ sx2 ≤ screen_w - 1`, on every screen of at least one column;
in particular no entity with an empty span is appended. -/
theorem added_entity_span (m : MathLib F) (X : Ext F) (doc : Doc) (view : View F)
    (r r' : RendInfo F) (i p : Nat)
    (hr : r' = AddLine m doc view r i ∨ r' = AddThing X doc view r i)
    (hp : p ∈ r'.walls) (hnew : p ∉ r.walls) (hw : 1 ≤ view.screen_w) :
    0 ≤ (r'.heap.getD p default).sx1
    ∧ (r'.heap.getD p default).sx1 ≤ (r'.heap.getD p default).sx2
    ∧ (r'.heap.getD p default).sx2 ≤ view.screen_w - 1 := by
  have key : ∀ dw : DrawWall F, r' = r.push dw →
      (0 ≤ dw.sx1 ∧ dw.sx1 ≤ dw.sx2 ∧ dw.sx2 ≤ view.screen_w - 1) →
      0 ≤ (r'.heap.getD p default).sx1
      ∧ (r'.heap.getD p default).sx1 ≤ (r'.heap.getD p default).sx2
      ∧ (r'.heap.getD p default).sx2 ≤ view.screen_w - 1 := by
    intro dw hpush hdw
    subst hpush
    simp only [RendInfo.push, List.mem_append, List.mem_singleton] at hp
    rcases hp with hp | hp
    · exact absurd hp hnew
    · subst hp
      simp only [RendInfo.push, getD_push_size]
      exact hdw
  rcases hr with hr | hr
  · unfold AddLine at hr
    cases hw0 : AddLine_wall m doc view r i with
    | none =>
      rw [hw0] at hr
      subst hr
      exact absurd hp hnew
    | some dw =>
      rw [hw0] at hr
      obtain ⟨⟨a1, a2, h1, h2⟩, hle, -, -, -⟩ := AddLine_wall_some m doc view r i dw hw0
      have b1 := AngleToX_bounds m view a1 (by omega)
      have b2 := AngleToX_bounds m view a2 (by omega)
      exact key dw hr ⟨by omega, hle, by omega⟩
  · unfold AddThing at hr
    cases hw0 : AddThing_wall X doc view r i with
    | none =>
      rw [hw0] at hr
      subst hr
      exact absurd hp hnew
    | some dw =>
      rw [hw0] at hr
      obtain ⟨h1, h2, h3, -, -, -⟩ := AddThing_wall_some X doc view r i dw hw0
      exact key dw hr ⟨h1, h2, h3⟩

end BuilderFacts

/-! ## The one-column wall of `sliverDoc`, evaluated with the exact functions -/

theorem arctan_four_thirds_gt : Real.pi / 4 < Real.arctan (4 / 3) := by
  rw [← Real.arctan_one]
  exact Real.arctan_strictMono (by norm_num)

theorem PointToAngle_pos (x y : ℝ) (hx : 1 / 100 ≤ x) (hy : 0 < y) :
    PointToAngle realMath x y = Real.arctan (y / x) := by
  have h0 : (0:ℝ) < x := by linarith
  have ha : realMath.atan2 y x = Real.arctan (y / x) := by simp [realMath, h0]
  have hpos : 0 ≤ Real.arctan (y / x) := by
    rw [← Real.arctan_zero]
    exact Real.arctan_strictMono.monotone (by positivity)
  unfold PointToAngle
  rw [if_neg (by intro h; linarith [h.2]), ha]
  simp only []
  rw [if_neg (by linarith)]

theorem sliver_lineEnds :
    lineEnds sliverDoc (sliverView : View ℝ) (sliverDoc.lineDef 0) = (0, 8, 3, 4) := by
  have hl : sliverDoc.lineDef 0 = ⟨0, 1, 0, -1, 0⟩ := by rfl
  have hs : (sliverDoc.vertex 0) = ⟨8, 0⟩ ∧ (sliverDoc.vertex 1) = ⟨4, -3⟩ := by
    constructor <;> rfl
  unfold lineEnds
  rw [hl]
  simp only [LineDef.Start, LineDef.End, hs.1, hs.2, sliverView]
  norm_num

theorem sliver_lineAngles :
    lineAngles realMath sliverDoc sliverView (sliverDoc.lineDef 0)
      = some (SIDE_RIGHT, 0, Real.pi / 2, Real.arctan (4 / 3)) := by
  have hpi := Real.pi_pos
  have h1 := Real.arctan_lt_pi_div_two (4 / 3)
  have h2 := arctan_four_thirds_gt
  have hv : is_vertex sliverDoc (sliverDoc.lineDef 0).start = true
      ∧ is_vertex sliverDoc (sliverDoc.lineDef 0).end_ = true := by decide
  have hr : (sliverDoc.lineDef 0).Right = some 0 := by rfl
  have hp1 : PointToAngle realMath 0 8 = Real.pi / 2 := by
    simp [PointToAngle, realMath]
  have hp2 : PointToAngle realMath 3 4 = Real.arctan (4 / 3) :=
    PointToAngle_pos 3 4 (by norm_num) (by norm_num)
  have hpiE : realMath.pi = Real.pi := rfl
  have n1 : ¬ (Real.pi / 2 - Real.arctan (4 / 3) < 0) := by linarith
  have n2 : ¬ (Real.pi / 2 - Real.arctan (4 / 3) ≥ Real.pi) := by
    intro h
    linarith
  have hside : lineSide realMath (Real.pi / 2) (Real.arctan (4 / 3)) = SIDE_RIGHT := by
    unfold lineSide
    simp only [hpiE, n1, n2, if_false]
  have n3 : ¬ (SIDE_RIGHT = SIDE_LEFT) := by decide
  have n4 : ¬ ((8:ℝ) ≤ 0 ∧ (4:ℝ) ≤ 0) := by norm_num
  unfold lineAngles
  simp only [sliver_lineEnds, hv.1, hv.2, hr, hp1, hp2, hside, n3, n4, if_false,
    not_true_eq_false, or_self, reduceCtorEq]

theorem sliver_clipAngles :
    clipAngles realMath (Real.pi / 2) (Real.arctan (4 / 3))
      = some (Real.pi / 2, Real.arctan (4 / 3)) := by
  have hpi := Real.pi_pos
  have h1 := Real.arctan_lt_pi_div_two (4 / 3)
  have h2 := arctan_four_thirds_gt
  have hpiE : realMath.pi = Real.pi := rfl
  have n1 : ¬ (Real.pi / 2 - Real.pi / 4 < 0) := by linarith
  have n2 : ¬ (3 * Real.pi / 4 - Real.arctan (4 / 3) < 0) := by linarith
  have n3 : ¬ (Real.pi / 2 - Real.pi / 4 > Real.pi / 2) := by linarith
  have n4 : ¬ (3 * Real.pi / 4 - Real.arctan (4 / 3) > Real.pi / 2) := by linarith
  unfold clipAngles
  simp only [hpiE, n1, n2, n3, n4, if_false, false_and]

theorem sliver_AngleToX_left : AngleToX realMath sliverView (Real.pi / 2) = 4 := by
  unfold AngleToX
  have hpiE : realMath.pi = Real.pi := rfl
  have ht : realMath.tan (Real.pi / 2 - Real.pi / 2) = 0 := by
    simp [realMath]
  simp only [hpiE, ht, sliverView, mul_zero]
  have h0 : toInt (0 : ℝ) = 0 := by simpa using @toInt_intCast ℝ _ _ 0
  rw [h0]
  decide

theorem sliver_AngleToX_right : AngleToX realMath sliverView (Real.arctan (4 / 3)) = 5 := by
  unfold AngleToX
  have hpiE : realMath.pi = Real.pi := rfl
  have ht : realMath.tan (Real.pi / 2 - Real.arctan (4 / 3)) = 3 / 4 := by
    show Real.tan (Real.pi / 2 - Real.arctan (4 / 3)) = 3 / 4
    rw [Real.tan_pi_div_two_sub, Real.tan_arctan]
    norm_num
  have h3 : toInt ((4 : ℝ) * (3 / 4)) = 3 := by
    have : (4 : ℝ) * (3 / 4) = ((3 : ℤ) : ℝ) := by norm_num
    rw [this, toInt_intCast]
  simp only [hpiE, ht, sliverView, h3]
  decide

theorem sliver_wallDist : wallDist realMath sliverDoc sliverView (sliverDoc.lineDef 0) = 24 / 5 := by
  have hl : sliverDoc.lineDef 0 = ⟨0, 1, 0, -1, 0⟩ := by rfl
  have hs : (sliverDoc.vertex 0) = ⟨8, 0⟩ ∧ (sliverDoc.vertex 1) = ⟨4, -3⟩ := by
    constructor <;> rfl
  have hsq : Real.sqrt 25 = 5 := by
    rw [show (25:ℝ) = 5 ^ 2 by norm_num]
    exact Real.sqrt_sq (by norm_num)
  unfold wallDist
  rw [hl]
  simp only [LineDef.Start, LineDef.End, hs.1, hs.2, sliverView, realMath]
  norm_num [hsq]

theorem sqrt_25_16 : Real.sqrt (1 + (3 / 4) ^ 2) = 5 / 4 := by
  rw [show (1 + (3 / 4 : ℝ) ^ 2) = (5 / 4) ^ 2 by norm_num]
  exact Real.sqrt_sq (by norm_num)

theorem sqrt_25_9 : Real.sqrt (1 + (4 / 3) ^ 2) = 5 / 3 := by
  rw [show (1 + (4 / 3 : ℝ) ^ 2) = (5 / 3) ^ 2 by norm_num]
  exact Real.sqrt_sq (by norm_num)

theorem sliver_wallNormal :
    wallNormal realMath sliverDoc sliverView (sliverDoc.lineDef 0) SIDE_RIGHT
      = Real.arctan (3 / 4) := by
  have n3 : ¬ (SIDE_RIGHT = SIDE_LEFT) := by decide
  unfold wallNormal
  simp only [sliver_lineEnds, n3, if_false]
  rw [show (8 : ℝ) - 4 = 4 by norm_num, show (3 : ℝ) - 0 = 3 by norm_num]
  exact PointToAngle_pos 4 3 (by norm_num) (by norm_num)

theorem sliver_iz1 : wallIz realMath (Real.arctan (3 / 4)) (24 / 5) (Real.pi / 2) = 1 / 8 := by
  unfold wallIz
  show Real.cos (Real.arctan (3 / 4) - Real.pi / 2) / (24 / 5)
      / Real.cos (Real.pi / 2 - Real.pi / 2) = 1 / 8
  rw [sub_self, Real.cos_zero, Real.cos_sub, Real.cos_pi_div_two, Real.sin_pi_div_two,
    Real.sin_arctan, sqrt_25_16]
  norm_num

theorem sliver_iz2 :
    wallIz realMath (Real.arctan (3 / 4)) (24 / 5) (Real.arctan (4 / 3)) = 1 / 4 := by
  unfold wallIz
  show Real.cos (Real.arctan (3 / 4) - Real.arctan (4 / 3)) / (24 / 5)
      / Real.cos (Real.pi / 2 - Real.arctan (4 / 3)) = 1 / 4
  rw [Real.cos_pi_div_two_sub, Real.cos_sub, Real.sin_arctan, Real.sin_arctan, Real.cos_arctan,
    Real.cos_arctan, sqrt_25_16, sqrt_25_9]
  norm_num

theorem sliver_AddLine_wall (r : RendInfo ℝ) (hq : r.query_mode = 0) :
    AddLine_wall realMath sliverDoc sliverView r 0
      = some (mkWall realMath sliverDoc sliverView 0 SIDE_RIGHT 0 (Real.pi / 2) (Real.pi / 2)
          (Real.arctan (4 / 3)) 4 4) := by
  unfold AddLine_wall
  rw [sliver_lineAngles]
  simp only [sliver_clipAngles, sliver_AngleToX_left, sliver_AngleToX_right, sliver_wallDist, hq]
  norm_num

theorem sliver_wall_fields :
    (mkWall realMath sliverDoc sliverView 0 SIDE_RIGHT 0 (Real.pi / 2) (Real.pi / 2)
          (Real.arctan (4 / 3)) 4 4).iz1 = 1 / 8
    ∧ (mkWall realMath sliverDoc sliverView 0 SIDE_RIGHT 0 (Real.pi / 2) (Real.pi / 2)
          (Real.arctan (4 / 3)) 4 4).iz2 = 1 / 4
    ∧ (mkWall realMath sliverDoc sliverView 0 SIDE_RIGHT 0 (Real.pi / 2) (Real.pi / 2)
          (Real.arctan (4 / 3)) 4 4).diz = 1 / 8 := by
  simp only [mkWall, sliver_wallDist, sliver_wallNormal, sliver_iz1, sliver_iz2, MAX]
  norm_num

/-- Counterexample to C4 as stated: the entity that `AddLine` creates for the
linedef of `sliverDoc` covers the single column 4 and has `iz1 = 1/8`,
`iz2 = 1/4`; interpolating at its last column gives `iz1`, not `iz2`. -/
theorem AddLine_one_column_not_iz2 :
    ∃ dw : DrawWall ℝ,
      AddLine_wall realMath sliverDoc sliverView (RendInfo.new (fun _ => 0)) 0 = some dw
      ∧ dw.sx1 = 4 ∧ dw.sx2 = 4 ∧ dw.iz1 = 1 / 8 ∧ dw.iz2 = 1 / 4
      ∧ dw.iz1 + dw.diz * ((dw.sx2 - dw.sx1 : Int) : ℝ) ≠ dw.iz2 := by
  refine ⟨_, sliver_AddLine_wall _ rfl, rfl, rfl, sliver_wall_fields.1, sliver_wall_fields.2.1, ?_⟩
  rw [sliver_wall_fields.1, sliver_wall_fields.2.1, sliver_wall_fields.2.2]
  simp only [mkWall]
  norm_num

/-- Witness for C4 (amended): the wall of `sliverDoc`. -/
theorem AddLine_interpolation_witness :
    (mkWall realMath sliverDoc sliverView 0 SIDE_RIGHT 0 (Real.pi / 2) (Real.pi / 2)
        (Real.arctan (4 / 3)) 4 4).iz1
      + (mkWall realMath sliverDoc sliverView 0 SIDE_RIGHT 0 (Real.pi / 2) (Real.pi / 2)
        (Real.arctan (4 / 3)) 4 4).diz * (((4 : Int) - 4 : Int) : ℝ)
      = if (4 : Int) < 4 then
          (mkWall realMath sliverDoc sliverView 0 SIDE_RIGHT 0 (Real.pi / 2) (Real.pi / 2)
            (Real.arctan (4 / 3)) 4 4).iz2
        else
          (mkWall realMath sliverDoc sliverView 0 SIDE_RIGHT 0 (Real.pi / 2) (Real.pi / 2)
            (Real.arctan (4 / 3)) 4 4).iz1 :=
  AddLine_interpolation realMath sliverDoc sliverView (RendInfo.new (fun _ => 0)) 0 _
    (sliver_AddLine_wall _ rfl)

/-- Witness for C5: the entity that `AddLine` appends for the linedef of
`sliverDoc` on the 8-column screen. -/
theorem added_entity_span_witness :
    0 ≤ ((AddLine realMath sliverDoc sliverView (RendInfo.new (fun _ => 0)) 0).heap.getD 0
          default).sx1
    ∧ ((AddLine realMath sliverDoc sliverView (RendInfo.new (fun _ => 0)) 0).heap.getD 0
          default).sx1
      ≤ ((AddLine realMath sliverDoc sliverView (RendInfo.new (fun _ => 0)) 0).heap.getD 0
          default).sx2
    ∧ ((AddLine realMath sliverDoc sliverView (RendInfo.new (fun _ => 0)) 0).heap.getD 0
          default).sx2 ≤ (sliverView : View ℝ).screen_w - 1 :=
  added_entity_span realMath demoExt sliverDoc sliverView (RendInfo.new (fun _ => 0))
    (AddLine realMath sliverDoc sliverView (RendInfo.new (fun _ => 0)) 0) 0 0 (Or.inl rfl)
    (by simp [AddLine, sliver_AddLine_wall, RendInfo.push, RendInfo.new])
    (by simp [RendInfo.new]) (by decide)

/-! ## Projection round trip -/

/-- Claim C6 (amended): with the exact `tan` and `atan`, for every column `x`
with `0 ≤ x ≤ screen_w` and `aspect_sw > 0`, `AngleToX (XToAngle x)` is the
mirror column `screen_w - x`. -/
theorem AngleToX_XToAngle (view : View ℝ) (x : Int) (hx0 : 0 ≤ x) (hx1 : x ≤ view.screen_w)
    (hsw : 0 < view.aspect_sw) :
    AngleToX realMath view (XToAngle realMath view x) = view.screen_w - x := by
  have hpi := Real.pi_pos
  have hlo := Real.neg_pi_div_two_lt_arctan (((x * 2 - view.screen_w : Int) : ℝ) / view.aspect_sw)
  have hhi := Real.arctan_lt_pi_div_two (((x * 2 - view.screen_w : Int) : ℝ) / view.aspect_sw)
  have hang : XToAngle realMath view x
      = Real.pi / 2 + Real.arctan (((x * 2 - view.screen_w : Int) : ℝ) / view.aspect_sw) := by
    unfold XToAngle
    simp only [realMath]
    rw [if_neg (by linarith), if_neg (by linarith)]
  have htan : realMath.tan (realMath.pi / 2 - XToAngle realMath view x)
      = -(((x * 2 - view.screen_w : Int) : ℝ) / view.aspect_sw) := by
    rw [hang]
    show Real.tan (Real.pi / 2 - (Real.pi / 2 + Real.arctan _)) = _
    rw [show Real.pi / 2 - (Real.pi / 2
          + Real.arctan (((x * 2 - view.screen_w : Int) : ℝ) / view.aspect_sw))
        = -Real.arctan (((x * 2 - view.screen_w : Int) : ℝ) / view.aspect_sw) by ring,
      Real.tan_neg, Real.tan_arctan]
  have hmul : view.aspect_sw * -(((x * 2 - view.screen_w : Int) : ℝ) / view.aspect_sw)
      = ((view.screen_w - x * 2 : Int) : ℝ) := by
    have hne : view.aspect_sw ≠ 0 := ne_of_gt hsw
    rw [mul_neg, mul_div_cancel₀ _ hne]
    push_cast
    ring
  have hdiv : Int.tdiv (view.screen_w + (view.screen_w - x * 2)) 2 = view.screen_w - x := by
    rw [show view.screen_w + (view.screen_w - x * 2) = 2 * (view.screen_w - x) by ring]
    exact Int.mul_tdiv_cancel_left _ (by norm_num)
  unfold AngleToX
  simp only [htan, hmul, toInt_intCast, hdiv]
  rw [if_neg (by omega), if_neg (by omega)]

/-- Counterexample to C6 as stated: on the 8-column screen of `sliverView`
(`aspect_sw = 4`) the round trip sends column 0 to column 8, not to 0. -/
theorem AngleToX_XToAngle_not_id :
    (0 : Int) ≤ (sliverView : View ℝ).screen_w ∧ 0 < (sliverView : View ℝ).aspect_sw
    ∧ AngleToX realMath sliverView (XToAngle realMath sliverView 0) = 8
    ∧ AngleToX realMath sliverView (XToAngle realMath sliverView 0) ≠ 0 := by
  have h := AngleToX_XToAngle sliverView 0 (le_refl 0) (by decide) (by norm_num [sliverView])
  have h8 : AngleToX realMath sliverView (XToAngle realMath sliverView 0) = 8 := by
    rw [h]
    rfl
  refine ⟨by decide, by norm_num [sliverView], h8, ?_⟩
  intro h0
  rw [h8] at h0
  exact absurd h0 (by decide)

/-- Witness for C6 (amended): column 3 of the 8-column screen goes to column 5. -/
theorem AngleToX_XToAngle_witness :
    AngleToX realMath sliverView (XToAngle realMath sliverView 3)
      = (sliverView : View ℝ).screen_w - 3 :=
  AngleToX_XToAngle sliverView 3 (by decide) (by decide) (by norm_num [sliverView])

/-! ## The occlusion clipper `ClipSolids` -/

section ClipperFacts
variable {F : Type} [LinearOrderedField F]

/-- The depth buffer after the column loop of `ClipSolids` for one entity over
`n` columns from `lo`: a one-sided wall writes its inverse distance in the
columns where it is not hidden; nothing else changes. -/
theorem clipRange_depth (dw : DrawWall F) (os : Bool) (n : Nat) :
    ∀ (lo v : Int) (d : Int → F) (x : Int),
      (forRange lo n (clipColumn dw os) (v, d)).2 x
        = if os = true ∧ lo ≤ x ∧ x < lo + n ∧ ¬ (izAt dw x < d x) then izAt dw x else d x := by
  induction n with
  | zero =>
    intro lo v d x
    simp only [forRange]
    rw [if_neg]
    intro h
    have := h.2.2.1
    simp at this
    omega
  | succ n ih =>
    intro lo v d x
    simp only [forRange]
    have hstep : clipColumn dw os lo (v, d)
        = (if izAt dw lo < d lo then v - 1 else v,
           if izAt dw lo < d lo then d else if os = true then Function.update d lo (izAt dw lo)
           else d) := by
      unfold clipColumn
      simp only []
      split_ifs <;> rfl
    rw [hstep, ih]
    by_cases hx : x = lo
    · subst hx
      have h1 : ¬ (x + 1 ≤ x) := by omega
      rw [if_neg (by intro h; exact h1 h.2.1)]
      by_cases hh : izAt dw x < d x
      · simp [hh]
      · by_cases ho : os = true
        · simp [hh, ho]
        · simp [hh, ho]
    · have hd : (if izAt dw lo < d lo then d
          else if os = true then Function.update d lo (izAt dw lo) else d) x = d x := by
        split_ifs
        · rfl
        · exact Function.update_noteq hx _ _
        · rfl
      rw [hd]
      by_cases hc : os = true ∧ lo + 1 ≤ x ∧ x < lo + 1 + (n : Int) ∧ ¬ (izAt dw x < d x)
      · rw [if_pos hc, if_pos]
        refine ⟨hc.1, by omega, ?_, hc.2.2.2⟩
        have := hc.2.2.1
        push_cast
        omega
      · rw [if_neg hc, if_neg]
        intro h
        apply hc
        refine ⟨h.1, by omega, ?_, h.2.2.2⟩
        have := h.2.2.1
        push_cast at this
        omega

/-- The counter `vis_count` after the column loop over `n` columns from `lo`
has dropped by at most `n`, and by exactly `n` when the entity is hidden in
every one of these columns. -/
theorem clipRange_count (dw : DrawWall F) (os : Bool) (n : Nat) :
    ∀ (lo v : Int) (d : Int → F),
      v - n ≤ (forRange lo n (clipColumn dw os) (v, d)).1
      ∧ ((forRange lo n (clipColumn dw os) (v, d)).1 = v - n
          ↔ ∀ x, lo ≤ x → x < lo + n → izAt dw x < d x) := by
  induction n with
  | zero =>
    intro lo v d
    simp only [forRange]
    refine ⟨by simp, ?_⟩
    constructor
    · intro _ x h1 h2
      simp at h2
      omega
    · intro _
      simp
  | succ n ih =>
    intro lo v d
    simp only [forRange]
    have hstep : clipColumn dw os lo (v, d)
        = (if izAt dw lo < d lo then v - 1 else v,
           if izAt dw lo < d lo then d else if os = true then Function.update d lo (izAt dw lo)
           else d) := by
      unfold clipColumn
      simp only []
      split_ifs <;> rfl
    rw [hstep]
    obtain ⟨hge, hiff⟩ := ih (lo + 1) (if izAt dw lo < d lo then v - 1 else v)
      (if izAt dw lo < d lo then d else if os = true then Function.update d lo (izAt dw lo)
        else d)
    by_cases hh : izAt dw lo < d lo
    · simp only [hh, if_true] at hge hiff ⊢
      refine ⟨by push_cast; omega, ?_⟩
      rw [show v - ((n + 1 : Nat) : Int) = v - 1 - n by push_cast; ring, hiff]
      constructor
      · intro h x h1 h2
        by_cases hx : x = lo
        · subst hx
          exact hh
        · exact h x (by omega) (by push_cast at h2; omega)
      · intro h x h1 h2
        exact h x (by omega) (by push_cast; omega)
    · simp only [hh, if_false] at hge hiff ⊢
      refine ⟨by push_cast; omega, ?_⟩
      constructor
      · intro h
        push_cast at h
        omega
      · intro h
        exact absurd (h lo (le_refl lo) (by push_cast; omega)) hh

theorem clipEntity_removed_iff (doc : Doc) (dw : DrawWall F) (d : Int → F)
    (hspan : dw.sx1 ≤ dw.sx2 + 1) :
    (clipEntity doc dw d).1 = 0 ↔ ∀ x, dw.sx1 ≤ x → x ≤ dw.sx2 → izAt dw x < d x := by
  unfold clipEntity forUpTo
  have hn : (((dw.sx2 + 1 - dw.sx1).toNat : Nat) : Int) = dw.sx2 + 1 - dw.sx1 :=
    Int.toNat_of_nonneg (by omega)
  have h := (clipRange_count dw (oneSided doc dw) (dw.sx2 + 1 - dw.sx1).toNat dw.sx1
    (dw.sx2 - dw.sx1 + 1) d).2
  rw [hn] at h
  rw [show dw.sx2 - dw.sx1 + 1 - (dw.sx2 + 1 - dw.sx1) = 0 by ring] at h
  rw [h]
  constructor
  · intro hx x h1 h2
    exact hx x h1 (by omega)
  · intro hx x h1 h2
    exact hx x h1 (by omega)

theorem clipEntity_removed (doc : Doc) (dw : DrawWall F) (d : Int → F)
    (h0 : (clipEntity doc dw d).1 = 0) :
    ∀ x, dw.sx1 ≤ x → x ≤ dw.sx2 → izAt dw x < d x := by
  intro x h1 h2
  exact (clipEntity_removed_iff doc dw d (by omega)).1 h0 x h1 h2

theorem clipEntity_depth (doc : Doc) (dw : DrawWall F) (d : Int → F) (x : Int) :
    (clipEntity doc dw d).2 x
      = if oneSided doc dw = true ∧ dw.sx1 ≤ x ∧ x ≤ dw.sx2 ∧ ¬ (izAt dw x < d x)
        then izAt dw x else d x := by
  unfold clipEntity forUpTo
  rw [clipRange_depth]
  by_cases hspan : dw.sx1 ≤ dw.sx2 + 1
  · have hn : (((dw.sx2 + 1 - dw.sx1).toNat : Nat) : Int) = dw.sx2 + 1 - dw.sx1 :=
      Int.toNat_of_nonneg (by omega)
    rw [hn]
    by_cases hc : oneSided doc dw = true ∧ dw.sx1 ≤ x ∧ x ≤ dw.sx2 ∧ ¬ (izAt dw x < d x)
    · rw [if_pos hc, if_pos ⟨hc.1, hc.2.1, by omega, hc.2.2.2⟩]
    · rw [if_neg hc, if_neg]
      intro h
      exact hc ⟨h.1, h.2.1, by omega, h.2.2.2⟩
  · have hn : (dw.sx2 + 1 - dw.sx1).toNat = 0 := Int.toNat_eq_zero.2 (by omega)
    rw [hn]
    rw [if_neg (by intro h; have := h.2.2.1; simp at this; omega),
      if_neg (by intro h; omega)]

end ClipperFacts

theorem hiddenScene_sorted :
    stdSort (MidDistCmp hiddenScene.heap) hiddenScene.walls = [0, 1, 2] := by
  have m0 : (hiddenScene.heap.getD 0 default).mid_iz = 1 / 10 := rfl
  have m1 : (hiddenScene.heap.getD 1 default).mid_iz = 1 / 100 := rfl
  have m2 : (hiddenScene.heap.getD 2 default).mid_iz = 1 / 100 := rfl
  have hw : hiddenScene.walls = [0, 1, 2] := rfl
  have c10 : MidDistCmp hiddenScene.heap 1 0 = false := by
    simp only [MidDistCmp, m0, m1]
    norm_num
  have c21 : MidDistCmp hiddenScene.heap 2 1 = false := by
    simp only [MidDistCmp, m1, m2]
    norm_num
  rw [hw]
  simp only [stdSort, List.insertionSort, List.foldr, List.orderedInsert, c10, c21, if_true]

theorem hiddenScene_clipped : (ClipSolids demoDoc hiddenScene).walls = [0] := by
  have hd : hiddenScene.depth_x = fun _ => 0 := rfl
  have o0 : oneSided demoDoc (hiddenScene.heap.getD 0 default) = true := rfl
  have o1 : oneSided demoDoc (hiddenScene.heap.getD 1 default) = false := rfl
  have o2 : oneSided demoDoc (hiddenScene.heap.getD 2 default) = false := rfl
  have i0 : ∀ x, izAt (hiddenScene.heap.getD 0 default) x = 1 / 10 := by
    intro x
    show (1 / 10 : ℚ) + 0 * _ = 1 / 10
    simp
  have i1 : ∀ x, izAt (hiddenScene.heap.getD 1 default) x = 1 / 100 := by
    intro x
    show (1 / 100 : ℚ) + 0 * _ = 1 / 100
    simp
  have i2 : ∀ x, izAt (hiddenScene.heap.getD 2 default) x = 1 / 100 := by
    intro x
    show (1 / 100 : ℚ) + 0 * _ = 1 / 100
    simp
  have s0 : (hiddenScene.heap.getD 0 default).sx1 = 0 ∧ (hiddenScene.heap.getD 0 default).sx2 = 3 :=
    ⟨rfl, rfl⟩
  have s1 : (hiddenScene.heap.getD 1 default).sx1 = 1 ∧ (hiddenScene.heap.getD 1 default).sx2 = 2 :=
    ⟨rfl, rfl⟩
  have s2 : (hiddenScene.heap.getD 2 default).sx1 = 1 ∧ (hiddenScene.heap.getD 2 default).sx2 = 2 :=
    ⟨rfl, rfl⟩
  -- the wall of linedef 0 is kept and writes 1/10 into columns 0 to 3
  have v0 : (clipEntity demoDoc (hiddenScene.heap.getD 0 default) (fun _ => 0)).1 ≠ 0 := by
    rw [Ne, clipEntity_removed_iff _ _ _ (by rw [s0.1, s0.2]; decide)]
    intro h
    have := h 0 (by rw [s0.1]) (by rw [s0.2]; decide)
    rw [i0] at this
    norm_num at this
  have d0 : ∀ x, (clipEntity demoDoc (hiddenScene.heap.getD 0 default) (fun _ => 0)).2 x
      = if 0 ≤ x ∧ x ≤ 3 then 1 / 10 else 0 := by
    intro x
    rw [clipEntity_depth, o0, s0.1, s0.2, i0]
    by_cases hx : 0 ≤ x ∧ x ≤ 3
    · rw [if_pos hx, if_pos ⟨rfl, hx.1, hx.2, by norm_num⟩]
    · rw [if_neg hx, if_neg (fun h => hx ⟨h.2.1, h.2.2.1⟩)]
  -- the sprite is hidden in both of its columns
  have v1 : (clipEntity demoDoc (hiddenScene.heap.getD 1 default)
      (clipEntity demoDoc (hiddenScene.heap.getD 0 default) (fun _ => 0)).2).1 = 0 := by
    rw [clipEntity_removed_iff _ _ _ (by rw [s1.1, s1.2]; decide)]
    intro x h1 h2
    rw [s1.1] at h1
    rw [s1.2] at h2
    rw [i1, d0, if_pos ⟨by omega, by omega⟩]
    norm_num
  have d1 : (clipEntity demoDoc (hiddenScene.heap.getD 1 default)
      (clipEntity demoDoc (hiddenScene.heap.getD 0 default) (fun _ => 0)).2).2
      = (clipEntity demoDoc (hiddenScene.heap.getD 0 default) (fun _ => 0)).2 := by
    funext x
    rw [clipEntity_depth, o1]
    simp
  -- and so is the two-sided wall of linedef 1
  have v2 : (clipEntity demoDoc (hiddenScene.heap.getD 2 default)
      (clipEntity demoDoc (hiddenScene.heap.getD 0 default) (fun _ => 0)).2).1 = 0 := by
    rw [clipEntity_removed_iff _ _ _ (by rw [s2.1, s2.2]; decide)]
    intro x h1 h2
    rw [s2.1] at h1
    rw [s2.2] at h2
    rw [i2, d0, if_pos ⟨by omega, by omega⟩]
    norm_num
  simp only [ClipSolids, hiddenScene_sorted, hd, clipLoop, if_neg v0, d1, v1, v2, if_true,
    List.filterMap_cons, id, List.filterMap_nil]

/-- Counterexample to C3 as stated: in `hiddenScene` (zero depth buffer) the
sprite at pointer 1 and the two-sided wall at pointer 2 lie behind the
one-sided wall at pointer 0 in all their columns, and `ClipSolids` removes
both of them. -/
theorem ClipSolids_drops_hidden_sprite :
    hiddenScene.depth_x = (fun _ => 0)
    ∧ 1 ∈ hiddenScene.walls ∧ (hiddenScene.heap.getD 1 default).th ≥ 0
    ∧ 2 ∈ hiddenScene.walls ∧ (hiddenScene.heap.getD 2 default).ld = some 1
    ∧ (demoDoc.lineDef 1).Left ≠ none
    ∧ 1 ∉ (ClipSolids demoDoc hiddenScene).walls
    ∧ 2 ∉ (ClipSolids demoDoc hiddenScene).walls := by
  refine ⟨rfl, by decide, by decide, by decide, rfl, by decide, ?_, ?_⟩
  · rw [hiddenScene_clipped]
    decide
  · rw [hiddenScene_clipped]
    decide

/-! ## Rendering: the empty map -/

section RenderFacts
variable {F : Type} [LinearOrderedField F] [FloorRing F]

/-- A column of `RenderWalls` with no entity paints nothing. -/
theorem renderColumn_idle (m : MathLib F) (X : Ext F) (doc : Doc) (view : View F) (x : Int)
    (r : RendInfo F) (hw : r.walls = []) (ha : r.active = []) :
    (renderColumn m X doc view x r).walls = [] ∧ (renderColumn m X doc view x r).active = []
    ∧ (renderColumn m X doc view x r).screen = r.screen
    ∧ (renderColumn m X doc view x r).heap = r.heap := by
  unfold renderColumn UpdateActiveList
  simp only [hw, ha, List.filter_nil, List.dropWhile_nil, List.takeWhile_nil, List.append_nil,
    depthLoop, List.foldl_nil, List.length_nil, ne_eq, not_true_eq_false, decide_False, Bool.or_self,
    Bool.false_eq_true, false_and, if_false, frontToBack, List.take_nil, List.reverse_nil,
    backToFront, gt_iff_lt, lt_self_iff_false, and_false]
  split_ifs <;> simp [hw, backToFront]

theorem forRange_idle (m : MathLib F) (X : Ext F) (doc : Doc) (view : View F) (n : Nat) :
    ∀ (lo : Int) (r : RendInfo F), r.walls = [] → r.active = [] →
      (forRange lo n (renderColumn m X doc view) r).walls = []
      ∧ (forRange lo n (renderColumn m X doc view) r).screen = r.screen
      ∧ (forRange lo n (renderColumn m X doc view) r).heap = r.heap := by
  induction n with
  | zero =>
    intro lo r hw _
    exact ⟨hw, rfl, rfl⟩
  | succ n ih =>
    intro lo r hw ha
    obtain ⟨h1, h2, h3, h4⟩ := renderColumn_idle m X doc view lo r hw ha
    obtain ⟨g1, g2, g3⟩ := ih (lo + 1) _ h1 h2
    simp only [forRange]
    exact ⟨g1, g2.trans h3, g3.trans h4⟩

/-- Claim C8: on a map with no linedefs and no things, a normal (non-query)
`Render` of a fresh `RendInfo` builds no entity, and the pixel buffer is the
cleared one: every pixel `(x, y)` of the `screen_w x screen_h` screen is 0. -/
theorem Render_empty_map (m : MathLib F) (X : Ext F) (doc : Doc) (view : View F)
    (screen : Int → Nat) (x y : Int)
    (hl : doc.LineDefs.size = 0) (ht : doc.Things.size = 0)
    (hx : 0 ≤ x ∧ x < view.screen_w) (hy : 0 ≤ y ∧ y < view.screen_h) :
    (Render m X doc view (RendInfo.new screen)).walls = []
    ∧ (Render m X doc view (RendInfo.new screen)).heap = #[]
    ∧ (Render m X doc view (RendInfo.new screen)).screen
        = (ClearScreen view (RendInfo.new screen)).screen
    ∧ (Render m X doc view (RendInfo.new screen)).screen (pixelAt view x y) = 0 := by
  have hbuild : ∀ r : RendInfo F, addEntities m X doc view r = r := by
    intro r
    unfold addEntities
    simp [hl, ht]
  have hclip : ∀ r : RendInfo F, r.walls = [] →
      (ClipSolids doc r).walls = [] ∧ (ClipSolids doc r).heap = r.heap
      ∧ (ClipSolids doc r).screen = r.screen ∧ (ClipSolids doc r).active = r.active := by
    intro r hw
    simp [ClipSolids, hw, stdSort, clipLoop]
  have hsurf : ∀ r : RendInfo F, r.walls = [] →
      ComputeSurfaces X doc view r = r := by
    intro r hw
    cases r
    simp only at hw
    simp [ComputeSurfaces, hw]
  have hwalls : ∀ r : RendInfo F, r.walls = [] →
      (RenderWalls m X doc view r).walls = []
      ∧ (RenderWalls m X doc view r).screen = r.screen
      ∧ (RenderWalls m X doc view r).heap = r.heap := by
    intro r hw
    unfold RenderWalls
    simp only [hw, stdSort, List.insertionSort, List.foldr]
    exact forRange_idle m X doc view _ 0 _ rfl rfl
  have hq : (RendInfo.new screen : RendInfo F).query_mode = 0 := rfl
  have key : (Render m X doc view (RendInfo.new screen)).walls = []
      ∧ (Render m X doc view (RendInfo.new screen)).heap = #[]
      ∧ (Render m X doc view (RendInfo.new screen)).screen
        = (ClearScreen view (RendInfo.new screen)).screen := by
    unfold Render
    simp only [hq, if_true, hbuild]
    have h0 : (InitDepthBuf (ClearScreen view (RendInfo.new screen : RendInfo F))
        view.screen_w).walls = [] := rfl
    obtain ⟨c1, c2, c3, -⟩ := hclip _ h0
    rw [hsurf _ c1]
    obtain ⟨w1, w2, w3⟩ := hwalls _ c1
    exact ⟨w1, by rw [w3, c2]; rfl, by rw [w2, c3]; rfl⟩
  refine ⟨key.1, key.2.1, key.2.2, ?_⟩
  rw [key.2.2]
  unfold ClearScreen pixelAt
  simp only []
  rw [if_pos]
  constructor
  · nlinarith [hx.1, hy.1, mul_nonneg hy.1 (le_trans hx.1 (le_of_lt hx.2))]
  · have h1 : y + 1 ≤ view.screen_h := by omega
    have h2 : 0 ≤ view.screen_w := by omega
    nlinarith [mul_le_mul_of_nonneg_left h1 h2]

end RenderFacts

/-- Witness for C8: the empty map on the 8 x 6 screen of `sliverView`, the
buffer holding colour 9 before. -/
theorem Render_empty_map_witness :
    (Render realMath demoExt emptyDoc sliverView (RendInfo.new (fun _ => 9))).walls = []
    ∧ (Render realMath demoExt emptyDoc sliverView (RendInfo.new (fun _ => 9))).heap = #[]
    ∧ (Render realMath demoExt emptyDoc sliverView (RendInfo.new (fun _ => 9))).screen
        = (ClearScreen sliverView (RendInfo.new (fun _ => 9) : RendInfo ℝ)).screen
    ∧ (Render realMath demoExt emptyDoc sliverView (RendInfo.new (fun _ => 9))).screen
        (pixelAt (sliverView : View ℝ) 3 2) = 0 :=
  Render_empty_map realMath demoExt emptyDoc sliverView (fun _ => 9) 3 2 rfl rfl
    (by decide) (by decide)

/-! ## The query scenario: a single one-sided wall -/

theorem getD_setD_self {α : Type} (a : Array α) (i : Nat) (v d : α) (h : i < a.size) :
    (a.setD i v).getD i d = v := by
  simp [Array.setD, Array.getD, h]

theorem getD_setD_ne {α : Type} (a : Array α) (i j : Nat) (v d : α) (h : i ≠ j) :
    (a.setD i v).getD j d = a.getD j d := by
  unfold Array.setD
  split
  · simp only [Array.getD, Array.size_set]
    split
    · simp [Array.getElem_set, h]
    · rfl
  · rfl

theorem size_setD {α : Type} (a : Array α) (i : Nat) (v : α) : (a.setD i v).size = a.size := by
  unfold Array.setD
  split <;> simp

section TruncFacts
variable {F : Type} [LinearOrderedField F] [FloorRing F]

theorem toInt_neg (r : F) : toInt (-r) = -toInt r := by
  unfold toInt
  rcases lt_trichotomy r 0 with h | h | h
  · rw [if_pos (by linarith), if_neg (by linarith), Int.floor_neg]
  · subst h
    simp
  · rw [if_neg (by linarith), if_pos (by linarith), Int.ceil_neg]

end TruncFacts

theorem tdiv_two_spec (n : Int) :
    (0 ≤ n → 2 * Int.tdiv n 2 ≤ n ∧ n ≤ 2 * Int.tdiv n 2 + 1)
    ∧ (n ≤ 0 → 2 * Int.tdiv n 2 - 1 ≤ n ∧ n ≤ 2 * Int.tdiv n 2) := by
  constructor
  · intro h
    rw [Int.tdiv_eq_ediv h (by norm_num)]
    omega
  · intro h
    have h1 : Int.tdiv n 2 = -Int.tdiv (-n) 2 := by
      rw [Int.neg_tdiv, neg_neg]
    rw [h1, Int.tdiv_eq_ediv (by omega) (by norm_num)]
    omega

theorem findIndex_found (count l : Nat) (num : Int) (h : l < count) :
    findIndex count (some l) num = l := by
  unfold findIndex
  induction count with
  | zero => omega
  | succ n ih =>
    rw [List.range_succ, List.foldl_append]
    simp only [List.foldl_cons, List.foldl_nil, Option.some.injEq]
    by_cases hl : l = n
    · rw [if_pos hl, hl]
    · rw [if_neg hl]
      have hlt : l < n := by omega
      simpa only [Option.some.injEq] using ih hlt

section BuildFacts
variable {F : Type} [LinearOrderedField F] [FloorRing F]

theorem lineSide_cases (m : MathLib F) (a1 a2 : F) :
    lineSide m a1 a2 = SIDE_LEFT ∨ lineSide m a1 a2 = SIDE_RIGHT := by
  unfold lineSide
  simp only []
  split_ifs
  · exact Or.inl rfl
  · exact Or.inr rfl
  · exact Or.inl rfl
  · exact Or.inr rfl

theorem lineAngles_side (m : MathLib F) (doc : Doc) (view : View F) (ld : LineDef)
    (side : Int) (sd : Nat) (a1 a2 : F)
    (h : lineAngles m doc view ld = some (side, sd, a1, a2)) :
    (side = SIDE_LEFT ∧ ld.Left = some sd) ∨ (side = SIDE_RIGHT ∧ ld.Right = some sd) := by
  unfold lineAngles at h
  split_ifs at h
  simp only [] at h
  rcases lineSide_cases m
      (PointToAngle m (lineEnds doc view ld).1 (lineEnds doc view ld).2.1)
      (PointToAngle m (lineEnds doc view ld).2.2.1 (lineEnds doc view ld).2.2.2) with hs | hs
  · rw [hs] at h
    simp only [if_true] at h
    split at h
    · exact absurd h (by simp)
    · rename_i sd0 hsd
      simp only [Option.some.injEq, Prod.mk.injEq] at h
      exact Or.inl ⟨h.1.symm, by rw [← h.2.1]; exact hsd⟩
  · rw [hs] at h
    have n3 : ¬ (SIDE_RIGHT = SIDE_LEFT) := by decide
    simp only [n3, if_false] at h
    split at h
    · exact absurd h (by simp)
    · rename_i sd0 hsd
      simp only [Option.some.injEq, Prod.mk.injEq] at h
      exact Or.inr ⟨h.1.symm, by rw [← h.2.1]; exact hsd⟩

theorem AddLine_wall_built (m : MathLib F) (doc : Doc) (view : View F) (r : RendInfo F)
    (i : Nat) (dw : DrawWall F) (hi : i < doc.LineDefs.size)
    (h : AddLine_wall m doc view r i = some dw) : WallBuilt doc view dw := by
  obtain ⟨⟨a1, a2, hs1, -⟩, -, -, hth, hld⟩ := AddLine_wall_some m doc view r i dw h
  intro l hl
  rw [hld] at hl
  have hli : i = l := Option.some.inj hl
  subst hli
  refine ⟨hth, hi, ?_, ?_, ?_⟩
  · unfold AddLine_wall at h
    split at h
    · exact absurd h (by simp)
    · split at h
      · exact absurd h (by simp)
      · simp only [] at h
        split_ifs at h
        simp only [Option.some.injEq] at h
        subst h
        rfl
  · intro hleft
    unfold AddLine_wall at h
    split at h
    · exact absurd h (by simp)
    · rename_i side sd b1 b2 hla
      split at h
      · exact absurd h (by simp)
      · simp only [] at h
        split_ifs at h
        simp only [Option.some.injEq] at h
        subst h
        rcases lineAngles_side m doc view _ side sd b1 b2 hla with ⟨-, hl2⟩ | ⟨hr, -⟩
        · rw [hleft] at hl2
          exact absurd hl2 (by simp)
        · exact hr
  · intro hw
    rw [hs1]
    exact (AngleToX_bounds m view a1 hw).1

theorem AddThing_wall_built (X : Ext F) (doc : Doc) (view : View F) (r : RendInfo F)
    (k : Nat) (dw : DrawWall F) (h : AddThing_wall X doc view r k = some dw) :
    WallBuilt doc view dw := by
  obtain ⟨-, -, -, -, hld, -⟩ := AddThing_wall_some X doc view r k dw h
  intro l hl
  rw [hld] at hl
  exact absurd hl (by simp)

/-- A renderer state whose entity list names every object of the heap in
order of creation, all of them well built. -/
theorem push_built (doc : Doc) (view : View F) (r : RendInfo F) (dw : DrawWall F)
    (hw : r.walls = List.range r.heap.size)
    (hb : ∀ j, j < r.heap.size → WallBuilt doc view (r.heap.getD j default))
    (hdw : WallBuilt doc view dw) :
    (r.push dw).walls = List.range (r.push dw).heap.size
    ∧ ∀ j, j < (r.push dw).heap.size → WallBuilt doc view ((r.push dw).heap.getD j default) := by
  constructor
  · simp only [RendInfo.push, Array.size_push, List.range_succ, hw]
  · intro j hj
    simp only [RendInfo.push, Array.size_push] at hj ⊢
    by_cases hlt : j < r.heap.size
    · rw [getD_push_lt _ _ _ _ hlt]
      exact hb j hlt
    · have hjs : j = r.heap.size := by omega
      rw [hjs, getD_push_size]
      exact hdw

theorem foldl_AddLine_built (m : MathLib F) (doc : Doc) (view : View F) :
    ∀ (l : List Nat) (r : RendInfo F), (∀ i ∈ l, i < doc.LineDefs.size) →
      r.walls = List.range r.heap.size →
      (∀ j, j < r.heap.size → WallBuilt doc view (r.heap.getD j default)) →
      (l.foldl (AddLine m doc view) r).walls = List.range (l.foldl (AddLine m doc view) r).heap.size
      ∧ (∀ j, j < (l.foldl (AddLine m doc view) r).heap.size →
          WallBuilt doc view ((l.foldl (AddLine m doc view) r).heap.getD j default))
      ∧ (l.foldl (AddLine m doc view) r).query_mode = r.query_mode
      ∧ (l.foldl (AddLine m doc view) r).query_sx = r.query_sx
      ∧ (l.foldl (AddLine m doc view) r).query_sy = r.query_sy
      ∧ (l.foldl (AddLine m doc view) r).query_wall = r.query_wall
      ∧ (l.foldl (AddLine m doc view) r).depth_x = r.depth_x
      ∧ (l.foldl (AddLine m doc view) r).active = r.active := by
  intro l
  induction l with
  | nil =>
    intro r _ hw hb
    exact ⟨hw, hb, rfl, rfl, rfl, rfl, rfl, rfl⟩
  | cons i rest ih =>
    intro r hl hw hb
    simp only [List.foldl_cons]
    have hstep : (AddLine m doc view r i).walls = List.range (AddLine m doc view r i).heap.size
        ∧ (∀ j, j < (AddLine m doc view r i).heap.size →
            WallBuilt doc view ((AddLine m doc view r i).heap.getD j default))
        ∧ (AddLine m doc view r i).query_mode = r.query_mode
        ∧ (AddLine m doc view r i).query_sx = r.query_sx
        ∧ (AddLine m doc view r i).query_sy = r.query_sy
        ∧ (AddLine m doc view r i).query_wall = r.query_wall
        ∧ (AddLine m doc view r i).depth_x = r.depth_x
        ∧ (AddLine m doc view r i).active = r.active := by
      unfold AddLine
      cases hw0 : AddLine_wall m doc view r i with
      | none => exact ⟨hw, hb, rfl, rfl, rfl, rfl, rfl, rfl⟩
      | some dw =>
        have hdw := AddLine_wall_built m doc view r i dw (hl i (List.mem_cons_self _ _)) hw0
        obtain ⟨p1, p2⟩ := push_built doc view r dw hw hb hdw
        exact ⟨p1, p2, rfl, rfl, rfl, rfl, rfl, rfl⟩
    obtain ⟨s1, s2, s3, s4, s5, s6, s7, s8⟩ := hstep
    obtain ⟨g1, g2, g3, g4, g5, g6, g7, g8⟩ :=
      ih (AddLine m doc view r i) (fun k hk => hl k (List.mem_cons_of_mem _ hk)) s1 s2
    exact ⟨g1, g2, g3.trans s3, g4.trans s4, g5.trans s5, g6.trans s6, g7.trans s7, g8.trans s8⟩

theorem foldl_AddThing_built (X : Ext F) (doc : Doc) (view : View F) :
    ∀ (l : List Nat) (r : RendInfo F),
      r.walls = List.range r.heap.size →
      (∀ j, j < r.heap.size → WallBuilt doc view (r.heap.getD j default)) →
      (l.foldl (AddThing X doc view) r).walls
          = List.range (l.foldl (AddThing X doc view) r).heap.size
      ∧ (∀ j, j < (l.foldl (AddThing X doc view) r).heap.size →
          WallBuilt doc view ((l.foldl (AddThing X doc view) r).heap.getD j default))
      ∧ (l.foldl (AddThing X doc view) r).query_mode = r.query_mode
      ∧ (l.foldl (AddThing X doc view) r).query_sx = r.query_sx
      ∧ (l.foldl (AddThing X doc view) r).query_sy = r.query_sy
      ∧ (l.foldl (AddThing X doc view) r).query_wall = r.query_wall
      ∧ (l.foldl (AddThing X doc view) r).depth_x = r.depth_x
      ∧ (l.foldl (AddThing X doc view) r).active = r.active := by
  intro l
  induction l with
  | nil =>
    intro r hw hb
    exact ⟨hw, hb, rfl, rfl, rfl, rfl, rfl, rfl⟩
  | cons i rest ih =>
    intro r hw hb
    simp only [List.foldl_cons]
    have hstep : (AddThing X doc view r i).walls = List.range (AddThing X doc view r i).heap.size
        ∧ (∀ j, j < (AddThing X doc view r i).heap.size →
            WallBuilt doc view ((AddThing X doc view r i).heap.getD j default))
        ∧ (AddThing X doc view r i).query_mode = r.query_mode
        ∧ (AddThing X doc view r i).query_sx = r.query_sx
        ∧ (AddThing X doc view r i).query_sy = r.query_sy
        ∧ (AddThing X doc view r i).query_wall = r.query_wall
        ∧ (AddThing X doc view r i).depth_x = r.depth_x
        ∧ (AddThing X doc view r i).active = r.active := by
      unfold AddThing
      cases hw0 : AddThing_wall X doc view r i with
      | none => exact ⟨hw, hb, rfl, rfl, rfl, rfl, rfl, rfl⟩
      | some dw =>
        have hdw := AddThing_wall_built X doc view r i dw hw0
        obtain ⟨p1, p2⟩ := push_built doc view r dw hw hb hdw
        exact ⟨p1, p2, rfl, rfl, rfl, rfl, rfl, rfl⟩
    obtain ⟨s1, s2, s3, s4, s5, s6, s7, s8⟩ := hstep
    obtain ⟨g1, g2, g3, g4, g5, g6, g7, g8⟩ := ih (AddThing X doc view r i) s1 s2
    exact ⟨g1, g2, g3.trans s3, g4.trans s4, g5.trans s5, g6.trans s6, g7.trans s7, g8.trans s8⟩

/-- The entity list built by `Render` on a state without entities: the
pointers are `0, 1, ...` in order of creation, every entity is well built, and
the query fields, the depth buffer and the active list are untouched. -/
theorem addEntities_built (m : MathLib F) (X : Ext F) (doc : Doc) (view : View F)
    (r : RendInfo F) (hw : r.walls = []) (hh : r.heap = #[]) :
    (addEntities m X doc view r).walls = List.range (addEntities m X doc view r).heap.size
    ∧ (∀ j, j < (addEntities m X doc view r).heap.size →
        WallBuilt doc view ((addEntities m X doc view r).heap.getD j default))
    ∧ (addEntities m X doc view r).query_mode = r.query_mode
    ∧ (addEntities m X doc view r).query_sx = r.query_sx
    ∧ (addEntities m X doc view r).query_sy = r.query_sy
    ∧ (addEntities m X doc view r).query_wall = r.query_wall
    ∧ (addEntities m X doc view r).depth_x = r.depth_x
    ∧ (addEntities m X doc view r).active = r.active := by
  have h0 : r.walls = List.range r.heap.size := by rw [hw, hh]; rfl
  have hb0 : ∀ j, j < r.heap.size → WallBuilt doc view (r.heap.getD j default) := by
    intro j hj
    rw [hh] at hj
    exact absurd hj (by simp)
  obtain ⟨a1, a2, a3, a4, a5, a6, a7, a8⟩ := foldl_AddLine_built m doc view
    (List.range doc.LineDefs.size) r (fun i hi => List.mem_range.1 hi) h0 hb0
  unfold addEntities
  simp only []
  split_ifs
  · obtain ⟨b1, b2, b3, b4, b5, b6, b7, b8⟩ := foldl_AddThing_built X doc view
      (List.range doc.Things.size) _ a1 a2
    exact ⟨b1, b2, b3.trans a3, b4.trans a4, b5.trans a5, b6.trans a6, b7.trans a7, b8.trans a8⟩
  · exact ⟨a1, a2, a3, a4, a5, a6, a7, a8⟩

end BuildFacts

section QueryFacts
variable {F : Type} [LinearOrderedField F] [FloorRing F]

/-- In query mode `RenderWallSurface` paints nothing: it narrows the open
window and records the wall part when the query row lies in the clipped band. -/
theorem RenderWallSurface_query (m : MathLib F) (X : Ext F) (doc : Doc) (view : View F)
    (r : RendInfo F) (p : Nat) (surf : DrawSurf) (x : Int) (part : obj3d_type_e)
    (hq : r.query_mode ≠ 0) (hk : surf.kind ≠ SurfKind.K_INVIS) (y1 y2 : Int)
    (hy1 : y1 = if DistToY view (r.heap.getD p default).cur_iz surf.h2 < r.open_y1 then r.open_y1
                else DistToY view (r.heap.getD p default).cur_iz surf.h2)
    (hy2 : y2 = if DistToY view (r.heap.getD p default).cur_iz surf.h1 - 1 > r.open_y2
                then r.open_y2 else DistToY view (r.heap.getD p default).cur_iz surf.h1 - 1) :
    RenderWallSurface m X doc view r p surf x part
      = { r with
          open_y1 := if Int.land surf.y_clip SOLID_ABOVE ≠ 0 then MAX r.open_y1 (y2 + 1)
                     else r.open_y1
          open_y2 := if Int.land surf.y_clip SOLID_BELOW ≠ 0 then MIN r.open_y2 (y1 - 1)
                     else r.open_y2
          query_wall := if y1 ≤ y2 ∧ y1 ≤ r.query_sy ∧ r.query_sy ≤ y2 then some p
                        else r.query_wall
          query_part := if y1 ≤ y2 ∧ y1 ≤ r.query_sy ∧ r.query_sy ≤ y2 then part
                        else r.query_part } := by
  unfold RenderWallSurface
  simp only [hk, if_false, ← hy1, ← hy2]
  by_cases h12 : y1 > y2
  · have hn : ¬ (y1 ≤ y2 ∧ y1 ≤ r.query_sy ∧ r.query_sy ≤ y2) := by
      intro h
      omega
    simp only [h12, if_true, hn, if_false]
  · simp only [h12, if_false, hq, ne_eq, not_false_eq_true, if_true]
    by_cases hit : y1 ≤ r.query_sy ∧ r.query_sy ≤ y2
    · have hy : y1 ≤ y2 ∧ y1 ≤ r.query_sy ∧ r.query_sy ≤ y2 := ⟨by omega, hit.1, hit.2⟩
      simp only [hit, and_self, if_true, hy]
    · have hn : ¬ (y1 ≤ y2 ∧ y1 ≤ r.query_sy ∧ r.query_sy ≤ y2) := fun h => hit ⟨h.2.1, h.2.2⟩
      simp only [hit, if_false, and_false]

/-- The fields of the state after `RenderWallSurface` in query mode. -/
theorem RenderWallSurface_query_fields (m : MathLib F) (X : Ext F) (doc : Doc) (view : View F)
    (r : RendInfo F) (p : Nat) (surf : DrawSurf) (x : Int) (part : obj3d_type_e)
    (hq : r.query_mode ≠ 0) (hk : surf.kind ≠ SurfKind.K_INVIS) (d1 d2 y1 y2 : Int)
    (hd1 : DistToY view (r.heap.getD p default).cur_iz surf.h2 = d1)
    (hd2 : DistToY view (r.heap.getD p default).cur_iz surf.h1 = d2)
    (hy1 : y1 = if d1 < r.open_y1 then r.open_y1 else d1)
    (hy2 : y2 = if d2 - 1 > r.open_y2 then r.open_y2 else d2 - 1) :
    (RenderWallSurface m X doc view r p surf x part).heap = r.heap
    ∧ (RenderWallSurface m X doc view r p surf x part).walls = r.walls
    ∧ (RenderWallSurface m X doc view r p surf x part).active = r.active
    ∧ (RenderWallSurface m X doc view r p surf x part).query_mode = r.query_mode
    ∧ (RenderWallSurface m X doc view r p surf x part).query_sx = r.query_sx
    ∧ (RenderWallSurface m X doc view r p surf x part).query_sy = r.query_sy
    ∧ (RenderWallSurface m X doc view r p surf x part).open_y1
        = (if Int.land surf.y_clip SOLID_ABOVE ≠ 0 then MAX r.open_y1 (y2 + 1) else r.open_y1)
    ∧ (RenderWallSurface m X doc view r p surf x part).open_y2
        = (if Int.land surf.y_clip SOLID_BELOW ≠ 0 then MIN r.open_y2 (y1 - 1) else r.open_y2)
    ∧ (RenderWallSurface m X doc view r p surf x part).query_wall
        = (if y1 ≤ y2 ∧ y1 ≤ r.query_sy ∧ r.query_sy ≤ y2 then some p else r.query_wall)
    ∧ (RenderWallSurface m X doc view r p surf x part).query_part
        = (if y1 ≤ y2 ∧ y1 ≤ r.query_sy ∧ r.query_sy ≤ y2 then part else r.query_part) := by
  subst hd1 hd2
  rw [RenderWallSurface_query m X doc view r p surf x part hq hk y1 y2 hy1 hy2]
  exact ⟨rfl, rfl, rfl, rfl, rfl, rfl, rfl, rfl, rfl, rfl⟩

theorem RenderWallSurface_invis (m : MathLib F) (X : Ext F) (doc : Doc) (view : View F)
    (r : RendInfo F) (p : Nat) (surf : DrawSurf) (x : Int) (part : obj3d_type_e)
    (hk : surf.kind = SurfKind.K_INVIS) :
    RenderWallSurface m X doc view r p surf x part = r := by
  unfold RenderWallSurface
  simp only [hk, if_true]

/-- The four bands of a one-sided wall in query mode, on the full window: when
the wall band `[a, b - 1]` contains the query row, the query records the wall
with its lower part. -/
theorem renderBands_query_lower (m : MathLib F) (X : Ext F) (doc : Doc) (view : View F)
    (r : RendInfo F) (p : Nat) (x a b hc hf : Int)
    (hq : r.query_mode ≠ 0)
    (ho1 : r.open_y1 = 0) (ho2 : r.open_y2 = view.screen_h - 1)
    (hck : (r.heap.getD p default).ceil.kind = SurfKind.K_FLAT)
    (hc1 : (r.heap.getD p default).ceil.h1 = hc)
    (hc2 : (r.heap.getD p default).ceil.h2 = 99999)
    (hcy : (r.heap.getD p default).ceil.y_clip = SOLID_ABOVE)
    (hfk : (r.heap.getD p default).floor.kind = SurfKind.K_FLAT)
    (hf1 : (r.heap.getD p default).floor.h1 = -99999)
    (hf2 : (r.heap.getD p default).floor.h2 = hf)
    (hfy : (r.heap.getD p default).floor.y_clip = SOLID_BELOW)
    (huk : (r.heap.getD p default).upper.kind = SurfKind.K_INVIS)
    (hlk : (r.heap.getD p default).lower.kind = SurfKind.K_TEXTURE)
    (hl1 : (r.heap.getD p default).lower.h1 = hf)
    (hl2 : (r.heap.getD p default).lower.h2 = hc)
    (ha : DistToY view (r.heap.getD p default).cur_iz hc = a)
    (hb : DistToY view (r.heap.getD p default).cur_iz hf = b)
    (h1 : a ≤ r.query_sy) (h2 : r.query_sy + 1 ≤ b) (h3 : 0 ≤ r.query_sy)
    (h4 : r.query_sy ≤ view.screen_h - 1) :
    (renderBands m X doc view r p x).query_wall = some p
    ∧ (renderBands m X doc view r p x).query_part = obj3d_type_e.OB3D_Lower
    ∧ (renderBands m X doc view r p x).heap = r.heap
    ∧ (renderBands m X doc view r p x).walls = r.walls
    ∧ (renderBands m X doc view r p x).active = r.active
    ∧ (renderBands m X doc view r p x).query_mode = r.query_mode
    ∧ (renderBands m X doc view r p x).query_sx = r.query_sx
    ∧ (renderBands m X doc view r p x).query_sy = r.query_sy := by
  have hhi : ∀ iz : F, DistToY view iz 99999 = -9999 := by
    intro iz
    unfold DistToY
    rw [if_pos (by decide)]
  have hlo : ∀ iz : F, DistToY view iz (-99999) = 9999 := by
    intro iz
    unfold DistToY
    rw [if_neg (by decide), if_pos (by decide)]
  have l11 : Int.land SOLID_ABOVE SOLID_ABOVE ≠ 0 := by decide
  have l12 : ¬ (Int.land SOLID_ABOVE SOLID_BELOW ≠ 0) := by decide
  have l21 : ¬ (Int.land SOLID_BELOW SOLID_ABOVE ≠ 0) := by decide
  have l22 : Int.land SOLID_BELOW SOLID_BELOW ≠ 0 := by decide
  -- the ceiling band
  obtain ⟨c1, c2, c3, c4, c5, c6, c7, c8, -, -⟩ :=
    RenderWallSurface_query_fields m X doc view r p (r.heap.getD p default).ceil x
      obj3d_type_e.OB3D_Ceil hq (by rw [hck]; decide) (-9999) a _ _
      (by rw [hc2]; exact hhi _) (by rw [hc1]; exact ha) rfl rfl
  rw [hcy, if_pos l11, ho1, ho2] at c7
  rw [hcy, if_neg l12, ho2] at c8
  -- the floor band
  have hq1 : (RenderWallSurface m X doc view r p (r.heap.getD p default).ceil x
      obj3d_type_e.OB3D_Ceil).query_mode ≠ 0 := by rw [c4]; exact hq
  obtain ⟨f1, f2, f3, f4, f5, f6, f7, f8, -, -⟩ :=
    RenderWallSurface_query_fields m X doc view _ p (r.heap.getD p default).floor x
      obj3d_type_e.OB3D_Floor hq1 (by rw [hfk]; decide) b 9999 _ _
      (by rw [c1, hf2]; exact hb) (by rw [c1, hf1]; exact hlo _) rfl rfl
  rw [hfy, if_neg l21, c7] at f7
  rw [hfy, if_pos l22, c8, c7] at f8
  -- the lower band
  have hq2 : (RenderWallSurface m X doc view
      (RenderWallSurface m X doc view r p (r.heap.getD p default).ceil x obj3d_type_e.OB3D_Ceil)
      p (r.heap.getD p default).floor x obj3d_type_e.OB3D_Floor).query_mode ≠ 0 := by
    rw [f4]; exact hq1
  obtain ⟨g1, g2, g3, g4, g5, g6, -, -, g9, g10⟩ :=
    RenderWallSurface_query_fields m X doc view _ p (r.heap.getD p default).lower x
      obj3d_type_e.OB3D_Lower hq2 (by rw [hlk]; decide) a b _ _
      (by rw [f1, c1, hl2]; exact ha) (by rw [f1, c1, hl1]; exact hb) rfl rfl
  rw [f7, f8, f6, c6] at g9 g10
  have hit : ((if a < MAX 0 ((if a - 1 > view.screen_h - 1 then view.screen_h - 1 else a - 1) + 1)
        then MAX 0 ((if a - 1 > view.screen_h - 1 then view.screen_h - 1 else a - 1) + 1) else a)
      ≤ (if b - 1 > MIN (view.screen_h - 1)
          ((if b < MAX 0 ((if a - 1 > view.screen_h - 1 then view.screen_h - 1 else a - 1) + 1)
            then MAX 0 ((if a - 1 > view.screen_h - 1 then view.screen_h - 1 else a - 1) + 1)
            else b) - 1)
         then MIN (view.screen_h - 1)
          ((if b < MAX 0 ((if a - 1 > view.screen_h - 1 then view.screen_h - 1 else a - 1) + 1)
            then MAX 0 ((if a - 1 > view.screen_h - 1 then view.screen_h - 1 else a - 1) + 1)
            else b) - 1)
         else b - 1))
      ∧ (if a < MAX 0 ((if a - 1 > view.screen_h - 1 then view.screen_h - 1 else a - 1) + 1)
        then MAX 0 ((if a - 1 > view.screen_h - 1 then view.screen_h - 1 else a - 1) + 1) else a)
        ≤ r.query_sy
      ∧ r.query_sy ≤ (if b - 1 > MIN (view.screen_h - 1)
          ((if b < MAX 0 ((if a - 1 > view.screen_h - 1 then view.screen_h - 1 else a - 1) + 1)
            then MAX 0 ((if a - 1 > view.screen_h - 1 then view.screen_h - 1 else a - 1) + 1)
            else b) - 1)
         then MIN (view.screen_h - 1)
          ((if b < MAX 0 ((if a - 1 > view.screen_h - 1 then view.screen_h - 1 else a - 1) + 1)
            then MAX 0 ((if a - 1 > view.screen_h - 1 then view.screen_h - 1 else a - 1) + 1)
            else b) - 1)
         else b - 1) := by
    simp only [MAX, MIN]
    split_ifs <;> omega
  rw [if_pos hit] at g9 g10
  have hr : renderBands m X doc view r p x
      = RenderWallSurface m X doc view
          (RenderWallSurface m X doc view
            (RenderWallSurface m X doc view r p (r.heap.getD p default).ceil x
              obj3d_type_e.OB3D_Ceil)
            p (r.heap.getD p default).floor x obj3d_type_e.OB3D_Floor)
          p (r.heap.getD p default).lower x obj3d_type_e.OB3D_Lower := by
    unfold renderBands
    simp only [c1, f1]
    rw [RenderWallSurface_invis m X doc view _ p _ x _ huk]
    rw [f1, c1]
  rw [hr]
  exact ⟨g9, g10, by rw [g1, f1, c1], by rw [g2, f2, c2], by rw [g3, f3, c3],
    by rw [g4, f4, c4], by rw [g5, f5, c5], by rw [g6, f6, c6]⟩

end QueryFacts

section SurfaceGeometry
variable {F : Type} [LinearOrderedField F]

theorem FindFlat_geometry (X : Ext F) (view : View F) (s : DrawSurf) (n : String) :
    (s.FindFlat X view n).kind = s.kind ∧ (s.FindFlat X view n).h1 = s.h1
    ∧ (s.FindFlat X view n).h2 = s.h2 ∧ (s.FindFlat X view n).y_clip = s.y_clip := by
  unfold DrawSurf.FindFlat
  simp only []
  split_ifs
  · exact ⟨rfl, rfl, rfl, rfl⟩
  · split <;> exact ⟨rfl, rfl, rfl, rfl⟩
  · exact ⟨rfl, rfl, rfl, rfl⟩
  · exact ⟨rfl, rfl, rfl, rfl⟩

theorem FindTex_geometry (X : Ext F) (view : View F) (s : DrawSurf) (n : String) :
    (s.FindTex X view n).kind = s.kind ∧ (s.FindTex X view n).h1 = s.h1
    ∧ (s.FindTex X view n).h2 = s.h2 ∧ (s.FindTex X view n).y_clip = s.y_clip := by
  unfold DrawSurf.FindTex
  simp only []
  split_ifs
  · exact ⟨rfl, rfl, rfl, rfl⟩
  · split <;> exact ⟨rfl, rfl, rfl, rfl⟩
  · exact ⟨rfl, rfl, rfl, rfl⟩
  · exact ⟨rfl, rfl, rfl, rfl⟩

/-- The surfaces of a one-sided wall whose sector has its floor below and its
ceiling above the camera. -/
theorem ComputeWallSurface_one_sided (X : Ext F) (doc : Doc) (view : View F) (dw : DrawWall F)
    (c : Nat) (hback : backSector doc dw = none) (hsec : dw.sec = some c)
    (hceil : ((doc.sector c).ceilh : F) > view.z) (hfloor : ((doc.sector c).floorh : F) < view.z) :
    (ComputeWallSurface X doc view dw).ceil.kind = SurfKind.K_FLAT
    ∧ (ComputeWallSurface X doc view dw).ceil.h1 = (doc.sector c).ceilh
    ∧ (ComputeWallSurface X doc view dw).ceil.h2 = 99999
    ∧ (ComputeWallSurface X doc view dw).ceil.y_clip = SOLID_ABOVE
    ∧ (ComputeWallSurface X doc view dw).floor.kind = SurfKind.K_FLAT
    ∧ (ComputeWallSurface X doc view dw).floor.h1 = -99999
    ∧ (ComputeWallSurface X doc view dw).floor.h2 = (doc.sector c).floorh
    ∧ (ComputeWallSurface X doc view dw).floor.y_clip = SOLID_BELOW
    ∧ (ComputeWallSurface X doc view dw).upper = dw.upper
    ∧ (ComputeWallSurface X doc view dw).lower.kind = SurfKind.K_TEXTURE
    ∧ (ComputeWallSurface X doc view dw).lower.h1 = (doc.sector c).floorh
    ∧ (ComputeWallSurface X doc view dw).lower.h2 = (doc.sector c).ceilh
    ∧ (ComputeWallSurface X doc view dw).th = dw.th
    ∧ (ComputeWallSurface X doc view dw).ld = dw.ld
    ∧ (ComputeWallSurface X doc view dw).side = dw.side
    ∧ (ComputeWallSurface X doc view dw).sx1 = dw.sx1
    ∧ (ComputeWallSurface X doc view dw).sx2 = dw.sx2
    ∧ (ComputeWallSurface X doc view dw).iz1 = dw.iz1
    ∧ (ComputeWallSurface X doc view dw).diz = dw.diz := by
  have hsky : skyUpper X doc dw = false := by
    simp [skyUpper, hback]
  have hself : selfRef doc dw = false := by
    simp [selfRef, hback, hsec]
  have hc0 : dw.sec.getD 0 = c := by rw [hsec]; rfl
  have hcs : (ceilSurf X doc view dw).kind = SurfKind.K_FLAT
      ∧ (ceilSurf X doc view dw).h1 = (doc.sector c).ceilh
      ∧ (ceilSurf X doc view dw).h2 = 99999
      ∧ (ceilSurf X doc view dw).y_clip = SOLID_ABOVE := by
    unfold ceilSurf
    simp only [hc0, hsky, hself, Bool.false_eq_true, not_false_eq_true, and_true]
    rw [if_pos (Or.inl hceil)]
    exact FindFlat_geometry X view _ _
  have hfs : (floorSurf X doc view dw).kind = SurfKind.K_FLAT
      ∧ (floorSurf X doc view dw).h1 = -99999
      ∧ (floorSurf X doc view dw).h2 = (doc.sector c).floorh
      ∧ (floorSurf X doc view dw).y_clip = SOLID_BELOW := by
    unfold floorSurf
    simp only [hc0, hself, Bool.false_eq_true, not_false_eq_true, and_true]
    rw [if_pos hfloor]
    exact FindFlat_geometry X view _ _
  have hls : (lowerOneSided X doc view dw).kind = SurfKind.K_TEXTURE
      ∧ (lowerOneSided X doc view dw).h1 = (doc.sector c).floorh
      ∧ (lowerOneSided X doc view dw).h2 = (doc.sector c).ceilh := by
    unfold lowerOneSided
    simp only [hc0]
    obtain ⟨g1, g2, g3, -⟩ := FindTex_geometry X view
      { dw.lower with kind := SurfKind.K_TEXTURE, h1 := (doc.sector c).floorh
                      h2 := (doc.sector c).ceilh, y_clip := Int.lor SOLID_ABOVE SOLID_BELOW }
      ((doc.sideDef (dw.sd.getD 0)).MidTex X)
    exact ⟨g1, g2, g3⟩
  have hE : ComputeWallSurface X doc view dw
      = { dw with ceil := ceilSurf X doc view dw, floor := floorSurf X doc view dw
                  lower := lowerOneSided X doc view dw } := by
    unfold ComputeWallSurface
    rw [hback]
  rw [hE]
  exact ⟨hcs.1, hcs.2.1, hcs.2.2.1, hcs.2.2.2, hfs.1, hfs.2.1, hfs.2.2.1, hfs.2.2.2, rfl,
    hls.1, hls.2.1, hls.2.2, rfl, rfl, rfl, rfl, rfl, rfl, rfl⟩

end SurfaceGeometry

section ColumnFacts
variable {F : Type} [LinearOrderedField F] [FloorRing F]

theorem sameEntity_refl (E : DrawWall F) : sameEntity E E := ⟨E.cur_iz, E.oy1, E.oy2, rfl⟩

theorem sameEntity_cur_iz (e E : DrawWall F) (c : F) (h : sameEntity e E) :
    sameEntity { e with cur_iz := c } E := by
  obtain ⟨c0, o1, o2, he⟩ := h
  exact ⟨c, o1, o2, by rw [he]⟩

theorem sameEntity_oy (e E : DrawWall F) (o1 o2 : Int) (h : sameEntity e E) :
    sameEntity { e with oy1 := o1, oy2 := o2 } E := by
  obtain ⟨c0, p1, p2, he⟩ := h
  exact ⟨c0, o1, o2, by rw [he]⟩

theorem depthStep_static (x : Int) (s : Array (DrawWall F) × Bool × Option Nat) (p : Nat) :
    (depthStep x s p).1.size = s.1.size
    ∧ ∀ j, ∃ c : F, (depthStep x s p).1.getD j default = { s.1.getD j default with cur_iz := c } := by
  have h1 : (depthStep x s p).1
      = s.1.setD p { s.1.getD p default with cur_iz := izAt (s.1.getD p default) x } := rfl
  rw [h1]
  refine ⟨size_setD _ _ _, ?_⟩
  intro j
  by_cases hj : p = j
  · subst hj
    by_cases hp : p < s.1.size
    · rw [getD_setD_self _ _ _ _ hp]
      exact ⟨_, rfl⟩
    · have : s.1.setD p { s.1.getD p default with
          cur_iz := izAt (s.1.getD p default) x } = s.1 := by
        unfold Array.setD
        rw [dif_neg hp]
      rw [this]
      exact ⟨(s.1.getD p default).cur_iz, rfl⟩
  · rw [getD_setD_ne _ _ _ _ _ hj]
    exact ⟨(s.1.getD j default).cur_iz, rfl⟩

/-- The depth loop of `UpdateActiveList` keeps the size of the heap and, in
every entity, all fields but `cur_iz`. -/
theorem depthLoop_static (x : Int) :
    ∀ (act : List Nat) (s : Array (DrawWall F) × Bool × Option Nat),
      (depthLoop x act s).1.size = s.1.size
      ∧ ∀ j, ∃ c : F, (depthLoop x act s).1.getD j default
          = { s.1.getD j default with cur_iz := c } := by
  intro act
  induction act with
  | nil =>
    intro s
    exact ⟨rfl, fun j => ⟨(s.1.getD j default).cur_iz, rfl⟩⟩
  | cons p rest ih =>
    intro s
    unfold depthLoop at ih ⊢
    rw [List.foldl_cons]
    obtain ⟨h1, h2⟩ := ih (depthStep x s p)
    obtain ⟨g1, g2⟩ := depthStep_static x s p
    refine ⟨h1.trans g1, ?_⟩
    intro j
    obtain ⟨c, hc⟩ := h2 j
    obtain ⟨c', hc'⟩ := g2 j
    rw [hc, hc']
    exact ⟨c, rfl⟩

/-- The fields that `UpdateActiveList` leaves alone. -/
theorem UpdateActiveList_fields (X : Ext F) (doc : Doc) (view : View F) (r : RendInfo F)
    (x : Int) :
    (UpdateActiveList X doc view r x).walls = r.walls
    ∧ (UpdateActiveList X doc view r x).query_mode = r.query_mode
    ∧ (UpdateActiveList X doc view r x).query_sx = r.query_sx
    ∧ (UpdateActiveList X doc view r x).query_sy = r.query_sy
    ∧ (UpdateActiveList X doc view r x).query_wall = r.query_wall
    ∧ (UpdateActiveList X doc view r x).query_part = r.query_part
    ∧ (UpdateActiveList X doc view r x).open_y1 = r.open_y1
    ∧ (UpdateActiveList X doc view r x).open_y2 = r.open_y2
    ∧ (UpdateActiveList X doc view r x).heap.size = r.heap.size
    ∧ ∀ j, ∃ c : F, (UpdateActiveList X doc view r x).heap.getD j default
        = { r.heap.getD j default with cur_iz := c } := by
  unfold UpdateActiveList
  simp only []
  split_ifs
  · exact ⟨rfl, rfl, rfl, rfl, rfl, rfl, rfl, rfl, (depthLoop_static x _ _).1,
      (depthLoop_static x _ _).2⟩
  · exact ⟨rfl, rfl, rfl, rfl, rfl, rfl, rfl, rfl, (depthLoop_static x _ _).1,
      (depthLoop_static x _ _).2⟩

/-- `UpdateActiveList` while the sweep approaches or crosses the single entity
of the list: the entity is active from its first column on, with its depth
for the column. -/
theorem UpdateActiveList_single (X : Ext F) (doc : Doc) (view : View F) (r : RendInfo F)
    (x : Int) (p : Nat) (hw : r.walls = [p]) (hp : p < r.heap.size)
    (hx : x ≤ (r.heap.getD p default).sx2)
    (ha : r.active = if (r.heap.getD p default).sx1 < x then [p] else []) :
    (UpdateActiveList X doc view r x).active
        = (if (r.heap.getD p default).sx1 < x + 1 then [p] else [])
    ∧ ((r.heap.getD p default).sx1 ≤ x →
        (UpdateActiveList X doc view r x).heap.getD p default
          = { r.heap.getD p default with cur_iz := izAt (r.heap.getD p default) x }) := by
  have hnx : ¬ ((r.heap.getD p default).sx2 < x) := by omega
  have hsort : ∀ cl : Nat → Nat → Bool, SortActiveList cl [p] = [p] := by
    intro cl
    simp [SortActiveList]
  have hstep : ∀ ch : Bool, depthLoop x [p] (r.heap, ch, none)
      = (r.heap.setD p { r.heap.getD p default with cur_iz := izAt (r.heap.getD p default) x },
          ch, some p) := by
    intro ch
    rfl
  unfold UpdateActiveList
  rcases lt_trichotomy (r.heap.getD p default).sx1 x with h | h | h
  · -- already active
    rw [if_pos h] at ha
    have h1 : (r.heap.getD p default).sx1 < x + 1 := by omega
    simp only [hw, ha, List.filter_cons, List.filter_nil, hnx, decide_False, Bool.not_false,
      if_true, List.dropWhile_cons, List.dropWhile_nil, h, decide_True, List.takeWhile_nil,
      List.append_nil, List.length_cons, List.length_nil, ne_eq, not_true_eq_false, Bool.or_false,
      hstep, Bool.false_eq_true, false_and, if_false, h1]
    exact ⟨trivial, fun _ => getD_setD_self _ _ _ _ hp⟩
  · -- starts in this column
    have h0 : ¬ ((r.heap.getD p default).sx1 < x) := by omega
    have h0' : ¬ (x < (r.heap.getD p default).sx1) := by omega
    rw [if_neg h0] at ha
    have h1 : (r.heap.getD p default).sx1 < x + 1 := by omega
    simp only [hw, ha, List.filter_nil, List.dropWhile_cons, h0, decide_False, Bool.false_eq_true,
      if_false, List.takeWhile_cons, h0', Bool.not_false, if_true, List.takeWhile_nil,
      List.nil_append, List.length_nil, ne_eq, not_true_eq_false, Bool.false_or, hstep,
      reduceCtorEq, not_false_eq_true, decide_True, List.length_cons, gt_iff_lt,
      Nat.lt_add_one, and_self, hsort, h1]
    exact ⟨trivial, fun _ => getD_setD_self _ _ _ _ hp⟩
  · -- not reached yet
    have h0 : ¬ ((r.heap.getD p default).sx1 < x) := by omega
    have h1 : ¬ ((r.heap.getD p default).sx1 < x + 1) := by omega
    have h2 : ¬ ((r.heap.getD p default).sx1 ≤ x) := by omega
    rw [if_neg h0] at ha
    simp only [hw, ha, List.filter_nil, List.dropWhile_cons, h0, decide_False, Bool.false_eq_true,
      if_false, List.takeWhile_cons, h, decide_True, Bool.not_true, List.append_nil,
      List.length_nil, ne_eq, not_true_eq_false, Bool.or_self, depthLoop, List.foldl_nil,
      false_and, h1, h2, false_implies, and_self, gt_iff_lt, lt_self_iff_false, and_false]

theorem sameEntity_static (e E : DrawWall F) (h : sameEntity e E) :
    e.sx1 = E.sx1 ∧ e.sx2 = E.sx2 ∧ e.iz1 = E.iz1 ∧ e.diz = E.diz ∧ e.th = E.th ∧ e.ld = E.ld
    ∧ e.side = E.side ∧ e.ceil = E.ceil ∧ e.floor = E.floor ∧ e.upper = E.upper
    ∧ e.lower = E.lower ∧ e.rail = E.rail := by
  obtain ⟨c, o1, o2, he⟩ := h
  rw [he]
  exact ⟨rfl, rfl, rfl, rfl, rfl, rfl, rfl, rfl, rfl, rfl, rfl, rfl⟩

theorem forRange_add {σ : Type} (f : Int → σ → σ) (a b : Nat) :
    ∀ (lo : Int) (s : σ),
      forRange lo (a + b) f s = forRange (lo + a) b f (forRange lo a f s) := by
  induction a with
  | zero =>
    intro lo s
    simp [forRange]
  | succ a ih =>
    intro lo s
    rw [Nat.succ_add]
    simp only [forRange]
    rw [ih]
    congr 1
    push_cast
    ring

theorem forRange_invariant {σ : Type} (f : Int → σ → σ) (P : Int → σ → Prop) (n : Nat) :
    ∀ (lo : Int) (s : σ),
      (∀ x t, lo ≤ x → x < lo + n → P x t → P (x + 1) (f x t)) → P lo s →
      P (lo + n) (forRange lo n f s) := by
  induction n with
  | zero =>
    intro lo s _ h0
    simpa [forRange] using h0
  | succ n ih =>
    intro lo s hstep h0
    simp only [forRange]
    have h1 := hstep lo s (le_refl _) (by push_cast; omega) h0
    have := ih (lo + 1) (f lo s)
      (fun x t hx1 hx2 hP => hstep x t (by omega) (by push_cast; omega) hP) h1
    rw [show lo + ((n + 1 : Nat) : Int) = lo + 1 + n by push_cast; ring]
    exact this

/-- In query mode a column other than the query column only updates the
active list. -/
theorem renderColumn_skip (m : MathLib F) (X : Ext F) (doc : Doc) (view : View F) (x : Int)
    (r : RendInfo F) (hq : r.query_mode ≠ 0) (hx : x ≠ r.query_sx) :
    renderColumn m X doc view x r
      = UpdateActiveList X doc view { r with open_y1 := 0, open_y2 := view.screen_h - 1 } x := by
  obtain ⟨-, h2, h3, -⟩ := UpdateActiveList_fields X doc view
    { r with open_y1 := 0, open_y2 := view.screen_h - 1 } x
  unfold renderColumn
  simp only []
  rw [if_pos]
  rw [h2, h3]
  exact ⟨hq, hx⟩

/-- A skipped column keeps the query state and the static part of every entity. -/
theorem renderColumn_skip_fields (m : MathLib F) (X : Ext F) (doc : Doc) (view : View F)
    (x : Int) (r : RendInfo F) (p : Nat) (E : DrawWall F)
    (hq : r.query_mode ≠ 0) (hx : x ≠ r.query_sx)
    (hE : sameEntity (r.heap.getD p default) E) :
    (renderColumn m X doc view x r).walls = r.walls
    ∧ (renderColumn m X doc view x r).query_mode = r.query_mode
    ∧ (renderColumn m X doc view x r).query_sx = r.query_sx
    ∧ (renderColumn m X doc view x r).query_sy = r.query_sy
    ∧ (renderColumn m X doc view x r).query_wall = r.query_wall
    ∧ (renderColumn m X doc view x r).query_part = r.query_part
    ∧ (renderColumn m X doc view x r).heap.size = r.heap.size
    ∧ sameEntity ((renderColumn m X doc view x r).heap.getD p default) E := by
  rw [renderColumn_skip m X doc view x r hq hx]
  obtain ⟨h1, h2, h3, h4, h5, h6, -, -, h9, h10⟩ := UpdateActiveList_fields X doc view
    { r with open_y1 := 0, open_y2 := view.screen_h - 1 } x
  refine ⟨h1, h2, h3, h4, h5, h6, h9, ?_⟩
  obtain ⟨c, hc⟩ := h10 p
  rw [hc]
  exact sameEntity_cur_iz _ E c hE

end ColumnFacts

section QueryColumn
variable {F : Type} [LinearOrderedField F] [FloorRing F]

theorem RenderMidMasker_query (m : MathLib F) (X : Ext F) (doc : Doc) (view : View F)
    (r : RendInfo F) (p : Nat) (surf : DrawSurf) (x : Int) (hq : r.query_mode ≠ 0) :
    RenderMidMasker m X doc view r p surf x = r := by
  unfold RenderMidMasker
  simp only [hq, ne_eq, not_false_eq_true, if_true]
  split_ifs <;> rfl

theorem izAt_sameEntity (e E : DrawWall F) (x : Int) (h : sameEntity e E) :
    izAt e x = izAt E x := by
  obtain ⟨h1, -, h3, h4, -⟩ := sameEntity_static e E h
  unfold izAt
  rw [h1, h3, h4]

/-- The query column, when the single entity of the list is a wall whose four
bands are those of a one-sided wall and whose band `[a, b - 1]` contains the
query row: the query records the wall with its lower part. -/
theorem renderColumn_query (m : MathLib F) (X : Ext F) (doc : Doc) (view : View F)
    (r : RendInfo F) (p : Nat) (E : DrawWall F) (a b hc hf : Int)
    (hw : r.walls = [p]) (hq : r.query_mode ≠ 0) (hp : p < r.heap.size)
    (hE : sameEntity (r.heap.getD p default) E)
    (hact : r.active = if E.sx1 < r.query_sx then [p] else [])
    (hs1 : E.sx1 ≤ r.query_sx) (hs2 : r.query_sx ≤ E.sx2) (hth : E.th < 0)
    (hck : E.ceil.kind = SurfKind.K_FLAT) (hc1 : E.ceil.h1 = hc) (hc2 : E.ceil.h2 = 99999)
    (hcy : E.ceil.y_clip = SOLID_ABOVE)
    (hfk : E.floor.kind = SurfKind.K_FLAT) (hf1 : E.floor.h1 = -99999) (hf2 : E.floor.h2 = hf)
    (hfy : E.floor.y_clip = SOLID_BELOW)
    (huk : E.upper.kind = SurfKind.K_INVIS)
    (hlk : E.lower.kind = SurfKind.K_TEXTURE) (hl1 : E.lower.h1 = hf) (hl2 : E.lower.h2 = hc)
    (ha : DistToY view (izAt E r.query_sx) hc = a)
    (hb : DistToY view (izAt E r.query_sx) hf = b)
    (h1 : a ≤ r.query_sy) (h2 : r.query_sy + 1 ≤ b) (h3 : 0 ≤ r.query_sy)
    (h4 : r.query_sy ≤ view.screen_h - 1) :
    (renderColumn m X doc view r.query_sx r).query_wall = some p
    ∧ (renderColumn m X doc view r.query_sx r).query_part = obj3d_type_e.OB3D_Lower
    ∧ (renderColumn m X doc view r.query_sx r).query_mode = r.query_mode
    ∧ (renderColumn m X doc view r.query_sx r).query_sx = r.query_sx
    ∧ (renderColumn m X doc view r.query_sx r).heap.size = r.heap.size
    ∧ sameEntity ((renderColumn m X doc view r.query_sx r).heap.getD p default) E := by
  obtain ⟨e1, e2, -, -, e5, -, -, e8, e9, e10, e11, -⟩ := sameEntity_static _ E hE
  -- the active list after the update
  obtain ⟨u1, u2, u3, u4, -, -, u7, u8, u9, -⟩ := UpdateActiveList_fields X doc view
    { r with open_y1 := 0, open_y2 := view.screen_h - 1 } r.query_sx
  obtain ⟨v1, v2⟩ := UpdateActiveList_single X doc view
    { r with open_y1 := 0, open_y2 := view.screen_h - 1 } r.query_sx p hw hp
    (by show r.query_sx ≤ (r.heap.getD p default).sx2; rw [e2]; exact hs2)
    (by show r.active = if (r.heap.getD p default).sx1 < r.query_sx then [p] else []
        rw [e1]; exact hact)
  have v1' : (UpdateActiveList X doc view
      { r with open_y1 := 0, open_y2 := view.screen_h - 1 } r.query_sx).active = [p] := by
    rw [v1]
    exact if_pos (by show (r.heap.getD p default).sx1 < r.query_sx + 1; rw [e1]; omega)
  have v2' := v2 (by show (r.heap.getD p default).sx1 ≤ r.query_sx; rw [e1]; exact hs1)
  unfold renderColumn
  simp only []
  -- name the state and forget how it was made
  generalize UpdateActiveList X doc view
    { r with open_y1 := 0, open_y2 := view.screen_h - 1 } r.query_sx = r1
    at u1 u2 u3 u4 u7 u8 u9 v1' v2' ⊢
  simp only [] at u1 u2 u3 u4 u7 u8 u9 v2'
  have hq1 : r1.query_mode ≠ 0 := by rw [u2]; exact hq
  rw [if_neg (by rw [u3]; intro h; exact h.2 rfl), v1']
  -- the front-to-back pass visits the wall
  have hth1 : ¬ ((r1.heap.setD p { r1.heap.getD p default with
      oy1 := r1.open_y1, oy2 := r1.open_y2 }).getD p default).th ≥ 0 := by
    rw [getD_setD_self _ _ _ _ (by rw [u9]; exact hp), v2']
    show ¬ (r.heap.getD p default).th ≥ 0
    rw [e5]
    omega
  have hE2 : sameEntity ((r1.heap.setD p { r1.heap.getD p default with
      oy1 := r1.open_y1, oy2 := r1.open_y2 }).getD p default) E := by
    rw [getD_setD_self _ _ _ _ (by rw [u9]; exact hp), v2']
    exact sameEntity_oy _ E _ _ (sameEntity_cur_iz _ E _ hE)
  have hiz2 : ((r1.heap.setD p { r1.heap.getD p default with
      oy1 := r1.open_y1, oy2 := r1.open_y2 }).getD p default).cur_iz = izAt E r.query_sx := by
    rw [getD_setD_self _ _ _ _ (by rw [u9]; exact hp), v2']
    exact izAt_sameEntity _ E _ hE
  obtain ⟨-, -, -, -, -, -, -, t8, t9, t10, t11, -⟩ := sameEntity_static _ E hE2
  obtain ⟨b1, b2, b3, -, -, b6, b7, -⟩ := renderBands_query_lower m X doc view
    { r1 with heap := r1.heap.setD p { r1.heap.getD p default with
        oy1 := r1.open_y1, oy2 := r1.open_y2 } } p r.query_sx a b hc hf
    hq1 u7 u8
    (by show (DrawWall.ceil _).kind = _; rw [t8]; exact hck)
    (by show (DrawWall.ceil _).h1 = _; rw [t8]; exact hc1)
    (by show (DrawWall.ceil _).h2 = _; rw [t8]; exact hc2)
    (by show (DrawWall.ceil _).y_clip = _; rw [t8]; exact hcy)
    (by show (DrawWall.floor _).kind = _; rw [t9]; exact hfk)
    (by show (DrawWall.floor _).h1 = _; rw [t9]; exact hf1)
    (by show (DrawWall.floor _).h2 = _; rw [t9]; exact hf2)
    (by show (DrawWall.floor _).y_clip = _; rw [t9]; exact hfy)
    (by show (DrawWall.upper _).kind = _; rw [t10]; exact huk)
    (by show (DrawWall.lower _).kind = _; rw [t11]; exact hlk)
    (by show (DrawWall.lower _).h1 = _; rw [t11]; exact hl1)
    (by show (DrawWall.lower _).h2 = _; rw [t11]; exact hl2)
    (by show DistToY view (DrawWall.cur_iz _) hc = a; rw [hiz2]; exact ha)
    (by show DistToY view (DrawWall.cur_iz _) hf = b; rw [hiz2]; exact hb)
    (by show a ≤ r1.query_sy; rw [u4]; exact h1)
    (by show r1.query_sy + 1 ≤ b; rw [u4]; exact h2)
    (by show 0 ≤ r1.query_sy; rw [u4]; exact h3)
    (by show r1.query_sy ≤ view.screen_h - 1; rw [u4]; exact h4)
  simp only [frontToBack, hth1, if_false]
  generalize renderBands m X doc view
    { r1 with heap := r1.heap.setD p { r1.heap.getD p default with
        oy1 := r1.open_y1, oy2 := r1.open_y2 } } p r.query_sx = r3 at b1 b2 b3 b6 b7 ⊢
  simp only [] at b3 b6 b7
  have hq3 : r3.query_mode ≠ 0 := by rw [b6]; exact hq1
  have hth3 : ¬ (r3.heap.getD p default).th ≥ 0 := by rw [b3]; exact hth1
  have hback : backToFront m X doc view r.query_sx [p] r3 = r3 := by
    simp only [backToFront, hth3, if_false]
    exact RenderMidMasker_query m X doc view r3 p _ _ hq3
  have hfin : r3.query_wall = some p ∧ r3.query_part = obj3d_type_e.OB3D_Lower
      ∧ r3.query_mode = r.query_mode ∧ r3.query_sx = r.query_sx
      ∧ r3.heap.size = r.heap.size ∧ sameEntity (r3.heap.getD p default) E :=
    ⟨b1, b2, b6.trans u2, b7.trans u3, by rw [b3, size_setD, u9], by rw [b3]; exact hE2⟩
  by_cases hbr : r3.open_y1 > r3.open_y2
  · simp only [hbr, if_true, List.length_cons, List.length_nil, zero_add,
      show ¬ ((0 : Nat) = 1) by decide, if_false, List.take_succ_cons, List.take_zero,
      List.reverse_cons, List.reverse_nil, List.nil_append, hback]
    exact hfin
  · simp only [hbr, if_false, List.length_cons, List.length_nil, zero_add, if_true,
      List.take_succ_cons, List.take_zero, List.reverse_cons, List.reverse_nil,
      List.nil_append, hback]
    exact hfin

end QueryColumn

section QueryPipeline
variable {F : Type} [LinearOrderedField F] [FloorRing F]

/-- `ClipSolids` keeps a single entity that is not hidden in one of its columns. -/
theorem ClipSolids_single (doc : Doc) (r : RendInfo F) (p : Nat) (x : Int)
    (hw : r.walls = [p]) (hd : ∀ y, r.depth_x y = 0)
    (h1 : (r.heap.getD p default).sx1 ≤ x) (h2 : x ≤ (r.heap.getD p default).sx2)
    (hiz : 0 ≤ izAt (r.heap.getD p default) x) :
    (ClipSolids doc r).walls = [p] ∧ (ClipSolids doc r).heap = r.heap
    ∧ (ClipSolids doc r).query_mode = r.query_mode ∧ (ClipSolids doc r).query_sx = r.query_sx
    ∧ (ClipSolids doc r).query_sy = r.query_sy ∧ (ClipSolids doc r).active = r.active := by
  have hv : (clipEntity doc (r.heap.getD p default) r.depth_x).1 ≠ 0 := by
    intro h0
    have := clipEntity_removed doc _ _ h0 x h1 h2
    rw [hd] at this
    exact absurd this (not_lt.2 hiz)
  refine ⟨?_, rfl, rfl, rfl, rfl, rfl⟩
  simp only [ClipSolids, hw, stdSort, List.insertionSort, List.foldr, List.orderedInsert,
    clipLoop, if_neg hv, List.filterMap_cons, id, List.filterMap_nil]

/-- `ComputeSurfaces` on a single wall entity. -/
theorem ComputeSurfaces_single (X : Ext F) (doc : Doc) (view : View F) (r : RendInfo F)
    (p l : Nat) (hw : r.walls = [p]) (hp : p < r.heap.size)
    (hld : (r.heap.getD p default).ld = some l) :
    (ComputeSurfaces X doc view r).heap.getD p default
        = ComputeWallSurface X doc view (r.heap.getD p default)
    ∧ (ComputeSurfaces X doc view r).heap.size = r.heap.size
    ∧ (ComputeSurfaces X doc view r).walls = r.walls
    ∧ (ComputeSurfaces X doc view r).query_mode = r.query_mode
    ∧ (ComputeSurfaces X doc view r).query_sx = r.query_sx
    ∧ (ComputeSurfaces X doc view r).query_sy = r.query_sy
    ∧ (ComputeSurfaces X doc view r).active = r.active := by
  have hh : (ComputeSurfaces X doc view r).heap
      = r.heap.setD p (ComputeWallSurface X doc view (r.heap.getD p default)) := by
    simp only [ComputeSurfaces, hw, List.foldl_cons, List.foldl_nil, hld, Option.isSome_some,
      if_true]
  refine ⟨by rw [hh, getD_setD_self _ _ _ _ hp], by rw [hh, size_setD], rfl, rfl, rfl, rfl, rfl⟩

/-- `RenderWalls` in query mode on a list with a single wall entity that covers
the query column and whose band `[a, b - 1]` contains the query row. -/
theorem RenderWalls_query_single (m : MathLib F) (X : Ext F) (doc : Doc) (view : View F)
    (r : RendInfo F) (p : Nat) (a b hc hf : Int)
    (hw : r.walls = [p]) (hq : r.query_mode ≠ 0) (hp : p < r.heap.size)
    (hq0 : 0 ≤ r.query_sx) (hq1 : r.query_sx < view.screen_w)
    (hs0 : 0 ≤ (r.heap.getD p default).sx1)
    (hs1 : (r.heap.getD p default).sx1 ≤ r.query_sx)
    (hs2 : r.query_sx ≤ (r.heap.getD p default).sx2)
    (hth : (r.heap.getD p default).th < 0)
    (hck : (r.heap.getD p default).ceil.kind = SurfKind.K_FLAT)
    (hc1 : (r.heap.getD p default).ceil.h1 = hc)
    (hc2 : (r.heap.getD p default).ceil.h2 = 99999)
    (hcy : (r.heap.getD p default).ceil.y_clip = SOLID_ABOVE)
    (hfk : (r.heap.getD p default).floor.kind = SurfKind.K_FLAT)
    (hf1 : (r.heap.getD p default).floor.h1 = -99999)
    (hf2 : (r.heap.getD p default).floor.h2 = hf)
    (hfy : (r.heap.getD p default).floor.y_clip = SOLID_BELOW)
    (huk : (r.heap.getD p default).upper.kind = SurfKind.K_INVIS)
    (hlk : (r.heap.getD p default).lower.kind = SurfKind.K_TEXTURE)
    (hl1 : (r.heap.getD p default).lower.h1 = hf)
    (hl2 : (r.heap.getD p default).lower.h2 = hc)
    (ha : DistToY view (izAt (r.heap.getD p default) r.query_sx) hc = a)
    (hb : DistToY view (izAt (r.heap.getD p default) r.query_sx) hf = b)
    (h1 : a ≤ r.query_sy) (h2 : r.query_sy + 1 ≤ b) (h3 : 0 ≤ r.query_sy)
    (h4 : r.query_sy ≤ view.screen_h - 1) :
    (RenderWalls m X doc view r).query_wall = some p
    ∧ (RenderWalls m X doc view r).query_part = obj3d_type_e.OB3D_Lower
    ∧ sameEntity ((RenderWalls m X doc view r).heap.getD p default) (r.heap.getD p default) := by
  have hsplit : view.screen_w.toNat
      = r.query_sx.toNat + (1 + (view.screen_w - r.query_sx - 1).toNat) := by omega
  have hqn : ((r.query_sx.toNat : Nat) : Int) = r.query_sx := Int.toNat_of_nonneg hq0
  unfold RenderWalls
  simp only [hw, stdSort, List.insertionSort, List.foldr, List.orderedInsert]
  rw [hsplit, forRange_add, forRange_add]
  -- the columns before the query column
  have ph1 := forRange_invariant (renderColumn m X doc view)
    (fun x s => s.walls = [p] ∧ s.query_mode = r.query_mode ∧ s.query_sx = r.query_sx
      ∧ s.query_sy = r.query_sy ∧ s.heap.size = r.heap.size
      ∧ sameEntity (s.heap.getD p default) (r.heap.getD p default)
      ∧ s.active = if (r.heap.getD p default).sx1 < x then [p] else [])
    r.query_sx.toNat 0 { r with walls := [p], active := [] }
    (by
      intro x s hx0 hx1 ⟨i1, i2, i3, i4, i5, i6, i7⟩
      rw [hqn] at hx1
      have hqs : s.query_mode ≠ 0 := by rw [i2]; exact hq
      have hxs : x ≠ s.query_sx := by rw [i3]; omega
      obtain ⟨k1, k2, k3, k4, -, -, k7, k8⟩ :=
        renderColumn_skip_fields m X doc view x s p _ hqs hxs i6
      obtain ⟨e1, e2, -⟩ := sameEntity_static _ _ i6
      refine ⟨k1.trans i1, k2.trans i2, k3.trans i3, k4.trans i4, k7.trans i5, k8, ?_⟩
      rw [renderColumn_skip m X doc view x s hqs hxs]
      have := (UpdateActiveList_single X doc view
        { s with open_y1 := 0, open_y2 := view.screen_h - 1 } x p i1 (by rw [i5]; exact hp)
        (by show x ≤ (s.heap.getD p default).sx2; rw [e2]; omega)
        (by show s.active = if (s.heap.getD p default).sx1 < x then [p] else []
            rw [e1]; exact i7)).1
      rw [this]
      show (if (s.heap.getD p default).sx1 < x + 1 then [p] else []) = _
      rw [e1])
    ⟨rfl, rfl, rfl, rfl, rfl, sameEntity_refl _, by
      show ([] : List Nat) = _
      rw [if_neg (by omega)]⟩
  simp only [zero_add] at ph1
  rw [hqn] at ph1
  generalize forRange 0 r.query_sx.toNat (renderColumn m X doc view)
    { r with walls := [p], active := [] } = s1 at ph1 ⊢
  obtain ⟨i1, i2, i3, i4, i5, i6, i7⟩ := ph1
  -- the query column
  have hone : forRange (0 + (r.query_sx.toNat : Int)) 1 (renderColumn m X doc view) s1
      = renderColumn m X doc view s1.query_sx s1 := by
    simp only [forRange, zero_add, hqn, i3]
  rw [hone]
  obtain ⟨c1, c2, c3, c4, c5, c6⟩ := renderColumn_query m X doc view s1 p (r.heap.getD p default)
    a b hc hf i1 (by rw [i2]; exact hq) (by rw [i5]; exact hp) i6 (by rw [i3]; exact i7)
    (by rw [i3]; exact hs1) (by rw [i3]; exact hs2) hth hck hc1 hc2 hcy hfk hf1 hf2 hfy huk
    hlk hl1 hl2 (by rw [i3]; exact ha) (by rw [i3]; exact hb)
    (by rw [i4]; exact h1) (by rw [i4]; exact h2) (by rw [i4]; exact h3) (by rw [i4]; exact h4)
  generalize renderColumn m X doc view s1.query_sx s1 = s2 at c1 c2 c3 c4 c5 c6 ⊢
  -- the columns after the query column
  have ph3 := forRange_invariant (renderColumn m X doc view)
    (fun x s => r.query_sx < x ∧ s.query_mode = r.query_mode ∧ s.query_sx = r.query_sx
      ∧ s.query_wall = some p ∧ s.query_part = obj3d_type_e.OB3D_Lower
      ∧ sameEntity (s.heap.getD p default) (r.heap.getD p default))
    (view.screen_w - r.query_sx - 1).toNat (0 + (r.query_sx.toNat : Int) + (1 : Nat)) s2
    (by
      intro x s hx0 _ ⟨j0, j1, j2, j3, j4, j5⟩
      have hqs : s.query_mode ≠ 0 := by rw [j1]; exact hq
      have hxs : x ≠ s.query_sx := by rw [j2]; omega
      obtain ⟨-, k2, k3, -, k5, k6, -, k8⟩ :=
        renderColumn_skip_fields m X doc view x s p _ hqs hxs j5
      exact ⟨by omega, k2.trans j1, k3.trans j2, k5.trans j3, k6.trans j4, k8⟩)
    ⟨by rw [hqn]; push_cast; omega, c3.trans i2, c4.trans i3, c1, c2, c6⟩
  exact ⟨ph3.2.2.2.1, ph3.2.2.2.2.1, ph3.2.2.2.2.2⟩

end QueryPipeline

section QueryScenario
variable {F : Type} [LinearOrderedField F] [FloorRing F]

/-- The rows of a band between heights 0 and 128 seen from height 64: when the
band is at least two rows tall on a screen of at least one row, the centre row
lies in it. -/
theorem centre_row_in_band (view : View F) (iz : F) (hz : view.z = 64)
    (hrows : DistToY view iz 128 + 2 ≤ DistToY view iz 0) (hH : 1 ≤ view.screen_h) :
    DistToY view iz 128 ≤ Int.tdiv view.screen_h 2
    ∧ Int.tdiv view.screen_h 2 + 1 ≤ DistToY view iz 0
    ∧ 0 ≤ Int.tdiv view.screen_h 2
    ∧ Int.tdiv view.screen_h 2 ≤ view.screen_h - 1 := by
  have e1 : DistToY view iz 128
      = Int.tdiv (view.screen_h - toInt (view.aspect_sh * 64 * iz)) 2 := by
    unfold DistToY
    rw [if_neg (by decide), if_neg (by decide), hz]
    norm_num
  have e2 : DistToY view iz 0
      = Int.tdiv (view.screen_h + toInt (view.aspect_sh * 64 * iz)) 2 := by
    unfold DistToY
    rw [if_neg (by decide), if_neg (by decide), hz]
    have : view.aspect_sh * (((0 : Int) : F) - 64) * iz = -(view.aspect_sh * 64 * iz) := by
      push_cast
      ring
    rw [this, toInt_neg]
    simp only [sub_neg_eq_add]
  rw [e1, e2] at hrows ⊢
  generalize toInt (view.aspect_sh * 64 * iz) = k at hrows ⊢
  have t1 := tdiv_two_spec (view.screen_h - k)
  have t2 := tdiv_two_spec (view.screen_h + k)
  have t3 := tdiv_two_spec view.screen_h
  generalize Int.tdiv (view.screen_h - k) 2 = a at hrows t1 ⊢
  generalize Int.tdiv (view.screen_h + k) 2 = b at hrows t2 ⊢
  generalize Int.tdiv view.screen_h 2 = c at t3 ⊢
  omega

end QueryScenario

section QueryScenario2
variable {F : Type} [LinearOrderedField F] [FloorRing F]

/-- Claim C7: the entity list of the query holds a single entity, a one-sided
wall (linedef `l` without left side) that covers the query column `qx`, in a
sector with floor 0 and ceiling 128, seen from camera height 64 at inverse
distance 1/100 in that column, at least two rows tall on a screen of at
least one row.  Then `Query` at row `screen_h / 2` records that wall with part
`OB3D_Lower`, and `SW_QueryPoint` returns true with the linedef number `l`. -/
theorem Query_centre_hits_lower (m : MathLib F) (X : Ext F) (doc : Doc) (view : View F)
    (screen : Int → Nat) (hl : Obj3d_t) (qx0 qy0 qx : Int) (p l c : Nat)
    (hB : (queryEntities m X doc view screen qx (Int.tdiv view.screen_h 2)).walls = [p])
    (hld : ((queryEntities m X doc view screen qx (Int.tdiv view.screen_h 2)).heap.getD p
              default).ld = some l)
    (hleft : (doc.lineDef l).Left = none)
    (hsec : ((queryEntities m X doc view screen qx (Int.tdiv view.screen_h 2)).heap.getD p
              default).sec = some c)
    (hfloor : (doc.sector c).floorh = 0) (hceil : (doc.sector c).ceilh = 128)
    (hz : view.z = 64)
    (hs1 : ((queryEntities m X doc view screen qx (Int.tdiv view.screen_h 2)).heap.getD p
              default).sx1 ≤ qx)
    (hs2 : qx ≤ ((queryEntities m X doc view screen qx (Int.tdiv view.screen_h 2)).heap.getD p
              default).sx2)
    (hq0 : 0 ≤ qx) (hq1 : qx < view.screen_w)
    (hiz : izAt ((queryEntities m X doc view screen qx (Int.tdiv view.screen_h 2)).heap.getD p
              default) qx = 1 / 100)
    (hrows : DistToY view (1 / 100) 128 + 2 ≤ DistToY view (1 / 100) 0)
    (hH : 1 ≤ view.screen_h)
    (hqx : (if ¬ X.render_high_detail = true then Int.tdiv qx0 2 else qx0) = qx)
    (hqy : (if ¬ X.render_high_detail = true then Int.tdiv qy0 2 else qy0)
            = Int.tdiv view.screen_h 2) :
    (Query m X doc view (RendInfo.new screen) qx (Int.tdiv view.screen_h 2)).query_wall = some p
    ∧ (Query m X doc view (RendInfo.new screen) qx (Int.tdiv view.screen_h 2)).query_part
        = obj3d_type_e.OB3D_Lower
    ∧ SW_QueryPoint m X doc view screen hl qx0 qy0
        = (true, { type := obj3d_type_e.OB3D_Lower, num := l, side := SIDE_RIGHT }) := by
  -- the entity list
  obtain ⟨a1, a2, a3, a4, a5, -, a7, a8⟩ := addEntities_built m X doc view
    (InitDepthBuf { (RendInfo.new screen : RendInfo F) with
        query_mode := 1, query_wall := none, query_sx := qx,
        query_sy := Int.tdiv view.screen_h 2 } view.screen_w) rfl rfl
  have hBdef : queryEntities m X doc view screen qx (Int.tdiv view.screen_h 2)
      = addEntities m X doc view
        (InitDepthBuf { (RendInfo.new screen : RendInfo F) with
          query_mode := 1, query_wall := none, query_sx := qx,
          query_sy := Int.tdiv view.screen_h 2 } view.screen_w) := rfl
  rw [← hBdef] at a1 a2 a3 a4 a5 a7 a8
  generalize queryEntities m X doc view screen qx (Int.tdiv view.screen_h 2) = B
    at hB hld hsec hs1 hs2 hiz a1 a2 a3 a4 a5 a7 a8 hBdef
  simp only [InitDepthBuf] at a3 a4 a5 a7 a8
  have hp : p < B.heap.size := by
    rw [hB] at a1
    have hlen := congrArg List.length a1
    simp only [List.length_cons, List.length_nil, List.length_range] at hlen
    have hmem : p ∈ List.range B.heap.size := by rw [← a1]; exact List.mem_cons_self _ _
    exact List.mem_range.1 hmem
  obtain ⟨w1, w2, w3, w4, w5⟩ := a2 p hp l hld
  have hside := w4 hleft
  have hback : backSector doc (B.heap.getD p default) = none := by
    unfold backSector
    rw [hld, hside]
    simp only [Option.getD_some, show ¬ (SIDE_RIGHT = SIDE_LEFT) by decide, if_false, hleft,
      Option.map_none']
  -- clipping and surfaces
  obtain ⟨k1, k2, k3, k4, k5, k6⟩ := ClipSolids_single doc B p qx hB (fun y => by rw [a7])
    hs1 hs2 (by rw [hiz]; norm_num)
  obtain ⟨g1, g2, g3, g4, g5, g6, -⟩ := ComputeSurfaces_single X doc view (ClipSolids doc B)
    p l k1 (by rw [k2]; exact hp) (by rw [k2]; exact hld)
  rw [k2] at g1 g2
  obtain ⟨c1, c2, c3, c4, f1, f2, f3, f4, u1, l1, l2, l3, t1, t2, t3, t4, t5, t6, t7⟩ :=
    ComputeWallSurface_one_sided X doc view (B.heap.getD p default) c hback hsec
      (by rw [hceil, hz]; norm_num) (by rw [hfloor, hz]; norm_num)
  have hizE : izAt (ComputeWallSurface X doc view (B.heap.getD p default)) qx = 1 / 100 := by
    rw [← hiz]
    unfold izAt
    rw [t4, t6, t7]
  obtain ⟨r1, r2, r3, r4⟩ := centre_row_in_band view (1 / 100) hz hrows hH
  have hD2 : (ComputeSurfaces X doc view (ClipSolids doc B)).query_sx = qx := by
    rw [g5, k4, a4]
  have hD3 : (ComputeSurfaces X doc view (ClipSolids doc B)).query_sy
      = Int.tdiv view.screen_h 2 := by
    rw [g6, k5, a5]
  obtain ⟨q1, q2, q3⟩ := RenderWalls_query_single m X doc view
    (ComputeSurfaces X doc view (ClipSolids doc B)) p
    (DistToY view (1 / 100) 128) (DistToY view (1 / 100) 0) 128 0
    (g3.trans k1) (by rw [g4, k3, a3]; decide) (by rw [g2]; exact hp)
    (by rw [hD2]; exact hq0) (by rw [hD2]; exact hq1)
    (by rw [g1, t4]; exact w5 (by omega))
    (by rw [g1, t4, hD2]; exact hs1) (by rw [g1, t5, hD2]; exact hs2)
    (by rw [g1, t1, w1]; decide)
    (by rw [g1]; exact c1) (by rw [g1, c2, hceil]) (by rw [g1]; exact c3) (by rw [g1]; exact c4)
    (by rw [g1]; exact f1) (by rw [g1]; exact f2) (by rw [g1, f3, hfloor])
    (by rw [g1]; exact f4) (by rw [g1, u1]; exact w3)
    (by rw [g1]; exact l1) (by rw [g1, l2, hfloor]) (by rw [g1, l3, hceil])
    (by rw [g1, hD2, hizE]) (by rw [g1, hD2, hizE])
    (by rw [hD3]; exact r1) (by rw [hD3]; exact r2) (by rw [hD3]; exact r3)
    (by rw [hD3]; exact r4)
  -- the query
  have hQ : Query m X doc view (RendInfo.new screen) qx (Int.tdiv view.screen_h 2)
      = { RenderWalls m X doc view (ComputeSurfaces X doc view (ClipSolids doc B)) with
          query_mode := 0 } := by
    rw [hBdef]
    rfl
  obtain ⟨-, -, -, -, -, s6, s7, -⟩ := sameEntity_static _ _ q3
  rw [g1, t2, hld] at s6
  rw [g1, t3, hside] at s7
  refine ⟨by rw [hQ]; exact q1, by rw [hQ]; exact q2, ?_⟩
  unfold SW_QueryPoint
  simp only [hqx, hqy]
  rw [hQ]
  simp only [q1, q2, s6, s7, reduceCtorEq, if_false, or_self, findIndex_found _ _ _ w2,
    Obj3d_t.valid, Int.natCast_nonneg, decide_True]

end QueryScenario2

/-! ## The query scenario on a concrete scene -/

theorem PointToAngle_neg (x y : ℝ) (hx : x ≤ -(1 / 100)) (hy : 0 ≤ y) :
    PointToAngle realMath x y = Real.arctan (y / x) + Real.pi := by
  have h0 : x < 0 := by linarith
  have ha : realMath.atan2 y x = Real.arctan (y / x) + Real.pi := by
    simp only [realMath]
    rw [if_neg (by linarith), if_pos h0, if_pos hy]
  have hlo := Real.neg_pi_div_two_lt_arctan (y / x)
  have hpi := Real.pi_pos
  unfold PointToAngle
  rw [if_neg (by intro h; linarith [h.1]), ha]
  simp only []
  rw [if_neg (by linarith)]

theorem wall_lineEnds :
    lineEnds wallDoc (wallView : View ℝ) (wallDoc.lineDef 0) = (-100, 100, 100, 100) := by
  have hl : wallDoc.lineDef 0 = ⟨0, 1, 0, -1, 0⟩ := by rfl
  have hs : (wallDoc.vertex 0) = ⟨100, 100⟩ ∧ (wallDoc.vertex 1) = ⟨100, -100⟩ := by
    constructor <;> rfl
  unfold lineEnds
  rw [hl]
  simp only [LineDef.Start, LineDef.End, hs.1, hs.2, wallView]
  norm_num

theorem wall_angle1 : PointToAngle realMath (-100) 100 = 3 * Real.pi / 4 := by
  rw [PointToAngle_neg (-100) 100 (by norm_num) (by norm_num)]
  rw [show (100 : ℝ) / -100 = -1 by norm_num, Real.arctan_neg, Real.arctan_one]
  ring

theorem wall_angle2 : PointToAngle realMath 100 100 = Real.pi / 4 := by
  rw [PointToAngle_pos 100 100 (by norm_num) (by norm_num)]
  rw [show (100 : ℝ) / 100 = 1 by norm_num, Real.arctan_one]

theorem wall_lineAngles :
    lineAngles realMath wallDoc wallView (wallDoc.lineDef 0)
      = some (SIDE_RIGHT, 0, 3 * Real.pi / 4, Real.pi / 4) := by
  have hpi := Real.pi_pos
  have hv : is_vertex wallDoc (wallDoc.lineDef 0).start = true
      ∧ is_vertex wallDoc (wallDoc.lineDef 0).end_ = true := by decide
  have hr : (wallDoc.lineDef 0).Right = some 0 := by rfl
  have hpiE : realMath.pi = Real.pi := rfl
  have n1 : ¬ (3 * Real.pi / 4 - Real.pi / 4 < 0) := by linarith
  have n2 : ¬ (3 * Real.pi / 4 - Real.pi / 4 ≥ Real.pi) := by
    intro h
    linarith
  have hside : lineSide realMath (3 * Real.pi / 4) (Real.pi / 4) = SIDE_RIGHT := by
    unfold lineSide
    simp only [hpiE, n1, n2, if_false]
  have n3 : ¬ (SIDE_RIGHT = SIDE_LEFT) := by decide
  have n4 : ¬ ((100:ℝ) ≤ 0 ∧ (100:ℝ) ≤ 0) := by norm_num
  unfold lineAngles
  simp only [wall_lineEnds, hv.1, hv.2, hr, wall_angle1, wall_angle2, hside, n3, n4, if_false,
    not_true_eq_false, or_self, reduceCtorEq]

theorem wall_clipAngles :
    clipAngles realMath (3 * Real.pi / 4) (Real.pi / 4)
      = some (3 * Real.pi / 4, Real.pi / 4) := by
  have hpi := Real.pi_pos
  have hpiE : realMath.pi = Real.pi := rfl
  have n1 : ¬ (3 * Real.pi / 4 - Real.pi / 4 < 0) := by linarith
  have n3 : ¬ (3 * Real.pi / 4 - Real.pi / 4 > Real.pi / 2) := by linarith
  unfold clipAngles
  simp only [hpiE, n1, n3, if_false, false_and]

theorem wall_AngleToX_left : AngleToX realMath wallView (3 * Real.pi / 4) = 2 := by
  unfold AngleToX
  have hpiE : realMath.pi = Real.pi := rfl
  have ht : realMath.tan (Real.pi / 2 - 3 * Real.pi / 4) = -1 := by
    show Real.tan (Real.pi / 2 - 3 * Real.pi / 4) = -1
    rw [show Real.pi / 2 - 3 * Real.pi / 4 = -(Real.pi / 4) by ring, Real.tan_neg,
      Real.tan_pi_div_four]
  have h3 : toInt ((4 : ℝ) * -1) = -4 := by
    have : (4 : ℝ) * -1 = ((-4 : ℤ) : ℝ) := by norm_num
    rw [this, toInt_intCast]
  simp only [hpiE, ht, wallView, h3]
  decide

theorem wall_AngleToX_right : AngleToX realMath wallView (Real.pi / 4) = 6 := by
  unfold AngleToX
  have hpiE : realMath.pi = Real.pi := rfl
  have ht : realMath.tan (Real.pi / 2 - Real.pi / 4) = 1 := by
    show Real.tan (Real.pi / 2 - Real.pi / 4) = 1
    rw [show Real.pi / 2 - Real.pi / 4 = Real.pi / 4 by ring, Real.tan_pi_div_four]
  have h3 : toInt ((4 : ℝ) * 1) = 4 := by
    have : (4 : ℝ) * 1 = ((4 : ℤ) : ℝ) := by norm_num
    rw [this, toInt_intCast]
  simp only [hpiE, ht, wallView, h3]
  decide

theorem wall_wallDist : wallDist realMath wallDoc wallView (wallDoc.lineDef 0) = 100 := by
  have hl : wallDoc.lineDef 0 = ⟨0, 1, 0, -1, 0⟩ := by rfl
  have hs : (wallDoc.vertex 0) = ⟨100, 100⟩ ∧ (wallDoc.vertex 1) = ⟨100, -100⟩ := by
    constructor <;> rfl
  have hsq : Real.sqrt 40000 = 200 := by
    rw [show (40000:ℝ) = 200 ^ 2 by norm_num]
    exact Real.sqrt_sq (by norm_num)
  unfold wallDist
  rw [hl]
  simp only [LineDef.Start, LineDef.End, hs.1, hs.2, wallView, realMath]
  norm_num [hsq]

theorem wall_wallNormal :
    wallNormal realMath wallDoc wallView (wallDoc.lineDef 0) SIDE_RIGHT = Real.pi / 2 := by
  have n3 : ¬ (SIDE_RIGHT = SIDE_LEFT) := by decide
  unfold wallNormal
  simp only [wall_lineEnds, n3, if_false]
  rw [show (100 : ℝ) - 100 = 0 by norm_num, show (100 : ℝ) - -100 = 200 by norm_num]
  simp [PointToAngle, realMath]

theorem wall_iz (ang : ℝ) (h : Real.cos (Real.pi / 2 - ang) ≠ 0) :
    wallIz realMath (Real.pi / 2) 100 ang = 1 / 100 := by
  unfold wallIz
  show Real.cos (Real.pi / 2 - ang) / 100 / Real.cos (Real.pi / 2 - ang) = 1 / 100
  rw [div_right_comm, div_self h]

theorem cos_quarter_ne : Real.cos (Real.pi / 4) ≠ 0 := by
  rw [Real.cos_pi_div_four]
  have : (0 : ℝ) < Real.sqrt 2 := Real.sqrt_pos.2 (by norm_num)
  positivity

theorem wall_AddLine_wall (r : RendInfo ℝ) (hq : r.query_sx = 4) :
    AddLine_wall realMath wallDoc wallView r 0
      = some (mkWall realMath wallDoc wallView 0 SIDE_RIGHT 0 (3 * Real.pi / 4)
          (3 * Real.pi / 4) (Real.pi / 4) 2 5) := by
  unfold AddLine_wall
  rw [wall_lineAngles]
  simp only [wall_clipAngles, wall_AngleToX_left, wall_AngleToX_right, wall_wallDist, hq]
  norm_num

theorem wall_fields :
    (mkWall realMath wallDoc wallView 0 SIDE_RIGHT 0 (3 * Real.pi / 4)
          (3 * Real.pi / 4) (Real.pi / 4) 2 5).iz1 = 1 / 100
    ∧ (mkWall realMath wallDoc wallView 0 SIDE_RIGHT 0 (3 * Real.pi / 4)
          (3 * Real.pi / 4) (Real.pi / 4) 2 5).diz = 0 := by
  have h1 : wallIz realMath (Real.pi / 2) 100 (3 * Real.pi / 4) = 1 / 100 := by
    apply wall_iz
    rw [show Real.pi / 2 - 3 * Real.pi / 4 = -(Real.pi / 4) by ring, Real.cos_neg]
    exact cos_quarter_ne
  have h2 : wallIz realMath (Real.pi / 2) 100 (Real.pi / 4) = 1 / 100 := by
    apply wall_iz
    rw [show Real.pi / 2 - Real.pi / 4 = Real.pi / 4 by ring]
    exact cos_quarter_ne
  simp only [mkWall, wall_wallDist, wall_wallNormal, h1, h2, MAX]
  norm_num

/-- The entity list of the query at column 4 in the scene of `wallDoc`: the
wall of linedef 0 alone. -/
theorem wall_queryEntities (screen : Int → Nat) (qy : Int) :
    (queryEntities realMath demoExt wallDoc wallView screen 4 qy).walls = [0]
    ∧ (queryEntities realMath demoExt wallDoc wallView screen 4 qy).heap.getD 0 default
        = mkWall realMath wallDoc wallView 0 SIDE_RIGHT 0 (3 * Real.pi / 4)
            (3 * Real.pi / 4) (Real.pi / 4) 2 5 := by
  have hn : wallDoc.LineDefs.size = 1 := rfl
  have ht : wallDoc.Things.size = 0 := rfl
  unfold queryEntities addEntities
  have hr1 : List.range 1 = [0] := rfl
  simp only [hn, ht, hr1, List.range_zero, List.foldl_cons, List.foldl_nil]
  have hA : ∀ r : RendInfo ℝ, r.query_sx = 4 → r.walls = [] → r.heap = #[] →
      (AddLine realMath wallDoc wallView r 0).walls = [0]
      ∧ (AddLine realMath wallDoc wallView r 0).heap.getD 0 default
        = mkWall realMath wallDoc wallView 0 SIDE_RIGHT 0 (3 * Real.pi / 4)
            (3 * Real.pi / 4) (Real.pi / 4) 2 5 := by
    intro r h1 h2 h3
    unfold AddLine
    rw [wall_AddLine_wall r h1]
    simp only [RendInfo.push, h2, h3]
    exact ⟨rfl, rfl⟩
  split_ifs
  · exact hA _ rfl rfl rfl
  · exact hA _ rfl rfl rfl

theorem wall_DistToY :
    DistToY (wallView : View ℝ) (1 / 100) 128 = 68
    ∧ DistToY (wallView : View ℝ) (1 / 100) 0 = 132 := by
  have e1 : (100 : ℝ) * (((128 : ℤ) : ℝ) - 64) * (1 / 100) = ((64 : ℤ) : ℝ) := by norm_num
  have e2 : (100 : ℝ) * (((0 : ℤ) : ℝ) - 64) * (1 / 100) = ((-64 : ℤ) : ℝ) := by norm_num
  have n1 : ¬ ((128 : Int) > 32770) ∧ ¬ ((128 : Int) < -32770) := by decide
  have n2 : ¬ ((0 : Int) > 32770) ∧ ¬ ((0 : Int) < -32770) := by decide
  constructor
  · unfold DistToY
    rw [if_neg n1.1, if_neg n1.2]
    simp only [wallView]
    rw [e1, toInt_intCast]
    decide
  · unfold DistToY
    rw [if_neg n2.1, if_neg n2.2]
    simp only [wallView]
    rw [e2, toInt_intCast]
    decide

/-- Witness for claim C7: the camera of `wallView` (height 64) faces the
one-sided wall of `wallDoc` (floor 0, ceiling 128) at distance 100; the query at
column 4 of the centre row 100 reports the lower part of linedef 0. -/
theorem Query_centre_hits_lower_witness :
    (Query realMath demoExt wallDoc (wallView : View ℝ) (RendInfo.new (fun _ => 0)) 4
        (Int.tdiv (wallView : View ℝ).screen_h 2)).query_wall = some 0
    ∧ (Query realMath demoExt wallDoc (wallView : View ℝ) (RendInfo.new (fun _ => 0)) 4
        (Int.tdiv (wallView : View ℝ).screen_h 2)).query_part = obj3d_type_e.OB3D_Lower
    ∧ SW_QueryPoint realMath demoExt wallDoc (wallView : View ℝ) (fun _ => 0)
        { type := obj3d_type_e.OB3D_None, num := -1, side := 0 } 4 100
        = (true, { type := obj3d_type_e.OB3D_Lower, num := 0, side := SIDE_RIGHT }) := by
  have hE := wall_queryEntities (fun _ => 0) (Int.tdiv (wallView : View ℝ).screen_h 2)
  have hF := wall_fields
  refine Query_centre_hits_lower realMath demoExt wallDoc wallView (fun _ => 0)
    { type := obj3d_type_e.OB3D_None, num := -1, side := 0 } 4 100 4 0 0 0
    hE.1 ?_ rfl ?_ rfl rfl rfl ?_ ?_ (by decide) (by decide) ?_
    ?_ (by decide) rfl rfl
  · rw [hE.2]
    rfl
  · rw [hE.2]
    rfl
  · rw [hE.2]
    show (2 : Int) ≤ 4
    decide
  · rw [hE.2]
    show (4 : Int) ≤ 5
    decide
  · rw [hE.2]
    unfold izAt
    rw [hF.1, hF.2]
    norm_num
  · rw [wall_DistToY.1, wall_DistToY.2]
    decide

/-! ## Order of the surface heights, and queries that paint nothing -/

section SurfaceOrder
variable {F : Type} [LinearOrderedField F]

theorem MIN_le_left {α : Type} [LinearOrder α] (a b : α) : MIN a b ≤ a := by
  unfold MIN
  split_ifs with h
  · exact le_refl a
  · exact not_lt.1 h

theorem MIN_le_right {α : Type} [LinearOrder α] (a b : α) : MIN a b ≤ b := by
  unfold MIN
  split_ifs with h
  · exact le_of_lt h
  · exact le_refl b

theorem le_MIN {α : Type} [LinearOrder α] (a b c : α) (h1 : c ≤ a) (h2 : c ≤ b) :
    c ≤ MIN a b := by
  unfold MIN
  split_ifs <;> assumption

theorem le_MAX_left {α : Type} [LinearOrder α] (a b : α) : a ≤ MAX a b := by
  unfold MAX
  split_ifs with h
  · exact le_refl a
  · exact not_lt.1 h

theorem le_MAX_right {α : Type} [LinearOrder α] (a b : α) : b ≤ MAX a b := by
  unfold MAX
  split_ifs with h
  · exact le_of_lt h
  · exact le_refl b

theorem MAX_le {α : Type} [LinearOrder α] (a b c : α) (h1 : a ≤ c) (h2 : b ≤ c) :
    MAX a b ≤ c := by
  unfold MAX
  split_ifs <;> assumption

/-- The image that `FindTex` leaves in a surface is kept by the later field
updates; `FindTex` itself never touches the geometry. -/
theorem ComputeWallSurface_surfaces (X : Ext F) (doc : Doc) (view : View F) (dw : DrawWall F) :
    (ComputeWallSurface X doc view dw).ceil = ceilSurf X doc view dw
    ∧ (ComputeWallSurface X doc view dw).floor = floorSurf X doc view dw
    ∧ (backSector doc dw = none →
        (ComputeWallSurface X doc view dw).upper = dw.upper
        ∧ (ComputeWallSurface X doc view dw).lower = lowerOneSided X doc view dw
        ∧ (ComputeWallSurface X doc view dw).rail = dw.rail)
    ∧ (∀ b, backSector doc dw = some b →
        (ComputeWallSurface X doc view dw).upper = upperSurf X doc view dw b
        ∧ (ComputeWallSurface X doc view dw).lower = lowerTwoSided X doc view dw b
        ∧ (ComputeWallSurface X doc view dw).rail = railSurf X doc view dw b) := by
  unfold ComputeWallSurface
  cases hb : backSector doc dw with
  | none => simp
  | some b => simp

end SurfaceOrder

section RailFacts
variable {F : Type} [LinearOrderedField F]

/-- The rail of a two-sided line that gets one: where it is placed, and how
each of its two edges is clipped. -/
theorem railSurf_extent (X : Ext F) (doc : Doc) (view : View F) (dw : DrawWall F) (b : Nat)
    (img : Img) (htex : view.texturing = true)
    (hnn : X.is_null_tex ((doc.sideDef (dw.sd.getD 0)).MidTex X) = false)
    (himg : (dw.rail.FindTex X view ((doc.sideDef (dw.sd.getD 0)).MidTex X)).img = some img)
    (hopen : (railOpening doc dw b).1 < (railOpening doc dw b).2) :
    (railSurf X doc view dw b).kind = SurfKind.K_TEXTURE
    ∧ (railSurf X doc view dw b).h2
        = (if skyUpper X doc dw = true
              ∨ ((doc.sector b).ceilh = (doc.sector (dw.sec.getD 0)).ceilh
                ∧ (doc.sector b).ceil_tex = (doc.sector (dw.sec.getD 0)).ceil_tex
                ∧ (doc.sector b).light = (doc.sector (dw.sec.getD 0)).light)
           then (railPlaced X doc dw b img).2
           else MIN (railOpening doc dw b).2 (railPlaced X doc dw b img).2)
    ∧ (railSurf X doc view dw b).h1
        = (if (doc.sector b).floorh = (doc.sector (dw.sec.getD 0)).floorh
                ∧ (doc.sector b).floor_tex = (doc.sector (dw.sec.getD 0)).floor_tex
                ∧ (doc.sector b).light = (doc.sector (dw.sec.getD 0)).light
           then (railPlaced X doc dw b img).1
           else MAX (railOpening doc dw b).1 (railPlaced X doc dw b img).1) := by
  have hopen2 : ¬ (MAX (doc.sector (dw.sec.getD 0)).floorh (doc.sector b).floorh
      ≥ MIN (doc.sector (dw.sec.getD 0)).ceilh (doc.sector b).ceilh) := not_le.2 hopen
  unfold railSurf
  simp only [htex, hnn, himg, hopen2, not_true_eq_false, if_false, Bool.false_eq_true]
  unfold railPlaced railOpening
  simp only []
  split_ifs <;> simp
  
end RailFacts

section RailFacts2
variable {F : Type} [LinearOrderedField F]

/-- A rail that is visible after `ComputeWallSurface` went through every test
of the mid-masked block. -/
theorem railSurf_visible (X : Ext F) (doc : Doc) (view : View F) (dw : DrawWall F) (b : Nat)
    (hnew : dw.rail.kind = SurfKind.K_INVIS)
    (hvis : (railSurf X doc view dw b).kind ≠ SurfKind.K_INVIS) :
    view.texturing = true
    ∧ X.is_null_tex ((doc.sideDef (dw.sd.getD 0)).MidTex X) = false
    ∧ (∃ img, (dw.rail.FindTex X view ((doc.sideDef (dw.sd.getD 0)).MidTex X)).img = some img)
    ∧ (railOpening doc dw b).1 < (railOpening doc dw b).2 := by
  have hk := (FindTex_geometry X view dw.rail ((doc.sideDef (dw.sd.getD 0)).MidTex X)).1
  by_cases h1 : view.texturing = true
  · by_cases h2 : X.is_null_tex ((doc.sideDef (dw.sd.getD 0)).MidTex X) = true
    · exfalso
      apply hvis
      unfold railSurf
      simp only [h1, h2, not_true_eq_false, if_false, if_true]
      exact hnew
    · replace h2 : X.is_null_tex ((doc.sideDef (dw.sd.getD 0)).MidTex X) = false := by
        simpa using h2
      cases h3 : (dw.rail.FindTex X view ((doc.sideDef (dw.sd.getD 0)).MidTex X)).img with
      | none =>
        exfalso
        apply hvis
        unfold railSurf
        simp only [h1, h2, h3, not_true_eq_false, if_false, Bool.false_eq_true]
        rw [hk]
        exact hnew
      | some img =>
        by_cases h4 : (railOpening doc dw b).1 < (railOpening doc dw b).2
        · exact ⟨h1, h2, ⟨img, rfl⟩, h4⟩
        · exfalso
          apply hvis
          have h5 : MAX (doc.sector (dw.sec.getD 0)).floorh (doc.sector b).floorh
              ≥ MIN (doc.sector (dw.sec.getD 0)).ceilh (doc.sector b).ceilh := not_lt.1 h4
          unfold railSurf
          simp only [h1, h2, h3, h5, not_true_eq_false, if_false, if_true, Bool.false_eq_true]
          rw [hk]
          exact hnew
  · exfalso
    apply hvis
    unfold railSurf
    simp only [h1, not_false_eq_true, if_true]
    exact hnew

theorem upperSurf_ordered (X : Ext F) (doc : Doc) (view : View F) (dw : DrawWall F) (b : Nat)
    (hnew : dw.upper.kind = SurfKind.K_INVIS)
    (hvis : (upperSurf X doc view dw b).kind ≠ SurfKind.K_INVIS) :
    (upperSurf X doc view dw b).h1 < (upperSurf X doc view dw b).h2 := by
  unfold upperSurf at hvis ⊢
  simp only [] at hvis ⊢
  by_cases h : (doc.sector b).ceilh < (doc.sector (dw.sec.getD 0)).ceilh ∧ ¬ skyUpper X doc dw = true ∧ ¬ selfRef doc dw = true
  swap
  · rw [if_neg h] at hvis
    exact absurd hnew hvis
  · rw [if_pos h]
    obtain ⟨-, g2, g3, -⟩ := FindTex_geometry X view
      { dw.upper with kind := SurfKind.K_TEXTURE, h1 := (doc.sector b).ceilh
                      h2 := (doc.sector (dw.sec.getD 0)).ceilh, y_clip := SOLID_ABOVE }
      ((doc.sideDef (dw.sd.getD 0)).UpperTex X)
    show (DrawSurf.FindTex X view _ _).h1 < (DrawSurf.FindTex X view _ _).h2
    rw [g2, g3]
    exact h.1

theorem lowerTwoSided_ordered (X : Ext F) (doc : Doc) (view : View F) (dw : DrawWall F) (b : Nat)
    (hnew : dw.lower.kind = SurfKind.K_INVIS)
    (hvis : (lowerTwoSided X doc view dw b).kind ≠ SurfKind.K_INVIS) :
    (lowerTwoSided X doc view dw b).h1 < (lowerTwoSided X doc view dw b).h2 := by
  unfold lowerTwoSided at hvis ⊢
  simp only [] at hvis ⊢
  by_cases h : (doc.sector b).floorh > (doc.sector (dw.sec.getD 0)).floorh ∧ ¬ selfRef doc dw = true
  swap
  · rw [if_neg h] at hvis
    exact absurd hnew hvis
  · rw [if_pos h]
    obtain ⟨-, g2, g3, -⟩ := FindTex_geometry X view
      { dw.lower with kind := SurfKind.K_TEXTURE, h1 := (doc.sector (dw.sec.getD 0)).floorh
                      h2 := (doc.sector b).floorh, y_clip := SOLID_BELOW }
      ((doc.sideDef (dw.sd.getD 0)).LowerTex X)
    show (DrawSurf.FindTex X view _ _).h1 < (DrawSurf.FindTex X view _ _).h2
    rw [g2, g3]
    exact h.1

theorem lowerOneSided_geometry (X : Ext F) (doc : Doc) (view : View F) (dw : DrawWall F) :
    (lowerOneSided X doc view dw).kind = SurfKind.K_TEXTURE
    ∧ (lowerOneSided X doc view dw).h1 = (doc.sector (dw.sec.getD 0)).floorh
    ∧ (lowerOneSided X doc view dw).h2 = (doc.sector (dw.sec.getD 0)).ceilh
    ∧ (lowerOneSided X doc view dw).y_clip = Int.lor SOLID_ABOVE SOLID_BELOW := by
  unfold lowerOneSided
  exact FindTex_geometry X view
      { dw.lower with kind := SurfKind.K_TEXTURE, h1 := (doc.sector (dw.sec.getD 0)).floorh
                      h2 := (doc.sector (dw.sec.getD 0)).ceilh
                      y_clip := Int.lor SOLID_ABOVE SOLID_BELOW }
      ((doc.sideDef (dw.sd.getD 0)).MidTex X)

theorem ceilSurf_geometry (X : Ext F) (doc : Doc) (view : View F) (dw : DrawWall F)
    (hnew : dw.ceil.kind = SurfKind.K_INVIS)
    (hvis : (ceilSurf X doc view dw).kind ≠ SurfKind.K_INVIS) :
    (ceilSurf X doc view dw).kind = SurfKind.K_FLAT
    ∧ (ceilSurf X doc view dw).h1 = (doc.sector (dw.sec.getD 0)).ceilh
    ∧ (ceilSurf X doc view dw).h2 = 99999 := by
  unfold ceilSurf at hvis ⊢
  simp only [] at hvis ⊢
  by_cases h : (((doc.sector (dw.sec.getD 0)).ceilh : F) > view.z ∨ X.is_sky ((doc.sector (dw.sec.getD 0)).CeilTex X) = true) ∧ ¬ skyUpper X doc dw = true ∧ ¬ selfRef doc dw = true
  swap
  · rw [if_neg h] at hvis
    exact absurd hnew hvis
  · rw [if_pos h]
    obtain ⟨g1, g2, g3, -⟩ := FindFlat_geometry X view
      { dw.ceil with kind := SurfKind.K_FLAT, h1 := (doc.sector (dw.sec.getD 0)).ceilh
                     h2 := 99999, tex_h := (doc.sector (dw.sec.getD 0)).ceilh
                     y_clip := SOLID_ABOVE }
      ((doc.sector (dw.sec.getD 0)).CeilTex X)
    exact ⟨g1, g2, g3⟩

theorem floorSurf_geometry (X : Ext F) (doc : Doc) (view : View F) (dw : DrawWall F)
    (hnew : dw.floor.kind = SurfKind.K_INVIS)
    (hvis : (floorSurf X doc view dw).kind ≠ SurfKind.K_INVIS) :
    (floorSurf X doc view dw).kind = SurfKind.K_FLAT
    ∧ (floorSurf X doc view dw).h1 = -99999
    ∧ (floorSurf X doc view dw).h2 = (doc.sector (dw.sec.getD 0)).floorh := by
  unfold floorSurf at hvis ⊢
  simp only [] at hvis ⊢
  by_cases h : ((doc.sector (dw.sec.getD 0)).floorh : F) < view.z ∧ ¬ selfRef doc dw = true
  swap
  · rw [if_neg h] at hvis
    exact absurd hnew hvis
  · rw [if_pos h]
    obtain ⟨g1, g2, g3, -⟩ := FindFlat_geometry X view
      { dw.floor with kind := SurfKind.K_FLAT, h1 := -99999
                      h2 := (doc.sector (dw.sec.getD 0)).floorh
                      tex_h := (doc.sector (dw.sec.getD 0)).floorh
                      y_clip := SOLID_BELOW }
      ((doc.sector (dw.sec.getD 0)).FloorTex X)
    exact ⟨g1, g2, g3⟩

end RailFacts2

section SurfaceOrderClaim
variable {F : Type} [LinearOrderedField F]

/-- Claim C11 (amended): after `ComputeWallSurface` on a freshly made wall
entity, every surface (ceil, floor, upper, lower, rail) whose kind is not
`K_INVIS` has `h1 ≤ h2`, provided the front sector has its ceiling at most at
99999, its floor at least at -99999, and for a one-sided line its floor not
above its ceiling, and provided the rail image has a non-negative height and the
extent where the rail is placed meets the opening between the two sectors. -/
theorem ComputeWallSurface_ordered (X : Ext F) (doc : Doc) (view : View F) (dw : DrawWall F)
    (hnew : dw.ceil.kind = SurfKind.K_INVIS ∧ dw.floor.kind = SurfKind.K_INVIS
            ∧ dw.upper.kind = SurfKind.K_INVIS ∧ dw.lower.kind = SurfKind.K_INVIS
            ∧ dw.rail.kind = SurfKind.K_INVIS)
    (hceil : (doc.sector (dw.sec.getD 0)).ceilh ≤ 99999)
    (hfloor : -99999 ≤ (doc.sector (dw.sec.getD 0)).floorh)
    (hroom : backSector doc dw = none →
              (doc.sector (dw.sec.getD 0)).floorh ≤ (doc.sector (dw.sec.getD 0)).ceilh)
    (hrail : ∀ b img, backSector doc dw = some b →
              (dw.rail.FindTex X view ((doc.sideDef (dw.sd.getD 0)).MidTex X)).img = some img →
              0 ≤ img.height
              ∧ (railPlaced X doc dw b img).1 ≤ (railOpening doc dw b).2
              ∧ (railOpening doc dw b).1 ≤ (railPlaced X doc dw b img).2) :
    ((ComputeWallSurface X doc view dw).ceil.kind ≠ SurfKind.K_INVIS →
        (ComputeWallSurface X doc view dw).ceil.h1 ≤ (ComputeWallSurface X doc view dw).ceil.h2)
    ∧ ((ComputeWallSurface X doc view dw).floor.kind ≠ SurfKind.K_INVIS →
        (ComputeWallSurface X doc view dw).floor.h1 ≤ (ComputeWallSurface X doc view dw).floor.h2)
    ∧ ((ComputeWallSurface X doc view dw).upper.kind ≠ SurfKind.K_INVIS →
        (ComputeWallSurface X doc view dw).upper.h1 ≤ (ComputeWallSurface X doc view dw).upper.h2)
    ∧ ((ComputeWallSurface X doc view dw).lower.kind ≠ SurfKind.K_INVIS →
        (ComputeWallSurface X doc view dw).lower.h1 ≤ (ComputeWallSurface X doc view dw).lower.h2)
    ∧ ((ComputeWallSurface X doc view dw).rail.kind ≠ SurfKind.K_INVIS →
        (ComputeWallSurface X doc view dw).rail.h1
          ≤ (ComputeWallSurface X doc view dw).rail.h2) := by
  obtain ⟨n1, n2, n3, n4, n5⟩ := hnew
  obtain ⟨e1, e2, e3, e4⟩ := ComputeWallSurface_surfaces X doc view dw
  rw [e1, e2]
  refine ⟨?_, ?_, ?_⟩
  · intro hv
    obtain ⟨-, g1, g2⟩ := ceilSurf_geometry X doc view dw n1 hv
    rw [g1, g2]
    exact hceil
  · intro hv
    obtain ⟨-, g1, g2⟩ := floorSurf_geometry X doc view dw n2 hv
    rw [g1, g2]
    exact hfloor
  · cases hb : backSector doc dw with
    | none =>
      obtain ⟨u, l, r⟩ := e3 hb
      rw [u, l, r]
      refine ⟨fun hv => absurd n3 hv, ?_, fun hv => absurd n5 hv⟩
      intro _
      obtain ⟨-, g1, g2, -⟩ := lowerOneSided_geometry X doc view dw
      rw [g1, g2]
      exact hroom hb
    | some b =>
      obtain ⟨u, l, r⟩ := e4 b hb
      rw [u, l, r]
      refine ⟨fun hv => le_of_lt (upperSurf_ordered X doc view dw b n3 hv),
        fun hv => le_of_lt (lowerTwoSided_ordered X doc view dw b n4 hv), ?_⟩
      intro hv
      obtain ⟨t1, t2, ⟨img, t3⟩, t4⟩ := railSurf_visible X doc view dw b n5 hv
      obtain ⟨-, x2, x1⟩ := railSurf_extent X doc view dw b img t1 t2 t3 t4
      obtain ⟨p0, p1, p2⟩ := hrail b img hb t3
      have p3 : (railPlaced X doc dw b img).1 ≤ (railPlaced X doc dw b img).2 := by
        unfold railPlaced
        split_ifs <;> simp only [] <;> omega
      rw [x1, x2]
      split_ifs
      · exact p3
      · exact le_MIN _ _ _ p1 p3
      · exact MAX_le _ _ _ p2 p3
      · exact MAX_le _ _ _ (le_MIN _ _ _ (le_of_lt t4) p2) (le_MIN _ _ _ p1 p3)

end SurfaceOrderClaim

/-- Counterexample to C11 as stated: linedef 0 of `railDoc` (ceilings 128 and
64, equal floors, `y_offset` 200, image height 128) gets a rail of kind
`K_TEXTURE` with `h1 = 136` above `h2 = 64`. -/
theorem ComputeWallSurface_rail_inverted :
    (railWall 0).rail.kind = SurfKind.K_INVIS
    ∧ (ComputeWallSurface demoExt railDoc demoView (railWall 0)).rail.kind = SurfKind.K_TEXTURE
    ∧ (ComputeWallSurface demoExt railDoc demoView (railWall 0)).rail.h1 = 136
    ∧ (ComputeWallSurface demoExt railDoc demoView (railWall 0)).rail.h2 = 64
    ∧ ¬ ((ComputeWallSurface demoExt railDoc demoView (railWall 0)).rail.h1
          ≤ (ComputeWallSurface demoExt railDoc demoView (railWall 0)).rail.h2) := by
  refine ⟨by decide, by decide, by decide, by decide, by decide⟩

/-- Witness for C11 (amended): linedef 1 of `railDoc`, whose lower band and
rail are both visible. -/
theorem ComputeWallSurface_ordered_witness :
    ((ComputeWallSurface demoExt railDoc demoView (railWall 1)).ceil.kind ≠ SurfKind.K_INVIS →
        (ComputeWallSurface demoExt railDoc demoView (railWall 1)).ceil.h1
          ≤ (ComputeWallSurface demoExt railDoc demoView (railWall 1)).ceil.h2)
    ∧ ((ComputeWallSurface demoExt railDoc demoView (railWall 1)).floor.kind ≠ SurfKind.K_INVIS →
        (ComputeWallSurface demoExt railDoc demoView (railWall 1)).floor.h1
          ≤ (ComputeWallSurface demoExt railDoc demoView (railWall 1)).floor.h2)
    ∧ ((ComputeWallSurface demoExt railDoc demoView (railWall 1)).upper.kind ≠ SurfKind.K_INVIS →
        (ComputeWallSurface demoExt railDoc demoView (railWall 1)).upper.h1
          ≤ (ComputeWallSurface demoExt railDoc demoView (railWall 1)).upper.h2)
    ∧ ((ComputeWallSurface demoExt railDoc demoView (railWall 1)).lower.kind ≠ SurfKind.K_INVIS →
        (ComputeWallSurface demoExt railDoc demoView (railWall 1)).lower.h1
          ≤ (ComputeWallSurface demoExt railDoc demoView (railWall 1)).lower.h2)
    ∧ ((ComputeWallSurface demoExt railDoc demoView (railWall 1)).rail.kind ≠ SurfKind.K_INVIS →
        (ComputeWallSurface demoExt railDoc demoView (railWall 1)).rail.h1
          ≤ (ComputeWallSurface demoExt railDoc demoView (railWall 1)).rail.h2) :=
  ComputeWallSurface_ordered demoExt railDoc demoView (railWall 1)
    (by decide) (by decide) (by decide) (by decide)
    (by
      intro b img hb hi
      have hb3 : b = 3 := by
        have : backSector railDoc (railWall 1) = some 3 := by decide
        rw [this] at hb
        exact (Option.some.inj hb).symm
      have hi2 : img = demoImg := by
        have : ((railWall 1).rail.FindTex (demoExt : Ext ℚ) demoView
            ((railDoc.sideDef ((railWall 1).sd.getD 0)).MidTex (demoExt : Ext ℚ))).img
              = some demoImg := by
          rfl
        rw [this] at hi
        exact (Option.some.inj hi).symm
      subst hb3 hi2
      decide)

section QuietQuery
variable {F : Type} [LinearOrderedField F] [FloorRing F]

theorem AddLine_quiet (m : MathLib F) (doc : Doc) (view : View F) (r : RendInfo F) (i : Nat) :
    (AddLine m doc view r i).query_mode = r.query_mode
    ∧ (AddLine m doc view r i).screen = r.screen := by
  unfold AddLine
  cases AddLine_wall m doc view r i with
  | none => exact ⟨rfl, rfl⟩
  | some dw => exact ⟨rfl, rfl⟩

theorem AddThing_quiet (X : Ext F) (doc : Doc) (view : View F) (r : RendInfo F) (k : Nat) :
    (AddThing X doc view r k).query_mode = r.query_mode
    ∧ (AddThing X doc view r k).screen = r.screen := by
  unfold AddThing
  cases AddThing_wall X doc view r k with
  | none => exact ⟨rfl, rfl⟩
  | some dw => exact ⟨rfl, rfl⟩

theorem foldl_quiet {α : Type} (f : RendInfo F → α → RendInfo F)
    (hf : ∀ r a, (f r a).query_mode = r.query_mode ∧ (f r a).screen = r.screen) :
    ∀ (l : List α) (r : RendInfo F),
      (l.foldl f r).query_mode = r.query_mode ∧ (l.foldl f r).screen = r.screen := by
  intro l
  induction l with
  | nil => intro r; exact ⟨rfl, rfl⟩
  | cons a l ih =>
    intro r
    simp only [List.foldl_cons]
    obtain ⟨h1, h2⟩ := ih (f r a)
    obtain ⟨g1, g2⟩ := hf r a
    exact ⟨h1.trans g1, h2.trans g2⟩

theorem addEntities_quiet (m : MathLib F) (X : Ext F) (doc : Doc) (view : View F)
    (r : RendInfo F) :
    (addEntities m X doc view r).query_mode = r.query_mode
    ∧ (addEntities m X doc view r).screen = r.screen := by
  unfold addEntities
  have h1 := foldl_quiet (AddLine m doc view) (AddLine_quiet m doc view)
    (List.range doc.LineDefs.size) r
  simp only []
  split_ifs
  · have h2 := foldl_quiet (AddThing X doc view) (AddThing_quiet X doc view)
      (List.range doc.Things.size) ((List.range doc.LineDefs.size).foldl (AddLine m doc view) r)
    exact ⟨h2.1.trans h1.1, h2.2.trans h1.2⟩
  · exact h1

theorem UpdateActiveList_quiet (X : Ext F) (doc : Doc) (view : View F) (r : RendInfo F)
    (x : Int) :
    (UpdateActiveList X doc view r x).query_mode = r.query_mode
    ∧ (UpdateActiveList X doc view r x).screen = r.screen := by
  unfold UpdateActiveList
  simp only []
  split_ifs <;> exact ⟨rfl, rfl⟩

/-- In query mode `RenderWallSurface` fills no pixel. -/
theorem RenderWallSurface_quiet (m : MathLib F) (X : Ext F) (doc : Doc) (view : View F)
    (r : RendInfo F) (p : Nat) (surf : DrawSurf) (x : Int) (part : obj3d_type_e)
    (hq : r.query_mode ≠ 0) :
    (RenderWallSurface m X doc view r p surf x part).query_mode = r.query_mode
    ∧ (RenderWallSurface m X doc view r p surf x part).screen = r.screen := by
  unfold RenderWallSurface
  simp only [hq, ne_eq, not_false_eq_true, if_true]
  split_ifs <;> exact ⟨rfl, rfl⟩

theorem renderBands_quiet (m : MathLib F) (X : Ext F) (doc : Doc) (view : View F)
    (r : RendInfo F) (p : Nat) (x : Int) (hq : r.query_mode ≠ 0) :
    (renderBands m X doc view r p x).query_mode = r.query_mode
    ∧ (renderBands m X doc view r p x).screen = r.screen := by
  unfold renderBands
  simp only []
  have a1 := RenderWallSurface_quiet m X doc view r p (r.heap.getD p default).ceil x
    obj3d_type_e.OB3D_Ceil hq
  generalize RenderWallSurface m X doc view r p (r.heap.getD p default).ceil x
    obj3d_type_e.OB3D_Ceil = r1 at a1 ⊢
  have q1 : r1.query_mode ≠ 0 := by rw [a1.1]; exact hq
  have a2 := RenderWallSurface_quiet m X doc view r1 p (r1.heap.getD p default).floor x
    obj3d_type_e.OB3D_Floor q1
  generalize RenderWallSurface m X doc view r1 p (r1.heap.getD p default).floor x
    obj3d_type_e.OB3D_Floor = r2 at a2 ⊢
  have q2 : r2.query_mode ≠ 0 := by rw [a2.1]; exact q1
  have a3 := RenderWallSurface_quiet m X doc view r2 p (r2.heap.getD p default).upper x
    obj3d_type_e.OB3D_Upper q2
  generalize RenderWallSurface m X doc view r2 p (r2.heap.getD p default).upper x
    obj3d_type_e.OB3D_Upper = r3 at a3 ⊢
  have q3 : r3.query_mode ≠ 0 := by rw [a3.1]; exact q2
  have a4 := RenderWallSurface_quiet m X doc view r3 p (r3.heap.getD p default).lower x
    obj3d_type_e.OB3D_Lower q3
  exact ⟨a4.1.trans (a3.1.trans (a2.1.trans a1.1)), a4.2.trans (a3.2.trans (a2.2.trans a1.2))⟩

theorem frontToBack_quiet (m : MathLib F) (X : Ext F) (doc : Doc) (view : View F) (x : Int) :
    ∀ (l : List Nat) (k : Nat) (r : RendInfo F), r.query_mode ≠ 0 →
      (frontToBack m X doc view x l k r).2.query_mode = r.query_mode
      ∧ (frontToBack m X doc view x l k r).2.screen = r.screen := by
  intro l
  induction l with
  | nil => intro k r _; exact ⟨rfl, rfl⟩
  | cons p rest ih =>
    intro k r hq
    obtain ⟨R, g1, g2, hR⟩ : ∃ R : RendInfo F, R.query_mode = r.query_mode
        ∧ R.screen = r.screen
        ∧ frontToBack m X doc view x (p :: rest) k r
          = (if (R.heap.getD p default).th ≥ 0 then frontToBack m X doc view x rest (k + 1) R
             else if (renderBands m X doc view R p x).open_y1
                      > (renderBands m X doc view R p x).open_y2
               then (k, renderBands m X doc view R p x)
               else frontToBack m X doc view x rest (k + 1) (renderBands m X doc view R p x)) :=
      ⟨{ r with heap := r.heap.setD p { r.heap.getD p default with oy1 := r.open_y1, oy2 := r.open_y2 } },
        rfl, rfl, rfl⟩
    have qR : R.query_mode ≠ 0 := by rw [g1]; exact hq
    have a := renderBands_quiet m X doc view R p x qR
    rw [hR]
    split_ifs with h1 h2
    · have b := ih (k + 1) R qR
      exact ⟨b.1.trans g1, b.2.trans g2⟩
    · exact ⟨a.1.trans g1, a.2.trans g2⟩
    · have b := ih (k + 1) (renderBands m X doc view R p x) (by rw [a.1]; exact qR)
      exact ⟨b.1.trans (a.1.trans g1), b.2.trans (a.2.trans g2)⟩

/-- In query mode `RenderSprite` fills no pixel. -/
theorem RenderSprite_quiet (X : Ext F) (doc : Doc) (view : View F) (r : RendInfo F)
    (p : Nat) (x : Int) (hq : r.query_mode ≠ 0) :
    (RenderSprite X doc view r p x).query_mode = r.query_mode
    ∧ (RenderSprite X doc view r p x).screen = r.screen := by
  unfold RenderSprite
  simp only [hq, ne_eq, not_false_eq_true, if_true]
  split_ifs <;> exact ⟨rfl, rfl⟩

/-- In query mode `RenderMidMasker` returns at once. -/
theorem RenderMidMasker_quiet (m : MathLib F) (X : Ext F) (doc : Doc) (view : View F)
    (r : RendInfo F) (p : Nat) (surf : DrawSurf) (x : Int) (hq : r.query_mode ≠ 0) :
    RenderMidMasker m X doc view r p surf x = r := by
  unfold RenderMidMasker
  simp only [hq, ne_eq, not_false_eq_true, if_true, ite_self]

theorem backToFront_quiet (m : MathLib F) (X : Ext F) (doc : Doc) (view : View F) (x : Int) :
    ∀ (l : List Nat) (r : RendInfo F), r.query_mode ≠ 0 →
      (backToFront m X doc view x l r).query_mode = r.query_mode
      ∧ (backToFront m X doc view x l r).screen = r.screen := by
  intro l
  induction l with
  | nil => intro r _; exact ⟨rfl, rfl⟩
  | cons p rest ih =>
    intro r hq
    simp only [backToFront]
    split_ifs with h1
    · have a := RenderSprite_quiet X doc view r p x hq
      have b := ih _ (by rw [a.1]; exact hq)
      exact ⟨b.1.trans a.1, b.2.trans a.2⟩
    · rw [RenderMidMasker_quiet m X doc view r p _ x hq]
      exact ih r hq

theorem renderColumn_quiet (m : MathLib F) (X : Ext F) (doc : Doc) (view : View F) (x : Int)
    (r : RendInfo F) (hq : r.query_mode ≠ 0) :
    (renderColumn m X doc view x r).query_mode = r.query_mode
    ∧ (renderColumn m X doc view x r).screen = r.screen := by
  unfold renderColumn
  simp only []
  have a := UpdateActiveList_quiet X doc view
    { r with open_y1 := 0, open_y2 := view.screen_h - 1 } x
  generalize UpdateActiveList X doc view
    { r with open_y1 := 0, open_y2 := view.screen_h - 1 } x = r1 at a ⊢
  have a1 : r1.query_mode = r.query_mode := a.1
  have a2 : r1.screen = r.screen := a.2
  have q1 : r1.query_mode ≠ 0 := by rw [a1]; exact hq
  have b := frontToBack_quiet m X doc view x r1.active 0 r1 q1
  have c : ∀ l : List Nat,
      (backToFront m X doc view x l (frontToBack m X doc view x r1.active 0 r1).2).query_mode
        = r.query_mode
      ∧ (backToFront m X doc view x l (frontToBack m X doc view x r1.active 0 r1).2).screen
        = r.screen := by
    intro l
    have c0 := backToFront_quiet m X doc view x l
      (frontToBack m X doc view x r1.active 0 r1).2 (by rw [b.1]; exact q1)
    exact ⟨c0.1.trans (b.1.trans a1), c0.2.trans (b.2.trans a2)⟩
  by_cases h : r1.query_mode ≠ 0 ∧ x ≠ r1.query_sx
  · rw [if_pos h]
    exact ⟨a1, a2⟩
  · rw [if_neg h]
    exact c _

theorem forRange_quiet (f : Int → RendInfo F → RendInfo F)
    (hf : ∀ x r, r.query_mode ≠ 0 →
      (f x r).query_mode = r.query_mode ∧ (f x r).screen = r.screen) (n : Nat) :
    ∀ (lo : Int) (r : RendInfo F), r.query_mode ≠ 0 →
      (forRange lo n f r).query_mode = r.query_mode ∧ (forRange lo n f r).screen = r.screen := by
  induction n with
  | zero => intro lo r _; exact ⟨rfl, rfl⟩
  | succ n ih =>
    intro lo r hq
    simp only [forRange]
    have a := hf lo r hq
    have b := ih (lo + 1) (f lo r) (by rw [a.1]; exact hq)
    exact ⟨b.1.trans a.1, b.2.trans a.2⟩

/-- A `Render` in query mode leaves the pixel buffer as it was. -/
theorem Render_quiet (m : MathLib F) (X : Ext F) (doc : Doc) (view : View F)
    (r : RendInfo F) (hq : r.query_mode ≠ 0) :
    (Render m X doc view r).screen = r.screen := by
  unfold Render
  simp only [hq, if_false]
  have a := addEntities_quiet m X doc view (InitDepthBuf r view.screen_w)
  generalize addEntities m X doc view (InitDepthBuf r view.screen_w) = r1 at a ⊢
  have a1 : r1.query_mode = r.query_mode := a.1
  have a2 : r1.screen = r.screen := a.2
  unfold RenderWalls
  simp only []
  have b := forRange_quiet (renderColumn m X doc view)
    (fun x r hr => renderColumn_quiet m X doc view x r hr) view.screen_w.toNat 0
    { ComputeSurfaces X doc view (ClipSolids doc r1) with
      walls := stdSort (SX1Cmp (ComputeSurfaces X doc view (ClipSolids doc r1)).heap)
        (ComputeSurfaces X doc view (ClipSolids doc r1)).walls, active := [] }
    (by show r1.query_mode ≠ 0; rw [a1]; exact hq)
  exact b.2.trans a2

end QuietQuery

section QuietQueryClaim
variable {F : Type} [LinearOrderedField F] [FloorRing F]

/-- Claim C12: `Query (qx, qy)` never writes the destination pixel buffer: for
every scene, every renderer state and every `(qx, qy)`, the buffer after the
query is the buffer before, pixel for pixel. -/
theorem Query_screen_unchanged (m : MathLib F) (X : Ext F) (doc : Doc) (view : View F)
    (r : RendInfo F) (qx qy : Int) :
    (Query m X doc view r qx qy).screen = r.screen
    ∧ ∀ a : Int, (Query m X doc view r qx qy).screen a = r.screen a := by
  have h : (Query m X doc view r qx qy).screen = r.screen := by
    unfold Query
    exact Render_quiet m X doc view
      { r with query_mode := 1, query_wall := none, query_sx := qx, query_sy := qy }
      (by show (1 : Int) ≠ 0; decide)
  exact ⟨h, fun a => by rw [h]⟩

end QuietQueryClaim

/-! ## Sorting and the active list -/

/-- Writing `a` over position `k` and putting the old element in front gives
the list with `a` in front, rearranged. -/
theorem cons_set_perm {α : Type} (d a : α) :
    ∀ (t : List α) (k : Nat), k < t.length → (t.getD k d :: t.set k a).Perm (a :: t) := by
  intro t
  induction t with
  | nil => intro k hk; exact absurd hk (Nat.not_lt_zero _)
  | cons c u ih =>
    intro k hk
    cases k with
    | zero => exact List.Perm.swap a c u
    | succ j =>
      have hj : j < u.length := Nat.lt_of_succ_lt_succ hk
      have h1 : (u.getD j d :: c :: u.set j a).Perm (c :: u.getD j d :: u.set j a) :=
        List.Perm.swap _ _ _
      have h2 : (c :: u.getD j d :: u.set j a).Perm (c :: a :: u) := (ih j hj).cons c
      have h3 : (c :: a :: u).Perm (a :: c :: u) := List.Perm.swap _ _ _
      simpa using (h1.trans h2).trans h3

/-- Exchanging two elements of a list rearranges it. -/
theorem set_set_getD_perm {α : Type} (d : α) :
    ∀ (l : List α) (i k : Nat), i < l.length → k < l.length →
      ((l.set k (l.getD i d)).set i (l.getD k d)).Perm l := by
  intro l
  induction l with
  | nil => intro i k hi _; exact absurd hi (Nat.not_lt_zero _)
  | cons a t ih =>
    intro i k hi hk
    cases i with
    | zero =>
      cases k with
      | zero => simp
      | succ k =>
        have hk2 : k < t.length := Nat.lt_of_succ_lt_succ hk
        simpa using cons_set_perm d a t k hk2
    | succ i =>
      have hi2 : i < t.length := Nat.lt_of_succ_lt_succ hi
      cases k with
      | zero => simpa using cons_set_perm d a t i hi2
      | succ k =>
        have hk2 : k < t.length := Nat.lt_of_succ_lt_succ hk
        simpa using (ih i k hi2 hk2).cons a

theorem Sort_Swap_length (active : List Nat) (i k : Int) :
    (Sort_Swap active i k).length = active.length := by
  simp [Sort_Swap]

/-- The method `Sort_Swap` on two positions of the list rearranges the list. -/
theorem Sort_Swap_perm (active : List Nat) (i k : Int) (hi0 : 0 ≤ i) (hi : i < active.length)
    (hk : k < active.length) : (Sort_Swap active i k).Perm active := by
  unfold Sort_Swap getAt
  apply set_set_getD_perm
  · omega
  · omega

/-- The loop of `Sort_Partition` rearranges the active list and keeps its
length, whatever the comparator answers. -/
theorem partitionLoop_perm (closer : Nat → Nat → Bool) (pivot : Nat) (lo hi pivot_idx : Int)
    (h0 : 0 ≤ lo) (hp1 : lo ≤ pivot_idx) (hp2 : pivot_idx ≤ hi) :
    ∀ (n : Nat) (active : List Nat) (s e : Int), (e + 1 - s).toNat = n →
      lo ≤ s → e ≤ hi → hi < active.length →
      (partitionLoop closer pivot lo hi pivot_idx active s e).2.Perm active := by
  intro n
  induction n using Nat.strong_induction_on with
  | _ n ih =>
    intro active s e hn hs he hlen
    rw [partitionLoop]
    rcases scanUp closer pivot active s e with ⟨s1, hs1⟩
    simp only []
    by_cases c1 : s1 > hi
    · rw [if_pos c1]
      simp only []
      split_ifs
      · exact Sort_Swap_perm active pivot_idx hi (by omega) (by omega) hlen
      · exact List.Perm.refl _
    · rw [if_neg c1]
      rcases scanDown closer pivot active s1 e with ⟨e1, he1⟩
      simp only []
      by_cases c2 : e1 < lo
      · rw [if_pos c2]
        simp only []
        split_ifs
        · exact Sort_Swap_perm active pivot_idx lo (by omega) (by omega) (by omega)
        · exact List.Perm.refl _
      · rw [if_neg c2]
        by_cases c3 : s1 < e1
        · rw [dif_pos c3]
          have hsw := Sort_Swap_perm active s1 e1 (by omega) (by omega) (by omega)
          have hl := Sort_Swap_length active s1 e1
          have := ih ((e1 - 1 + 1 - (s1 + 1)).toNat) (by omega) (Sort_Swap active s1 e1)
            (s1 + 1) (e1 - 1) rfl (by omega) (by omega) (by rw [hl]; exact hlen)
          exact this.trans hsw
        · rw [dif_neg c3]

theorem Sort_Partition_perm (closer : Nat → Nat → Bool) (active : List Nat)
    (lo hi pivot_idx : Int) (h0 : 0 ≤ lo) (hp1 : lo ≤ pivot_idx) (hp2 : pivot_idx ≤ hi)
    (hlen : hi < active.length) :
    (Sort_Partition closer active lo hi pivot_idx).2.Perm active := by
  unfold Sort_Partition
  exact partitionLoop_perm closer _ lo hi pivot_idx h0 hp1 hp2 _ active lo hi rfl (le_refl _)
    (le_refl _) hlen

theorem shiftRight_one_mid (s e : Int) (h0 : 0 ≤ s) (h : s ≤ e) :
    s ≤ (s + e) >>> 1 ∧ (s + e) >>> 1 ≤ e := by
  obtain ⟨k, hk⟩ : ∃ k : Nat, s + e = (k : Int) := ⟨(s + e).toNat, by omega⟩
  have : (s + e) >>> 1 = ((k / 2 : Nat) : Int) := by
    rw [hk]
    have h1 := Int.shiftRight_coe_nat k 1
    rw [Nat.shiftRight_eq_div_pow] at h1
    simpa using h1
  rw [this]
  omega

/-- The method `Sort_Range` on positions of the list rearranges the active list,
whatever the comparator answers. -/
theorem Sort_Range_perm (closer : Nat → Nat → Bool) :
    ∀ (n : Nat) (active : List Nat) (s e : Int), (e - s).toNat = n →
      0 ≤ s → e < active.length → (Sort_Range closer active s e).Perm active := by
  intro n
  induction n using Nat.strong_induction_on with
  | _ n ih =>
    intro active s e hn hs he
    rw [Sort_Range]
    by_cases c0 : s < e
    · rw [dif_pos c0]
      by_cases c1 : s = e - 1
      · rw [if_pos c1]
        split_ifs
        · exact Sort_Swap_perm active s e hs (by omega) he
        · exact List.Perm.refl _
      · rw [if_neg c1]
        have hmid := shiftRight_one_mid s e hs (le_of_lt c0)
        have hP := Sort_Partition_perm closer active s e ((s + e) >>> 1) hs hmid.1 hmid.2 he
        generalize Sort_Partition closer active s e ((s + e) >>> 1) = res at hP ⊢
        obtain ⟨mid, act⟩ := res
        simp only [] at hP ⊢
        have hl : act.length = active.length := hP.length_eq
        by_cases d1 : mid ≤ s
        · rw [dif_pos d1]
          exact (ih _ (by omega) act (s + 1) e rfl (by omega) (by rw [hl]; exact he)).trans hP
        · rw [dif_neg d1]
          by_cases d2 : mid + 1 ≥ e
          · rw [dif_pos d2]
            exact (ih _ (by omega) act s (e - 1) rfl hs (by rw [hl]; omega)).trans hP
          · rw [dif_neg d2]
            split_ifs
            · have a1 := ih _ (by omega) act s mid rfl hs (by rw [hl]; omega)
              have a2 := ih _ (by omega) (Sort_Range closer act s mid) (mid + 1) e rfl (by omega)
                (by rw [a1.length_eq, hl]; exact he)
              exact (a2.trans a1).trans hP
            · have a1 := ih _ (by omega) act (mid + 1) e rfl (by omega) (by rw [hl]; exact he)
              have a2 := ih _ (by omega) (Sort_Range closer act (mid + 1) e) s mid rfl hs
                (by rw [a1.length_eq, hl]; omega)
              exact (a2.trans a1).trans hP
    · rw [dif_neg c0]

/-- The method `SortActiveList` rearranges the active list, whatever the
comparator answers. -/
theorem SortActiveList_perm (closer : Nat → Nat → Bool) (active : List Nat) :
    (SortActiveList closer active).Perm active := by
  unfold SortActiveList
  split_ifs with h
  · exact List.Perm.refl _
  · exact Sort_Range_perm closer _ active 0 _ rfl (le_refl _) (by omega)

/-- On a list sorted by `f` whose elements are all at least `x`, the leading
run of elements not above `x` is the sublist of elements equal to `x`. -/
theorem takeWhile_eq_filter_of_sorted {α : Type} (f : α → Int) (x : Int) :
    ∀ l : List α, l.Pairwise (fun a b => f a ≤ f b) → (∀ b ∈ l, x ≤ f b) →
      l.takeWhile (fun p => !decide (x < f p)) = l.filter (fun p => decide (f p = x)) := by
  intro l
  induction l with
  | nil => intro _ _; rfl
  | cons a t ih =>
    intro hs hge
    have ha : x ≤ f a := hge a (List.mem_cons_self a t)
    have hs2 := List.pairwise_cons.1 hs
    by_cases h : f a = x
    · have e1 : (!decide (x < f a)) = true := by simp [h]
      have e2 : decide (f a = x) = true := by simp [h]
      rw [List.takeWhile_cons, List.filter_cons, if_pos e1, if_pos e2,
        ih hs2.2 (fun b hb => hge b (List.mem_cons_of_mem a hb))]
    · have hlt : x < f a := lt_of_le_of_ne ha (Ne.symm h)
      have e1 : ¬ ((!decide (x < f a)) = true) := by simp [hlt]
      have e2 : ¬ (decide (f a = x) = true) := by simp [h]
      rw [List.takeWhile_cons, List.filter_cons, if_neg e1, if_neg e2]
      symm
      rw [List.filter_eq_nil_iff]
      intro b hb
      have : f a ≤ f b := hs2.1 b hb
      simp only [decide_eq_true_eq]
      omega

/-- On a list sorted by `f`, the range between `lower_bound` and `upper_bound`
for `x` is the sublist of elements with `f` equal to `x`. -/
theorem run_eq_filter_of_sorted {α : Type} (f : α → Int) (x : Int) :
    ∀ l : List α, l.Pairwise (fun a b => f a ≤ f b) →
      (l.dropWhile (fun p => decide (f p < x))).takeWhile (fun p => !decide (x < f p))
        = l.filter (fun p => decide (f p = x)) := by
  intro l
  induction l with
  | nil => intro _; rfl
  | cons a t ih =>
    intro hs
    have hs2 := List.pairwise_cons.1 hs
    by_cases h : f a < x
    · have e1 : decide (f a < x) = true := by simp [h]
      have e2 : ¬ (decide (f a = x) = true) := by
        simp only [decide_eq_true_eq]
        omega
      rw [List.dropWhile_cons, List.filter_cons, if_pos e1, if_neg e2]
      exact ih hs2.2
    · have e1 : ¬ (decide (f a < x) = true) := by simp [h]
      rw [List.dropWhile_cons, if_neg e1]
      apply takeWhile_eq_filter_of_sorted f x (a :: t) hs
      intro b hb
      rcases List.mem_cons.1 hb with hb | hb
      · rw [hb]; omega
      · have : f a ≤ f b := hs2.1 b hb
        omega

/-- Two disjoint filters of a list together make up the filter by their union. -/
theorem filter_append_perm_of_split {α : Type} (A B C : α → Bool) :
    ∀ l : List α, (∀ p ∈ l, C p = (A p || B p) ∧ ¬ (A p = true ∧ B p = true)) →
      (l.filter A ++ l.filter B).Perm (l.filter C) := by
  intro l
  induction l with
  | nil => intro _; exact List.Perm.refl _
  | cons a t ih =>
    intro h
    have ha := h a (List.mem_cons_self a t)
    have iht := ih (fun p hp => h p (List.mem_cons_of_mem a hp))
    cases hA : A a <;> cases hB : B a
    · have hC : C a = false := by rw [ha.1, hA, hB]; rfl
      simp only [List.filter_cons, hA, hB, hC, Bool.false_eq_true, if_false]
      exact iht
    · have hC : C a = true := by rw [ha.1, hA, hB]; rfl
      simp only [List.filter_cons, hA, hB, hC, Bool.false_eq_true, if_false, if_true]
      exact List.perm_middle.trans (iht.cons a)
    · have hC : C a = true := by rw [ha.1, hA, hB]; rfl
      simp only [List.filter_cons, hA, hB, hC, Bool.false_eq_true, if_false, if_true,
        List.cons_append]
      exact iht.cons a
    · exact absurd ⟨hA, hB⟩ ha.2

section ActiveList
variable {F : Type} [LinearOrderedField F] [FloorRing F]

/-- The active list after `UpdateActiveList(x)`: the entities that have not
finished, then the entities that start in column `x`, rearranged. -/
theorem UpdateActiveList_active (X : Ext F) (doc : Doc) (view : View F) (r : RendInfo F)
    (x : Int) :
    (UpdateActiveList X doc view r x).active.Perm
      (r.active.filter (fun p => ! decide ((r.heap.getD p default).sx2 < x))
        ++ (r.walls.dropWhile (fun p => decide ((r.heap.getD p default).sx1 < x))).takeWhile
            (fun p => ! decide (x < (r.heap.getD p default).sx1))) := by
  unfold UpdateActiveList
  simp only []
  split_ifs
  · exact SortActiveList_perm _ _
  · exact List.Perm.refl _

/-- The column span of every entity is left alone by `UpdateActiveList`. -/
theorem UpdateActiveList_spans (X : Ext F) (doc : Doc) (view : View F) (r : RendInfo F)
    (x : Int) (j : Nat) :
    ((UpdateActiveList X doc view r x).heap.getD j default).sx1 = (r.heap.getD j default).sx1
    ∧ ((UpdateActiveList X doc view r x).heap.getD j default).sx2
        = (r.heap.getD j default).sx2 := by
  obtain ⟨-, -, -, -, -, -, -, -, -, h⟩ := UpdateActiveList_fields X doc view r x
  obtain ⟨c, hc⟩ := h j
  rw [hc]
  exact ⟨rfl, rfl⟩

end ActiveList

section ActiveListClaim
variable {F : Type} [LinearOrderedField F] [FloorRing F]

/-- One call `UpdateActiveList(k)` carries the membership of the active list
from column `k - 1` to column `k`. -/
theorem UpdateActiveList_membership (X : Ext F) (doc : Doc) (view : View F)
    (r t : RendInfo F) (k : Int)
    (hsorted : r.walls.Pairwise
      (fun a b => (r.heap.getD a default).sx1 ≤ (r.heap.getD b default).sx1))
    (hspan : ∀ p ∈ r.walls, (r.heap.getD p default).sx1 ≤ (r.heap.getD p default).sx2)
    (hw : t.walls = r.walls)
    (hs : ∀ j, (t.heap.getD j default).sx1 = (r.heap.getD j default).sx1
              ∧ (t.heap.getD j default).sx2 = (r.heap.getD j default).sx2)
    (ha : t.active.Perm (r.walls.filter (fun p =>
            decide ((r.heap.getD p default).sx1 < k ∧ k - 1 ≤ (r.heap.getD p default).sx2)))) :
    (UpdateActiveList X doc view t k).active.Perm (r.walls.filter (fun p =>
        decide ((r.heap.getD p default).sx1 < k + 1
                ∧ k + 1 - 1 ≤ (r.heap.getD p default).sx2))) := by
  have h0 := UpdateActiveList_active X doc view t k
  have e1 : (fun p => ! decide ((t.heap.getD p default).sx2 < k))
      = (fun p => ! decide ((r.heap.getD p default).sx2 < k)) := by
    funext p
    rw [(hs p).2]
  have e2 : (fun p => decide ((t.heap.getD p default).sx1 < k))
      = (fun p => decide ((r.heap.getD p default).sx1 < k)) := by
    funext p
    rw [(hs p).1]
  have e3 : (fun p => ! decide (k < (t.heap.getD p default).sx1))
      = (fun p => ! decide (k < (r.heap.getD p default).sx1)) := by
    funext p
    rw [(hs p).1]
  rw [e1, e2, e3, hw,
    run_eq_filter_of_sorted (fun p => (r.heap.getD p default).sx1) k r.walls hsorted] at h0
  refine h0.trans ?_
  have hk := ha.filter (fun p => ! decide ((r.heap.getD p default).sx2 < k))
  rw [List.filter_filter] at hk
  refine (List.Perm.append_right _ hk).trans ?_
  apply filter_append_perm_of_split
  intro p hp
  have hsp := hspan p hp
  constructor
  · rw [Bool.eq_iff_iff]
    simp only [decide_eq_true_eq, Bool.or_eq_true, Bool.and_eq_true, Bool.not_eq_true',
      decide_eq_false_iff_not]
    omega
  · simp only [decide_eq_true_eq, Bool.and_eq_true, Bool.not_eq_true',
      decide_eq_false_iff_not]
    omega

/-- The sequence of calls keeps the entity list and the column spans, and keeps
the active list equal, up to order, to the entities on the last column. -/
theorem updateColumns_invariant (X : Ext F) (doc : Doc) (view : View F) (r : RendInfo F)
    (n : Nat)
    (hsorted : r.walls.Pairwise
      (fun a b => (r.heap.getD a default).sx1 ≤ (r.heap.getD b default).sx1))
    (hspan : ∀ p ∈ r.walls, 0 ≤ (r.heap.getD p default).sx1
              ∧ (r.heap.getD p default).sx1 ≤ (r.heap.getD p default).sx2)
    (hempty : r.active = []) :
    (updateColumns X doc view r n).walls = r.walls
    ∧ (∀ j, ((updateColumns X doc view r n).heap.getD j default).sx1
              = (r.heap.getD j default).sx1
          ∧ ((updateColumns X doc view r n).heap.getD j default).sx2
              = (r.heap.getD j default).sx2)
    ∧ (updateColumns X doc view r n).active.Perm (r.walls.filter (fun p =>
        decide ((r.heap.getD p default).sx1 < (0 : Int) + n
                ∧ (0 : Int) + n - 1 ≤ (r.heap.getD p default).sx2))) := by
  unfold updateColumns
  apply forRange_invariant (fun x r => UpdateActiveList X doc view r x)
    (fun k t => t.walls = r.walls
      ∧ (∀ j, (t.heap.getD j default).sx1 = (r.heap.getD j default).sx1
            ∧ (t.heap.getD j default).sx2 = (r.heap.getD j default).sx2)
      ∧ t.active.Perm (r.walls.filter (fun p =>
          decide ((r.heap.getD p default).sx1 < k ∧ k - 1 ≤ (r.heap.getD p default).sx2))))
    n 0 r
  · intro k t _ _ ⟨hw, hs, ha⟩
    refine ⟨?_, ?_, ?_⟩
    · rw [(UpdateActiveList_fields X doc view t k).1, hw]
    · intro j
      obtain ⟨g1, g2⟩ := UpdateActiveList_spans X doc view t k j
      rw [g1, g2]
      exact hs j
    · exact UpdateActiveList_membership X doc view r t k hsorted
        (fun p hp => (hspan p hp).2) hw hs ha
  · refine ⟨rfl, fun j => ⟨rfl, rfl⟩, ?_⟩
    rw [hempty]
    have : r.walls.filter (fun p =>
        decide ((r.heap.getD p default).sx1 < 0 ∧ (0 : Int) - 1 ≤ (r.heap.getD p default).sx2))
        = [] := by
      rw [List.filter_eq_nil_iff]
      intro p hp
      have := (hspan p hp).1
      simp only [decide_eq_true_eq]
      omega
    rw [this]

/-- Claim C13: with the entity list sorted by `sx1`, every entity having
`0 ≤ sx1 ≤ sx2`, and the active list empty at the start, after the calls
`UpdateActiveList(0)`, ..., `UpdateActiveList(x)` the active list holds, up to
order and with multiplicity, exactly the entities `e` of the entity list with
`e.sx1 ≤ x ≤ e.sx2`. -/
theorem active_list_membership (X : Ext F) (doc : Doc) (view : View F) (r : RendInfo F)
    (x : Nat)
    (hsorted : r.walls.Pairwise
      (fun a b => (r.heap.getD a default).sx1 ≤ (r.heap.getD b default).sx1))
    (hspan : ∀ p ∈ r.walls, 0 ≤ (r.heap.getD p default).sx1
              ∧ (r.heap.getD p default).sx1 ≤ (r.heap.getD p default).sx2)
    (hempty : r.active = []) :
    (updateColumns X doc view r (x + 1)).active.Perm (spanning r x)
    ∧ (updateColumns X doc view r (x + 1)).active.Perm
        (spanning (updateColumns X doc view r (x + 1)) x) := by
  obtain ⟨hw, hs, ha⟩ := updateColumns_invariant X doc view r (x + 1) hsorted hspan hempty
  have e1 : (fun p => decide ((r.heap.getD p default).sx1 < (0 : Int) + ((x + 1 : Nat) : Int)
                ∧ (0 : Int) + ((x + 1 : Nat) : Int) - 1 ≤ (r.heap.getD p default).sx2))
      = (fun p => decide ((r.heap.getD p default).sx1 ≤ (x : Int)
                ∧ (x : Int) ≤ (r.heap.getD p default).sx2)) := by
    funext p
    apply decide_eq_decide.2
    push_cast
    omega
  rw [e1] at ha
  have e2 : spanning (updateColumns X doc view r (x + 1)) x = spanning r x := by
    unfold spanning
    rw [hw]
    congr 1
    funext p
    rw [(hs p).1, (hs p).2]
  rw [e2]
  exact ⟨ha, ha⟩

end ActiveListClaim

/-- Witness for C13: the three entities of `hiddenScene` (spans 0..3, 1..2 and
1..2) after the calls for the columns 0 and 1. -/
theorem active_list_membership_witness :
    (updateColumns demoExt demoDoc demoView hiddenScene (1 + 1)).active.Perm
      (spanning hiddenScene ((1 : Nat) : Int))
    ∧ (updateColumns demoExt demoDoc demoView hiddenScene (1 + 1)).active.Perm
        (spanning (updateColumns demoExt demoDoc demoView hiddenScene (1 + 1)) ((1 : Nat) : Int)) :=
  active_list_membership demoExt demoDoc demoView hiddenScene 1
    (by
      have hw : hiddenScene.walls = [0, 1, 2] := rfl
      rw [hw]
      simp only [List.pairwise_cons, List.mem_cons, List.mem_singleton, forall_eq_or_imp,
        forall_eq, List.not_mem_nil, false_imp_iff, implies_true, List.Pairwise.nil, and_true]
      decide)
    (by
      have hw : hiddenScene.walls = [0, 1, 2] := rfl
      rw [hw]
      intro p hp
      simp only [List.mem_cons, List.mem_singleton, List.not_mem_nil, or_false] at hp
      rcases hp with rfl | rfl | rfl <;> decide)
    rfl

/-! ## One-sided walls, sprites on one spot, and the comparator as an order -/

section ResolverClaims
variable {F : Type} [LinearOrderedField F]

/-- Claim C14: for a one-sided wall (no sidedef on the far side of its linedef)
`ComputeWallSurface` makes exactly one textured band: `lower` has kind
`K_TEXTURE`, runs from the floor height to the ceiling height of the front
sector and is solid on both edges; `upper` and `rail` stay `K_INVIS`, and the
ceiling and the floor are not textured bands. -/
theorem one_sided_single_band (X : Ext F) (doc : Doc) (view : View F) (dw : DrawWall F)
    (hfar : (if dw.side = SIDE_LEFT then (doc.lineDef (dw.ld.getD 0)).Right
             else (doc.lineDef (dw.ld.getD 0)).Left) = none)
    (hnew : dw.ceil.kind = SurfKind.K_INVIS ∧ dw.floor.kind = SurfKind.K_INVIS
            ∧ dw.upper.kind = SurfKind.K_INVIS ∧ dw.rail.kind = SurfKind.K_INVIS) :
    (ComputeWallSurface X doc view dw).lower.kind = SurfKind.K_TEXTURE
    ∧ (ComputeWallSurface X doc view dw).lower.h1 = (doc.sector (dw.sec.getD 0)).floorh
    ∧ (ComputeWallSurface X doc view dw).lower.h2 = (doc.sector (dw.sec.getD 0)).ceilh
    ∧ (ComputeWallSurface X doc view dw).lower.y_clip = Int.lor SOLID_ABOVE SOLID_BELOW
    ∧ (ComputeWallSurface X doc view dw).upper.kind = SurfKind.K_INVIS
    ∧ (ComputeWallSurface X doc view dw).rail.kind = SurfKind.K_INVIS
    ∧ (ComputeWallSurface X doc view dw).ceil.kind ≠ SurfKind.K_TEXTURE
    ∧ (ComputeWallSurface X doc view dw).floor.kind ≠ SurfKind.K_TEXTURE := by
  have hback : backSector doc dw = none := by
    unfold backSector
    simp only [hfar, Option.map_none']
  obtain ⟨n1, n2, n3, n4⟩ := hnew
  obtain ⟨e1, e2, e3, -⟩ := ComputeWallSurface_surfaces X doc view dw
  obtain ⟨u, l, r⟩ := e3 hback
  obtain ⟨g1, g2, g3, g4⟩ := lowerOneSided_geometry X doc view dw
  rw [e1, e2, u, l, r]
  refine ⟨g1, g2, g3, g4, n3, n4, ?_, ?_⟩
  · by_cases hv : (ceilSurf X doc view dw).kind = SurfKind.K_INVIS
    · rw [hv]; decide
    · rw [(ceilSurf_geometry X doc view dw n1 hv).1]; decide
  · by_cases hv : (floorSurf X doc view dw).kind = SurfKind.K_INVIS
    · rw [hv]; decide
    · rw [(floorSurf_geometry X doc view dw n2 hv).1]; decide

end ResolverClaims

/-- Witness for C14: the one-sided west wall (linedef 0) of the demo scene. -/
theorem one_sided_single_band_witness :
    (ComputeWallSurface demoExt demoDoc demoView (demoWall 0 (1/64))).lower.kind
      = SurfKind.K_TEXTURE
    ∧ (ComputeWallSurface demoExt demoDoc demoView (demoWall 0 (1/64))).lower.h1
      = (demoDoc.sector ((demoWall 0 (1/64)).sec.getD 0)).floorh
    ∧ (ComputeWallSurface demoExt demoDoc demoView (demoWall 0 (1/64))).lower.h2
      = (demoDoc.sector ((demoWall 0 (1/64)).sec.getD 0)).ceilh
    ∧ (ComputeWallSurface demoExt demoDoc demoView (demoWall 0 (1/64))).lower.y_clip
      = Int.lor SOLID_ABOVE SOLID_BELOW
    ∧ (ComputeWallSurface demoExt demoDoc demoView (demoWall 0 (1/64))).upper.kind
      = SurfKind.K_INVIS
    ∧ (ComputeWallSurface demoExt demoDoc demoView (demoWall 0 (1/64))).rail.kind
      = SurfKind.K_INVIS
    ∧ (ComputeWallSurface demoExt demoDoc demoView (demoWall 0 (1/64))).ceil.kind
      ≠ SurfKind.K_TEXTURE
    ∧ (ComputeWallSurface demoExt demoDoc demoView (demoWall 0 (1/64))).floor.kind
      ≠ SurfKind.K_TEXTURE :=
  one_sided_single_band demoExt demoDoc demoView (demoWall 0 (1/64)) (by decide)
    ⟨rfl, rfl, rfl, rfl⟩

section SpriteOrder
variable {F : Type} [LinearOrderedField F] [FloorRing F]

/-- Claim C15: for two distinct sprite entities whose things have the same map
`x` and `y`, `A.IsCloser(B)` holds exactly when `A.th > B.th`, whatever `cur_iz`
is; so when the thing numbers differ exactly one of `A.IsCloser(B)`,
`B.IsCloser(A)` holds. -/
theorem IsCloser_same_spot_sprites (X : Ext F) (doc : Doc) (view : View F)
    (heap : Array (DrawWall F)) (a b : Nat) (hab : a ≠ b)
    (hA : (heap.getD a default).ld = none) (hB : (heap.getD b default).ld = none)
    (hta : (heap.getD a default).th ≥ 0) (htb : (heap.getD b default).th ≥ 0)
    (hx : (doc.thing (heap.getD a default).th).x = (doc.thing (heap.getD b default).th).x)
    (hy : (doc.thing (heap.getD a default).th).y = (doc.thing (heap.getD b default).th).y) :
    (IsCloser X doc view heap a b = true
        ↔ (heap.getD a default).th > (heap.getD b default).th)
    ∧ ((heap.getD a default).th ≠ (heap.getD b default).th →
        (IsCloser X doc view heap a b = true ↔ ¬ IsCloser X doc view heap b a = true)) := by
  have h1 : IsCloser X doc view heap a b
      = decide ((heap.getD a default).th > (heap.getD b default).th) := by
    unfold IsCloser
    simp only [hab, if_false, hA, hta, htb, and_self, if_true, hx, hy]
  have h2 : IsCloser X doc view heap b a
      = decide ((heap.getD b default).th > (heap.getD a default).th) := by
    unfold IsCloser
    simp only [Ne.symm hab, if_false, hB, hta, htb, and_self, if_true, hx, hy]
  rw [h1, h2]
  refine ⟨decide_eq_true_iff, ?_⟩
  intro hne
  rw [decide_eq_true_iff, decide_eq_true_iff]
  omega

end SpriteOrder

/-- Witness for C15: the two things of the demo scene stand on the same spot. -/
theorem IsCloser_same_spot_sprites_witness :
    (IsCloser demoExt demoDoc demoView #[demoSprite 0 (1/64) 1 2, demoSprite 1 (1/100) 1 2] 1 0
        = true
        ↔ ((#[demoSprite 0 (1/64) 1 2, demoSprite 1 (1/100) 1 2]).getD 1 default).th
            > ((#[demoSprite 0 (1/64) 1 2, demoSprite 1 (1/100) 1 2]).getD 0 default).th)
    ∧ (((#[demoSprite 0 (1/64) 1 2, demoSprite 1 (1/100) 1 2]).getD 1 default).th
          ≠ ((#[demoSprite 0 (1/64) 1 2, demoSprite 1 (1/100) 1 2]).getD 0 default).th →
        (IsCloser demoExt demoDoc demoView #[demoSprite 0 (1/64) 1 2, demoSprite 1 (1/100) 1 2]
            1 0 = true
          ↔ ¬ IsCloser demoExt demoDoc demoView
                #[demoSprite 0 (1/64) 1 2, demoSprite 1 (1/100) 1 2] 0 1 = true)) :=
  IsCloser_same_spot_sprites demoExt demoDoc demoView
    #[demoSprite 0 (1/64) 1 2, demoSprite 1 (1/100) 1 2] 1 0
    (by decide) rfl rfl (by decide) (by decide) (by decide) (by decide)

/-- Claim C16: `IsCloser` is not a strict order.  In the demo scene the walls
of linedef 0 and linedef 1 are distinct entities that share vertex 1, the camera
stands inside the corner, and each of the two is closer than the other. -/
theorem IsCloser_not_asymmetric :
    (0 : Nat) ≠ 1
    ∧ (demoHeap.getD 0 default).ld = some 0 ∧ (demoHeap.getD 1 default).ld = some 1
    ∧ (demoDoc.lineDef 1).TouchesVertex (demoDoc.lineDef 0).end_ = true
    ∧ IsCloser demoExt demoDoc demoView demoHeap 0 1 = true
    ∧ IsCloser demoExt demoDoc demoView demoHeap 1 0 = true := by
  have hx : toInt demoView.x = 64 := by
    have : demoView.x = ((64 : Int) : ℚ) := by norm_num [demoView]
    rw [this, toInt_intCast]
  have hy : toInt demoView.y = 64 := by
    have : demoView.y = ((64 : Int) : ℚ) := by norm_num [demoView]
    rw [this, toInt_intCast]
  have hA : (demoHeap.getD 0 default).ld = some 0 := rfl
  have hB : (demoHeap.getD 1 default).ld = some 1 := rfl
  refine ⟨by decide, hA, hB, by decide, ?_, ?_⟩
  · unfold IsCloser
    simp only [hA, hB, hx, hy]
    decide
  · unfold IsCloser
    simp only [hA, hB, hx, hy]
    decide

/-! ## Termination of the sort, the depth buffer, placeholders and rails -/

/-- Claim C17: `SortActiveList` returns for every active list and for every
behaviour of the comparator.  The loops of `Sort_Partition` (`scanUp`,
`scanDown`, `partitionLoop`) and the loop and recursion of `Sort_Range` are
defined by recursion on `e + 1 - s` and `e - s`, which decrease whatever
`IsCloser` answers; the list that comes back is a rearrangement of the list
that went in, of the same length. -/
theorem SortActiveList_terminates (closer : Nat → Nat → Bool) (active : List Nat) :
    (SortActiveList closer active).Perm active
    ∧ (SortActiveList closer active).length = active.length :=
  ⟨SortActiveList_perm closer active, (SortActiveList_perm closer active).length_eq⟩

section DepthBuffer
variable {F : Type} [LinearOrderedField F]

theorem clipEntity_mono (doc : Doc) (dw : DrawWall F) (d : Int → F) (x : Int) :
    d x ≤ (clipEntity doc dw d).2 x := by
  rw [clipEntity_depth]
  split_ifs with h
  · exact not_lt.1 h.2.2.2
  · exact le_refl _

theorem clipLoop_mono (doc : Doc) (heap : Array (DrawWall F)) :
    ∀ (l : List Nat) (d : Int → F) (x : Int), d x ≤ (clipLoop doc heap l d).2 x := by
  intro l
  induction l with
  | nil => intro d x; exact le_refl _
  | cons p rest ih =>
    intro d x
    simp only [clipLoop]
    exact le_trans (clipEntity_mono doc (heap.getD p default) d x) (ih _ x)

/-- Claim C18: in `ClipSolids` the depth buffer advances only through one-sided
walls.  The column loop for a sprite or a two-sided wall leaves every entry as
it was; for a one-sided wall an entry that changes lies in the span of the wall
and becomes the interpolated inverse distance of the wall there; no entry ever
gets smaller, in the loop for one entity and over the whole of `ClipSolids`, so
from a zero buffer every entry stays at or above zero. -/
theorem ClipSolids_depth_advances (doc : Doc) (dw : DrawWall F) (d : Int → F)
    (r : RendInfo F) :
    ((dw.ld = none ∨ ∃ l, dw.ld = some l ∧ (doc.lineDef l).Left ≠ none) →
        (clipEntity doc dw d).2 = d)
    ∧ (∀ x, (clipEntity doc dw d).2 x ≠ d x →
        oneSided doc dw = true ∧ dw.sx1 ≤ x ∧ x ≤ dw.sx2
        ∧ (clipEntity doc dw d).2 x = izAt dw x)
    ∧ (∀ x, d x ≤ (clipEntity doc dw d).2 x)
    ∧ (∀ x, r.depth_x x ≤ (ClipSolids doc r).depth_x x)
    ∧ ((∀ y, r.depth_x y = 0) → ∀ x, 0 ≤ (ClipSolids doc r).depth_x x) := by
  have hmono : ∀ x, r.depth_x x ≤ (ClipSolids doc r).depth_x x := by
    intro x
    unfold ClipSolids
    exact clipLoop_mono doc r.heap _ r.depth_x x
  refine ⟨?_, ?_, clipEntity_mono doc dw d, hmono, ?_⟩
  · intro h
    have hos : ¬ (oneSided doc dw = true) := by
      unfold oneSided
      rcases h with h | ⟨l, hl, hleft⟩
      · rw [h]
        simp
      · rw [hl]
        simpa using hleft
    funext x
    rw [clipEntity_depth, if_neg (fun hc => hos hc.1)]
  · intro x hx
    rw [clipEntity_depth] at hx ⊢
    by_cases hc : oneSided doc dw = true ∧ dw.sx1 ≤ x ∧ x ≤ dw.sx2 ∧ ¬ (izAt dw x < d x)
    · rw [if_pos hc]
      exact ⟨hc.1, hc.2.1, hc.2.2.1, rfl⟩
    · rw [if_neg hc] at hx
      exact absurd rfl hx
  · intro hz x
    have := hmono x
    rw [hz x] at this
    exact this

end DepthBuffer

/-- Witness for C18: the sprite of `hiddenScene` against a buffer of zeros. -/
theorem ClipSolids_depth_advances_witness :
    (((hiddenScene.heap.getD 1 default).ld = none
        ∨ ∃ l, (hiddenScene.heap.getD 1 default).ld = some l ∧ (demoDoc.lineDef l).Left ≠ none) →
        (clipEntity demoDoc (hiddenScene.heap.getD 1 default) (fun _ => 0)).2 = (fun _ => 0))
    ∧ (∀ x, (clipEntity demoDoc (hiddenScene.heap.getD 1 default) (fun _ => 0)).2 x
              ≠ (fun _ => (0 : ℚ)) x →
        oneSided demoDoc (hiddenScene.heap.getD 1 default) = true
        ∧ (hiddenScene.heap.getD 1 default).sx1 ≤ x ∧ x ≤ (hiddenScene.heap.getD 1 default).sx2
        ∧ (clipEntity demoDoc (hiddenScene.heap.getD 1 default) (fun _ => 0)).2 x
            = izAt (hiddenScene.heap.getD 1 default) x)
    ∧ (∀ x, (fun _ => (0 : ℚ)) x
              ≤ (clipEntity demoDoc (hiddenScene.heap.getD 1 default) (fun _ => 0)).2 x)
    ∧ (∀ x, hiddenScene.depth_x x ≤ (ClipSolids demoDoc hiddenScene).depth_x x)
    ∧ ((∀ y, hiddenScene.depth_x y = 0) → ∀ x, 0 ≤ (ClipSolids demoDoc hiddenScene).depth_x x) :=
  ClipSolids_depth_advances demoDoc (hiddenScene.heap.getD 1 default) (fun _ => 0) hiddenScene

section Placeholders
variable {F : Type} [LinearOrderedField F]

/-- Claim C19 (amended): with texturing enabled, `FindTex` gives a null texture
name the missing-texture placeholder and the full-bright flag of the preference
`render_missing_bright`; `FindTex` gives a name that the lookup does not resolve
the unknown-texture placeholder, and `FindFlat` gives a name that is not a sky
name and that the lookup does not resolve the unknown-flat placeholder, both
with the full-bright flag of the preference `render_unknown_bright`. -/
theorem placeholder_for_missing_assets (X : Ext F) (view : View F) (s : DrawSurf)
    (name : String) (htex : view.texturing = true) :
    (X.is_null_tex name = true →
        (s.FindTex X view name).img = some X.IM_MissingTex
        ∧ (s.FindTex X view name).fullbright = X.render_missing_bright)
    ∧ (X.is_null_tex name = false → X.W_GetTexture name = none →
        (s.FindTex X view name).img = some X.IM_UnknownTex
        ∧ (s.FindTex X view name).fullbright = X.render_unknown_bright)
    ∧ (X.is_sky name = false → X.W_GetFlat name = none →
        (s.FindFlat X view name).img = some X.IM_UnknownFlat
        ∧ (s.FindFlat X view name).fullbright = X.render_unknown_bright) := by
  refine ⟨?_, ?_, ?_⟩
  · intro h
    unfold DrawSurf.FindTex
    simp only [htex, h, if_true, and_self]
  · intro h1 h2
    unfold DrawSurf.FindTex
    simp only [htex, h1, h2, if_true, Bool.false_eq_true, if_false, and_self]
  · intro h1 h2
    unfold DrawSurf.FindFlat
    simp only [htex, h1, h2, if_true, Bool.false_eq_true, if_false, and_self]

end Placeholders

/-- Counterexample to C19 as stated: with texturing enabled and the preferences
`render_missing_bright`, `render_unknown_bright` off, the null name and an
unresolved texture or flat name get their placeholder image, but the
full-bright flag is false. -/
theorem placeholder_not_fullbright :
    demoView.texturing = true
    ∧ dimExt.is_null_tex "-" = true
    ∧ (DrawSurf.new.FindTex dimExt demoView "-").img = some dimExt.IM_MissingTex
    ∧ (DrawSurf.new.FindTex dimExt demoView "-").fullbright = false
    ∧ dimExt.W_GetTexture "STARTAN3" = none
    ∧ (DrawSurf.new.FindTex dimExt demoView "STARTAN3").img = some dimExt.IM_UnknownTex
    ∧ (DrawSurf.new.FindTex dimExt demoView "STARTAN3").fullbright = false
    ∧ dimExt.W_GetFlat "FLOOR4_8" = none
    ∧ (DrawSurf.new.FindFlat dimExt demoView "FLOOR4_8").img = some dimExt.IM_UnknownFlat
    ∧ (DrawSurf.new.FindFlat dimExt demoView "FLOOR4_8").fullbright = false := by
  refine ⟨rfl, by decide, rfl, by decide, rfl, rfl, by decide, rfl, rfl, by decide⟩

/-- Witness for C19 (amended): the lookup of `dimExt`, which resolves nothing. -/
theorem placeholder_for_missing_assets_witness :
    (dimExt.is_null_tex "STARTAN3" = true →
        (DrawSurf.new.FindTex dimExt demoView "STARTAN3").img = some dimExt.IM_MissingTex
        ∧ (DrawSurf.new.FindTex dimExt demoView "STARTAN3").fullbright
            = dimExt.render_missing_bright)
    ∧ (dimExt.is_null_tex "STARTAN3" = false → dimExt.W_GetTexture "STARTAN3" = none →
        (DrawSurf.new.FindTex dimExt demoView "STARTAN3").img = some dimExt.IM_UnknownTex
        ∧ (DrawSurf.new.FindTex dimExt demoView "STARTAN3").fullbright
            = dimExt.render_unknown_bright)
    ∧ (dimExt.is_sky "STARTAN3" = false → dimExt.W_GetFlat "STARTAN3" = none →
        (DrawSurf.new.FindFlat dimExt demoView "STARTAN3").img = some dimExt.IM_UnknownFlat
        ∧ (DrawSurf.new.FindFlat dimExt demoView "STARTAN3").fullbright
            = dimExt.render_unknown_bright) :=
  placeholder_for_missing_assets dimExt demoView DrawSurf.new "STARTAN3" rfl

section RailClipping
variable {F : Type} [LinearOrderedField F]

/-- Claim C20 (amended): a two-sided wall that gets a rail has it placed by the
anchoring flag and `y_offset` with the height of the image, and each edge is
clipped on its own.  The top edge stays where it was placed when the
sky-over-sky condition holds or the two ceilings agree in height, flat and
light, and is cut to the lower ceiling otherwise; the bottom edge stays where it
was placed when the two floors agree in height, flat and light, and is cut to
the higher floor otherwise, sky-over-sky or not.  So the rail keeps its full
extent when both exemptions hold, as for sectors with the same heights, flats
and light. -/
theorem rail_clipping (X : Ext F) (doc : Doc) (view : View F) (dw : DrawWall F) (b : Nat)
    (img : Img) (hback : backSector doc dw = some b) (htex : view.texturing = true)
    (hnn : X.is_null_tex ((doc.sideDef (dw.sd.getD 0)).MidTex X) = false)
    (himg : (dw.rail.FindTex X view ((doc.sideDef (dw.sd.getD 0)).MidTex X)).img = some img)
    (hopen : (railOpening doc dw b).1 < (railOpening doc dw b).2) :
    (ComputeWallSurface X doc view dw).rail.kind = SurfKind.K_TEXTURE
    ∧ (railPlaced X doc dw b img).2 - (railPlaced X doc dw b img).1 = img.height
    ∧ (ComputeWallSurface X doc view dw).rail.h2
        = (if skyUpper X doc dw = true
              ∨ ((doc.sector b).ceilh = (doc.sector (dw.sec.getD 0)).ceilh
                ∧ (doc.sector b).ceil_tex = (doc.sector (dw.sec.getD 0)).ceil_tex
                ∧ (doc.sector b).light = (doc.sector (dw.sec.getD 0)).light)
           then (railPlaced X doc dw b img).2
           else MIN (railOpening doc dw b).2 (railPlaced X doc dw b img).2)
    ∧ (ComputeWallSurface X doc view dw).rail.h1
        = (if (doc.sector b).floorh = (doc.sector (dw.sec.getD 0)).floorh
                ∧ (doc.sector b).floor_tex = (doc.sector (dw.sec.getD 0)).floor_tex
                ∧ (doc.sector b).light = (doc.sector (dw.sec.getD 0)).light
           then (railPlaced X doc dw b img).1
           else MAX (railOpening doc dw b).1 (railPlaced X doc dw b img).1)
    ∧ ((doc.sector b).ceilh = (doc.sector (dw.sec.getD 0)).ceilh
        ∧ (doc.sector b).ceil_tex = (doc.sector (dw.sec.getD 0)).ceil_tex
        ∧ (doc.sector b).floorh = (doc.sector (dw.sec.getD 0)).floorh
        ∧ (doc.sector b).floor_tex = (doc.sector (dw.sec.getD 0)).floor_tex
        ∧ (doc.sector b).light = (doc.sector (dw.sec.getD 0)).light →
        (ComputeWallSurface X doc view dw).rail.h2 - (ComputeWallSurface X doc view dw).rail.h1
          = img.height) := by
  obtain ⟨-, -, -, e4⟩ := ComputeWallSurface_surfaces X doc view dw
  obtain ⟨-, -, r⟩ := e4 b hback
  obtain ⟨k, x2, x1⟩ := railSurf_extent X doc view dw b img htex hnn himg hopen
  have hp : (railPlaced X doc dw b img).2 - (railPlaced X doc dw b img).1 = img.height := by
    unfold railPlaced
    split_ifs <;> simp only [] <;> omega
  rw [r]
  refine ⟨k, hp, x2, x1, ?_⟩
  intro ⟨c1, c2, f1, f2, l⟩
  rw [x1, x2, if_pos (Or.inr ⟨c1, c2, l⟩), if_pos ⟨f1, f2, l⟩]
  exact hp

end RailClipping

/-- Counterexample to C20 as stated: linedef 1 of `railDoc` lies between two
sky sectors (sky-over-sky) whose floors are at 0 and 64; its rail, placed from
0 to 128 with an image of height 128, is cut at the bottom to the extent 64
to 128. -/
theorem rail_clipped_under_sky :
    backSector railDoc (railWall 1) = some 3
    ∧ skyUpper demoExt railDoc (railWall 1) = true
    ∧ railPlaced demoExt railDoc (railWall 1) 3 demoImg = (0, 128)
    ∧ demoImg.height = 128
    ∧ (ComputeWallSurface demoExt railDoc demoView (railWall 1)).rail.kind = SurfKind.K_TEXTURE
    ∧ (ComputeWallSurface demoExt railDoc demoView (railWall 1)).rail.h1 = 64
    ∧ (ComputeWallSurface demoExt railDoc demoView (railWall 1)).rail.h2 = 128
    ∧ (ComputeWallSurface demoExt railDoc demoView (railWall 1)).rail.h2
        - (ComputeWallSurface demoExt railDoc demoView (railWall 1)).rail.h1 ≠ demoImg.height := by
  refine ⟨by decide, by decide, by decide, rfl, by decide, by decide, by decide, by decide⟩

/-- Witness for C20 (amended): the rail of linedef 1 of `railDoc`. -/
theorem rail_clipping_witness :
    (ComputeWallSurface demoExt railDoc demoView (railWall 1)).rail.kind = SurfKind.K_TEXTURE
    ∧ (railPlaced demoExt railDoc (railWall 1) 3 demoImg).2
        - (railPlaced demoExt railDoc (railWall 1) 3 demoImg).1 = demoImg.height
    ∧ (ComputeWallSurface demoExt railDoc demoView (railWall 1)).rail.h2
        = (if skyUpper demoExt railDoc (railWall 1) = true
              ∨ ((railDoc.sector 3).ceilh = (railDoc.sector ((railWall 1).sec.getD 0)).ceilh
                ∧ (railDoc.sector 3).ceil_tex
                    = (railDoc.sector ((railWall 1).sec.getD 0)).ceil_tex
                ∧ (railDoc.sector 3).light = (railDoc.sector ((railWall 1).sec.getD 0)).light)
           then (railPlaced demoExt railDoc (railWall 1) 3 demoImg).2
           else MIN (railOpening railDoc (railWall 1) 3).2
                  (railPlaced demoExt railDoc (railWall 1) 3 demoImg).2)
    ∧ (ComputeWallSurface demoExt railDoc demoView (railWall 1)).rail.h1
        = (if (railDoc.sector 3).floorh = (railDoc.sector ((railWall 1).sec.getD 0)).floorh
                ∧ (railDoc.sector 3).floor_tex
                    = (railDoc.sector ((railWall 1).sec.getD 0)).floor_tex
                ∧ (railDoc.sector 3).light = (railDoc.sector ((railWall 1).sec.getD 0)).light
           then (railPlaced demoExt railDoc (railWall 1) 3 demoImg).1
           else MAX (railOpening railDoc (railWall 1) 3).1
                  (railPlaced demoExt railDoc (railWall 1) 3 demoImg).1)
    ∧ ((railDoc.sector 3).ceilh = (railDoc.sector ((railWall 1).sec.getD 0)).ceilh
        ∧ (railDoc.sector 3).ceil_tex = (railDoc.sector ((railWall 1).sec.getD 0)).ceil_tex
        ∧ (railDoc.sector 3).floorh = (railDoc.sector ((railWall 1).sec.getD 0)).floorh
        ∧ (railDoc.sector 3).floor_tex = (railDoc.sector ((railWall 1).sec.getD 0)).floor_tex
        ∧ (railDoc.sector 3).light = (railDoc.sector ((railWall 1).sec.getD 0)).light →
        (ComputeWallSurface demoExt railDoc demoView (railWall 1)).rail.h2
          - (ComputeWallSurface demoExt railDoc demoView (railWall 1)).rail.h1
          = demoImg.height) :=
  rail_clipping demoExt railDoc demoView (railWall 1) 3 demoImg (by decide) rfl (by decide)
    rfl (by decide)

/-! ## Texture anchoring and the flats of a wall -/

section AnchoringFacts
variable {F : Type} [LinearOrderedField F]

/-- The image that `FindTex` leaves depends on the surface only through the
image it held before. -/
theorem FindTex_img_congr (X : Ext F) (view : View F) (s t : DrawSurf) (n : String)
    (h : s.img = t.img) : (s.FindTex X view n).img = (t.FindTex X view n).img := by
  unfold DrawSurf.FindTex
  simp only []
  split_ifs
  · rfl
  · split <;> rfl
  · exact h
  · exact h

/-- Claim C21 (amended): for the upper band of a two-sided wall that has an
image, the texture origin is anchored to the bottom of the band when the
upper-unpegged flag of the line is clear (`tex_h = h1 + image height +
y_offset`), and to the top of the band when the flag is set (`tex_h = h2 +
y_offset`); the band runs from the back ceiling `h1` to the front ceiling `h2`. -/
theorem upper_anchoring (X : Ext F) (doc : Doc) (view : View F) (dw : DrawWall F) (b : Nat)
    (img : Img) (hback : backSector doc dw = some b)
    (hvis : (doc.sector b).ceilh < (doc.sector (dw.sec.getD 0)).ceilh
            ∧ ¬ skyUpper X doc dw = true ∧ ¬ selfRef doc dw = true)
    (himg : (dw.upper.FindTex X view ((doc.sideDef (dw.sd.getD 0)).UpperTex X)).img
              = some img) :
    (ComputeWallSurface X doc view dw).upper.kind = SurfKind.K_TEXTURE
    ∧ (ComputeWallSurface X doc view dw).upper.h1 = (doc.sector b).ceilh
    ∧ (ComputeWallSurface X doc view dw).upper.h2 = (doc.sector (dw.sec.getD 0)).ceilh
    ∧ (Int.land (doc.lineDef (dw.ld.getD 0)).flags X.MLF_UpperUnpegged = 0 →
        (ComputeWallSurface X doc view dw).upper.tex_h
          = (ComputeWallSurface X doc view dw).upper.h1 + img.height
            + (doc.sideDef (dw.sd.getD 0)).y_offset)
    ∧ (Int.land (doc.lineDef (dw.ld.getD 0)).flags X.MLF_UpperUnpegged ≠ 0 →
        (ComputeWallSurface X doc view dw).upper.tex_h
          = (ComputeWallSurface X doc view dw).upper.h2
            + (doc.sideDef (dw.sd.getD 0)).y_offset) := by
  obtain ⟨-, -, -, e4⟩ := ComputeWallSurface_surfaces X doc view dw
  obtain ⟨u, -, -⟩ := e4 b hback
  rw [u]
  obtain ⟨g1, g2, g3, -⟩ := FindTex_geometry X view
      { dw.upper with kind := SurfKind.K_TEXTURE, h1 := (doc.sector b).ceilh
                      h2 := (doc.sector (dw.sec.getD 0)).ceilh, y_clip := SOLID_ABOVE }
      ((doc.sideDef (dw.sd.getD 0)).UpperTex X)
  have hi : (DrawSurf.FindTex X view
      { dw.upper with kind := SurfKind.K_TEXTURE, h1 := (doc.sector b).ceilh
                      h2 := (doc.sector (dw.sec.getD 0)).ceilh, y_clip := SOLID_ABOVE }
      ((doc.sideDef (dw.sd.getD 0)).UpperTex X)).img = some img := by
    rw [← himg]
    exact FindTex_img_congr X view _ _ _ rfl
  unfold upperSurf
  simp only []
  rw [if_pos hvis]
  simp only [hi, g1, g2, g3]
  refine ⟨trivial, trivial, trivial, ?_, ?_⟩
  · intro h0
    simp only [h0, ne_eq, not_true_eq_false, not_false_eq_true, if_true]
  · intro h0
    simp only [h0, ne_eq, not_false_eq_true, not_true_eq_false, if_false]

end AnchoringFacts

/-- Counterexample to C21 as stated: linedef 0 of `railDoc` has the
upper-unpegged flag clear; its upper band runs from 64 to 128, the image is 128
high and `y_offset` is 200, and `tex_h` is `64 + 128 + 200`, not `128 + 200`. -/
theorem upper_anchoring_flag_clear :
    Int.land (railDoc.lineDef 0).flags (demoExt : Ext ℚ).MLF_UpperUnpegged = 0
    ∧ (ComputeWallSurface demoExt railDoc demoView (railWall 0)).upper.kind
        = SurfKind.K_TEXTURE
    ∧ (ComputeWallSurface demoExt railDoc demoView (railWall 0)).upper.img = some demoImg
    ∧ (ComputeWallSurface demoExt railDoc demoView (railWall 0)).upper.h1 = 64
    ∧ (ComputeWallSurface demoExt railDoc demoView (railWall 0)).upper.h2 = 128
    ∧ (railDoc.sideDef 0).y_offset = 200
    ∧ (ComputeWallSurface demoExt railDoc demoView (railWall 0)).upper.tex_h = 392
    ∧ (ComputeWallSurface demoExt railDoc demoView (railWall 0)).upper.tex_h
        ≠ (ComputeWallSurface demoExt railDoc demoView (railWall 0)).upper.h2
          + (railDoc.sideDef 0).y_offset := by
  refine ⟨by decide, by decide, rfl, by decide, by decide, by decide, by decide, by decide⟩

/-- Witness for C21 (amended): the upper band of linedef 0 of `railDoc`. -/
theorem upper_anchoring_witness :
    (ComputeWallSurface demoExt railDoc demoView (railWall 0)).upper.kind = SurfKind.K_TEXTURE
    ∧ (ComputeWallSurface demoExt railDoc demoView (railWall 0)).upper.h1
        = (railDoc.sector 1).ceilh
    ∧ (ComputeWallSurface demoExt railDoc demoView (railWall 0)).upper.h2
        = (railDoc.sector ((railWall 0).sec.getD 0)).ceilh
    ∧ (Int.land (railDoc.lineDef ((railWall 0).ld.getD 0)).flags
          (demoExt : Ext ℚ).MLF_UpperUnpegged = 0 →
        (ComputeWallSurface demoExt railDoc demoView (railWall 0)).upper.tex_h
          = (ComputeWallSurface demoExt railDoc demoView (railWall 0)).upper.h1 + demoImg.height
            + (railDoc.sideDef ((railWall 0).sd.getD 0)).y_offset)
    ∧ (Int.land (railDoc.lineDef ((railWall 0).ld.getD 0)).flags
          (demoExt : Ext ℚ).MLF_UpperUnpegged ≠ 0 →
        (ComputeWallSurface demoExt railDoc demoView (railWall 0)).upper.tex_h
          = (ComputeWallSurface demoExt railDoc demoView (railWall 0)).upper.h2
            + (railDoc.sideDef ((railWall 0).sd.getD 0)).y_offset) :=
  upper_anchoring demoExt railDoc demoView (railWall 0) 1 demoImg (by decide)
    ⟨by decide, by decide, by decide⟩ rfl

section FlatFacts
variable {F : Type} [LinearOrderedField F]

theorem ceilSurf_kind (X : Ext F) (doc : Doc) (view : View F) (dw : DrawWall F)
    (hnew : dw.ceil.kind = SurfKind.K_INVIS) :
    (ceilSurf X doc view dw).kind ≠ SurfKind.K_INVIS
      ↔ (((doc.sector (dw.sec.getD 0)).ceilh : F) > view.z
          ∨ X.is_sky ((doc.sector (dw.sec.getD 0)).CeilTex X) = true)
        ∧ ¬ skyUpper X doc dw = true ∧ ¬ selfRef doc dw = true := by
  unfold ceilSurf
  simp only []
  by_cases h : (((doc.sector (dw.sec.getD 0)).ceilh : F) > view.z
          ∨ X.is_sky ((doc.sector (dw.sec.getD 0)).CeilTex X) = true)
        ∧ ¬ skyUpper X doc dw = true ∧ ¬ selfRef doc dw = true
  · rw [if_pos h]
    obtain ⟨g1, -⟩ := FindFlat_geometry X view
      { dw.ceil with kind := SurfKind.K_FLAT, h1 := (doc.sector (dw.sec.getD 0)).ceilh
                     h2 := 99999, tex_h := (doc.sector (dw.sec.getD 0)).ceilh
                     y_clip := SOLID_ABOVE }
      ((doc.sector (dw.sec.getD 0)).CeilTex X)
    rw [g1]
    exact ⟨fun _ => h, fun _ => (by intro hk; cases hk)⟩
  · rw [if_neg h]
    exact ⟨fun hv => absurd hnew hv, fun hc => absurd hc h⟩

theorem floorSurf_kind (X : Ext F) (doc : Doc) (view : View F) (dw : DrawWall F)
    (hnew : dw.floor.kind = SurfKind.K_INVIS) :
    (floorSurf X doc view dw).kind ≠ SurfKind.K_INVIS
      ↔ ((doc.sector (dw.sec.getD 0)).floorh : F) < view.z ∧ ¬ selfRef doc dw = true := by
  unfold floorSurf
  simp only []
  by_cases h : ((doc.sector (dw.sec.getD 0)).floorh : F) < view.z ∧ ¬ selfRef doc dw = true
  · rw [if_pos h]
    obtain ⟨g1, -⟩ := FindFlat_geometry X view
      { dw.floor with kind := SurfKind.K_FLAT, h1 := -99999
                      h2 := (doc.sector (dw.sec.getD 0)).floorh
                      tex_h := (doc.sector (dw.sec.getD 0)).floorh
                      y_clip := SOLID_BELOW }
      ((doc.sector (dw.sec.getD 0)).FloorTex X)
    rw [g1]
    exact ⟨fun _ => h, fun _ => (by intro hk; cases hk)⟩
  · rw [if_neg h]
    exact ⟨fun hv => absurd hnew hv, fun hc => absurd hc h⟩

/-- Claim C22 (amended): `ComputeWallSurface` gives a freshly made wall a
ceiling surface exactly when the ceiling of the front sector is strictly above
the camera or is a sky flat, the sky-over-sky condition does not hold and the
line is not self-referencing; it gives a floor surface exactly when the floor of
the front sector is strictly below the camera and the line is not
self-referencing.  A self-referencing line gets neither. -/
theorem ceil_floor_surfaces (X : Ext F) (doc : Doc) (view : View F) (dw : DrawWall F)
    (hnew : dw.ceil.kind = SurfKind.K_INVIS ∧ dw.floor.kind = SurfKind.K_INVIS) :
    ((ComputeWallSurface X doc view dw).ceil.kind ≠ SurfKind.K_INVIS
      ↔ (((doc.sector (dw.sec.getD 0)).ceilh : F) > view.z
          ∨ X.is_sky ((doc.sector (dw.sec.getD 0)).CeilTex X) = true)
        ∧ ¬ skyUpper X doc dw = true ∧ ¬ selfRef doc dw = true)
    ∧ ((ComputeWallSurface X doc view dw).floor.kind ≠ SurfKind.K_INVIS
      ↔ ((doc.sector (dw.sec.getD 0)).floorh : F) < view.z ∧ ¬ selfRef doc dw = true)
    ∧ (selfRef doc dw = true →
        (ComputeWallSurface X doc view dw).ceil.kind = SurfKind.K_INVIS
        ∧ (ComputeWallSurface X doc view dw).floor.kind = SurfKind.K_INVIS) := by
  obtain ⟨e1, e2, -, -⟩ := ComputeWallSurface_surfaces X doc view dw
  have hc := ceilSurf_kind X doc view dw hnew.1
  have hf := floorSurf_kind X doc view dw hnew.2
  rw [e1, e2]
  refine ⟨hc, hf, ?_⟩
  intro hs
  constructor
  · by_contra hv
    exact (hc.1 hv).2.2 hs
  · by_contra hv
    exact (hf.1 hv).2 hs

end FlatFacts

/-- Counterexample to C22 as stated: seen from height 200, the west wall of the
demo scene (sector 0, sky ceiling at 128) still gets a ceiling surface, though
the ceiling is not above the camera. -/
theorem sky_ceiling_below_camera :
    ¬ (((demoDoc.sector ((demoWall 0 (1/64)).sec.getD 0)).ceilh : ℚ) > highView.z)
    ∧ (ComputeWallSurface demoExt demoDoc highView (demoWall 0 (1/64))).ceil.kind
        = SurfKind.K_FLAT := by
  have h1 : backSector demoDoc (demoWall 0 (1/64)) = none := by decide
  have hsec : (demoDoc.sector ((demoWall 0 (1/64)).sec.getD 0)).ceilh = 128 := by decide
  have hz : highView.z = 200 := rfl
  constructor
  · rw [hsec, hz]
    norm_num
  · obtain ⟨e1, -, -, -⟩ := ComputeWallSurface_surfaces demoExt demoDoc highView
      (demoWall 0 (1/64))
    rw [e1]
    have hv : (ceilSurf demoExt demoDoc highView (demoWall 0 (1/64))).kind
        ≠ SurfKind.K_INVIS := by
      rw [ceilSurf_kind demoExt demoDoc highView (demoWall 0 (1/64)) rfl]
      exact ⟨Or.inr (by decide), by decide, by decide⟩
    exact (ceilSurf_geometry demoExt demoDoc highView (demoWall 0 (1/64)) rfl hv).1

/-- Witness for C22 (amended): the west wall of the demo scene seen from the
camera of the demo scene. -/
theorem ceil_floor_surfaces_witness :
    ((ComputeWallSurface demoExt demoDoc demoView (demoWall 0 (1/64))).ceil.kind
        ≠ SurfKind.K_INVIS
      ↔ (((demoDoc.sector ((demoWall 0 (1/64)).sec.getD 0)).ceilh : ℚ) > demoView.z
          ∨ (demoExt : Ext ℚ).is_sky
              ((demoDoc.sector ((demoWall 0 (1/64)).sec.getD 0)).CeilTex (demoExt : Ext ℚ))
              = true)
        ∧ ¬ skyUpper demoExt demoDoc (demoWall 0 (1/64)) = true
        ∧ ¬ selfRef demoDoc (demoWall 0 (1/64)) = true)
    ∧ ((ComputeWallSurface demoExt demoDoc demoView (demoWall 0 (1/64))).floor.kind
        ≠ SurfKind.K_INVIS
      ↔ ((demoDoc.sector ((demoWall 0 (1/64)).sec.getD 0)).floorh : ℚ) < demoView.z
        ∧ ¬ selfRef demoDoc (demoWall 0 (1/64)) = true)
    ∧ (selfRef demoDoc (demoWall 0 (1/64)) = true →
        (ComputeWallSurface demoExt demoDoc demoView (demoWall 0 (1/64))).ceil.kind
          = SurfKind.K_INVIS
        ∧ (ComputeWallSurface demoExt demoDoc demoView (demoWall 0 (1/64))).floor.kind
          = SurfKind.K_INVIS) :=
  ceil_floor_surfaces demoExt demoDoc demoView (demoWall 0 (1/64)) ⟨rfl, rfl⟩

/-! ## The utilities RoundPOW2, y_stricmp and ParseHyperLink -/

/-- A number with top bit `s`, or-ed with all the bits below `s`, has all bits
up to `s`. -/
theorem lor_low_bits (t s : Nat) (h1 : 2 ^ s ≤ t) (h2 : t < 2 ^ (s + 1)) :
    t ||| (2 ^ s - 1) = 2 ^ (s + 1) - 1 := by
  apply Nat.eq_of_testBit_eq
  intro i
  rw [Nat.testBit_or, Nat.testBit_two_pow_sub_one, Nat.testBit_two_pow_sub_one]
  rcases Nat.lt_trichotomy i s with h | h | h
  · have a : decide (i < s) = true := by simpa using h
    have b : decide (i < s + 1) = true := by simp; omega
    rw [a, b, Bool.or_true]
  · subst h
    have hd : t / 2 ^ i = 1 := by
      apply Nat.div_eq_of_lt_le
      · simpa using h1
      · rw [pow_succ] at h2
        omega
    have a : t.testBit i = true := by
      rw [Nat.testBit_to_div_mod, hd]
      rfl
    have b : decide (i < i + 1) = true := by simp
    rw [a, b, Bool.true_or]
  · have a : t.testBit i = false := by
      apply Nat.testBit_lt_two_pow
      exact lt_of_lt_of_le h2 (Nat.pow_le_pow_right (by norm_num) (by omega))
    have b : decide (i < s) = false := by simp; omega
    have c : decide (i < s + 1) = false := by simp; omega
    rw [a, b, c]
    rfl

theorem shiftRight_one_coe (t : Nat) : ((t : Int)) >>> (1 : Int) = ((t / 2 : Nat) : Int) := by
  have h3 := Int.shiftRight_coe_nat t 1
  rw [Nat.shiftRight_eq_div_pow] at h3
  simpa using h3

/-- The loop of `RoundPOW2` started with a `tmp` of bit length `s` ends and has
or-ed the `s` low bits into `x`. -/
theorem RoundPOW2_loop_spec :
    ∀ (s t a : Nat), (t = 0 ∧ s = 0) ∨ (0 < s ∧ 2 ^ (s - 1) ≤ t ∧ t < 2 ^ s) →
      RoundPOW2_loop (a : Int) (t : Int) = some (((a ||| (2 ^ s - 1) : Nat)) : Int) := by
  intro s
  induction s with
  | zero =>
    intro t a h
    have ht : t = 0 := by
      rcases h with h | h
      · exact h.1
      · omega
    subst ht
    rw [RoundPOW2_loop]
    simp
  | succ s ih =>
    intro t a h
    have h1 : 2 ^ s ≤ t ∧ t < 2 ^ (s + 1) := by
      rcases h with h | h
      · omega
      · simpa using h.2
    have hpos : 0 < 2 ^ s := Nat.pow_pos (by norm_num)
    have ht0 : ¬ ((t : Int) = 0) := by
      intro h0
      have : t = 0 := by exact_mod_cast h0
      omega
    have htn : ¬ ((t : Int) < 0) := by omega
    rw [RoundPOW2_loop, if_neg ht0, dif_neg htn, shiftRight_one_coe]
    have hl : Int.lor (a : Int) (t : Int) = ((a ||| t : Nat) : Int) := rfl
    rw [hl]
    have hhalf : (t / 2 = 0 ∧ s = 0) ∨ (0 < s ∧ 2 ^ (s - 1) ≤ t / 2 ∧ t / 2 < 2 ^ s) := by
      rcases Nat.eq_zero_or_pos s with hs | hs
      · left
        subst hs
        simp at h1
        omega
      · right
        obtain ⟨u, hu⟩ : ∃ u, s = u + 1 := ⟨s - 1, by omega⟩
        subst hu
        rw [pow_succ] at h1
        rw [pow_succ] at h1
        refine ⟨hs, ?_, ?_⟩
        · simp only [Nat.add_sub_cancel]
          omega
        · rw [pow_succ]
          omega
    rw [ih (t / 2) (a ||| t) hhalf, Nat.lor_assoc, lor_low_bits t s h1.1 h1.2]

/-- The value of `RoundPOW2` above 2: one more than `x - 1` with all bits below
its top bit set. -/
theorem RoundPOW2_of_top_bit (n s : Nat) (h1 : 2 ^ s ≤ n) (h2 : n < 2 ^ (s + 1))
    (hn : 2 ≤ n) : RoundPOW2 ((n : Int) + 1) = some ((2 : Int) ^ (s + 1)) := by
  have hs : 0 < s := by
    rcases Nat.eq_zero_or_pos s with h | h
    · subst h
      simp at h2
      omega
    · exact h
  obtain ⟨u, hu⟩ : ∃ u, s = u + 1 := ⟨s - 1, by omega⟩
  have hhalf : (n / 2 = 0 ∧ s = 0) ∨ (0 < s ∧ 2 ^ (s - 1) ≤ n / 2 ∧ n / 2 < 2 ^ s) := by
    right
    subst hu
    rw [pow_succ] at h1
    rw [pow_succ] at h2
    refine ⟨hs, ?_, ?_⟩
    · simp only [Nat.add_sub_cancel]
      omega
    · omega
  have hx : ¬ ((n : Int) + 1 ≤ 2) := by omega
  unfold RoundPOW2
  rw [if_neg hx, show (n : Int) + 1 - 1 = (n : Int) by ring, shiftRight_one_coe,
    RoundPOW2_loop_spec s (n / 2) n hhalf, lor_low_bits n s h1 h2]
  have hp : 1 ≤ 2 ^ (s + 1) := Nat.one_le_two_pow
  simp only [Option.map_some']
  congr 1
  push_cast [Nat.cast_sub hp]
  ring

/-- The function `RoundPOW2` on `1 .. 2^30` gives a power of two, `2^k` with
`k ≤ 30`. -/
theorem RoundPOW2_spec (x : Int) (h1 : 1 ≤ x) (h2 : x ≤ 2 ^ 30) :
    ∃ k : Nat, k ≤ 30 ∧ RoundPOW2 x = some ((2 : Int) ^ k) ∧ x ≤ (2 : Int) ^ k
      ∧ ∀ j : Nat, x ≤ (2 : Int) ^ j → (2 : Int) ^ k ≤ (2 : Int) ^ j := by
  by_cases hx : x ≤ 2
  · have hc : x = 1 ∨ x = 2 := by omega
    rcases hc with rfl | rfl
    · refine ⟨0, by norm_num, by simp [RoundPOW2], by norm_num, ?_⟩
      intro j _
      exact one_le_pow₀ (by norm_num)
    · refine ⟨1, by norm_num, by simp [RoundPOW2], by norm_num, ?_⟩
      intro j hj
      rcases Nat.eq_zero_or_pos j with h | h
      · subst h
        norm_num at hj
      · exact pow_le_pow_right₀ (by norm_num) h
  · obtain ⟨n, hn⟩ : ∃ n : Nat, x = (n : Int) + 1 := ⟨(x - 1).toNat, by omega⟩
    subst hn
    have hn2 : 2 ≤ n := by omega
    have hlo : 2 ^ Nat.log 2 n ≤ n := Nat.pow_log_le_self 2 (by omega)
    have hhi : n < 2 ^ (Nat.log 2 n + 1) := Nat.lt_pow_succ_log_self (by norm_num) n
    have hn30 : n < 2 ^ 30 := by
      have : (n : Int) < 2 ^ 30 := by omega
      exact_mod_cast this
    have hk : Nat.log 2 n + 1 ≤ 30 := by
      have : 2 ^ Nat.log 2 n < 2 ^ 30 := lt_of_le_of_lt hlo hn30
      have := (Nat.pow_lt_pow_iff_right (by norm_num : 1 < 2)).1 this
      omega
    refine ⟨Nat.log 2 n + 1, hk, RoundPOW2_of_top_bit n _ hlo hhi hn2, ?_, ?_⟩
    · have : ((n + 1 : Nat) : Int) ≤ ((2 ^ (Nat.log 2 n + 1) : Nat) : Int) := by
        exact_mod_cast hhi
      simpa using this
    · intro j hj
      have hj2 : n < 2 ^ j := by
        have : ((n : Int)) < (2 : Int) ^ j := by omega
        exact_mod_cast this
      have : 2 ^ Nat.log 2 n < 2 ^ j := lt_of_le_of_lt hlo hj2
      have := (Nat.pow_lt_pow_iff_right (by norm_num : 1 < 2)).1 this
      exact pow_le_pow_right₀ (by norm_num) (by omega)

/-- Claim C23: `RoundPOW2` rounds up to a power of two.  For every `x` with
`1 ≤ x ≤ 2^30` the function returns, and what it returns is the least power of
two that is at least `x`; so `x` is a fixed point exactly when it is a power of
two, and applying `RoundPOW2` to the result gives the result again. -/
theorem RoundPOW2_least_power (x : Int) (h1 : 1 ≤ x) (h2 : x ≤ 2 ^ 30) :
    ∃ k : Nat, RoundPOW2 x = some ((2 : Int) ^ k) ∧ x ≤ (2 : Int) ^ k
      ∧ (∀ j : Nat, x ≤ (2 : Int) ^ j → (2 : Int) ^ k ≤ (2 : Int) ^ j)
      ∧ (RoundPOW2 x = some x ↔ ∃ j : Nat, x = (2 : Int) ^ j)
      ∧ RoundPOW2 ((2 : Int) ^ k) = some ((2 : Int) ^ k) := by
  obtain ⟨k, hk, hr, hle, hmin⟩ := RoundPOW2_spec x h1 h2
  refine ⟨k, hr, hle, hmin, ?_, ?_⟩
  · constructor
    · intro hx
      rw [hr] at hx
      exact ⟨k, (Option.some.inj hx).symm⟩
    · rintro ⟨j, hj⟩
      rw [hr]
      congr 1
      have a := hmin j (le_of_eq hj)
      rw [← hj] at a
      exact le_antisymm a hle
  · have hp1 : (1 : Int) ≤ 2 ^ k := one_le_pow₀ (by norm_num)
    have hp2 : (2 : Int) ^ k ≤ 2 ^ 30 := pow_le_pow_right₀ (by norm_num) hk
    obtain ⟨k2, -, hr2, hle2, hmin2⟩ := RoundPOW2_spec ((2 : Int) ^ k) hp1 hp2
    rw [hr2]
    congr 1
    exact le_antisymm (hmin2 k (le_refl _)) hle2

/-- Witness for C23: `RoundPOW2 (5)` is `8`. -/
theorem RoundPOW2_least_power_witness :
    ∃ k : Nat, RoundPOW2 5 = some ((2 : Int) ^ k) ∧ (5 : Int) ≤ (2 : Int) ^ k
      ∧ (∀ j : Nat, (5 : Int) ≤ (2 : Int) ^ j → (2 : Int) ^ k ≤ (2 : Int) ^ j)
      ∧ (RoundPOW2 5 = some 5 ↔ ∃ j : Nat, (5 : Int) = (2 : Int) ^ j)
      ∧ RoundPOW2 ((2 : Int) ^ k) = some ((2 : Int) ^ k) :=
  RoundPOW2_least_power 5 (by norm_num) (by norm_num)

/-- Claim C24, the code at a failing input: for the strings "a" and "Z" the
lower-cased characters differ, and `y_stricmp` returns the difference of the
characters as they are, `97 - 90 = 7`, a positive number, while `strcmp` on the
lower-cased strings "a" and "z" is negative.  With "A" in place of "a" the
result of `y_stricmp` is negative. -/
theorem y_stricmp_sign_mismatch :
    y_stricmp [97] [90] = 7
    ∧ strcmp ([97].map tolower) ([90].map tolower) = -25
    ∧ y_stricmp [65] [90] = -25
    ∧ [97].map tolower = [65].map tolower := by
  refine ⟨?_, by decide, ?_, by decide⟩
  · rw [y_stricmp]
    decide
  · rw [y_stricmp]
    decide

/-- Claim C27, the code at a failing input: a message in the documented syntax
`<a URL>Title</a>` does not hold the marker that `ParseHyperLink` looks for
(a less-than sign, a blank and the letter a), so the three strings come back
unchanged; the same message with the marker written with the blank first is
cut as described. -/
theorem ParseHyperLink_documented_syntax :
    ParseHyperLink "See <a http://x.org/f.html>Title</a>".toList [] []
      = ("See <a http://x.org/f.html>Title</a>".toList, [], [])
    ∧ ParseHyperLink "See < ahttp://x.org/f.html>Title</a>".toList [] []
      = ("See ".toList ++ [Char.ofNat 10], "http://x.org/f.html".toList, "Title".toList) := by
  constructor <;> decide

theorem tolower_ne_zero (c : Nat) (h : c ≠ 0) : tolower c ≠ 0 := by
  unfold tolower
  split_ifs <;> omega

/-- The part of the contract of `y_stricmp` that the code keeps: on strings
without an inner NUL the result is 0 exactly when the two strings agree after
lower-casing. -/
theorem y_stricmp_eq_zero_iff :
    ∀ (s1 s2 : List Nat), (∀ c ∈ s1, c ≠ 0) → (∀ c ∈ s2, c ≠ 0) →
      (y_stricmp s1 s2 = 0 ↔ s1.map tolower = s2.map tolower) := by
  intro s1
  induction s1 with
  | nil =>
    intro s2 _ h2
    cases s2 with
    | nil =>
      rw [y_stricmp]
      simp [deref]
    | cons c2 t2 =>
      have hc : c2 ≠ 0 := h2 c2 (List.mem_cons_self _ _)
      have ht := tolower_ne_zero c2 hc
      have h0 : tolower 0 = 0 := by decide
      rw [y_stricmp]
      simp only [deref, List.headD_nil, List.headD_cons, h0, ne_eq, Ne.symm ht,
        not_false_eq_true, if_true, List.map_nil, List.map_cons]
      constructor
      · intro h
        omega
      · intro h
        cases h
  | cons c1 t1 ih =>
    intro s2 h1 h2
    have hc1 : c1 ≠ 0 := h1 c1 (List.mem_cons_self _ _)
    cases s2 with
    | nil =>
      have ht := tolower_ne_zero c1 hc1
      have h0 : tolower 0 = 0 := by decide
      rw [y_stricmp]
      simp only [deref, List.headD_nil, List.headD_cons, h0, ne_eq, ht,
        not_false_eq_true, if_true, List.map_nil, List.map_cons]
      constructor
      · intro h
        omega
      · intro h
        cases h
    | cons c2 t2 =>
      have hc2 : c2 ≠ 0 := h2 c2 (List.mem_cons_self _ _)
      rw [y_stricmp]
      simp only [deref, List.headD_cons, List.tail_cons, List.map_cons, List.cons.injEq]
      by_cases hl : tolower c1 = tolower c2
      · have hrec := ih t2 (fun c hc => h1 c (List.mem_cons_of_mem _ hc))
          (fun c hc => h2 c (List.mem_cons_of_mem _ hc))
        simp only [hl, ne_eq, not_true_eq_false, if_false, hc1, hc2, not_false_eq_true,
          and_self, dif_pos, true_and]
        exact hrec
      · have hne : c1 ≠ c2 := fun h => hl (by rw [h])
        simp only [hl, ne_eq, not_false_eq_true, if_true, false_and, iff_false]
        omega

/-! ## The sort of the active list: what it keeps and when it orders -/

theorem getAt_mem (act : List Nat) (i : Int) (_h0 : 0 ≤ i) (h1 : i < act.length) :
    getAt act i ∈ act := by
  unfold getAt
  have h : i.toNat < act.length := by omega
  rw [List.getD_eq_getElem _ _ h]
  exact List.getElem_mem h

/-- The element at position `j` after `Sort_Swap (i, k)`. -/
theorem getAt_Sort_Swap (act : List Nat) (i k j : Int) (hi0 : 0 ≤ i) (hi : i < act.length)
    (hk0 : 0 ≤ k) (hk : k < act.length) (hj0 : 0 ≤ j) :
    getAt (Sort_Swap act i k) j
      = if j = i then getAt act k else if j = k then getAt act i else getAt act j := by
  unfold Sort_Swap getAt
  simp only [List.getD_eq_getElem?_getD]
  by_cases h1 : j = i
  · subst h1
    rw [if_pos rfl, List.getElem?_set_self (by simp; omega)]
    rfl
  · rw [if_neg h1, List.getElem?_set_ne (by omega)]
    by_cases h2 : j = k
    · subst h2
      rw [if_pos rfl, List.getElem?_set_self (by omega)]
      rfl
    · rw [if_neg h2, List.getElem?_set_ne (by omega)]

/-- The loop `while (s <= e && active[s]->IsCloser(pivot)) s++`: where it stops. -/
theorem scanUp_spec (closer : Nat → Nat → Bool) (pivot : Nat) (act : List Nat) :
    ∀ (n : Nat) (s e : Int), (e + 1 - s).toNat = n →
      (s ≤ e + 1 → (scanUp closer pivot act s e).1 ≤ e + 1)
      ∧ (∀ i, s ≤ i → i < (scanUp closer pivot act s e).1 → closer (getAt act i) pivot = true)
      ∧ ((scanUp closer pivot act s e).1 ≤ e →
          closer (getAt act (scanUp closer pivot act s e).1) pivot = false) := by
  intro n
  induction n using Nat.strong_induction_on with
  | _ n ih =>
    intro s e hn
    rw [scanUp]
    by_cases h : s ≤ e ∧ closer (getAt act s) pivot = true
    · rw [dif_pos h]
      simp only []
      obtain ⟨a1, a2, a3⟩ := ih (e + 1 - (s + 1)).toNat (by omega) (s + 1) e rfl
      refine ⟨fun _ => a1 (by omega), ?_, a3⟩
      intro i hi1 hi2
      by_cases hs : i = s
      · rw [hs]
        exact h.2
      · exact a2 i (by omega) hi2
    · rw [dif_neg h]
      simp only []
      refine ⟨fun hs => hs, fun i hi1 hi2 => by omega, ?_⟩
      intro hs
      by_contra hc
      exact h ⟨hs, by simpa using hc⟩

/-- The loop `while (e >= s && ! active[e]->IsCloser(pivot)) e--`: where it
stops. -/
theorem scanDown_spec (closer : Nat → Nat → Bool) (pivot : Nat) (act : List Nat) :
    ∀ (n : Nat) (s e : Int), (e + 1 - s).toNat = n →
      (s ≤ e + 1 → s - 1 ≤ (scanDown closer pivot act s e).1)
      ∧ (∀ j, (scanDown closer pivot act s e).1 < j → j ≤ e →
          closer (getAt act j) pivot = false)
      ∧ (s ≤ (scanDown closer pivot act s e).1 →
          closer (getAt act (scanDown closer pivot act s e).1) pivot = true) := by
  intro n
  induction n using Nat.strong_induction_on with
  | _ n ih =>
    intro s e hn
    rw [scanDown]
    by_cases h : e ≥ s ∧ ¬ closer (getAt act e) pivot = true
    · rw [dif_pos h]
      simp only []
      obtain ⟨a1, a2, a3⟩ := ih (e - 1 + 1 - s).toNat (by omega) s (e - 1) rfl
      refine ⟨fun _ => a1 (by omega), ?_, a3⟩
      intro j hj1 hj2
      by_cases hs : j = e
      · rw [hs]
        simpa using h.2
      · exact a2 j hj1 (by omega)
    · rw [dif_neg h]
      simp only []
      refine ⟨fun hs => by omega, fun j hj1 hj2 => by omega, ?_⟩
      intro hs
      by_contra hc
      exact h ⟨hs, hc⟩

theorem RangeKeeps_refl (act : List Nat) (lo hi : Int) : RangeKeeps act act lo hi :=
  ⟨List.Perm.refl _, fun _ _ _ => rfl, fun _ h => h⟩

theorem RangeKeeps_trans (a b c : List Nat) (lo hi : Int) (h1 : RangeKeeps a b lo hi)
    (h2 : RangeKeeps b c lo hi) : RangeKeeps a c lo hi := by
  obtain ⟨p1, o1, q1⟩ := h1
  obtain ⟨p2, o2, q2⟩ := h2
  refine ⟨p2.trans p1, ?_, ?_⟩
  · intro j hj hout
    rw [o2 j hj hout, o1 j hj hout]
  · intro Q hQ
    exact q2 Q (q1 Q hQ)

/-- A change inside `a .. b` is a change inside every range that holds `a .. b`. -/
theorem RangeKeeps_mono (act0 act : List Nat) (a b lo hi : Int) (h0 : 0 ≤ lo) (ha : lo ≤ a)
    (hb : b ≤ hi) (h : RangeKeeps act0 act a b) : RangeKeeps act0 act lo hi := by
  obtain ⟨p, o, q⟩ := h
  refine ⟨p, ?_, ?_⟩
  · intro j hj hout
    exact o j hj (by omega)
  · intro Q hQ i hi1 hi2
    by_cases hin : a ≤ i ∧ i ≤ b
    · exact q Q (fun k hk1 hk2 => hQ k (by omega) (by omega)) i hin.1 hin.2
    · rw [o i (by omega) (by omega)]
      exact hQ i hi1 hi2

/-- The method `Sort_Swap` on two positions of `lo .. hi` changes the list
inside `lo .. hi` only. -/
theorem RangeKeeps_Sort_Swap (act : List Nat) (i k lo hi : Int) (h0 : 0 ≤ lo)
    (hlen : hi < act.length) (hi1 : lo ≤ i) (hi2 : i ≤ hi) (hk1 : lo ≤ k) (hk2 : k ≤ hi) :
    RangeKeeps act (Sort_Swap act i k) lo hi := by
  refine ⟨Sort_Swap_perm act i k (by omega) (by omega) (by omega), ?_, ?_⟩
  · intro j hj hout
    rw [getAt_Sort_Swap act i k j (by omega) (by omega) (by omega) (by omega) hj,
      if_neg (by omega), if_neg (by omega)]
  · intro Q hQ j hj1 hj2
    rw [getAt_Sort_Swap act i k j (by omega) (by omega) (by omega) (by omega) (by omega)]
    split_ifs
    · exact hQ k hk1 hk2
    · exact hQ i hi1 hi2
    · exact hQ j hj1 hj2

/-- The loop of `Sort_Partition` changes the list inside `lo .. hi` only,
whatever the comparator answers. -/
theorem partitionLoop_keeps (closer : Nat → Nat → Bool) (pivot : Nat) (lo hi pivot_idx : Int)
    (h0 : 0 ≤ lo) (hp1 : lo ≤ pivot_idx) (hp2 : pivot_idx ≤ hi) :
    ∀ (n : Nat) (act : List Nat) (s e : Int), (e + 1 - s).toNat = n →
      lo ≤ s → e ≤ hi → hi < act.length →
      RangeKeeps act (partitionLoop closer pivot lo hi pivot_idx act s e).2 lo hi := by
  intro n
  induction n using Nat.strong_induction_on with
  | _ n ih =>
    intro act s e hn hs he hlen
    rw [partitionLoop]
    rcases scanUp closer pivot act s e with ⟨s1, hs1⟩
    simp only []
    by_cases c1 : s1 > hi
    · rw [if_pos c1]
      simp only []
      split_ifs
      · exact RangeKeeps_Sort_Swap act pivot_idx hi lo hi h0 hlen hp1 hp2 (by omega) (le_refl _)
      · exact RangeKeeps_refl _ _ _
    · rw [if_neg c1]
      rcases scanDown closer pivot act s1 e with ⟨e1, he1⟩
      simp only []
      by_cases c2 : e1 < lo
      · rw [if_pos c2]
        simp only []
        split_ifs
        · exact RangeKeeps_Sort_Swap act pivot_idx lo lo hi h0 hlen hp1 hp2 (le_refl _) (by omega)
        · exact RangeKeeps_refl _ _ _
      · rw [if_neg c2]
        by_cases c3 : s1 < e1
        · rw [dif_pos c3]
          have hsw := RangeKeeps_Sort_Swap act s1 e1 lo hi h0 hlen (by omega) (by omega)
            (by omega) (by omega)
          have hl := Sort_Swap_length act s1 e1
          have := ih ((e1 - 1 + 1 - (s1 + 1)).toNat) (by omega) (Sort_Swap act s1 e1)
            (s1 + 1) (e1 - 1) rfl (by omega) (by omega) (by rw [hl]; exact hlen)
          exact RangeKeeps_trans _ _ _ lo hi hsw this
        · rw [dif_neg c3]
          exact RangeKeeps_refl _ _ _

theorem Sort_Partition_keeps (closer : Nat → Nat → Bool) (act : List Nat)
    (lo hi pivot_idx : Int) (h0 : 0 ≤ lo) (hp1 : lo ≤ pivot_idx) (hp2 : pivot_idx ≤ hi)
    (hlen : hi < act.length) :
    RangeKeeps act (Sort_Partition closer act lo hi pivot_idx).2 lo hi := by
  unfold Sort_Partition
  exact partitionLoop_keeps closer _ lo hi pivot_idx h0 hp1 hp2 _ act lo hi rfl (le_refl _)
    (le_refl _) hlen

/-- The method `Sort_Range (s, e)` changes the list inside `s .. e` only,
whatever the comparator answers. -/
theorem Sort_Range_keeps (closer : Nat → Nat → Bool) :
    ∀ (n : Nat) (act : List Nat) (s e : Int), (e - s).toNat = n →
      0 ≤ s → e < act.length → RangeKeeps act (Sort_Range closer act s e) s e := by
  intro n
  induction n using Nat.strong_induction_on with
  | _ n ih =>
    intro act s e hn hs he
    rw [Sort_Range]
    by_cases c0 : s < e
    · rw [dif_pos c0]
      by_cases c1 : s = e - 1
      · rw [if_pos c1]
        split_ifs
        · exact RangeKeeps_Sort_Swap act s e s e hs he (le_refl _) (by omega) (by omega)
            (le_refl _)
        · exact RangeKeeps_refl _ _ _
      · rw [if_neg c1]
        have hmid := shiftRight_one_mid s e hs (le_of_lt c0)
        have hP := Sort_Partition_keeps closer act s e ((s + e) >>> 1) hs hmid.1 hmid.2 he
        generalize Sort_Partition closer act s e ((s + e) >>> 1) = res at hP ⊢
        obtain ⟨mid, act1⟩ := res
        simp only [] at hP ⊢
        have hl : act1.length = act.length := hP.1.length_eq
        by_cases d1 : mid ≤ s
        · rw [dif_pos d1]
          have a := ih _ (by omega) act1 (s + 1) e rfl (by omega) (by rw [hl]; exact he)
          exact RangeKeeps_trans _ _ _ s e hP
            (RangeKeeps_mono _ _ (s + 1) e s e hs (by omega) (le_refl _) a)
        · rw [dif_neg d1]
          by_cases d2 : mid + 1 ≥ e
          · rw [dif_pos d2]
            have a := ih _ (by omega) act1 s (e - 1) rfl hs (by rw [hl]; omega)
            exact RangeKeeps_trans _ _ _ s e hP
              (RangeKeeps_mono _ _ s (e - 1) s e hs (le_refl _) (by omega) a)
          · rw [dif_neg d2]
            split_ifs
            · have a1 := ih _ (by omega) act1 s mid rfl hs (by rw [hl]; omega)
              have a2 := ih _ (by omega) (Sort_Range closer act1 s mid) (mid + 1) e rfl
                (by omega) (by rw [a1.1.length_eq, hl]; exact he)
              exact RangeKeeps_trans _ _ _ s e hP (RangeKeeps_trans _ _ _ s e
                (RangeKeeps_mono _ _ s mid s e hs (le_refl _) (by omega) a1)
                (RangeKeeps_mono _ _ (mid + 1) e s e hs (by omega) (le_refl _) a2))
            · have a1 := ih _ (by omega) act1 (mid + 1) e rfl (by omega) (by rw [hl]; exact he)
              have a2 := ih _ (by omega) (Sort_Range closer act1 (mid + 1) e) s mid rfl hs
                (by rw [a1.1.length_eq, hl]; omega)
              exact RangeKeeps_trans _ _ _ s e hP (RangeKeeps_trans _ _ _ s e
                (RangeKeeps_mono _ _ (mid + 1) e s e hs (by omega) (le_refl _) a1)
                (RangeKeeps_mono _ _ s mid s e hs (le_refl _) (by omega) a2))
    · rw [dif_neg c0]
      exact RangeKeeps_refl _ _ _

section SortOrder
variable {K : Type} [LinearOrder K]

/-- The loop of `Sort_Partition` for a comparator that compares a key against
the key of the pivot: the returned index lies in `lo .. hi - 1`, the elements up
to it have a key at least the key of the pivot, the elements after it a key at
most the key of the pivot. -/
theorem partitionLoop_split (closer : Nat → Nat → Bool) (key : Nat → K) (pivot : Nat)
    (lo hi pivot_idx : Int) (act0 : List Nat)
    (h0 : 0 ≤ lo) (hlt : lo < hi) (hp1 : lo ≤ pivot_idx) (hp2 : pivot_idx ≤ hi)
    (hlen : hi < act0.length)
    (hc : ∀ a ∈ act0, (closer a pivot = true ↔ key pivot < key a)) :
    ∀ (n : Nat) (act : List Nat) (s e : Int), (e + 1 - s).toNat = n →
      act.Perm act0 → lo ≤ s → e ≤ hi → s ≤ e + 1 →
      (∀ i, lo ≤ i → i < s → closer (getAt act i) pivot = true) →
      (∀ j, e < j → j ≤ hi → closer (getAt act j) pivot = false) →
      ((s = lo ∧ e = hi ∧ getAt act pivot_idx = pivot) ∨ (lo < s ∧ e < hi)) →
      lo ≤ (partitionLoop closer pivot lo hi pivot_idx act s e).1
      ∧ (partitionLoop closer pivot lo hi pivot_idx act s e).1 < hi
      ∧ (∀ i, lo ≤ i → i ≤ (partitionLoop closer pivot lo hi pivot_idx act s e).1 →
          key pivot ≤ key (getAt (partitionLoop closer pivot lo hi pivot_idx act s e).2 i))
      ∧ (∀ j, (partitionLoop closer pivot lo hi pivot_idx act s e).1 < j → j ≤ hi →
          key (getAt (partitionLoop closer pivot lo hi pivot_idx act s e).2 j) ≤ key pivot) := by
  intro n
  induction n using Nat.strong_induction_on with
  | _ n ih =>
    intro act s e hn hperm hs he hse I1 I2 I4
    have hl : act.length = act0.length := hperm.length_eq
    have hmem : ∀ i, lo ≤ i → i ≤ hi → getAt act i ∈ act0 := by
      intro i hi1 hi2
      exact hperm.mem_iff.1 (getAt_mem act i (by omega) (by omega))
    have hfront : ∀ i, lo ≤ i → i ≤ hi → closer (getAt act i) pivot = true →
        key pivot ≤ key (getAt act i) := by
      intro i hi1 hi2 h
      exact le_of_lt ((hc _ (hmem i hi1 hi2)).1 h)
    have hback : ∀ i, lo ≤ i → i ≤ hi → closer (getAt act i) pivot = false →
        key (getAt act i) ≤ key pivot := by
      intro i hi1 hi2 h
      apply not_lt.1
      intro hlt
      have := (hc _ (hmem i hi1 hi2)).2 hlt
      rw [h] at this
      exact Bool.false_ne_true this
    obtain ⟨u1, u2, u3⟩ := scanUp_spec closer pivot act _ s e rfl
    rw [partitionLoop]
    rcases hsu : scanUp closer pivot act s e with ⟨s1, hs1⟩
    rw [hsu] at u1 u2 u3
    simp only [] at u1 u2 u3 ⊢
    have I1x : ∀ i, lo ≤ i → i < s1 → closer (getAt act i) pivot = true := by
      intro i hi1 hi2
      by_cases h : i < s
      · exact I1 i hi1 h
      · exact u2 i (by omega) hi2
    by_cases c1 : s1 > hi
    · rw [if_pos c1]
      simp only []
      have hs1e := u1 hse
      have heq : e = hi := by omega
      have hpv : getAt act pivot_idx = pivot := by
        rcases I4 with h | h
        · exact h.2.2
        · omega
      refine ⟨by omega, by omega, ?_, ?_⟩
      · intro i hi1 hi2
        split_ifs
        · rw [getAt_Sort_Swap act pivot_idx hi i (by omega) (by omega) (by omega) (by omega)
            (by omega)]
          split_ifs
          · exact hfront hi (by omega) (le_refl _) (I1x hi (by omega) (by omega))
          · omega
          · exact hfront i hi1 (by omega) (I1x i hi1 (by omega))
        · exact hfront i hi1 (by omega) (I1x i hi1 (by omega))
      · intro j hj1 hj2
        have hj : j = hi := by omega
        rw [hj]
        by_cases hne : pivot_idx ≠ hi
        · rw [if_pos hne, getAt_Sort_Swap act pivot_idx hi hi (by omega) (by omega) (by omega)
            (by omega) (by omega), if_neg (Ne.symm hne), if_pos rfl, hpv]
        · rw [if_neg hne]
          have : pivot_idx = hi := not_not.1 hne
          rw [← this, hpv]
    · rw [if_neg c1]
      obtain ⟨d1, d2, d3⟩ := scanDown_spec closer pivot act _ s1 e rfl
      rcases hsd : scanDown closer pivot act s1 e with ⟨e1, he1⟩
      rw [hsd] at d1 d2 d3
      simp only [] at d1 d2 d3 ⊢
      have hs1e := u1 hse
      have he1s := d1 hs1e
      have I2x : ∀ j, e1 < j → j ≤ hi → closer (getAt act j) pivot = false := by
        intro j hj1 hj2
        by_cases h : e < j
        · exact I2 j h hj2
        · exact d2 j hj1 (by omega)
      by_cases c2 : e1 < lo
      · rw [if_pos c2]
        simp only []
        have hs1lo : s1 = lo := by omega
        have hpv : getAt act pivot_idx = pivot ∧ e = hi := by
          rcases I4 with h | h
          · exact ⟨h.2.2, h.2.1⟩
          · omega
        refine ⟨le_refl _, by omega, ?_, ?_⟩
        · intro i hi1 hi2
          have hi : i = lo := by omega
          rw [hi]
          by_cases hne : pivot_idx ≠ lo
          · rw [if_pos hne, getAt_Sort_Swap act pivot_idx lo lo (by omega) (by omega) (by omega)
              (by omega) (by omega), if_neg (Ne.symm hne), if_pos rfl, hpv.1]
          · rw [if_neg hne]
            have : pivot_idx = lo := not_not.1 hne
            rw [← this, hpv.1]
        · intro j hj1 hj2
          split_ifs
          · rw [getAt_Sort_Swap act pivot_idx lo j (by omega) (by omega) (by omega) (by omega)
              (by omega)]
            split_ifs
            · exact hback lo (le_refl _) (by omega) (I2x lo (by omega) (by omega))
            · omega
            · exact hback j (by omega) hj2 (I2x j (by omega) hj2)
          · exact hback j (by omega) hj2 (I2x j (by omega) hj2)
      · rw [if_neg c2]
        by_cases c3 : s1 < e1
        · rw [dif_pos c3]
          have hsw := Sort_Swap_perm act s1 e1 (by omega) (by omega) (by omega)
          have hg : ∀ j, 0 ≤ j → getAt (Sort_Swap act s1 e1) j
              = if j = s1 then getAt act e1 else if j = e1 then getAt act s1 else getAt act j :=
            fun j hj => getAt_Sort_Swap act s1 e1 j (by omega) (by omega) (by omega) (by omega)
              hj
          apply ih ((e1 - 1 + 1 - (s1 + 1)).toNat) (by omega) (Sort_Swap act s1 e1)
            (s1 + 1) (e1 - 1) rfl (hsw.trans hperm) (by omega) (by omega) (by omega)
          · intro i hi1 hi2
            rw [hg i (by omega)]
            split_ifs with g1 g2
            · exact d3 (by omega)
            · omega
            · exact I1x i hi1 (by omega)
          · intro j hj1 hj2
            rw [hg j (by omega)]
            split_ifs with g1 g2
            · omega
            · exact u3 (by omega)
            · exact I2x j (by omega) hj2
          · right
            constructor <;> omega
        · rw [dif_neg c3]
          simp only []
          have he1eq : e1 = s1 - 1 := by
            by_contra hne
            have h1 : e1 = s1 := by omega
            have a := d3 (by omega)
            have b := u3 (by omega)
            rw [h1] at a
            rw [a] at b
            exact Bool.noConfusion b
          refine ⟨by omega, by omega, ?_, ?_⟩
          · intro i hi1 hi2
            exact hfront i hi1 (by omega) (I1x i hi1 (by omega))
          · intro j hj1 hj2
            exact hback j (by omega) hj2 (I2x j (by omega) hj2)

end SortOrder

section SortOrder2
variable {K : Type} [LinearOrder K]

/-- The method `Sort_Partition` for a comparator that compares keys: some key
`v` (that of the pivot) separates the two parts. -/
theorem Sort_Partition_split (closer : Nat → Nat → Bool) (key : Nat → K) (act : List Nat)
    (lo hi pivot_idx : Int) (h0 : 0 ≤ lo) (hlt : lo < hi) (hp1 : lo ≤ pivot_idx)
    (hp2 : pivot_idx ≤ hi) (hlen : hi < act.length)
    (hc : ∀ a ∈ act, ∀ b ∈ act, (closer a b = true ↔ key b < key a)) :
    lo ≤ (Sort_Partition closer act lo hi pivot_idx).1
    ∧ (Sort_Partition closer act lo hi pivot_idx).1 < hi
    ∧ ∃ v : K,
        (∀ i, lo ≤ i → i ≤ (Sort_Partition closer act lo hi pivot_idx).1 →
          v ≤ key (getAt (Sort_Partition closer act lo hi pivot_idx).2 i))
        ∧ (∀ j, (Sort_Partition closer act lo hi pivot_idx).1 < j → j ≤ hi →
          key (getAt (Sort_Partition closer act lo hi pivot_idx).2 j) ≤ v) := by
  have hpm : getAt act pivot_idx ∈ act := getAt_mem act pivot_idx (by omega) (by omega)
  obtain ⟨a1, a2, a3, a4⟩ := partitionLoop_split closer key (getAt act pivot_idx) lo hi
    pivot_idx act h0 hlt hp1 hp2 hlen (fun a ha => hc a ha _ hpm) _ act lo hi rfl
    (List.Perm.refl _) (le_refl _) (le_refl _) (by omega) (fun i h1 h2 => by omega)
    (fun j h1 h2 => by omega) (Or.inl ⟨rfl, rfl, rfl⟩)
  unfold Sort_Partition
  exact ⟨a1, a2, key (getAt act pivot_idx), a3, a4⟩

/-- The method `Sort_Range (s, e)` for a comparator that compares keys leaves
the positions `s .. e` with keys that never increase. -/
theorem Sort_Range_sorted (closer : Nat → Nat → Bool) (key : Nat → K) :
    ∀ (n : Nat) (act : List Nat) (s e : Int), (e - s).toNat = n →
      0 ≤ s → e < act.length →
      (∀ a ∈ act, ∀ b ∈ act, (closer a b = true ↔ key b < key a)) →
      ∀ i j, s ≤ i → i < j → j ≤ e →
        key (getAt (Sort_Range closer act s e) j) ≤ key (getAt (Sort_Range closer act s e) i) := by
  intro n
  induction n using Nat.strong_induction_on with
  | _ n ih =>
    intro act s e hn hs he hc i j hi hij hj
    have c0 : s < e := by omega
    rw [Sort_Range, dif_pos c0]
    by_cases c1 : s = e - 1
    · rw [if_pos c1]
      have hi' : i = s := by omega
      have hj' : j = e := by omega
      rw [hi', hj']
      have hA : getAt act s ∈ act := getAt_mem act s hs (by omega)
      have hB : getAt act e ∈ act := getAt_mem act e (by omega) he
      by_cases hcl : closer (getAt act e) (getAt act s) = true
      · rw [if_pos hcl, getAt_Sort_Swap act s e e hs (by omega) (by omega) he (by omega),
          getAt_Sort_Swap act s e s hs (by omega) (by omega) he hs, if_neg (by omega),
          if_pos rfl, if_pos rfl]
        exact le_of_lt ((hc _ hB _ hA).1 hcl)
      · rw [if_neg hcl]
        apply not_lt.1
        intro hlt
        exact hcl ((hc _ hB _ hA).2 hlt)
    · rw [if_neg c1]
      have hmid := shiftRight_one_mid s e hs (le_of_lt c0)
      have hP := Sort_Partition_keeps closer act s e ((s + e) >>> 1) hs hmid.1 hmid.2 he
      obtain ⟨m1, m2, v, hL, hR⟩ := Sort_Partition_split closer key act s e ((s + e) >>> 1)
        hs c0 hmid.1 hmid.2 he hc
      generalize Sort_Partition closer act s e ((s + e) >>> 1) = res at hP m1 m2 hL hR ⊢
      obtain ⟨mid, act1⟩ := res
      simp only [] at hP m1 m2 hL hR ⊢
      have hl : act1.length = act.length := hP.1.length_eq
      have hc1 : ∀ a ∈ act1, ∀ b ∈ act1, (closer a b = true ↔ key b < key a) :=
        fun a ha b hb => hc a (hP.1.mem_iff.1 ha) b (hP.1.mem_iff.1 hb)
      by_cases d1 : mid ≤ s
      · rw [dif_pos d1]
        have hk := Sort_Range_keeps closer _ act1 (s + 1) e rfl (by omega) (by rw [hl]; exact he)
        by_cases hi0 : i = s
        · have e1 : getAt (Sort_Range closer act1 (s + 1) e) i = getAt act1 i :=
            hk.2.1 i (by omega) (by omega)
          rw [e1]
          have b1 := hk.2.2 (fun a => key a ≤ v) (fun k hk1 hk2 => hR k (by omega) hk2)
            j (by omega) hj
          exact le_trans b1 (hL i (by omega) (by omega))
        · exact ih _ (by omega) act1 (s + 1) e rfl (by omega) (by rw [hl]; exact he) hc1
            i j (by omega) hij hj
      · rw [dif_neg d1]
        by_cases d2 : mid + 1 ≥ e
        · rw [dif_pos d2]
          have hk := Sort_Range_keeps closer _ act1 s (e - 1) rfl hs (by rw [hl]; omega)
          by_cases hj0 : j = e
          · have e1 : getAt (Sort_Range closer act1 s (e - 1)) j = getAt act1 j :=
              hk.2.1 j (by omega) (by omega)
            rw [e1]
            have b1 := hk.2.2 (fun a => v ≤ key a) (fun k hk1 hk2 => hL k hk1 (by omega))
              i hi (by omega)
            exact le_trans (hR j (by omega) hj) b1
          · exact ih _ (by omega) act1 s (e - 1) rfl hs (by rw [hl]; omega) hc1
              i j hi hij (by omega)
        · rw [dif_neg d2]
          by_cases d3 : mid - s < e - mid
          · rw [if_pos d3]
            have kA := Sort_Range_keeps closer _ act1 s mid rfl hs (by rw [hl]; omega)
            have hlA : (Sort_Range closer act1 s mid).length = act.length := by
              rw [kA.1.length_eq, hl]
            have kB := Sort_Range_keeps closer _ (Sort_Range closer act1 s mid) (mid + 1) e rfl
              (by omega) (by rw [hlA]; exact he)
            have hcA : ∀ a ∈ Sort_Range closer act1 s mid, ∀ b ∈ Sort_Range closer act1 s mid,
                (closer a b = true ↔ key b < key a) :=
              fun a ha b hb => hc1 a (kA.1.mem_iff.1 ha) b (kA.1.mem_iff.1 hb)
            have sA := ih _ (by omega) act1 s mid rfl hs (by rw [hl]; omega) hc1
            have sB := ih _ (by omega) (Sort_Range closer act1 s mid) (mid + 1) e rfl
              (by omega) (by rw [hlA]; exact he) hcA
            have lowA : ∀ k, s ≤ k → k ≤ mid → v ≤ key (getAt (Sort_Range closer act1 s mid) k) :=
              kA.2.2 (fun a => v ≤ key a) hL
            have highA : ∀ k, mid + 1 ≤ k → k ≤ e →
                key (getAt (Sort_Range closer act1 s mid) k) ≤ v := by
              intro k hk1 hk2
              rw [kA.2.1 k (by omega) (by omega)]
              exact hR k (by omega) hk2
            have highB := kB.2.2 (fun a => key a ≤ v) highA
            by_cases hjm : j ≤ mid
            · rw [kB.2.1 j (by omega) (by omega), kB.2.1 i (by omega) (by omega)]
              exact sA i j hi hij hjm
            · by_cases him : i ≤ mid
              · rw [kB.2.1 i (by omega) (by omega)]
                exact le_trans (highB j (by omega) hj) (lowA i hi him)
              · exact sB i j (by omega) hij hj
          · rw [if_neg d3]
            have kA := Sort_Range_keeps closer _ act1 (mid + 1) e rfl (by omega)
              (by rw [hl]; exact he)
            have hlA : (Sort_Range closer act1 (mid + 1) e).length = act.length := by
              rw [kA.1.length_eq, hl]
            have kB := Sort_Range_keeps closer _ (Sort_Range closer act1 (mid + 1) e) s mid rfl
              hs (by rw [hlA]; omega)
            have hcA : ∀ a ∈ Sort_Range closer act1 (mid + 1) e,
                ∀ b ∈ Sort_Range closer act1 (mid + 1) e,
                (closer a b = true ↔ key b < key a) :=
              fun a ha b hb => hc1 a (kA.1.mem_iff.1 ha) b (kA.1.mem_iff.1 hb)
            have sA := ih _ (by omega) act1 (mid + 1) e rfl (by omega) (by rw [hl]; exact he) hc1
            have sB := ih _ (by omega) (Sort_Range closer act1 (mid + 1) e) s mid rfl
              hs (by rw [hlA]; omega) hcA
            have highA : ∀ k, mid + 1 ≤ k → k ≤ e →
                key (getAt (Sort_Range closer act1 (mid + 1) e) k) ≤ v :=
              kA.2.2 (fun a => key a ≤ v) (fun k hk1 hk2 => hR k (by omega) hk2)
            have lowA : ∀ k, s ≤ k → k ≤ mid →
                v ≤ key (getAt (Sort_Range closer act1 (mid + 1) e) k) := by
              intro k hk1 hk2
              rw [kA.2.1 k (by omega) (by omega)]
              exact hL k hk1 hk2
            have lowB := kB.2.2 (fun a => v ≤ key a) lowA
            by_cases him : mid < i
            · rw [kB.2.1 j (by omega) (by omega), kB.2.1 i (by omega) (by omega)]
              exact sA i j (by omega) hij hj
            · by_cases hjm : mid < j
              · rw [kB.2.1 j (by omega) (by omega)]
                exact le_trans (highA j (by omega) hj) (lowB i hi (by omega))
              · exact sB i j hi hij (by omega)

end SortOrder2

section SortedClaim
variable {F : Type} [LinearOrderedField F] [FloorRing F]

/-- Claim C25: when `IsCloser` on the entities of the active list is the
comparison of `cur_iz` (`A.IsCloser(B)` exactly when `A.cur_iz > B.cur_iz`),
`SortActiveList` leaves the active list ordered front to back: for all
positions `i < j` the entity at `j` is not closer than the entity at `i`, and
`cur_iz` never increases along the list. -/
theorem SortActiveList_front_to_back (X : Ext F) (doc : Doc) (view : View F)
    (heap : Array (DrawWall F)) (active : List Nat)
    (hc : ∀ a ∈ active, ∀ b ∈ active,
      IsCloser X doc view heap a b
        = decide ((heap.getD a default).cur_iz > (heap.getD b default).cur_iz))
    (i j : Int) (hi : 0 ≤ i) (hij : i < j) (hj : j < active.length) :
    IsCloser X doc view heap (getAt (SortActiveList (IsCloser X doc view heap) active) j)
        (getAt (SortActiveList (IsCloser X doc view heap) active) i) = false
    ∧ (heap.getD (getAt (SortActiveList (IsCloser X doc view heap) active) j) default).cur_iz
        ≤ (heap.getD (getAt (SortActiveList (IsCloser X doc view heap) active) i) default).cur_iz := by
  have hperm := SortActiveList_perm (IsCloser X doc view heap) active
  have hiff : ∀ a ∈ active, ∀ b ∈ active, (IsCloser X doc view heap a b = true
      ↔ (heap.getD b default).cur_iz < (heap.getD a default).cur_iz) := by
    intro a ha b hb
    rw [hc a ha b hb, decide_eq_true_iff]
  have hle : (heap.getD (getAt (SortActiveList (IsCloser X doc view heap) active) j)
        default).cur_iz
      ≤ (heap.getD (getAt (SortActiveList (IsCloser X doc view heap) active) i)
        default).cur_iz := by
    unfold SortActiveList
    have h2 : ¬ (active.length < 2) := by omega
    rw [if_neg h2]
    exact Sort_Range_sorted (IsCloser X doc view heap)
      (fun p => (heap.getD p default).cur_iz) _ active 0 _ rfl (le_refl _) (by omega) hiff
      i j hi hij (by omega)
  refine ⟨?_, hle⟩
  have hl := hperm.length_eq
  have mi := hperm.mem_iff.1 (getAt_mem _ i hi (by omega))
  have mj := hperm.mem_iff.1 (getAt_mem _ j (by omega) (by omega))
  rw [hc _ mj _ mi, decide_eq_false_iff_not]
  exact not_lt.2 hle

end SortedClaim

/-- Witness for C25: a wall at inverse distance 1/100 and a sprite at 1/64,
wall first. -/
theorem SortActiveList_front_to_back_witness :
    IsCloser demoExt demoDoc demoView mixedHeap
        (getAt (SortActiveList (IsCloser demoExt demoDoc demoView mixedHeap) [0, 1]) 1)
        (getAt (SortActiveList (IsCloser demoExt demoDoc demoView mixedHeap) [0, 1]) 0) = false
    ∧ (mixedHeap.getD
          (getAt (SortActiveList (IsCloser demoExt demoDoc demoView mixedHeap) [0, 1]) 1)
          default).cur_iz
        ≤ (mixedHeap.getD
          (getAt (SortActiveList (IsCloser demoExt demoDoc demoView mixedHeap) [0, 1]) 0)
          default).cur_iz :=
  SortActiveList_front_to_back demoExt demoDoc demoView mixedHeap [0, 1]
    (by
      have c0 : (mixedHeap.getD 0 default).cur_iz = 1 / 100 := rfl
      have c1 : (mixedHeap.getD 1 default).cur_iz = 1 / 64 := rfl
      have l0 : (mixedHeap.getD 0 default).ld = some 2 := rfl
      have l1 : (mixedHeap.getD 1 default).ld = none := rfl
      have t0 : (mixedHeap.getD 0 default).th = -1 := rfl
      intro a ha b hb
      simp only [List.mem_cons, List.mem_singleton, List.not_mem_nil, or_false] at ha hb
      rcases ha with rfl | rfl <;> rcases hb with rfl | rfl
      · simp [IsCloser]
      · unfold IsCloser
        simp only [l0, l1, t0, c0, c1]
        norm_num
      · unfold IsCloser
        simp only [l0, l1, t0, c0, c1]
        norm_num
      · simp [IsCloser])
    0 1 (by decide) (by decide) (by decide)

/-- Claim C28: `SortActiveList` only permutes.  For every active list and every
behaviour of the comparator the sorted list has the length of the list, holds
every entity as often as the list did, and `Sort_Range` and `Sort_Partition`
change the list inside their current range only: positions outside keep their
entity, and the entities of the range stay in the range. -/
theorem SortActiveList_only_permutes (closer : Nat → Nat → Bool) (active : List Nat) :
    (SortActiveList closer active).length = active.length
    ∧ (SortActiveList closer active).Perm active
    ∧ (∀ p, (SortActiveList closer active).count p = active.count p)
    ∧ (∀ s e : Int, 0 ≤ s → e < active.length →
        RangeKeeps active (Sort_Range closer active s e) s e)
    ∧ (∀ lo hi pivot_idx : Int, 0 ≤ lo → lo ≤ pivot_idx → pivot_idx ≤ hi → hi < active.length →
        RangeKeeps active (Sort_Partition closer active lo hi pivot_idx).2 lo hi) := by
  have hp := SortActiveList_perm closer active
  refine ⟨hp.length_eq, hp, fun p => hp.count_eq p, ?_, ?_⟩
  · intro s e hs he
    exact Sort_Range_keeps closer _ active s e rfl hs he
  · intro lo hi pivot_idx h0 h1 h2 h3
    exact Sort_Partition_keeps closer active lo hi pivot_idx h0 h1 h2 h3

/-- Witness for C28: a comparator that is not even irreflexive, on three
entities. -/
theorem SortActiveList_only_permutes_witness :
    (SortActiveList (fun _ _ => true) [4, 7, 5]).length = [4, 7, 5].length
    ∧ (SortActiveList (fun _ _ => true) [4, 7, 5]).Perm [4, 7, 5]
    ∧ (∀ p, (SortActiveList (fun _ _ => true) [4, 7, 5]).count p = [4, 7, 5].count p)
    ∧ (∀ s e : Int, 0 ≤ s → e < [4, 7, 5].length →
        RangeKeeps [4, 7, 5] (Sort_Range (fun _ _ => true) [4, 7, 5] s e) s e)
    ∧ (∀ lo hi pivot_idx : Int, 0 ≤ lo → lo ≤ pivot_idx → pivot_idx ≤ hi →
        hi < [4, 7, 5].length →
        RangeKeeps [4, 7, 5] (Sort_Partition (fun _ _ => true) [4, 7, 5] lo hi pivot_idx).2
          lo hi) :=
  SortActiveList_only_permutes (fun _ _ => true) [4, 7, 5]

/-! ## The rows of a column: the open region, the query record and the pixel writes -/

section RowFacts
variable {F : Type} [LinearOrderedField F] [FloorRing F]

/-- The state after `RenderWallSurface` on a visible surface, in any mode: the
open region is narrowed by the solid ends of the surface, and only the pixel
buffer and the query record may differ besides. -/
theorem RenderWallSurface_shape (m : MathLib F) (X : Ext F) (doc : Doc) (view : View F)
    (r : RendInfo F) (p : Nat) (surf : DrawSurf) (x : Int) (part : obj3d_type_e)
    (hk : surf.kind ≠ SurfKind.K_INVIS) :
    ∃ (scr : Int → Nat) (qw : Option Nat) (qp : obj3d_type_e),
      RenderWallSurface m X doc view r p surf x part
        = { r with
            open_y1 := if Int.land surf.y_clip SOLID_ABOVE ≠ 0 then
                MAX r.open_y1 ((bandRows view r p surf).2 + 1) else r.open_y1
            open_y2 := if Int.land surf.y_clip SOLID_BELOW ≠ 0 then
                MIN r.open_y2 ((bandRows view r p surf).1 - 1) else r.open_y2
            screen := scr, query_wall := qw, query_part := qp } := by
  obtain ⟨y1, hy1⟩ : ∃ y1, y1 = (if DistToY view (r.heap.getD p default).cur_iz surf.h2 < r.open_y1
      then r.open_y1 else DistToY view (r.heap.getD p default).cur_iz surf.h2) := ⟨_, rfl⟩
  obtain ⟨y2, hy2⟩ : ∃ y2, y2 = (if DistToY view (r.heap.getD p default).cur_iz surf.h1 - 1
      > r.open_y2 then r.open_y2 else DistToY view (r.heap.getD p default).cur_iz surf.h1 - 1) :=
    ⟨_, rfl⟩
  have hb : bandRows view r p surf = (y1, y2) := by
    rw [hy1, hy2]
    rfl
  rw [hb]
  unfold RenderWallSurface
  simp only [hk, if_false, ← hy1, ← hy2]
  by_cases h12 : y1 > y2
  · rw [if_pos h12]
    exact ⟨_, _, _, rfl⟩
  · rw [if_neg h12]
    by_cases hq : r.query_mode ≠ 0
    · rw [if_pos hq]
      by_cases hit : y1 ≤ r.query_sy ∧ r.query_sy ≤ y2
      · rw [if_pos hit]
        exact ⟨_, _, _, rfl⟩
      · rw [if_neg hit]
        exact ⟨_, _, _, rfl⟩
    · rw [if_neg hq]
      cases surf.img with
      | none =>
        simp only []
        by_cases hf : surf.kind = SurfKind.K_FLAT
        · rw [if_pos hf]
          exact ⟨_, _, _, rfl⟩
        · rw [if_neg hf]
          exact ⟨_, _, _, rfl⟩
      | some i =>
        simp only []
        cases surf.kind with
        | K_INVIS => exact ⟨_, _, _, rfl⟩
        | K_FLAT => exact ⟨_, _, _, rfl⟩
        | K_TEXTURE => exact ⟨_, _, _, rfl⟩

/-- What `RenderWallSurface` leaves alone in any mode: the entities, the two
lists, the query request and the depth buffer. -/
theorem RenderWallSurface_frame (m : MathLib F) (X : Ext F) (doc : Doc) (view : View F)
    (r : RendInfo F) (p : Nat) (surf : DrawSurf) (x : Int) (part : obj3d_type_e) :
    (RenderWallSurface m X doc view r p surf x part).heap = r.heap
    ∧ (RenderWallSurface m X doc view r p surf x part).walls = r.walls
    ∧ (RenderWallSurface m X doc view r p surf x part).active = r.active
    ∧ (RenderWallSurface m X doc view r p surf x part).query_mode = r.query_mode
    ∧ (RenderWallSurface m X doc view r p surf x part).query_sx = r.query_sx
    ∧ (RenderWallSurface m X doc view r p surf x part).query_sy = r.query_sy := by
  by_cases hk : surf.kind = SurfKind.K_INVIS
  · rw [RenderWallSurface_invis m X doc view r p surf x part hk]
    exact ⟨rfl, rfl, rfl, rfl, rfl, rfl⟩
  · obtain ⟨scr, qw, qp, h⟩ := RenderWallSurface_shape m X doc view r p surf x part hk
    rw [h]
    exact ⟨rfl, rfl, rfl, rfl, rfl, rfl⟩

theorem Within_nil (a b : Int) : Within a b a b [] :=
  ⟨le_refl a, le_refl b, fun _ h => absurd h (List.not_mem_nil _)⟩

theorem Sweep_nil (a b : Int) : Sweep a b a b [] :=
  ⟨Within_nil a b, fun _ h => absurd h (List.not_mem_nil _), List.Pairwise.nil⟩

/-- Calls made one after the other, the second lot in the region that the
first lot left. -/
theorem Within_append (a b a1 b1 a2 b2 : Int) (L1 L2 : List RowCall)
    (h1 : Within a b a1 b1 L1) (h2 : Within a1 b1 a2 b2 L2) :
    Within a b a2 b2 (L1 ++ L2) := by
  obtain ⟨u1, v1, w1⟩ := h1
  obtain ⟨u2, v2, w2⟩ := h2
  refine ⟨le_trans u1 u2, le_trans v2 v1, ?_⟩
  intro e he
  rcases List.mem_append.1 he with h | h
  · exact w1 e h
  · obtain ⟨g1, g2, g3⟩ := w2 e h
    exact ⟨le_trans u1 g1, g2, le_trans g3 v1⟩

/-- Calls that close their rows, made one after the other: no call of the
second lot meets a call of the first. -/
theorem Sweep_append (a b a1 b1 a2 b2 : Int) (L1 L2 : List RowCall)
    (h1 : Sweep a b a1 b1 L1) (h2 : Sweep a1 b1 a2 b2 L2) :
    Sweep a b a2 b2 (L1 ++ L2) := by
  obtain ⟨w1, o1, p1⟩ := h1
  obtain ⟨w2, o2, p2⟩ := h2
  refine ⟨Within_append a b a1 b1 a2 b2 L1 L2 w1 w2, ?_, ?_⟩
  · intro e he
    rcases List.mem_append.1 he with h | h
    · rcases o1 e h with g | g
      · exact Or.inl (lt_of_lt_of_le g w2.1)
      · exact Or.inr (lt_of_le_of_lt w2.2.1 g)
    · exact o2 e h
  · rw [List.pairwise_append]
    refine ⟨p1, p2, ?_⟩
    intro e he f hf
    obtain ⟨g1, g2, g3⟩ := w2.2.2 f hf
    rcases o1 e he with g | g
    · exact Or.inl (lt_of_lt_of_le g g1)
    · exact Or.inr (lt_of_le_of_lt g3 g)

theorem Sweep_within (a b a2 b2 : Int) (L : List RowCall) (h : Sweep a b a2 b2 L) :
    Within a b a2 b2 L := h.1

/-- The rows of a call of `RenderWallSurface` lie in the open region of the
call, and the call does not widen the region. -/
theorem RenderWallSurface_within (m : MathLib F) (X : Ext F) (doc : Doc) (view : View F)
    (r : RendInfo F) (p : Nat) (surf : DrawSurf) (x : Int) (part : obj3d_type_e) :
    Within r.open_y1 r.open_y2 (RenderWallSurface m X doc view r p surf x part).open_y1
      (RenderWallSurface m X doc view r p surf x part).open_y2
      (surfaceCalls view r p surf part) := by
  by_cases hk : surf.kind = SurfKind.K_INVIS
  · rw [RenderWallSurface_invis m X doc view r p surf x part hk]
    unfold surfaceCalls
    rw [if_pos hk]
    exact Within_nil _ _
  · obtain ⟨scr, qw, qp, h⟩ := RenderWallSurface_shape m X doc view r p surf x part hk
    rw [h]
    unfold surfaceCalls
    rw [if_neg hk]
    have hb1 : r.open_y1 ≤ (bandRows view r p surf).1 := by
      unfold bandRows
      simp only []
      split_ifs <;> omega
    have hb2 : (bandRows view r p surf).2 ≤ r.open_y2 := by
      unfold bandRows
      simp only []
      split_ifs <;> omega
    refine ⟨?_, ?_, ?_⟩
    · show r.open_y1 ≤ (if Int.land surf.y_clip SOLID_ABOVE ≠ 0 then
          MAX r.open_y1 ((bandRows view r p surf).2 + 1) else r.open_y1)
      split_ifs
      · exact le_MAX_left _ _
      · exact le_refl _
    · show (if Int.land surf.y_clip SOLID_BELOW ≠ 0 then
          MIN r.open_y2 ((bandRows view r p surf).1 - 1) else r.open_y2) ≤ r.open_y2
      split_ifs
      · exact MIN_le_left _ _
      · exact le_refl _
    · intro e he
      by_cases h12 : (bandRows view r p surf).1 > (bandRows view r p surf).2
      · rw [if_pos h12] at he
        exact absurd he (List.not_mem_nil _)
      · rw [if_neg h12, List.mem_singleton] at he
        subst he
        exact ⟨hb1, by show (bandRows view r p surf).1 ≤ (bandRows view r p surf).2; omega, hb2⟩

/-- A call of `RenderWallSurface` on a surface with a solid end closes the
rows it takes. -/
theorem RenderWallSurface_sweep (m : MathLib F) (X : Ext F) (doc : Doc) (view : View F)
    (r : RendInfo F) (p : Nat) (surf : DrawSurf) (x : Int) (part : obj3d_type_e)
    (hs : Solid surf) :
    Sweep r.open_y1 r.open_y2 (RenderWallSurface m X doc view r p surf x part).open_y1
      (RenderWallSurface m X doc view r p surf x part).open_y2
      (surfaceCalls view r p surf part) := by
  refine ⟨RenderWallSurface_within m X doc view r p surf x part, ?_, ?_⟩
  · by_cases hk : surf.kind = SurfKind.K_INVIS
    · unfold surfaceCalls
      rw [if_pos hk]
      exact fun _ h => absurd h (List.not_mem_nil _)
    · obtain ⟨scr, qw, qp, h⟩ := RenderWallSurface_shape m X doc view r p surf x part hk
      rw [h]
      unfold surfaceCalls
      rw [if_neg hk]
      intro e he
      by_cases h12 : (bandRows view r p surf).1 > (bandRows view r p surf).2
      · rw [if_pos h12] at he
        exact absurd he (List.not_mem_nil _)
      · rw [if_neg h12, List.mem_singleton] at he
        subst he
        rcases hs with h0 | h1 | h2
        · exact absurd h0 hk
        · left
          show (bandRows view r p surf).2 < (if Int.land surf.y_clip SOLID_ABOVE ≠ 0 then
            MAX r.open_y1 ((bandRows view r p surf).2 + 1) else r.open_y1)
          rw [if_pos h1]
          have := le_MAX_right r.open_y1 ((bandRows view r p surf).2 + 1)
          omega
        · right
          show (if Int.land surf.y_clip SOLID_BELOW ≠ 0 then
            MIN r.open_y2 ((bandRows view r p surf).1 - 1) else r.open_y2)
              < (bandRows view r p surf).1
          rw [if_pos h2]
          have := MIN_le_right r.open_y2 ((bandRows view r p surf).1 - 1)
          omega
  · unfold surfaceCalls
    split_ifs
    · exact List.Pairwise.nil
    · exact List.Pairwise.nil
    · exact List.pairwise_singleton _ _

end RowFacts

section BandFacts
variable {F : Type} [LinearOrderedField F] [FloorRing F]

/-- What the four calls of `renderBands` leave alone in any mode. -/
theorem renderBands_frame (m : MathLib F) (X : Ext F) (doc : Doc) (view : View F)
    (r : RendInfo F) (p : Nat) (x : Int) :
    (renderBands m X doc view r p x).heap = r.heap
    ∧ (renderBands m X doc view r p x).walls = r.walls
    ∧ (renderBands m X doc view r p x).active = r.active
    ∧ (renderBands m X doc view r p x).query_mode = r.query_mode
    ∧ (renderBands m X doc view r p x).query_sx = r.query_sx
    ∧ (renderBands m X doc view r p x).query_sy = r.query_sy := by
  unfold renderBands
  simp only []
  set r1 := RenderWallSurface m X doc view r p (r.heap.getD p default).ceil x
    obj3d_type_e.OB3D_Ceil with hr1
  set r2 := RenderWallSurface m X doc view r1 p (r1.heap.getD p default).floor x
    obj3d_type_e.OB3D_Floor with hr2
  set r3 := RenderWallSurface m X doc view r2 p (r2.heap.getD p default).upper x
    obj3d_type_e.OB3D_Upper with hr3
  obtain ⟨a1, a2, a3, a4, a5, a6⟩ := RenderWallSurface_frame m X doc view r p
    (r.heap.getD p default).ceil x obj3d_type_e.OB3D_Ceil
  obtain ⟨b1, b2, b3, b4, b5, b6⟩ := RenderWallSurface_frame m X doc view r1 p
    (r1.heap.getD p default).floor x obj3d_type_e.OB3D_Floor
  obtain ⟨c1, c2, c3, c4, c5, c6⟩ := RenderWallSurface_frame m X doc view r2 p
    (r2.heap.getD p default).upper x obj3d_type_e.OB3D_Upper
  obtain ⟨d1, d2, d3, d4, d5, d6⟩ := RenderWallSurface_frame m X doc view r3 p
    (r3.heap.getD p default).lower x obj3d_type_e.OB3D_Lower
  exact ⟨d1.trans (c1.trans (b1.trans a1)), d2.trans (c2.trans (b2.trans a2)),
    d3.trans (c3.trans (b3.trans a3)), d4.trans (c4.trans (b4.trans a4)),
    d5.trans (c5.trans (b5.trans a5)), d6.trans (c6.trans (b6.trans a6))⟩

/-- The rows of the four bands of a wall lie in the open region in which the
wall is met, and the region does not grow. -/
theorem renderBands_within (m : MathLib F) (X : Ext F) (doc : Doc) (view : View F)
    (r : RendInfo F) (p : Nat) (x : Int) :
    Within r.open_y1 r.open_y2 (renderBands m X doc view r p x).open_y1
      (renderBands m X doc view r p x).open_y2 (bandsCalls m X doc view r p x) := by
  unfold renderBands bandsCalls
  simp only []
  set r1 := RenderWallSurface m X doc view r p (r.heap.getD p default).ceil x
    obj3d_type_e.OB3D_Ceil with hr1
  set r2 := RenderWallSurface m X doc view r1 p (r1.heap.getD p default).floor x
    obj3d_type_e.OB3D_Floor with hr2
  set r3 := RenderWallSurface m X doc view r2 p (r2.heap.getD p default).upper x
    obj3d_type_e.OB3D_Upper with hr3
  exact Within_append _ _ _ _ _ _ _ _
    (RenderWallSurface_within m X doc view r p _ x _)
    (Within_append _ _ _ _ _ _ _ _
      (RenderWallSurface_within m X doc view r1 p _ x _)
      (Within_append _ _ _ _ _ _ _ _
        (RenderWallSurface_within m X doc view r2 p _ x _)
        (RenderWallSurface_within m X doc view r3 p _ x _)))

/-- The four bands of a wall whose bands have solid ends close the rows they
take: no two of them meet, and none meets the open region that is left. -/
theorem renderBands_sweep (m : MathLib F) (X : Ext F) (doc : Doc) (view : View F)
    (r : RendInfo F) (p : Nat) (x : Int) (hb : Banded (r.heap.getD p default)) :
    Sweep r.open_y1 r.open_y2 (renderBands m X doc view r p x).open_y1
      (renderBands m X doc view r p x).open_y2 (bandsCalls m X doc view r p x) := by
  unfold renderBands bandsCalls
  simp only []
  set r1 := RenderWallSurface m X doc view r p (r.heap.getD p default).ceil x
    obj3d_type_e.OB3D_Ceil with hr1
  set r2 := RenderWallSurface m X doc view r1 p (r1.heap.getD p default).floor x
    obj3d_type_e.OB3D_Floor with hr2
  set r3 := RenderWallSurface m X doc view r2 p (r2.heap.getD p default).upper x
    obj3d_type_e.OB3D_Upper with hr3
  have e1 : r1.heap = r.heap := (RenderWallSurface_frame m X doc view r p _ x _).1
  have e2 : r2.heap = r.heap := (RenderWallSurface_frame m X doc view r1 p _ x _).1.trans e1
  have e3 : r3.heap = r.heap := (RenderWallSurface_frame m X doc view r2 p _ x _).1.trans e2
  obtain ⟨s1, s2, s3, s4⟩ := hb
  exact Sweep_append _ _ _ _ _ _ _ _
    (RenderWallSurface_sweep m X doc view r p _ x _ s1)
    (Sweep_append _ _ _ _ _ _ _ _
      (RenderWallSurface_sweep m X doc view r1 p _ x _ (by rw [e1]; exact s2))
      (Sweep_append _ _ _ _ _ _ _ _
        (RenderWallSurface_sweep m X doc view r2 p _ x _ (by rw [e2]; exact s3))
        (RenderWallSurface_sweep m X doc view r3 p _ x _ (by rw [e3]; exact s4))))

/-- The statement `dw->oy1 = open_y1; dw->oy2 = open_y2` changes, in the
entities, the fields `oy1` and `oy2` only. -/
theorem getD_setD_oy (heap : Array (DrawWall F)) (p j : Nat) (a b : Int) :
    ∃ o1 o2 : Int,
      (heap.setD p { heap.getD p default with oy1 := a, oy2 := b }).getD j default
        = { heap.getD j default with oy1 := o1, oy2 := o2 } := by
  by_cases hj : p = j
  · subst hj
    by_cases hp : p < heap.size
    · rw [getD_setD_self _ _ _ _ hp]
      exact ⟨a, b, rfl⟩
    · have : heap.setD p { heap.getD p default with oy1 := a, oy2 := b } = heap := by
        unfold Array.setD
        rw [dif_neg hp]
      rw [this]
      exact ⟨(heap.getD p default).oy1, (heap.getD p default).oy2, rfl⟩
  · rw [getD_setD_ne _ _ _ _ _ hj]
    exact ⟨(heap.getD j default).oy1, (heap.getD j default).oy2, rfl⟩

end BandFacts

section FrontFacts
variable {F : Type} [LinearOrderedField F] [FloorRing F]

/-- One round of the front-to-back loop. -/
theorem frontToBack_cons (m : MathLib F) (X : Ext F) (doc : Doc) (view : View F) (x : Int)
    (p : Nat) (rest : List Nat) (k : Nat) (r : RendInfo F) :
    frontToBack m X doc view x (p :: rest) k r
      = (if ((rememberOpen r p).heap.getD p default).th ≥ 0 then
           frontToBack m X doc view x rest (k + 1) (rememberOpen r p)
         else if (renderBands m X doc view (rememberOpen r p) p x).open_y1
                  > (renderBands m X doc view (rememberOpen r p) p x).open_y2 then
           (k, renderBands m X doc view (rememberOpen r p) p x)
         else frontToBack m X doc view x rest (k + 1)
           (renderBands m X doc view (rememberOpen r p) p x)) := rfl

theorem frontCalls_cons (m : MathLib F) (X : Ext F) (doc : Doc) (view : View F) (x : Int)
    (p : Nat) (rest : List Nat) (r : RendInfo F) :
    frontCalls m X doc view x (p :: rest) r
      = (if ((rememberOpen r p).heap.getD p default).th ≥ 0 then
           frontCalls m X doc view x rest (rememberOpen r p)
         else if (renderBands m X doc view (rememberOpen r p) p x).open_y1
                  > (renderBands m X doc view (rememberOpen r p) p x).open_y2 then
           bandsCalls m X doc view (rememberOpen r p) p x
         else bandsCalls m X doc view (rememberOpen r p) p x
           ++ frontCalls m X doc view x rest
               (renderBands m X doc view (rememberOpen r p) p x)) := rfl

theorem visitedOf_cons (m : MathLib F) (X : Ext F) (doc : Doc) (view : View F) (x : Int)
    (p : Nat) (rest : List Nat) (r : RendInfo F) :
    visitedOf m X doc view x (p :: rest) r
      = (if ((rememberOpen r p).heap.getD p default).th ≥ 0 then
           p :: visitedOf m X doc view x rest (rememberOpen r p)
         else if (renderBands m X doc view (rememberOpen r p) p x).open_y1
                  > (renderBands m X doc view (rememberOpen r p) p x).open_y2 then
           [p]
         else p :: visitedOf m X doc view x rest
               (renderBands m X doc view (rememberOpen r p) p x)) := rfl

theorem queryCandidates_cons (m : MathLib F) (X : Ext F) (doc : Doc) (view : View F) (x : Int)
    (p : Nat) (rest : List Nat) (r : RendInfo F) :
    queryCandidates m X doc view x (p :: rest) r
      = (if ((rememberOpen r p).heap.getD p default).th ≥ 0 then
           spriteCalls view (rememberOpen r p) p
             ++ queryCandidates m X doc view x rest (rememberOpen r p)
         else if (renderBands m X doc view (rememberOpen r p) p x).open_y1
                  > (renderBands m X doc view (rememberOpen r p) p x).open_y2 then
           bandsCalls m X doc view (rememberOpen r p) p x
         else bandsCalls m X doc view (rememberOpen r p) p x
           ++ queryCandidates m X doc view x rest
               (renderBands m X doc view (rememberOpen r p) p x)) := rfl

end FrontFacts

section FrontLoop
variable {F : Type} [LinearOrderedField F] [FloorRing F]

/-- Remembering the open region in an entity changes `oy1` and `oy2` of that
entity only. -/
theorem rememberOpen_heap (r : RendInfo F) (p j : Nat) :
    (rememberOpen r p).heap.size = r.heap.size
    ∧ ∃ o1 o2 : Int,
        (rememberOpen r p).heap.getD j default = { r.heap.getD j default with oy1 := o1, oy2 := o2 }
        ∧ ((o1 = (r.heap.getD j default).oy1 ∧ o2 = (r.heap.getD j default).oy2)
            ∨ (o1 = r.open_y1 ∧ o2 = r.open_y2)) := by
  have hh : (rememberOpen r p).heap
      = r.heap.setD p { r.heap.getD p default with oy1 := r.open_y1, oy2 := r.open_y2 } := rfl
  rw [hh]
  refine ⟨size_setD _ _ _, ?_⟩
  by_cases hj : p = j
  · subst hj
    by_cases hp : p < r.heap.size
    · rw [getD_setD_self _ _ _ _ hp]
      exact ⟨r.open_y1, r.open_y2, rfl, Or.inr ⟨rfl, rfl⟩⟩
    · have : r.heap.setD p { r.heap.getD p default with oy1 := r.open_y1, oy2 := r.open_y2 }
          = r.heap := by
        unfold Array.setD
        rw [dif_neg hp]
      rw [this]
      exact ⟨(r.heap.getD p default).oy1, (r.heap.getD p default).oy2, rfl, Or.inl ⟨rfl, rfl⟩⟩
  · rw [getD_setD_ne _ _ _ _ _ hj]
    exact ⟨(r.heap.getD j default).oy1, (r.heap.getD j default).oy2, rfl, Or.inl ⟨rfl, rfl⟩⟩

/-- The entity itself remembers the open region, when the pointer is good. -/
theorem rememberOpen_self (r : RendInfo F) (p : Nat) (hp : p < r.heap.size) :
    (rememberOpen r p).heap.getD p default
      = { r.heap.getD p default with oy1 := r.open_y1, oy2 := r.open_y2 } := by
  have hh : (rememberOpen r p).heap
      = r.heap.setD p { r.heap.getD p default with oy1 := r.open_y1, oy2 := r.open_y2 } := rfl
  rw [hh, getD_setD_self _ _ _ _ hp]

theorem rememberOpen_other (r : RendInfo F) (p j : Nat) (hj : p ≠ j) :
    (rememberOpen r p).heap.getD j default = r.heap.getD j default := by
  have hh : (rememberOpen r p).heap
      = r.heap.setD p { r.heap.getD p default with oy1 := r.open_y1, oy2 := r.open_y2 } := rfl
  rw [hh, getD_setD_ne _ _ _ _ _ hj]

/-- What the front-to-back loop leaves alone in any mode: the two lists, the
query request and the number of entities. -/
theorem frontToBack_frame (m : MathLib F) (X : Ext F) (doc : Doc) (view : View F) (x : Int) :
    ∀ (act : List Nat) (k : Nat) (r : RendInfo F),
      (frontToBack m X doc view x act k r).2.walls = r.walls
      ∧ (frontToBack m X doc view x act k r).2.active = r.active
      ∧ (frontToBack m X doc view x act k r).2.query_mode = r.query_mode
      ∧ (frontToBack m X doc view x act k r).2.query_sx = r.query_sx
      ∧ (frontToBack m X doc view x act k r).2.query_sy = r.query_sy
      ∧ (frontToBack m X doc view x act k r).2.heap.size = r.heap.size := by
  intro act
  induction act with
  | nil => intro k r; exact ⟨rfl, rfl, rfl, rfl, rfl, rfl⟩
  | cons p rest ih =>
    intro k r
    rw [frontToBack_cons]
    have hs : (rememberOpen r p).heap.size = r.heap.size := (rememberOpen_heap r p 0).1
    obtain ⟨b1, b2, b3, b4, b5, b6⟩ := renderBands_frame m X doc view (rememberOpen r p) p x
    have b0 : (renderBands m X doc view (rememberOpen r p) p x).heap.size = r.heap.size := by
      rw [b1]; exact hs
    split_ifs with h1 h2
    · obtain ⟨c1, c2, c3, c4, c5, c6⟩ := ih (k + 1) (rememberOpen r p)
      exact ⟨c1, c2, c3, c4, c5, c6.trans hs⟩
    · exact ⟨b2, b3, b4, b5, b6, b0⟩
    · obtain ⟨c1, c2, c3, c4, c5, c6⟩ := ih (k + 1)
        (renderBands m X doc view (rememberOpen r p) p x)
      exact ⟨c1.trans b2, c2.trans b3, c3.trans b4, c4.trans b5, c5.trans b6, c6.trans b0⟩

/-- The rows of the calls of the front-to-back loop lie in the open region at
the start of the loop, and the region does not grow. -/
theorem frontToBack_within (m : MathLib F) (X : Ext F) (doc : Doc) (view : View F) (x : Int) :
    ∀ (act : List Nat) (k : Nat) (r : RendInfo F),
      Within r.open_y1 r.open_y2 (frontToBack m X doc view x act k r).2.open_y1
        (frontToBack m X doc view x act k r).2.open_y2 (frontCalls m X doc view x act r) := by
  intro act
  induction act with
  | nil => intro k r; exact Within_nil _ _
  | cons p rest ih =>
    intro k r
    rw [frontToBack_cons, frontCalls_cons]
    have hb := renderBands_within m X doc view (rememberOpen r p) p x
    split_ifs with h1 h2
    · exact ih (k + 1) (rememberOpen r p)
    · exact hb
    · exact Within_append _ _ _ _ _ _ _ _ hb
        (ih (k + 1) (renderBands m X doc view (rememberOpen r p) p x))

/-- Bands with solid ends stay so when the open region is remembered. -/
theorem rememberOpen_banded (r : RendInfo F) (p : Nat)
    (hb : ∀ j, Banded (r.heap.getD j default)) :
    ∀ j, Banded ((rememberOpen r p).heap.getD j default) := by
  intro j
  obtain ⟨-, o1, o2, h, -⟩ := rememberOpen_heap r p j
  rw [h]
  exact hb j

/-- With bands that have solid ends, the calls of the front-to-back loop close
the rows they take: no two of them meet. -/
theorem frontToBack_sweep (m : MathLib F) (X : Ext F) (doc : Doc) (view : View F) (x : Int) :
    ∀ (act : List Nat) (k : Nat) (r : RendInfo F),
      (∀ j, Banded (r.heap.getD j default)) →
      Sweep r.open_y1 r.open_y2 (frontToBack m X doc view x act k r).2.open_y1
        (frontToBack m X doc view x act k r).2.open_y2 (frontCalls m X doc view x act r) := by
  intro act
  induction act with
  | nil => intro k r _; exact Sweep_nil _ _
  | cons p rest ih =>
    intro k r hb
    rw [frontToBack_cons, frontCalls_cons]
    have hR := rememberOpen_banded r p hb
    have hs := renderBands_sweep m X doc view (rememberOpen r p) p x (hR p)
    have hB : ∀ j, Banded ((renderBands m X doc view (rememberOpen r p) p x).heap.getD j default) := by
      intro j
      rw [(renderBands_frame m X doc view (rememberOpen r p) p x).1]
      exact hR j
    split_ifs with h1 h2
    · exact ih (k + 1) (rememberOpen r p) hR
    · exact hs
    · exact Sweep_append _ _ _ _ _ _ _ _ hs
        (ih (k + 1) (renderBands m X doc view (rememberOpen r p) p x) hB)

/-- The entities after the front-to-back loop: only `oy1` and `oy2` may have
changed, and where they have, they hold an open region inside the one at the
start of the loop. -/
theorem frontToBack_heap (m : MathLib F) (X : Ext F) (doc : Doc) (view : View F) (x : Int) :
    ∀ (act : List Nat) (k : Nat) (r : RendInfo F) (j : Nat),
      ∃ o1 o2 : Int,
        (frontToBack m X doc view x act k r).2.heap.getD j default
          = { r.heap.getD j default with oy1 := o1, oy2 := o2 }
        ∧ ((o1 = (r.heap.getD j default).oy1 ∧ o2 = (r.heap.getD j default).oy2)
            ∨ (r.open_y1 ≤ o1 ∧ o2 ≤ r.open_y2)) := by
  intro act
  induction act with
  | nil =>
    intro k r j
    exact ⟨_, _, rfl, Or.inl ⟨rfl, rfl⟩⟩
  | cons p rest ih =>
    intro k r j
    rw [frontToBack_cons]
    obtain ⟨-, a1, a2, ha, hcase⟩ := rememberOpen_heap r p j
    have hb := renderBands_within m X doc view (rememberOpen r p) p x
    have hbh := (renderBands_frame m X doc view (rememberOpen r p) p x).1
    have hR : (a1 = (r.heap.getD j default).oy1 ∧ a2 = (r.heap.getD j default).oy2)
        ∨ (r.open_y1 ≤ a1 ∧ a2 ≤ r.open_y2) := by
      rcases hcase with h | h
      · exact Or.inl h
      · exact Or.inr ⟨by rw [h.1], by rw [h.2]⟩
    split_ifs with h1 h2
    · obtain ⟨o1, o2, ho, hc⟩ := ih (k + 1) (rememberOpen r p) j
      refine ⟨o1, o2, ?_, ?_⟩
      · rw [ho, ha]
      · rcases hc with h | h
        · rw [ha] at h
          rw [h.1, h.2]
          exact hR
        · exact Or.inr h
    · refine ⟨a1, a2, ?_, hR⟩
      show (renderBands m X doc view (rememberOpen r p) p x).heap.getD j default = _
      rw [hbh, ha]
    · obtain ⟨o1, o2, ho, hc⟩ := ih (k + 1) (renderBands m X doc view (rememberOpen r p) p x) j
      refine ⟨o1, o2, ?_, ?_⟩
      · rw [ho, hbh, ha]
      · rcases hc with h | h
        · rw [hbh, ha] at h
          rw [h.1, h.2]
          exact hR
        · right
          have u1 : r.open_y1 ≤ (renderBands m X doc view (rememberOpen r p) p x).open_y1 := hb.1
          have u2 : (renderBands m X doc view (rememberOpen r p) p x).open_y2 ≤ r.open_y2 :=
            hb.2.1
          exact ⟨le_trans u1 h.1, le_trans h.2 u2⟩

/-- An entity that is not in the list is not touched by the front-to-back
loop. -/
theorem frontToBack_other (m : MathLib F) (X : Ext F) (doc : Doc) (view : View F) (x : Int) :
    ∀ (act : List Nat) (k : Nat) (r : RendInfo F) (j : Nat), j ∉ act →
      (frontToBack m X doc view x act k r).2.heap.getD j default = r.heap.getD j default := by
  intro act
  induction act with
  | nil => intro k r j _; rfl
  | cons p rest ih =>
    intro k r j hj
    rw [frontToBack_cons]
    have hpj : p ≠ j := fun h => hj (by rw [h]; exact List.mem_cons_self _ _)
    have hjr : j ∉ rest := fun h => hj (List.mem_cons_of_mem _ h)
    have ha := rememberOpen_other r p j hpj
    have hbh := (renderBands_frame m X doc view (rememberOpen r p) p x).1
    split_ifs with h1 h2
    · rw [ih (k + 1) (rememberOpen r p) j hjr, ha]
    · show (renderBands m X doc view (rememberOpen r p) p x).heap.getD j default = _
      rw [hbh, ha]
    · rw [ih (k + 1) (renderBands m X doc view (rememberOpen r p) p x) j hjr, hbh, ha]

end FrontLoop

section BackLoop
variable {F : Type} [LinearOrderedField F] [FloorRing F]

/-- The state after `RenderSprite`, in any mode: only the pixel buffer and the
query record may differ. -/
theorem RenderSprite_shape (X : Ext F) (doc : Doc) (view : View F) (r : RendInfo F)
    (p : Nat) (x : Int) :
    ∃ (scr : Int → Nat) (qw : Option Nat) (qp : obj3d_type_e),
      RenderSprite X doc view r p x
        = { r with screen := scr, query_wall := qw, query_part := qp } := by
  unfold RenderSprite
  simp only []
  split_ifs <;> exact ⟨_, _, _, rfl⟩

/-- The state after `RenderMidMasker`, in any mode: only the pixel buffer may
differ. -/
theorem RenderMidMasker_shape (m : MathLib F) (X : Ext F) (doc : Doc) (view : View F)
    (r : RendInfo F) (p : Nat) (surf : DrawSurf) (x : Int) :
    ∃ (scr : Int → Nat), RenderMidMasker m X doc view r p surf x = { r with screen := scr } := by
  unfold RenderMidMasker
  simp only []
  split_ifs <;> exact ⟨_, rfl⟩

/-- The state after the back-to-front loop, in any mode: only the pixel buffer
and the query record may differ. -/
theorem backToFront_shape (m : MathLib F) (X : Ext F) (doc : Doc) (view : View F) (x : Int) :
    ∀ (l : List Nat) (r : RendInfo F),
      ∃ (scr : Int → Nat) (qw : Option Nat) (qp : obj3d_type_e),
        backToFront m X doc view x l r
          = { r with screen := scr, query_wall := qw, query_part := qp } := by
  intro l
  induction l with
  | nil => intro r; exact ⟨_, _, _, rfl⟩
  | cons p rest ih =>
    intro r
    simp only [backToFront]
    split_ifs with h1
    · obtain ⟨s1, w1, p1, e1⟩ := RenderSprite_shape X doc view r p x
      rw [e1]
      obtain ⟨s2, w2, p2, e2⟩ := ih { r with screen := s1, query_wall := w1, query_part := p1 }
      rw [e2]
      exact ⟨_, _, _, rfl⟩
    · obtain ⟨s1, e1⟩ := RenderMidMasker_shape m X doc view r p (r.heap.getD p default).rail x
      rw [e1]
      obtain ⟨s2, w2, p2, e2⟩ := ih { r with screen := s1 }
      rw [e2]
      exact ⟨_, _, _, rfl⟩

/-- The rows of a call of the back-to-front loop lie in the region that the
entity of the call remembers. -/
theorem backCalls_inside (m : MathLib F) (X : Ext F) (doc : Doc) (view : View F) (x : Int) :
    ∀ (l : List Nat) (r : RendInfo F), ∀ e ∈ backCalls m X doc view x l r,
      ∃ p ∈ l, (r.heap.getD p default).oy1 ≤ e.y1 ∧ e.y1 ≤ e.y2
        ∧ e.y2 ≤ (r.heap.getD p default).oy2 := by
  intro l
  induction l with
  | nil =>
    intro r e he
    exact absurd he (List.not_mem_nil _)
  | cons p rest ih =>
    intro r e he
    have hc : backCalls m X doc view x (p :: rest) r
        = (if (r.heap.getD p default).th ≥ 0 then spriteCalls view r p
           else railCalls view r p (r.heap.getD p default).rail)
          ++ backCalls m X doc view x rest
              (if (r.heap.getD p default).th ≥ 0 then RenderSprite X doc view r p x
               else RenderMidMasker m X doc view r p (r.heap.getD p default).rail x) := rfl
    rw [hc] at he
    have hm : ∀ (dw : DrawWall F) (surf : DrawSurf),
        dw.oy1 ≤ (maskedRows view dw surf).1 ∧ (maskedRows view dw surf).2 ≤ dw.oy2 := by
      intro dw surf
      unfold maskedRows
      simp only []
      constructor
      · split_ifs <;> omega
      · split_ifs <;> omega
    rcases List.mem_append.1 he with h | h
    · refine ⟨p, List.mem_cons_self _ _, ?_⟩
      by_cases hth : (r.heap.getD p default).th ≥ 0
      · rw [if_pos hth] at h
        unfold spriteCalls at h
        simp only [] at h
        by_cases h12 : (maskedRows view (r.heap.getD p default) (r.heap.getD p default).ceil).1
            > (maskedRows view (r.heap.getD p default) (r.heap.getD p default).ceil).2
        · rw [if_pos h12] at h
          exact absurd h (List.not_mem_nil _)
        · rw [if_neg h12, List.mem_singleton] at h
          subst h
          obtain ⟨g1, g2⟩ := hm (r.heap.getD p default) (r.heap.getD p default).ceil
          exact ⟨g1, by
            show (maskedRows view (r.heap.getD p default) (r.heap.getD p default).ceil).1
              ≤ (maskedRows view (r.heap.getD p default) (r.heap.getD p default).ceil).2
            omega, g2⟩
      · rw [if_neg hth] at h
        unfold railCalls at h
        simp only [] at h
        by_cases h12 : (maskedRows view (r.heap.getD p default) (r.heap.getD p default).rail).1
            > (maskedRows view (r.heap.getD p default) (r.heap.getD p default).rail).2
        · rw [if_pos h12] at h
          simp only [ite_self] at h
          exact absurd h (List.not_mem_nil _)
        · rw [if_neg h12] at h
          split_ifs at h
          · exact absurd h (List.not_mem_nil _)
          · exact absurd h (List.not_mem_nil _)
          · exact absurd h (List.not_mem_nil _)
          · rw [List.mem_singleton] at h
            subst h
            obtain ⟨g1, g2⟩ := hm (r.heap.getD p default) (r.heap.getD p default).rail
            exact ⟨g1, by
              show (maskedRows view (r.heap.getD p default) (r.heap.getD p default).rail).1
                ≤ (maskedRows view (r.heap.getD p default) (r.heap.getD p default).rail).2
              omega, g2⟩
    · have hheap : (if (r.heap.getD p default).th ≥ 0 then RenderSprite X doc view r p x
           else RenderMidMasker m X doc view r p (r.heap.getD p default).rail x).heap = r.heap := by
        split_ifs
        · obtain ⟨s1, w1, p1, e1⟩ := RenderSprite_shape X doc view r p x
          rw [e1]
        · obtain ⟨s1, e1⟩ := RenderMidMasker_shape m X doc view r p (r.heap.getD p default).rail x
          rw [e1]
      obtain ⟨q, hq, hq2⟩ := ih _ e h
      rw [hheap] at hq2
      exact ⟨q, List.mem_cons_of_mem _ hq, hq2⟩

/-- The pointers that the back-to-front loop runs over are those that the
front-to-back loop has visited. -/
theorem frontToBack_take (m : MathLib F) (X : Ext F) (doc : Doc) (view : View F) (x : Int) :
    ∀ (act : List Nat) (k : Nat) (r : RendInfo F),
      k ≤ (frontToBack m X doc view x act k r).1
      ∧ act.take (if (frontToBack m X doc view x act k r).1 - k = act.length then
                    (frontToBack m X doc view x act k r).1 - k
                  else (frontToBack m X doc view x act k r).1 - k + 1)
          = visitedOf m X doc view x act r := by
  intro act
  induction act with
  | nil =>
    intro k r
    exact ⟨le_refl _, by simp [visitedOf]⟩
  | cons p rest ih =>
    intro k r
    rw [frontToBack_cons, visitedOf_cons]
    have step : ∀ R : RendInfo F,
        k ≤ (frontToBack m X doc view x rest (k + 1) R).1
        ∧ (p :: rest).take
            (if (frontToBack m X doc view x rest (k + 1) R).1 - k = (p :: rest).length then
              (frontToBack m X doc view x rest (k + 1) R).1 - k
             else (frontToBack m X doc view x rest (k + 1) R).1 - k + 1)
          = p :: visitedOf m X doc view x rest R := by
      intro R
      obtain ⟨g1, g2⟩ := ih (k + 1) R
      refine ⟨by omega, ?_⟩
      rw [← g2]
      obtain ⟨n, hn⟩ : ∃ n, (frontToBack m X doc view x rest (k + 1) R).1 = k + 1 + n :=
        ⟨(frontToBack m X doc view x rest (k + 1) R).1 - (k + 1), by omega⟩
      rw [hn]
      have e1 : k + 1 + n - k = n + 1 := by omega
      have e2 : k + 1 + n - (k + 1) = n := by omega
      rw [e1, e2, List.length_cons]
      by_cases hl : n = rest.length
      · rw [if_pos (by omega), if_pos hl, List.take_succ_cons]
      · rw [if_neg (by omega), if_neg hl, List.take_succ_cons]
    by_cases h1 : ((rememberOpen r p).heap.getD p default).th ≥ 0
    · simp only [h1, if_true]
      exact step _
    · simp only [h1, if_false]
      by_cases h2 : (renderBands m X doc view (rememberOpen r p) p x).open_y1
          > (renderBands m X doc view (rememberOpen r p) p x).open_y2
      · simp only [h2, if_true]
        refine ⟨le_refl _, ?_⟩
        rw [Nat.sub_self, if_neg (by simp), List.take_succ_cons, List.take_zero]
      · simp only [h2, if_false]
        exact step _

/-- Every entity that the front-to-back loop visits remembers an open region
of this loop: a region inside the one at the start of the loop. -/
theorem frontToBack_remembered (m : MathLib F) (X : Ext F) (doc : Doc) (view : View F) (x : Int) :
    ∀ (act : List Nat) (k : Nat) (r : RendInfo F), (∀ p ∈ act, p < r.heap.size) →
      ∀ q ∈ visitedOf m X doc view x act r,
        r.open_y1 ≤ ((frontToBack m X doc view x act k r).2.heap.getD q default).oy1
        ∧ ((frontToBack m X doc view x act k r).2.heap.getD q default).oy2 ≤ r.open_y2 := by
  intro act
  induction act with
  | nil =>
    intro k r _ q hq
    exact absurd hq (List.not_mem_nil _)
  | cons p rest ih =>
    intro k r hv q hq
    rw [frontToBack_cons]
    rw [visitedOf_cons] at hq
    have hp : p < r.heap.size := hv p (List.mem_cons_self _ _)
    have hself := rememberOpen_self r p hp
    have hsz : (rememberOpen r p).heap.size = r.heap.size := (rememberOpen_heap r p 0).1
    obtain ⟨b1, -⟩ := renderBands_frame m X doc view (rememberOpen r p) p x
    have hb := renderBands_within m X doc view (rememberOpen r p) p x
    have u1 : r.open_y1 ≤ (renderBands m X doc view (rememberOpen r p) p x).open_y1 := hb.1
    have u2 : (renderBands m X doc view (rememberOpen r p) p x).open_y2 ≤ r.open_y2 := hb.2.1
    have hvR : ∀ a ∈ rest, a < (rememberOpen r p).heap.size := by
      intro a ha
      rw [hsz]
      exact hv a (List.mem_cons_of_mem _ ha)
    have hvB : ∀ a ∈ rest, a < (renderBands m X doc view (rememberOpen r p) p x).heap.size := by
      intro a ha
      rw [b1]
      exact hvR a ha
    -- the head entity after the rest of the loop, from a state `R` with the same entities
    have head : ∀ R : RendInfo F, R.heap = (rememberOpen r p).heap →
        r.open_y1 ≤ R.open_y1 → R.open_y2 ≤ r.open_y2 →
        r.open_y1 ≤ ((frontToBack m X doc view x rest (k + 1) R).2.heap.getD p default).oy1
        ∧ ((frontToBack m X doc view x rest (k + 1) R).2.heap.getD p default).oy2
            ≤ r.open_y2 := by
      intro R hR w1 w2
      obtain ⟨o1, o2, ho, hc⟩ := frontToBack_heap m X doc view x rest (k + 1) R p
      rw [ho]
      rcases hc with h | h
      · rw [hR, hself] at h
        show r.open_y1 ≤ o1 ∧ o2 ≤ r.open_y2
        rw [h.1, h.2]
        exact ⟨le_refl _, le_refl _⟩
      · exact ⟨le_trans w1 h.1, le_trans h.2 w2⟩
    split_ifs at hq ⊢ with h1 h2
    · rcases List.mem_cons.1 hq with h | h
      · rw [h]
        exact head _ rfl (le_refl _) (le_refl _)
      · exact ih (k + 1) (rememberOpen r p) hvR q h
    · rw [List.mem_singleton] at hq
      rw [hq]
      show r.open_y1 ≤ ((renderBands m X doc view (rememberOpen r p) p x).heap.getD p default).oy1
        ∧ ((renderBands m X doc view (rememberOpen r p) p x).heap.getD p default).oy2
            ≤ r.open_y2
      rw [b1, hself]
      exact ⟨le_refl _, le_refl _⟩
    · rcases List.mem_cons.1 hq with h | h
      · rw [h]
        exact head _ b1 u1 u2
      · obtain ⟨g1, g2⟩ := ih (k + 1) (renderBands m X doc view (rememberOpen r p) p x) hvB q h
        exact ⟨le_trans u1 g1, le_trans g2 u2⟩

/-- The rows of every painter call of a column lie in the open region with
which the column starts, when the pointers of the active list are good. -/
theorem columnCalls_inside (m : MathLib F) (X : Ext F) (doc : Doc) (view : View F) (x : Int)
    (r : RendInfo F) (hv : ∀ p ∈ r.active, p < r.heap.size) :
    ∀ e ∈ columnCalls m X doc view x r,
      r.open_y1 ≤ e.y1 ∧ e.y1 ≤ e.y2 ∧ e.y2 ≤ r.open_y2 := by
  intro e he
  unfold columnCalls at he
  simp only [] at he
  rcases List.mem_append.1 he with h | h
  · exact (frontToBack_within m X doc view x r.active 0 r).2.2 e h
  · obtain ⟨-, ht⟩ := frontToBack_take m X doc view x r.active 0 r
    rw [Nat.sub_zero] at ht
    rw [ht] at h
    obtain ⟨q, hq, g1, g2, g3⟩ := backCalls_inside m X doc view x _ _ e h
    have hq2 : q ∈ visitedOf m X doc view x r.active r := List.mem_reverse.1 hq
    obtain ⟨w1, w2⟩ := frontToBack_remembered m X doc view x r.active 0 r hv q hq2
    exact ⟨le_trans w1 g1, g2, le_trans g3 w2⟩

end BackLoop

section QueryLoop
variable {F : Type} [LinearOrderedField F] [FloorRing F]

theorem firstHit_nil (y : Int) (w : Option Nat) (pt : obj3d_type_e) :
    firstHit [] y w pt = (w, pt) := rfl

/-- Candidates tested before others win over them. -/
theorem firstHit_append (L1 L2 : List RowCall) (y : Int) (w : Option Nat) (pt : obj3d_type_e) :
    firstHit (L1 ++ L2) y w pt
      = firstHit L1 y (firstHit L2 y w pt).1 (firstHit L2 y w pt).2 := by
  unfold firstHit
  rw [List.find?_append]
  cases h1 : L1.find? (fun e => e.holds y) with
  | none => simp
  | some e => simp

/-- When no candidate of the first lot meets a candidate of the second, it
does not matter which lot is tested first. -/
theorem firstHit_append_of_disjoint (L1 L2 : List RowCall) (y : Int) (w : Option Nat)
    (pt : obj3d_type_e)
    (h : ∀ e1 ∈ L1, ∀ e2 ∈ L2, e1.y2 < e2.y1 ∨ e2.y2 < e1.y1) :
    firstHit L2 y (firstHit L1 y w pt).1 (firstHit L1 y w pt).2
      = firstHit (L1 ++ L2) y w pt := by
  rw [firstHit_append]
  cases h1 : L1.find? (fun e => e.holds y) with
  | none =>
    have e1 : ∀ (w2 : Option Nat) (p2 : obj3d_type_e), firstHit L1 y w2 p2 = (w2, p2) := by
      intro w2 p2
      unfold firstHit
      rw [h1]
    rw [e1, e1]
  | some a =>
    have e1 : ∀ (w2 : Option Nat) (p2 : obj3d_type_e),
        firstHit L1 y w2 p2 = (some a.wall, a.part) := by
      intro w2 p2
      unfold firstHit
      rw [h1]
    have ha : a ∈ L1 := List.mem_of_find?_eq_some h1
    have hy : a.holds y = true :=
      @List.find?_some RowCall (fun e => e.holds y) a L1 h1
    have h2 : L2.find? (fun e => e.holds y) = none := by
      rw [List.find?_eq_none]
      intro b hb hby
      have hd := h a ha b hb
      unfold RowCall.holds at hy hby
      simp only [decide_eq_true_eq] at hy hby
      omega
    rw [e1, e1]
    unfold firstHit
    rw [h2]

/-- In query mode a call of `RenderWallSurface` records its entity and part
when its rows hold the query row, and keeps the record otherwise. -/
theorem RenderWallSurface_firstHit (m : MathLib F) (X : Ext F) (doc : Doc) (view : View F)
    (r : RendInfo F) (p : Nat) (surf : DrawSurf) (x : Int) (part : obj3d_type_e)
    (hq : r.query_mode ≠ 0) :
    (RenderWallSurface m X doc view r p surf x part).query_wall
        = (firstHit (surfaceCalls view r p surf part) r.query_sy r.query_wall r.query_part).1
    ∧ (RenderWallSurface m X doc view r p surf x part).query_part
        = (firstHit (surfaceCalls view r p surf part) r.query_sy r.query_wall r.query_part).2 := by
  by_cases hk : surf.kind = SurfKind.K_INVIS
  · rw [RenderWallSurface_invis m X doc view r p surf x part hk]
    unfold surfaceCalls
    rw [if_pos hk]
    exact ⟨rfl, rfl⟩
  · have hb : bandRows view r p surf = ((bandRows view r p surf).1, (bandRows view r p surf).2) :=
      rfl
    rw [RenderWallSurface_query m X doc view r p surf x part hq hk (bandRows view r p surf).1
      (bandRows view r p surf).2 rfl rfl]
    unfold surfaceCalls
    rw [if_neg hk]
    by_cases h12 : (bandRows view r p surf).1 > (bandRows view r p surf).2
    · have hn : ¬ ((bandRows view r p surf).1 ≤ (bandRows view r p surf).2
          ∧ (bandRows view r p surf).1 ≤ r.query_sy
          ∧ r.query_sy ≤ (bandRows view r p surf).2) := by
        intro h
        omega
      rw [if_pos h12]
      simp only [hn, if_false]
      exact ⟨rfl, rfl⟩
    · rw [if_neg h12]
      by_cases hit : (bandRows view r p surf).1 ≤ r.query_sy
          ∧ r.query_sy ≤ (bandRows view r p surf).2
      · have hy : (bandRows view r p surf).1 ≤ (bandRows view r p surf).2
            ∧ (bandRows view r p surf).1 ≤ r.query_sy
            ∧ r.query_sy ≤ (bandRows view r p surf).2 := ⟨by omega, hit.1, hit.2⟩
        simp only [hy, and_self, if_true]
        unfold firstHit RowCall.holds
        simp only [List.find?_cons, hit, and_self, decide_True]
      · have hn : ¬ ((bandRows view r p surf).1 ≤ (bandRows view r p surf).2
            ∧ (bandRows view r p surf).1 ≤ r.query_sy
            ∧ r.query_sy ≤ (bandRows view r p surf).2) := fun h => hit ⟨h.2.1, h.2.2⟩
        simp only [hn, if_false]
        unfold firstHit RowCall.holds
        simp only [List.find?_cons, hit, decide_False, List.find?_nil, and_self]

end QueryLoop

section QueryColumnLoop
variable {F : Type} [LinearOrderedField F] [FloorRing F]

/-- Four lots of candidates that do not meet, tested one after the other, each
hit replacing the record: the result is the first hit. -/
theorem firstHit_four (c1 c2 c3 c4 : List RowCall) (y : Int) (w : Option Nat)
    (pt : obj3d_type_e)
    (hp : (c1 ++ (c2 ++ (c3 ++ c4))).Pairwise (fun e f => e.y2 < f.y1 ∨ f.y2 < e.y1)) :
    firstHit c4 y
        (firstHit c3 y (firstHit c2 y (firstHit c1 y w pt).1 (firstHit c1 y w pt).2).1
          (firstHit c2 y (firstHit c1 y w pt).1 (firstHit c1 y w pt).2).2).1
        (firstHit c3 y (firstHit c2 y (firstHit c1 y w pt).1 (firstHit c1 y w pt).2).1
          (firstHit c2 y (firstHit c1 y w pt).1 (firstHit c1 y w pt).2).2).2
      = firstHit (c1 ++ (c2 ++ (c3 ++ c4))) y w pt := by
  rw [List.pairwise_append] at hp
  obtain ⟨-, hp2, d1⟩ := hp
  rw [List.pairwise_append] at hp2
  obtain ⟨-, hp3, d2⟩ := hp2
  rw [List.pairwise_append] at hp3
  obtain ⟨-, -, d3⟩ := hp3
  have e12 : ∀ a ∈ c1, ∀ b ∈ c2, a.y2 < b.y1 ∨ b.y2 < a.y1 :=
    fun a ha b hb => d1 a ha b (List.mem_append_left _ hb)
  have e123 : ∀ a ∈ c1 ++ c2, ∀ b ∈ c3, a.y2 < b.y1 ∨ b.y2 < a.y1 := by
    intro a ha b hb
    rcases List.mem_append.1 ha with h | h
    · exact d1 a h b (List.mem_append_right _ (List.mem_append_left _ hb))
    · exact d2 a h b (List.mem_append_left _ hb)
  have e1234 : ∀ a ∈ (c1 ++ c2) ++ c3, ∀ b ∈ c4, a.y2 < b.y1 ∨ b.y2 < a.y1 := by
    intro a ha b hb
    rcases List.mem_append.1 ha with h | h
    · rcases List.mem_append.1 h with h | h
      · exact d1 a h b (List.mem_append_right _ (List.mem_append_right _ hb))
      · exact d2 a h b (List.mem_append_right _ hb)
    · exact d3 a h b hb
  rw [firstHit_append_of_disjoint c1 c2 y w pt e12,
    firstHit_append_of_disjoint (c1 ++ c2) c3 y w pt e123,
    firstHit_append_of_disjoint ((c1 ++ c2) ++ c3) c4 y w pt e1234,
    List.append_assoc, List.append_assoc]

/-- In query mode the four bands of a wall with solid ends record the band
whose rows hold the query row, and keep the record when there is none. -/
theorem renderBands_firstHit (m : MathLib F) (X : Ext F) (doc : Doc) (view : View F)
    (r : RendInfo F) (p : Nat) (x : Int) (hq : r.query_mode ≠ 0)
    (hb : Banded (r.heap.getD p default)) :
    (renderBands m X doc view r p x).query_wall
        = (firstHit (bandsCalls m X doc view r p x) r.query_sy r.query_wall r.query_part).1
    ∧ (renderBands m X doc view r p x).query_part
        = (firstHit (bandsCalls m X doc view r p x) r.query_sy r.query_wall r.query_part).2 := by
  have hsw := (renderBands_sweep m X doc view r p x hb).2.2
  unfold renderBands bandsCalls at *
  simp only [] at *
  set r1 := RenderWallSurface m X doc view r p (r.heap.getD p default).ceil x
    obj3d_type_e.OB3D_Ceil with hr1
  set r2 := RenderWallSurface m X doc view r1 p (r1.heap.getD p default).floor x
    obj3d_type_e.OB3D_Floor with hr2
  set r3 := RenderWallSurface m X doc view r2 p (r2.heap.getD p default).upper x
    obj3d_type_e.OB3D_Upper with hr3
  obtain ⟨-, -, -, a4, -, a6⟩ := RenderWallSurface_frame m X doc view r p
    (r.heap.getD p default).ceil x obj3d_type_e.OB3D_Ceil
  obtain ⟨-, -, -, b4, -, b6⟩ := RenderWallSurface_frame m X doc view r1 p
    (r1.heap.getD p default).floor x obj3d_type_e.OB3D_Floor
  obtain ⟨-, -, -, c4, -, c6⟩ := RenderWallSurface_frame m X doc view r2 p
    (r2.heap.getD p default).upper x obj3d_type_e.OB3D_Upper
  have q1 : r1.query_mode ≠ 0 := by rw [a4]; exact hq
  have q2 : r2.query_mode ≠ 0 := by rw [b4]; exact q1
  have q3 : r3.query_mode ≠ 0 := by rw [c4]; exact q2
  have y1 : r1.query_sy = r.query_sy := a6
  have y2 : r2.query_sy = r.query_sy := b6.trans y1
  have y3 : r3.query_sy = r.query_sy := c6.trans y2
  obtain ⟨f1, g1⟩ := RenderWallSurface_firstHit m X doc view r p
    (r.heap.getD p default).ceil x obj3d_type_e.OB3D_Ceil hq
  obtain ⟨f2, g2⟩ := RenderWallSurface_firstHit m X doc view r1 p
    (r1.heap.getD p default).floor x obj3d_type_e.OB3D_Floor q1
  obtain ⟨f3, g3⟩ := RenderWallSurface_firstHit m X doc view r2 p
    (r2.heap.getD p default).upper x obj3d_type_e.OB3D_Upper q2
  obtain ⟨f4, g4⟩ := RenderWallSurface_firstHit m X doc view r3 p
    (r3.heap.getD p default).lower x obj3d_type_e.OB3D_Lower q3
  have key := firstHit_four _ _ _ _ r.query_sy r.query_wall r.query_part hsw
  rw [f4, g4, f3, g3, f2, g2, f1, g1, y3, y2, y1, key]
  exact ⟨rfl, rfl⟩

/-- The rows of a sprite depend on the entity only. -/
theorem spriteCalls_congr (view : View F) (r s : RendInfo F) (p : Nat)
    (h : s.heap.getD p default = r.heap.getD p default) :
    spriteCalls view s p = spriteCalls view r p := by
  unfold spriteCalls
  simp only []
  rw [h]

/-- In query mode a call of `RenderSprite` records the sprite when its rows
hold the query row, and keeps the record otherwise. -/
theorem RenderSprite_firstHit (X : Ext F) (doc : Doc) (view : View F) (r : RendInfo F)
    (p : Nat) (x : Int) (hq : r.query_mode ≠ 0) :
    (RenderSprite X doc view r p x).query_wall
        = (firstHit (spriteCalls view r p) r.query_sy r.query_wall r.query_part).1
    ∧ (RenderSprite X doc view r p x).query_part
        = (firstHit (spriteCalls view r p) r.query_sy r.query_wall r.query_part).2 := by
  obtain ⟨y1, hy1⟩ : ∃ y1, y1 = (maskedRows view (r.heap.getD p default)
      (r.heap.getD p default).ceil).1 := ⟨_, rfl⟩
  obtain ⟨y2, hy2⟩ : ∃ y2, y2 = (maskedRows view (r.heap.getD p default)
      (r.heap.getD p default).ceil).2 := ⟨_, rfl⟩
  have e1 : RenderSprite X doc view r p x
      = (if y1 > y2 then r
         else if y1 ≤ r.query_sy ∧ r.query_sy ≤ y2 then
           { r with query_wall := some p, query_part := obj3d_type_e.OB3D_Thing }
         else r) := by
    rw [hy1, hy2]
    unfold RenderSprite maskedRows
    simp only [hq, ne_eq, not_false_eq_true, if_true]
  have e2 : spriteCalls view r p
      = (if y1 > y2 then [] else [⟨p, obj3d_type_e.OB3D_Thing, y1, y2⟩]) := by
    rw [hy1, hy2]
    rfl
  rw [e1, e2]
  by_cases h12 : y1 > y2
  · rw [if_pos h12, if_pos h12]
    exact ⟨rfl, rfl⟩
  · rw [if_neg h12, if_neg h12]
    unfold firstHit RowCall.holds
    by_cases hit : y1 ≤ r.query_sy ∧ r.query_sy ≤ y2
    · simp only [List.find?_cons, hit, and_self, decide_True, if_true]
    · simp only [List.find?_cons, hit, decide_False, List.find?_nil, and_self, if_false]

theorem backToFront_append (m : MathLib F) (X : Ext F) (doc : Doc) (view : View F) (x : Int) :
    ∀ (l1 l2 : List Nat) (r : RendInfo F),
      backToFront m X doc view x (l1 ++ l2) r
        = backToFront m X doc view x l2 (backToFront m X doc view x l1 r) := by
  intro l1
  induction l1 with
  | nil => intro l2 r; rfl
  | cons p rest ih =>
    intro l2 r
    simp only [List.cons_append, backToFront]
    exact ih l2 _

/-- The rows of a call of `RenderSprite` lie in the region that the sprite
remembers. -/
theorem spriteCalls_inside (view : View F) (r : RendInfo F) (p : Nat) :
    ∀ e ∈ spriteCalls view r p,
      (r.heap.getD p default).oy1 ≤ e.y1 ∧ e.y1 ≤ e.y2 ∧ e.y2 ≤ (r.heap.getD p default).oy2 := by
  intro e h
  have hm : (r.heap.getD p default).oy1
        ≤ (maskedRows view (r.heap.getD p default) (r.heap.getD p default).ceil).1
      ∧ (maskedRows view (r.heap.getD p default) (r.heap.getD p default).ceil).2
        ≤ (r.heap.getD p default).oy2 := by
    unfold maskedRows
    simp only []
    constructor
    · split_ifs <;> omega
    · split_ifs <;> omega
  unfold spriteCalls at h
  simp only [] at h
  by_cases h12 : (maskedRows view (r.heap.getD p default) (r.heap.getD p default).ceil).1
      > (maskedRows view (r.heap.getD p default) (r.heap.getD p default).ceil).2
  · rw [if_pos h12] at h
    exact absurd h (List.not_mem_nil _)
  · rw [if_neg h12, List.mem_singleton] at h
    subst h
    exact ⟨hm.1, not_lt.1 h12, hm.2⟩

/-- The candidates of a query lie in the open region at the start of the
loop, when the pointers are good. -/
theorem queryCandidates_inside (m : MathLib F) (X : Ext F) (doc : Doc) (view : View F)
    (x : Int) :
    ∀ (act : List Nat) (r : RendInfo F), (∀ p ∈ act, p < r.heap.size) →
      ∀ e ∈ queryCandidates m X doc view x act r,
        r.open_y1 ≤ e.y1 ∧ e.y1 ≤ e.y2 ∧ e.y2 ≤ r.open_y2 := by
  intro act
  induction act with
  | nil =>
    intro r _ e he
    exact absurd he (List.not_mem_nil _)
  | cons p rest ih =>
    intro r hv e he
    rw [queryCandidates_cons] at he
    have hp : p < r.heap.size := hv p (List.mem_cons_self _ _)
    have hself := rememberOpen_self r p hp
    have hsz : (rememberOpen r p).heap.size = r.heap.size := (rememberOpen_heap r p 0).1
    obtain ⟨b1, -⟩ := renderBands_frame m X doc view (rememberOpen r p) p x
    have hb := renderBands_within m X doc view (rememberOpen r p) p x
    have u1 : r.open_y1 ≤ (renderBands m X doc view (rememberOpen r p) p x).open_y1 := hb.1
    have u2 : (renderBands m X doc view (rememberOpen r p) p x).open_y2 ≤ r.open_y2 := hb.2.1
    have hvR : ∀ a ∈ rest, a < (rememberOpen r p).heap.size := by
      intro a ha
      rw [hsz]
      exact hv a (List.mem_cons_of_mem _ ha)
    have hvB : ∀ a ∈ rest, a < (renderBands m X doc view (rememberOpen r p) p x).heap.size := by
      intro a ha
      rw [b1]
      exact hvR a ha
    by_cases h1 : ((rememberOpen r p).heap.getD p default).th ≥ 0
    · rw [if_pos h1] at he
      rcases List.mem_append.1 he with h | h
      · have g := spriteCalls_inside view (rememberOpen r p) p e h
        rw [hself] at g
        exact g
      · exact ih (rememberOpen r p) hvR e h
    · rw [if_neg h1] at he
      by_cases h2 : (renderBands m X doc view (rememberOpen r p) p x).open_y1
          > (renderBands m X doc view (rememberOpen r p) p x).open_y2
      · rw [if_pos h2] at he
        exact hb.2.2 e he
      · rw [if_neg h2] at he
        rcases List.mem_append.1 he with h | h
        · exact hb.2.2 e h
        · obtain ⟨g1, g2, g3⟩ := ih (renderBands m X doc view (rememberOpen r p) p x) hvB e h
          exact ⟨le_trans u1 g1, g2, le_trans g3 u2⟩

end QueryColumnLoop

section QueryColumnResult
variable {F : Type} [LinearOrderedField F] [FloorRing F]

theorem backToFront_single (m : MathLib F) (X : Ext F) (doc : Doc) (view : View F) (x : Int)
    (p : Nat) (s : RendInfo F) :
    backToFront m X doc view x [p] s
      = (if (s.heap.getD p default).th ≥ 0 then RenderSprite X doc view s p x
         else RenderMidMasker m X doc view s p (s.heap.getD p default).rail x) := rfl

/-- What the back-to-front loop leaves alone in any mode. -/
theorem backToFront_frame (m : MathLib F) (X : Ext F) (doc : Doc) (view : View F) (x : Int)
    (l : List Nat) (r : RendInfo F) :
    (backToFront m X doc view x l r).heap = r.heap
    ∧ (backToFront m X doc view x l r).walls = r.walls
    ∧ (backToFront m X doc view x l r).active = r.active
    ∧ (backToFront m X doc view x l r).query_mode = r.query_mode
    ∧ (backToFront m X doc view x l r).query_sx = r.query_sx
    ∧ (backToFront m X doc view x l r).query_sy = r.query_sy
    ∧ (backToFront m X doc view x l r).open_y1 = r.open_y1
    ∧ (backToFront m X doc view x l r).open_y2 = r.open_y2 := by
  obtain ⟨scr, qw, qp, h⟩ := backToFront_shape m X doc view x l r
  rw [h]
  exact ⟨rfl, rfl, rfl, rfl, rfl, rfl, rfl, rfl⟩

/-- The record of a query after the two loops of a column: the first
candidate, in front-to-back order, whose rows hold the query row, and the
record from before the column when there is none. -/
theorem column_query (m : MathLib F) (X : Ext F) (doc : Doc) (view : View F) (x : Int) :
    ∀ (act : List Nat) (k : Nat) (r : RendInfo F), r.query_mode ≠ 0 →
      (∀ j, Banded (r.heap.getD j default)) → act.Nodup → (∀ p ∈ act, p < r.heap.size) →
      (backToFront m X doc view x (visitedOf m X doc view x act r).reverse
          (frontToBack m X doc view x act k r).2).query_wall
        = (firstHit (queryCandidates m X doc view x act r) r.query_sy r.query_wall
            r.query_part).1
      ∧ (backToFront m X doc view x (visitedOf m X doc view x act r).reverse
          (frontToBack m X doc view x act k r).2).query_part
        = (firstHit (queryCandidates m X doc view x act r) r.query_sy r.query_wall
            r.query_part).2 := by
  intro act
  induction act with
  | nil =>
    intro k r _ _ _ _
    exact ⟨rfl, rfl⟩
  | cons p rest ih =>
    intro k r hq hb hnd hv
    have hp : p < r.heap.size := hv p (List.mem_cons_self _ _)
    have hpr : p ∉ rest := (List.nodup_cons.1 hnd).1
    have hndr : rest.Nodup := (List.nodup_cons.1 hnd).2
    have hsz : (rememberOpen r p).heap.size = r.heap.size := (rememberOpen_heap r p 0).1
    have hbR := rememberOpen_banded r p hb
    have hqR : (rememberOpen r p).query_mode ≠ 0 := hq
    obtain ⟨b1, -, -, b4, -, b6⟩ := renderBands_frame m X doc view (rememberOpen r p) p x
    have hvR : ∀ a ∈ rest, a < (rememberOpen r p).heap.size := by
      intro a ha
      rw [hsz]
      exact hv a (List.mem_cons_of_mem _ ha)
    have hvB : ∀ a ∈ rest, a < (renderBands m X doc view (rememberOpen r p) p x).heap.size := by
      intro a ha
      rw [b1]
      exact hvR a ha
    have hbB : ∀ j, Banded ((renderBands m X doc view (rememberOpen r p) p x).heap.getD j default) := by
      intro j
      rw [b1]
      exact hbR j
    have hqB : (renderBands m X doc view (rememberOpen r p) p x).query_mode ≠ 0 := by
      rw [b4]
      exact hqR
    rw [frontToBack_cons, visitedOf_cons, queryCandidates_cons]
    by_cases h1 : ((rememberOpen r p).heap.getD p default).th ≥ 0
    · simp only [h1, if_true]
      rw [List.reverse_cons, backToFront_append, backToFront_single]
      obtain ⟨i1, i2⟩ := ih (k + 1) (rememberOpen r p) hqR hbR hndr hvR
      obtain ⟨c1, -, -, c4, -, c6, -, -⟩ := backToFront_frame m X doc view x
        (visitedOf m X doc view x rest (rememberOpen r p)).reverse
        (frontToBack m X doc view x rest (k + 1) (rememberOpen r p)).2
      obtain ⟨-, -, d4, -, d6, -⟩ := frontToBack_frame m X doc view x rest (k + 1)
        (rememberOpen r p)
      have hother := frontToBack_other m X doc view x rest (k + 1) (rememberOpen r p) p hpr
      generalize backToFront m X doc view x
        (visitedOf m X doc view x rest (rememberOpen r p)).reverse
        (frontToBack m X doc view x rest (k + 1) (rememberOpen r p)).2 = s at i1 i2 c1 c4 c6 ⊢
      have hsp : s.heap.getD p default = (rememberOpen r p).heap.getD p default := by
        rw [c1, hother]
      have hth : (s.heap.getD p default).th ≥ 0 := by
        rw [hsp]
        exact h1
      have hqs : s.query_mode ≠ 0 := by
        rw [c4, d4]
        exact hqR
      have hys : s.query_sy = r.query_sy := by
        rw [c6, d6]
        rfl
      rw [if_pos hth]
      obtain ⟨f1, f2⟩ := RenderSprite_firstHit X doc view s p x hqs
      rw [f1, f2, spriteCalls_congr view (rememberOpen r p) s p hsp, hys, i1, i2,
        firstHit_append]
      exact ⟨rfl, rfl⟩
    · simp only [h1, if_false]
      have hbp : Banded ((rememberOpen r p).heap.getD p default) := hbR p
      obtain ⟨e1, e2⟩ := renderBands_firstHit m X doc view (rememberOpen r p) p x hqR hbp
      have hsw := renderBands_sweep m X doc view (rememberOpen r p) p x hbp
      by_cases h2 : (renderBands m X doc view (rememberOpen r p) p x).open_y1
          > (renderBands m X doc view (rememberOpen r p) p x).open_y2
      · simp only [h2, if_true]
        rw [List.reverse_singleton, backToFront_single,
          if_neg (by rw [b1]; exact h1), RenderMidMasker_query m X doc view _ p _ x hqB]
        exact ⟨e1, e2⟩
      · simp only [h2, if_false]
        rw [List.reverse_cons, backToFront_append, backToFront_single]
        obtain ⟨i1, i2⟩ := ih (k + 1) (renderBands m X doc view (rememberOpen r p) p x)
          hqB hbB hndr hvB
        obtain ⟨c1, -, -, c4, -, c6, -, -⟩ := backToFront_frame m X doc view x
          (visitedOf m X doc view x rest (renderBands m X doc view (rememberOpen r p) p x)).reverse
          (frontToBack m X doc view x rest (k + 1)
            (renderBands m X doc view (rememberOpen r p) p x)).2
        obtain ⟨-, -, d4, -, d6, -⟩ := frontToBack_frame m X doc view x rest (k + 1)
          (renderBands m X doc view (rememberOpen r p) p x)
        have hother := frontToBack_other m X doc view x rest (k + 1)
          (renderBands m X doc view (rememberOpen r p) p x) p hpr
        generalize backToFront m X doc view x
          (visitedOf m X doc view x rest
            (renderBands m X doc view (rememberOpen r p) p x)).reverse
          (frontToBack m X doc view x rest (k + 1)
            (renderBands m X doc view (rememberOpen r p) p x)).2 = s at i1 i2 c1 c4 c6 ⊢
        have hth : ¬ (s.heap.getD p default).th ≥ 0 := by
          rw [c1, hother, b1]
          exact h1
        have hqs : s.query_mode ≠ 0 := by
          rw [c4, d4]
          exact hqB
        rw [if_neg hth, RenderMidMasker_query m X doc view s p _ x hqs, i1, i2, b6, e1, e2]
        have hcross : ∀ a ∈ bandsCalls m X doc view (rememberOpen r p) p x,
            ∀ b ∈ queryCandidates m X doc view x rest
              (renderBands m X doc view (rememberOpen r p) p x),
            a.y2 < b.y1 ∨ b.y2 < a.y1 := by
          intro a ha b hb2
          obtain ⟨g1, g2, g3⟩ := queryCandidates_inside m X doc view x rest _ hvB b hb2
          rcases hsw.2.1 a ha with g | g
          · exact Or.inl (lt_of_lt_of_le g g1)
          · exact Or.inr (lt_of_le_of_lt g3 g)
        have key := firstHit_append_of_disjoint _ _ r.query_sy r.query_wall r.query_part hcross
        exact ⟨congrArg Prod.fst key, congrArg Prod.snd key⟩

end QueryColumnResult

section Prepared
variable {F : Type} [LinearOrderedField F] [FloorRing F]

theorem Banded_default : Banded (default : DrawWall F) :=
  ⟨Or.inl rfl, Or.inl rfl, Or.inl rfl, Or.inl rfl⟩

/-- The wall entity that `AddLine` creates has its surfaces as constructed. -/
theorem AddLine_wall_banded (m : MathLib F) (doc : Doc) (view : View F) (r : RendInfo F)
    (i : Nat) (dw : DrawWall F) (h : AddLine_wall m doc view r i = some dw) : Banded dw := by
  unfold AddLine_wall at h
  split at h
  · exact absurd h (by simp)
  · split at h
    · exact absurd h (by simp)
    · simp only [] at h
      split_ifs at h with h1 h2 h3
      simp only [Option.some.injEq] at h
      subst h
      exact ⟨Or.inl rfl, Or.inl rfl, Or.inl rfl, Or.inl rfl⟩

/-- The sprite entity that `AddThing` creates has no visible band. -/
theorem AddThing_wall_banded (X : Ext F) (doc : Doc) (view : View F) (r : RendInfo F)
    (k : Nat) (dw : DrawWall F) (h : AddThing_wall X doc view r k = some dw) : Banded dw := by
  unfold AddThing_wall at h
  split_ifs at h with h1 h2 h3
  simp only [Option.some.injEq] at h
  subst h
  exact ⟨Or.inl rfl, Or.inl rfl, Or.inl rfl, Or.inl rfl⟩

theorem push_tidy (r : RendInfo F) (dw : DrawWall F) (hr : Tidy r) (hd : Banded dw) :
    Tidy (r.push dw) := by
  obtain ⟨hv, hn, hb⟩ := hr
  have hw : (r.push dw).walls = r.walls ++ [r.heap.size] := rfl
  have hh : (r.push dw).heap = r.heap.push dw := rfl
  refine ⟨?_, ?_, ?_⟩
  · intro p hp
    rw [hw] at hp
    rw [hh, Array.size_push]
    rcases List.mem_append.1 hp with h | h
    · exact Nat.lt_succ_of_lt (hv p h)
    · rw [List.mem_singleton] at h
      omega
  · rw [hw]
    refine List.Nodup.append hn (List.nodup_singleton _) ?_
    intro a ha hb2
    rw [List.mem_singleton] at hb2
    have := hv a ha
    omega
  · intro j
    rw [hh]
    rcases Nat.lt_trichotomy j r.heap.size with h | h | h
    · rw [getD_push_lt _ _ _ _ h]
      exact hb j
    · rw [h, getD_push_size]
      exact hd
    · have e : (r.heap.push dw).getD j default = default := by
        unfold Array.getD
        rw [dif_neg]
        rw [Array.size_push]
        omega
      rw [e]
      exact Banded_default

theorem AddLine_tidy (m : MathLib F) (doc : Doc) (view : View F) (r : RendInfo F) (i : Nat)
    (hr : Tidy r) : Tidy (AddLine m doc view r i) := by
  unfold AddLine
  cases h : AddLine_wall m doc view r i with
  | none => exact hr
  | some dw => exact push_tidy r dw hr (AddLine_wall_banded m doc view r i dw h)

theorem AddThing_tidy (X : Ext F) (doc : Doc) (view : View F) (r : RendInfo F) (k : Nat)
    (hr : Tidy r) : Tidy (AddThing X doc view r k) := by
  unfold AddThing
  cases h : AddThing_wall X doc view r k with
  | none => exact hr
  | some dw => exact push_tidy r dw hr (AddThing_wall_banded X doc view r k dw h)

theorem foldl_keeps {α : Type} (P : RendInfo F → Prop) (f : RendInfo F → α → RendInfo F)
    (hf : ∀ r a, P r → P (f r a)) :
    ∀ (l : List α) (r : RendInfo F), P r → P (l.foldl f r) := by
  intro l
  induction l with
  | nil => intro r h; exact h
  | cons a t ih =>
    intro r h
    rw [List.foldl_cons]
    exact ih _ (hf r a h)

theorem addEntities_tidy (m : MathLib F) (X : Ext F) (doc : Doc) (view : View F)
    (r : RendInfo F) (hr : Tidy r) : Tidy (addEntities m X doc view r) := by
  unfold addEntities
  have h1 := foldl_keeps Tidy (AddLine m doc view) (fun r a h => AddLine_tidy m doc view r a h)
    (List.range doc.LineDefs.size) r hr
  simp only []
  split_ifs
  · exact foldl_keeps Tidy (AddThing X doc view) (fun r a h => AddThing_tidy X doc view r a h)
      (List.range doc.Things.size) _ h1
  · exact h1

/-- The slots that the entity loop of `ClipSolids` leaves are taken from the
list in its order. -/
theorem clipLoop_sublist (doc : Doc) (heap : Array (DrawWall F)) :
    ∀ (l : List Nat) (d : Int → F), ((clipLoop doc heap l d).1.filterMap id).Sublist l := by
  intro l
  induction l with
  | nil => intro d; exact List.Sublist.refl _
  | cons p rest ih =>
    intro d
    simp only [clipLoop]
    split_ifs with h
    · rw [List.filterMap_cons_none rfl]
      exact List.Sublist.cons _ (ih _)
    · have e : ∀ t : List (Option Nat),
          List.filterMap id (some p :: t) = p :: List.filterMap id t := fun t => rfl
      rw [e]
      exact List.Sublist.cons₂ _ (ih _)

theorem ClipSolids_tidy (doc : Doc) (r : RendInfo F) (hr : Tidy r) : Tidy (ClipSolids doc r) := by
  obtain ⟨hv, hn, hb⟩ := hr
  have hsub : (ClipSolids doc r).walls.Sublist (stdSort (MidDistCmp r.heap) r.walls) :=
    clipLoop_sublist doc r.heap _ r.depth_x
  have hperm : (stdSort (MidDistCmp r.heap) r.walls).Perm r.walls := List.perm_insertionSort _ _
  refine ⟨?_, ?_, hb⟩
  · intro p hp
    exact hv p (hperm.mem_iff.1 (hsub.subset hp))
  · exact (hperm.nodup_iff.2 hn).sublist hsub

end Prepared

section PreparedSurfaces
variable {F : Type} [LinearOrderedField F] [FloorRing F]

theorem Solid_above (s : DrawSurf) (h : s.y_clip = SOLID_ABOVE) : Solid s := by
  right; left
  rw [h]
  decide

theorem Solid_below (s : DrawSurf) (h : s.y_clip = SOLID_BELOW) : Solid s := by
  right; right
  rw [h]
  decide

theorem Solid_both (s : DrawSurf) (h : s.y_clip = Int.lor SOLID_ABOVE SOLID_BELOW) : Solid s := by
  right; left
  rw [h]
  decide

/-- Every band that `ComputeWallSurface` writes has a solid end: the ceiling
and the upper band are solid above, the floor and the lower band of a
two-sided line are solid below, the band of a one-sided line is solid at both
ends; a band that it does not write stays as it was. -/
theorem ComputeWallSurface_banded (X : Ext F) (doc : Doc) (view : View F) (dw : DrawWall F)
    (hb : Banded dw) : Banded (ComputeWallSurface X doc view dw) := by
  obtain ⟨s1, s2, s3, s4⟩ := hb
  obtain ⟨e1, e2, e3, e4⟩ := ComputeWallSurface_surfaces X doc view dw
  have hc : Solid (ceilSurf X doc view dw) := by
    unfold ceilSurf
    simp only []
    split_ifs
    · exact Solid_above _ (FindFlat_geometry X view _ _).2.2.2
    · exact s1
  have hf : Solid (floorSurf X doc view dw) := by
    unfold floorSurf
    simp only []
    split_ifs
    · exact Solid_below _ (FindFlat_geometry X view _ _).2.2.2
    · exact s2
  rw [Banded, e1, e2]
  cases hbk : backSector doc dw with
  | none =>
    obtain ⟨u, l, -⟩ := e3 hbk
    rw [u, l]
    refine ⟨hc, hf, s3, ?_⟩
    exact Solid_both _ (lowerOneSided_geometry X doc view dw).2.2.2
  | some b =>
    obtain ⟨u, l, -⟩ := e4 b hbk
    rw [u, l]
    refine ⟨hc, hf, ?_, ?_⟩
    · unfold upperSurf
      simp only []
      by_cases h : (doc.sector b).ceilh < (doc.sector (dw.sec.getD 0)).ceilh ∧ ¬ skyUpper X doc dw = true ∧ ¬ selfRef doc dw = true
      · rw [if_pos h]
        apply Solid_above
        exact (FindTex_geometry X view _ _).2.2.2
      · rw [if_neg h]
        exact s3
    · unfold lowerTwoSided
      simp only []
      by_cases h : (doc.sector b).floorh > (doc.sector (dw.sec.getD 0)).floorh ∧ ¬ selfRef doc dw = true
      · rw [if_pos h]
        apply Solid_below
        exact (FindTex_geometry X view _ _).2.2.2
      · rw [if_neg h]
        exact s4

theorem ComputeSurfaces_tidy (X : Ext F) (doc : Doc) (view : View F) (r : RendInfo F)
    (hr : Tidy r) : Tidy (ComputeSurfaces X doc view r) := by
  obtain ⟨hv, hn, hb⟩ := hr
  have key : ∀ (l : List Nat) (heap : Array (DrawWall F)),
      (∀ j, Banded (heap.getD j default)) →
      (l.foldl (fun heap p =>
          if (heap.getD p default).ld.isSome then
            heap.setD p (ComputeWallSurface X doc view (heap.getD p default))
          else heap) heap).size = heap.size
      ∧ ∀ j, Banded ((l.foldl (fun heap p =>
          if (heap.getD p default).ld.isSome then
            heap.setD p (ComputeWallSurface X doc view (heap.getD p default))
          else heap) heap).getD j default) := by
    intro l
    induction l with
    | nil => intro heap h; exact ⟨rfl, h⟩
    | cons p rest ih =>
      intro heap h
      rw [List.foldl_cons]
      by_cases hl : (heap.getD p default).ld.isSome
      · rw [if_pos hl]
        have h2 : ∀ j, Banded ((heap.setD p
            (ComputeWallSurface X doc view (heap.getD p default))).getD j default) := by
          intro j
          by_cases hj : p = j
          · subst hj
            by_cases hp : p < heap.size
            · rw [getD_setD_self _ _ _ _ hp]
              exact ComputeWallSurface_banded X doc view _ (h p)
            · have : heap.setD p (ComputeWallSurface X doc view (heap.getD p default)) = heap := by
                unfold Array.setD
                rw [dif_neg hp]
              rw [this]
              exact h p
          · rw [getD_setD_ne _ _ _ _ _ hj]
            exact h j
        obtain ⟨g1, g2⟩ := ih _ h2
        exact ⟨g1.trans (size_setD _ _ _), g2⟩
      · rw [if_neg hl]
        exact ih heap h
  obtain ⟨k1, k2⟩ := key r.walls r.heap hb
  refine ⟨?_, hn, k2⟩
  intro p hp
  show p < (r.walls.foldl _ r.heap).size
  rw [k1]
  exact hv p hp

/-- The state in which `Render` calls `RenderWalls` has good pointers when the
state at the start has. -/
theorem renderPrepared_tidy (m : MathLib F) (X : Ext F) (doc : Doc) (view : View F)
    (r : RendInfo F) (hr : Tidy r) : Tidy (renderPrepared m X doc view r) := by
  unfold renderPrepared
  apply ComputeSurfaces_tidy
  apply ClipSolids_tidy
  apply addEntities_tidy
  have h0 : Tidy (if r.query_mode = 0 then ClearScreen view r else r) := by
    split_ifs
    · exact hr
    · exact hr
  exact h0

theorem push_request (r : RendInfo F) (dw : DrawWall F) :
    (r.push dw).query_mode = r.query_mode ∧ (r.push dw).query_sx = r.query_sx
    ∧ (r.push dw).query_sy = r.query_sy ∧ (r.push dw).query_wall = r.query_wall
    ∧ (r.push dw).query_part = r.query_part := ⟨rfl, rfl, rfl, rfl, rfl⟩

/-- The query request and record are left alone by the loops that build the
entities. -/
theorem addEntities_request (m : MathLib F) (X : Ext F) (doc : Doc) (view : View F)
    (r : RendInfo F) :
    (addEntities m X doc view r).query_mode = r.query_mode
    ∧ (addEntities m X doc view r).query_sx = r.query_sx
    ∧ (addEntities m X doc view r).query_sy = r.query_sy
    ∧ (addEntities m X doc view r).query_wall = r.query_wall
    ∧ (addEntities m X doc view r).query_part = r.query_part := by
  have hline : ∀ (t : RendInfo F) (i : Nat),
      (fun s : RendInfo F => s.query_mode = r.query_mode ∧ s.query_sx = r.query_sx
        ∧ s.query_sy = r.query_sy ∧ s.query_wall = r.query_wall
        ∧ s.query_part = r.query_part) t →
      (fun s : RendInfo F => s.query_mode = r.query_mode ∧ s.query_sx = r.query_sx
        ∧ s.query_sy = r.query_sy ∧ s.query_wall = r.query_wall
        ∧ s.query_part = r.query_part) (AddLine m doc view t i) := by
    intro t i h
    unfold AddLine
    cases AddLine_wall m doc view t i with
    | none => exact h
    | some dw => exact h
  have hthing : ∀ (t : RendInfo F) (i : Nat),
      (fun s : RendInfo F => s.query_mode = r.query_mode ∧ s.query_sx = r.query_sx
        ∧ s.query_sy = r.query_sy ∧ s.query_wall = r.query_wall
        ∧ s.query_part = r.query_part) t →
      (fun s : RendInfo F => s.query_mode = r.query_mode ∧ s.query_sx = r.query_sx
        ∧ s.query_sy = r.query_sy ∧ s.query_wall = r.query_wall
        ∧ s.query_part = r.query_part) (AddThing X doc view t i) := by
    intro t i h
    unfold AddThing
    cases AddThing_wall X doc view t i with
    | none => exact h
    | some dw => exact h
  have h1 := foldl_keeps _ (AddLine m doc view) hline (List.range doc.LineDefs.size) r
    ⟨rfl, rfl, rfl, rfl, rfl⟩
  unfold addEntities
  simp only []
  by_cases hs : view.sprites = true
  · rw [if_pos hs]
    exact foldl_keeps _ (AddThing X doc view) hthing (List.range doc.Things.size) _ h1
  · rw [if_neg hs]
    exact h1

/-- The query request and record are left alone while `Render` prepares the
state for `RenderWalls`. -/
theorem renderPrepared_request (m : MathLib F) (X : Ext F) (doc : Doc) (view : View F)
    (r : RendInfo F) :
    (renderPrepared m X doc view r).query_mode = r.query_mode
    ∧ (renderPrepared m X doc view r).query_sx = r.query_sx
    ∧ (renderPrepared m X doc view r).query_sy = r.query_sy
    ∧ (renderPrepared m X doc view r).query_wall = r.query_wall
    ∧ (renderPrepared m X doc view r).query_part = r.query_part := by
  obtain ⟨a1, a2, a3, a4, a5⟩ := addEntities_request m X doc view
    (InitDepthBuf (if r.query_mode = 0 then ClearScreen view r else r) view.screen_w)
  have h0 : (InitDepthBuf (if r.query_mode = 0 then ClearScreen view r else r)
        view.screen_w).query_mode = r.query_mode
      ∧ (InitDepthBuf (if r.query_mode = 0 then ClearScreen view r else r)
        view.screen_w).query_sx = r.query_sx
      ∧ (InitDepthBuf (if r.query_mode = 0 then ClearScreen view r else r)
        view.screen_w).query_sy = r.query_sy
      ∧ (InitDepthBuf (if r.query_mode = 0 then ClearScreen view r else r)
        view.screen_w).query_wall = r.query_wall
      ∧ (InitDepthBuf (if r.query_mode = 0 then ClearScreen view r else r)
        view.screen_w).query_part = r.query_part := by
    by_cases hq : r.query_mode = 0
    · rw [if_pos hq]
      exact ⟨rfl, rfl, rfl, rfl, rfl⟩
    · rw [if_neg hq]
      exact ⟨rfl, rfl, rfl, rfl, rfl⟩
  exact ⟨a1.trans h0.1, a2.trans h0.2.1, a3.trans h0.2.2.1, a4.trans h0.2.2.2.1,
    a5.trans h0.2.2.2.2⟩

end PreparedSurfaces

section Columns
variable {F : Type} [LinearOrderedField F] [FloorRing F]

/-- The call `std::sort(walls.begin(), walls.end(), DrawWall::SX1Cmp())` leaves
the list in the order of `sx1`. -/
theorem stdSort_SX1Cmp_sorted (heap : Array (DrawWall F)) (l : List Nat) :
    (stdSort (SX1Cmp heap) l).Pairwise
      (fun a b => (heap.getD a default).sx1 ≤ (heap.getD b default).sx1) := by
  unfold stdSort
  haveI : IsTotal Nat (fun a b => SX1Cmp heap b a = false) := ⟨by
    intro a b
    unfold SX1Cmp
    simp only [decide_eq_false_iff_not, not_lt]
    exact le_total _ _⟩
  haveI : IsTrans Nat (fun a b => SX1Cmp heap b a = false) := ⟨by
    intro a b c
    unfold SX1Cmp
    simp only [decide_eq_false_iff_not, not_lt]
    exact fun h1 h2 => le_trans h1 h2⟩
  have h := List.sorted_insertionSort (fun a b => SX1Cmp heap b a = false) l
  refine List.Pairwise.imp ?_ h
  intro a b hab
  unfold SX1Cmp at hab
  simpa using hab

theorem renderColumn_eq (m : MathLib F) (X : Ext F) (doc : Doc) (view : View F) (x : Int)
    (r : RendInfo F) :
    renderColumn m X doc view x r
      = columnPasses m X doc view x
          (UpdateActiveList X doc view { r with open_y1 := 0, open_y2 := view.screen_h - 1 } x) :=
  rfl

/-- The two loops of a column keep what the column loop keeps. -/
theorem columnPasses_inv (m : MathLib F) (X : Ext F) (doc : Doc) (view : View F) (x y : Int)
    (W s : RendInfo F) (h : ColumnInv W y s) :
    ColumnInv W y (columnPasses m X doc view x s) := by
  unfold columnPasses
  simp only []
  by_cases hs : s.query_mode ≠ 0 ∧ x ≠ s.query_sx
  · rw [if_pos hs]
    exact h
  · rw [if_neg hs]
    obtain ⟨h1, h2, h3, h4, h5, h6, h7, h8⟩ := h
    obtain ⟨a1, a2, a3, a4, a5, a6, -, -⟩ := backToFront_frame m X doc view x
      ((s.active.take (if (frontToBack m X doc view x s.active 0 s).1 = s.active.length then
        (frontToBack m X doc view x s.active 0 s).1
        else (frontToBack m X doc view x s.active 0 s).1 + 1)).reverse)
      (frontToBack m X doc view x s.active 0 s).2
    obtain ⟨b1, b2, b3, b4, b5, b6⟩ := frontToBack_frame m X doc view x s.active 0 s
    refine ⟨a2.trans (b1.trans h1), ?_, ?_, ?_, ?_, a4.trans (b3.trans h6),
      a5.trans (b4.trans h7), a6.trans (b5.trans h8)⟩
    · rw [a1, b6]
      exact h2
    · intro j
      rw [a1]
      obtain ⟨o1, o2, ho, -⟩ := frontToBack_heap m X doc view x s.active 0 s j
      rw [ho]
      exact sameEntity_oy _ _ o1 o2 (h3 j)
    · rw [a3, b2]
      exact h4
    · rw [a3, b2]
      exact h5

/-- The call `UpdateActiveList(x)` at the start of column `x`, on a list of
entities in the order of `sx1`, keeps what the column loop keeps. -/
theorem UpdateActiveList_inv (X : Ext F) (doc : Doc) (view : View F) (x : Int)
    (W s : RendInfo F) (hn : W.walls.Nodup)
    (hsorted : W.walls.Pairwise
      (fun a b => (W.heap.getD a default).sx1 ≤ (W.heap.getD b default).sx1))
    (h : ColumnInv W x s) :
    ColumnInv W (x + 1)
        (UpdateActiveList X doc view { s with open_y1 := 0, open_y2 := view.screen_h - 1 } x)
    ∧ (UpdateActiveList X doc view
        { s with open_y1 := 0, open_y2 := view.screen_h - 1 } x).open_y1 = 0
    ∧ (UpdateActiveList X doc view
        { s with open_y1 := 0, open_y2 := view.screen_h - 1 } x).open_y2 = view.screen_h - 1
    ∧ (UpdateActiveList X doc view
        { s with open_y1 := 0, open_y2 := view.screen_h - 1 } x).query_wall = s.query_wall
    ∧ (UpdateActiveList X doc view
        { s with open_y1 := 0, open_y2 := view.screen_h - 1 } x).query_part = s.query_part := by
  obtain ⟨h1, h2, h3, h4, h5, h6, h7, h8⟩ := h
  obtain ⟨u1, u2, u3, u4, u5, u6, u7, u8, u9, u10⟩ := UpdateActiveList_fields X doc view
    { s with open_y1 := 0, open_y2 := view.screen_h - 1 } x
  have uact := UpdateActiveList_active X doc view
    { s with open_y1 := 0, open_y2 := view.screen_h - 1 } x
  have hsx : ∀ p, (s.heap.getD p default).sx1 = (W.heap.getD p default).sx1 :=
    fun p => (sameEntity_static _ _ (h3 p)).1
  have e2 : (fun p => decide ((s.heap.getD p default).sx1 < x))
      = (fun p => decide ((W.heap.getD p default).sx1 < x)) := by
    funext p
    rw [hsx p]
  have e3 : (fun p => ! decide (x < (s.heap.getD p default).sx1))
      = (fun p => ! decide (x < (W.heap.getD p default).sx1)) := by
    funext p
    rw [hsx p]
  have hadd : (s.walls.dropWhile (fun p => decide ((s.heap.getD p default).sx1 < x))).takeWhile
        (fun p => ! decide (x < (s.heap.getD p default).sx1))
      = W.walls.filter (fun p => decide ((W.heap.getD p default).sx1 = x)) := by
    rw [e2, e3, h1]
    exact run_eq_filter_of_sorted (fun p => (W.heap.getD p default).sx1) x W.walls hsorted
  have uact2 : (UpdateActiveList X doc view
        { s with open_y1 := 0, open_y2 := view.screen_h - 1 } x).active.Perm
      (s.active.filter (fun p => ! decide ((s.heap.getD p default).sx2 < x))
        ++ W.walls.filter (fun p => decide ((W.heap.getD p default).sx1 = x))) := by
    rw [← hadd]
    exact uact
  refine ⟨⟨u1.trans h1, u9.trans h2, ?_, ?_, ?_, u2.trans h6, u3.trans h7, u4.trans h8⟩,
    u7, u8, u5, u6⟩
  · intro j
    obtain ⟨c, hc⟩ := u10 j
    rw [hc]
    exact sameEntity_cur_iz _ _ c (h3 j)
  · rw [uact2.nodup_iff]
    refine List.Nodup.append (h4.filter _) (hn.filter _) ?_
    intro a ha hb
    have g1 := (h5 a (List.mem_filter.1 ha).1).2
    have g2 := (List.mem_filter.1 hb).2
    simp only [decide_eq_true_eq] at g2
    omega
  · intro p hp
    rcases List.mem_append.1 (uact2.mem_iff.1 hp) with g | g
    · obtain ⟨g1, g2⟩ := h5 p (List.mem_filter.1 g).1
      exact ⟨g1, by omega⟩
    · obtain ⟨g1, g2⟩ := List.mem_filter.1 g
      simp only [decide_eq_true_eq] at g2
      exact ⟨g1, by omega⟩

/-- The column loop of `RenderWalls` keeps its invariant over the columns
`0 .. n - 1`. -/
theorem columns_inv (m : MathLib F) (X : Ext F) (doc : Doc) (view : View F) (W : RendInfo F)
    (hn : W.walls.Nodup)
    (hsorted : W.walls.Pairwise
      (fun a b => (W.heap.getD a default).sx1 ≤ (W.heap.getD b default).sx1))
    (hempty : W.active = []) (n : Nat) :
    ColumnInv W ((0 : Int) + n) (forRange 0 n (renderColumn m X doc view) W) := by
  apply forRange_invariant (renderColumn m X doc view) (fun k t => ColumnInv W k t) n 0 W
  · intro x t _ _ ht
    rw [renderColumn_eq]
    exact columnPasses_inv m X doc view x (x + 1) W _
      (UpdateActiveList_inv X doc view x W t hn hsorted ht).1
  · refine ⟨rfl, rfl, fun j => sameEntity_refl _, ?_, ?_, rfl, rfl, rfl⟩
    · rw [hempty]
      exact List.nodup_nil
    · intro p hp
      rw [hempty] at hp
      exact absurd hp (List.not_mem_nil _)

end Columns

section ColumnStart
variable {F : Type} [LinearOrderedField F] [FloorRing F]

theorem Render_eq (m : MathLib F) (X : Ext F) (doc : Doc) (view : View F) (r : RendInfo F) :
    Render m X doc view r = RenderWalls m X doc view (renderPrepared m X doc view r) := rfl

/-- The state at the start of the column loop keeps the column invariant up to
column `x`, and the state of column `x` after `UpdateActiveList` has the full
open region. -/
theorem columnStart_inv (m : MathLib F) (X : Ext F) (doc : Doc) (view : View F)
    (r : RendInfo F) (hr : Tidy r) (x : Nat) :
    ColumnInv { r with walls := stdSort (SX1Cmp r.heap) r.walls, active := [] } ((x : Int) + 1)
        (columnStart m X doc view r x)
    ∧ (columnStart m X doc view r x).open_y1 = 0
    ∧ (columnStart m X doc view r x).open_y2 = view.screen_h - 1
    ∧ (columnStart m X doc view r x).query_wall
        = (forRange 0 x (renderColumn m X doc view)
            { r with walls := stdSort (SX1Cmp r.heap) r.walls, active := [] }).query_wall
    ∧ (columnStart m X doc view r x).query_part
        = (forRange 0 x (renderColumn m X doc view)
            { r with walls := stdSort (SX1Cmp r.heap) r.walls, active := [] }).query_part := by
  obtain ⟨hv, hn, hb⟩ := hr
  have hperm : (stdSort (SX1Cmp r.heap) r.walls).Perm r.walls := List.perm_insertionSort _ _
  have hnW : (stdSort (SX1Cmp r.heap) r.walls).Nodup := hperm.nodup_iff.2 hn
  have hsorted := stdSort_SX1Cmp_sorted r.heap r.walls
  have hcol := columns_inv m X doc view
    { r with walls := stdSort (SX1Cmp r.heap) r.walls, active := [] } hnW hsorted rfl x
  rw [zero_add] at hcol
  exact UpdateActiveList_inv X doc view x
    { r with walls := stdSort (SX1Cmp r.heap) r.walls, active := [] } _ hnW hsorted hcol

/-- In the state of column `x` after `UpdateActiveList`, for a state with good
pointers at the start: the active list has no repetition, its pointers are
good, the bands of the entities have solid ends, and the open region is the
whole column. -/
theorem columnStart_facts (m : MathLib F) (X : Ext F) (doc : Doc) (view : View F)
    (r : RendInfo F) (hr : Tidy r) (x : Nat) :
    (columnStart m X doc view r x).active.Nodup
    ∧ (∀ p ∈ (columnStart m X doc view r x).active, p < (columnStart m X doc view r x).heap.size)
    ∧ (∀ j, Banded ((columnStart m X doc view r x).heap.getD j default))
    ∧ (columnStart m X doc view r x).open_y1 = 0
    ∧ (columnStart m X doc view r x).open_y2 = view.screen_h - 1
    ∧ (columnStart m X doc view r x).query_mode = r.query_mode
    ∧ (columnStart m X doc view r x).query_sx = r.query_sx
    ∧ (columnStart m X doc view r x).query_sy = r.query_sy := by
  obtain ⟨⟨h1, h2, h3, h4, h5, h6, h7, h8⟩, w1, w2, -, -⟩ := columnStart_inv m X doc view r hr x
  obtain ⟨hv, hn, hb⟩ := hr
  have hperm : (stdSort (SX1Cmp r.heap) r.walls).Perm r.walls := List.perm_insertionSort _ _
  refine ⟨h4, ?_, ?_, w1, w2, h6, h7, h8⟩
  · intro p hp
    rw [h2]
    exact hv p (hperm.mem_iff.1 (h5 p hp).1)
  · intro j
    obtain ⟨c, o1, o2, he⟩ := h3 j
    rw [he]
    exact hb j

/-- The method `RenderWalls` at column `x`: the columns before `x`, the call of
`UpdateActiveList`, the two loops of the column, then the columns after `x`. -/
theorem RenderWalls_column (m : MathLib F) (X : Ext F) (doc : Doc) (view : View F)
    (r : RendInfo F) (x : Nat) (hx : (x : Int) < view.screen_w) :
    RenderWalls m X doc view r
      = forRange ((x : Int) + 1) (view.screen_w.toNat - (x + 1)) (renderColumn m X doc view)
          (columnPasses m X doc view x (columnStart m X doc view r x)) := by
  unfold RenderWalls columnStart
  simp only []
  have hw : view.screen_w.toNat = x + (1 + (view.screen_w.toNat - (x + 1))) := by omega
  rw [hw, forRange_add, zero_add, Nat.add_comm 1, forRange]
  rw [renderColumn_eq]
  congr 1
  omega

/-- In query mode the columns to the right of the query column, and those to
its left, leave the query record alone. -/
theorem forRange_skip (m : MathLib F) (X : Ext F) (doc : Doc) (view : View F) (n : Nat) :
    ∀ (lo : Int) (s : RendInfo F), s.query_mode ≠ 0 →
      (s.query_sx < lo ∨ lo + n ≤ s.query_sx) →
      (forRange lo n (renderColumn m X doc view) s).query_wall = s.query_wall
      ∧ (forRange lo n (renderColumn m X doc view) s).query_part = s.query_part := by
  intro lo s hq hout
  have key := forRange_invariant (renderColumn m X doc view)
    (fun _ t => t.query_mode = s.query_mode ∧ t.query_sx = s.query_sx
      ∧ t.query_wall = s.query_wall ∧ t.query_part = s.query_part) n lo s
    (by
      intro x t hx1 hx2 ⟨g1, g2, g3, g4⟩
      have hqt : t.query_mode ≠ 0 := by rw [g1]; exact hq
      have hxt : x ≠ t.query_sx := by
        rw [g2]
        omega
      obtain ⟨-, f2, f3, -, f5, f6, -, -⟩ := renderColumn_skip_fields m X doc view x t 0
        (t.heap.getD 0 default) hqt hxt (sameEntity_refl _)
      exact ⟨f2.trans g1, f3.trans g2, f5.trans g3, f6.trans g4⟩)
    ⟨rfl, rfl, rfl, rfl⟩
  exact ⟨key.2.2.1, key.2.2.2⟩

end ColumnStart

section Remembered
variable {F : Type} [LinearOrderedField F] [FloorRing F]

/-- After the front-to-back loop, the entity at position `i` of the list, when
the loop has visited it, remembers the open region that the loop had left when
it came to this position. -/
theorem frontToBack_remembers (m : MathLib F) (X : Ext F) (doc : Doc) (view : View F)
    (x : Int) :
    ∀ (act : List Nat) (k : Nat) (r : RendInfo F), act.Nodup → (∀ p ∈ act, p < r.heap.size) →
      ∀ i, i < (visitedOf m X doc view x act r).length →
        ((frontToBack m X doc view x act k r).2.heap.getD (act.getD i 0) default).oy1
            = (frontToBack m X doc view x (act.take i) k r).2.open_y1
        ∧ ((frontToBack m X doc view x act k r).2.heap.getD (act.getD i 0) default).oy2
            = (frontToBack m X doc view x (act.take i) k r).2.open_y2 := by
  intro act
  induction act with
  | nil =>
    intro k r _ _ i hi
    exact absurd hi (Nat.not_lt_zero _)
  | cons p rest ih =>
    intro k r hnd hv i hi
    have hp : p < r.heap.size := hv p (List.mem_cons_self _ _)
    have hpr : p ∉ rest := (List.nodup_cons.1 hnd).1
    have hndr : rest.Nodup := (List.nodup_cons.1 hnd).2
    have hself := rememberOpen_self r p hp
    have hsz : (rememberOpen r p).heap.size = r.heap.size := (rememberOpen_heap r p 0).1
    obtain ⟨b1, -⟩ := renderBands_frame m X doc view (rememberOpen r p) p x
    have hvR : ∀ a ∈ rest, a < (rememberOpen r p).heap.size := by
      intro a ha
      rw [hsz]
      exact hv a (List.mem_cons_of_mem _ ha)
    have hvB : ∀ a ∈ rest, a < (renderBands m X doc view (rememberOpen r p) p x).heap.size := by
      intro a ha
      rw [b1]
      exact hvR a ha
    rw [visitedOf_cons] at hi
    cases i with
    | zero =>
      have e0 : (p :: rest).getD 0 0 = p := rfl
      have e1 : (p :: rest).take 0 = [] := rfl
      rw [e0, e1, frontToBack_cons]
      have hnil : (frontToBack m X doc view x [] k r).2 = r := rfl
      rw [hnil]
      by_cases h1 : ((rememberOpen r p).heap.getD p default).th ≥ 0
      · rw [if_pos h1, frontToBack_other m X doc view x rest (k + 1) _ p hpr, hself]
        exact ⟨rfl, rfl⟩
      · rw [if_neg h1]
        by_cases h2 : (renderBands m X doc view (rememberOpen r p) p x).open_y1
            > (renderBands m X doc view (rememberOpen r p) p x).open_y2
        · rw [if_pos h2]
          show ((renderBands m X doc view (rememberOpen r p) p x).heap.getD p default).oy1 = _
            ∧ ((renderBands m X doc view (rememberOpen r p) p x).heap.getD p default).oy2 = _
          rw [b1, hself]
          exact ⟨rfl, rfl⟩
        · rw [if_neg h2, frontToBack_other m X doc view x rest (k + 1) _ p hpr, b1, hself]
          exact ⟨rfl, rfl⟩
    | succ i =>
      have e0 : (p :: rest).getD (i + 1) 0 = rest.getD i 0 := rfl
      have e1 : (p :: rest).take (i + 1) = p :: rest.take i := rfl
      rw [e0, e1, frontToBack_cons, frontToBack_cons]
      by_cases h1 : ((rememberOpen r p).heap.getD p default).th ≥ 0
      · rw [if_pos h1] at hi
        rw [if_pos h1, if_pos h1]
        exact ih (k + 1) (rememberOpen r p) hndr hvR i (by simpa using hi)
      · rw [if_neg h1] at hi
        rw [if_neg h1, if_neg h1]
        by_cases h2 : (renderBands m X doc view (rememberOpen r p) p x).open_y1
            > (renderBands m X doc view (rememberOpen r p) p x).open_y2
        · rw [if_pos h2] at hi
          simp at hi
        · rw [if_neg h2] at hi
          rw [if_neg h2, if_neg h2]
          exact ih (k + 1) (renderBands m X doc view (rememberOpen r p) p x) hndr hvB i
            (by simpa using hi)

end Remembered

section Writes
variable {F : Type} [LinearOrderedField F] [FloorRing F]

/-- A loop whose round `y` writes at most the address `addr y` writes only
addresses of its rounds. -/
theorem forRange_writes {σ : Type} (get : σ → Int → Nat) (body : Int → σ → σ)
    (addr : Int → Int)
    (hbody : ∀ y st a, get (body y st) a ≠ get st a → a = addr y) :
    ∀ (n : Nat) (lo : Int) (st : σ) (a : Int),
      get (forRange lo n body st) a ≠ get st a → ∃ y, lo ≤ y ∧ y < lo + n ∧ a = addr y := by
  intro n
  induction n with
  | zero =>
    intro lo st a h
    exact absurd rfl h
  | succ n ih =>
    intro lo st a h
    simp only [forRange] at h
    by_cases h1 : get (forRange (lo + 1) n body (body lo st)) a = get (body lo st) a
    · rw [h1] at h
      exact ⟨lo, le_refl _, by push_cast; omega, hbody lo st a h⟩
    · obtain ⟨y, g1, g2, g3⟩ := ih (lo + 1) (body lo st) a h1
      exact ⟨y, by omega, by push_cast; omega, g3⟩

/-- The loop `for (y = y1 ; y <= y2 ; y++)` writes only addresses of the rows
`y1 .. y2`. -/
theorem forUpTo_writes {σ : Type} (get : σ → Int → Nat) (body : Int → σ → σ)
    (addr : Int → Int)
    (hbody : ∀ y st a, get (body y st) a ≠ get st a → a = addr y)
    (y1 y2 : Int) (st : σ) (a : Int) (h : get (forUpTo y1 y2 body st) a ≠ get st a) :
    ∃ y, y1 ≤ y ∧ y ≤ y2 ∧ a = addr y := by
  unfold forUpTo at h
  obtain ⟨y, g1, g2, g3⟩ := forRange_writes get body addr hbody _ y1 st a h
  refine ⟨y, g1, ?_, g3⟩
  omega

theorem update_writes (screen : Int → Nat) (b a : Int) (v : Nat)
    (h : Function.update screen b v a ≠ screen a) : a = b := by
  by_contra hne
  exact h (Function.update_noteq hne v screen)

theorem RenderFlatColumn_writes (m : MathLib F) (X : Ext F) (doc : Doc) (view : View F)
    (r : RendInfo F) (dw : DrawWall F) (surf : DrawSurf) (x y1 y2 a : Int)
    (h : (RenderFlatColumn m X doc view r dw surf x y1 y2).screen a ≠ r.screen a) :
    ∃ y, y1 ≤ y ∧ y ≤ y2 ∧ a = pixelAt view x y := by
  unfold RenderFlatColumn at h
  simp only [] at h
  exact forUpTo_writes (fun s => s) _ (fun y => pixelAt view x y)
    (fun y st b hb => update_writes st _ b _ hb) y1 y2 r.screen a h

theorem SolidFlatColumn_writes (X : Ext F) (doc : Doc) (view : View F)
    (r : RendInfo F) (dw : DrawWall F) (surf : DrawSurf) (x y1 y2 a : Int)
    (h : (SolidFlatColumn X doc view r dw surf x y1 y2).screen a ≠ r.screen a) :
    ∃ y, y1 ≤ y ∧ y ≤ y2 ∧ a = pixelAt view x y := by
  unfold SolidFlatColumn at h
  simp only [] at h
  exact forUpTo_writes (fun s => s) _ (fun y => pixelAt view x y)
    (fun y st b hb => update_writes st _ b _ hb) y1 y2 r.screen a h

theorem SolidTexColumn_writes (X : Ext F) (view : View F)
    (r : RendInfo F) (dw : DrawWall F) (surf : DrawSurf) (x y1 y2 a : Int)
    (h : (SolidTexColumn X view r dw surf x y1 y2).screen a ≠ r.screen a) :
    ∃ y, y1 ≤ y ∧ y ≤ y2 ∧ a = pixelAt view x y := by
  unfold SolidTexColumn at h
  simp only [] at h
  exact forUpTo_writes (fun s => s) _ (fun y => pixelAt view x y)
    (fun y st b hb => update_writes st _ b _ hb) y1 y2 r.screen a h

theorem RenderTexColumn_writes (m : MathLib F) (X : Ext F) (doc : Doc) (view : View F)
    (r : RendInfo F) (dw : DrawWall F) (surf : DrawSurf) (x y1 y2 a : Int)
    (h : (RenderTexColumn m X doc view r dw surf x y1 y2).screen a ≠ r.screen a) :
    ∃ y, y1 ≤ y ∧ y ≤ y2 ∧ a = pixelAt view x y := by
  unfold RenderTexColumn at h
  simp only [] at h
  refine forUpTo_writes (fun (s : F × (Int → Nat)) => s.2) _ (fun y => pixelAt view x y)
    ?_ y1 y2 (_, r.screen) a h
  intro y st b hb
  simp only [] at hb
  split_ifs at hb <;> first
    | exact absurd rfl hb
    | exact update_writes st.2 _ b _ hb

theorem spriteColumn_writes (X : Ext F) (doc : Doc) (view : View F) (dw : DrawWall F)
    (x y1 y2 tx : Int) (screen : Int → Nat) (a : Int)
    (h : spriteColumn X doc view dw x y1 y2 tx screen a ≠ screen a) :
    ∃ y, y1 ≤ y ∧ y ≤ y2 ∧ a = pixelAt view x y := by
  unfold spriteColumn at h
  simp only [] at h
  refine forUpTo_writes (fun (s : F × (Int → Nat)) => s.2) _ (fun y => pixelAt view x y)
    ?_ y1 y2 (_, screen) a h
  intro y st b hb
  simp only [] at hb
  split_ifs at hb <;> first
    | exact absurd rfl hb
    | exact update_writes st.2 _ b _ hb

end Writes

section ColumnWrites
variable {F : Type} [LinearOrderedField F] [FloorRing F]

theorem Covers_append_left (view : View F) (x : Int) (L1 L2 : List RowCall) (a : Int)
    (h : Covers view x L1 a) : Covers view x (L1 ++ L2) a := by
  obtain ⟨e, he, y, g⟩ := h
  exact ⟨e, List.mem_append_left _ he, y, g⟩

theorem Covers_append_right (view : View F) (x : Int) (L1 L2 : List RowCall) (a : Int)
    (h : Covers view x L2 a) : Covers view x (L1 ++ L2) a := by
  obtain ⟨e, he, y, g⟩ := h
  exact ⟨e, List.mem_append_right _ he, y, g⟩

/-- A call of `RenderWallSurface` writes only pixels of its column in the rows
of the call. -/
theorem RenderWallSurface_writes (m : MathLib F) (X : Ext F) (doc : Doc) (view : View F)
    (r : RendInfo F) (p : Nat) (surf : DrawSurf) (x : Int) (part : obj3d_type_e) (a : Int)
    (h : (RenderWallSurface m X doc view r p surf x part).screen a ≠ r.screen a) :
    Covers view x (surfaceCalls view r p surf part) a := by
  by_cases hk : surf.kind = SurfKind.K_INVIS
  · rw [RenderWallSurface_invis m X doc view r p surf x part hk] at h
    exact absurd rfl h
  obtain ⟨y1, hy1⟩ : ∃ y1, y1 = (if DistToY view (r.heap.getD p default).cur_iz surf.h2 < r.open_y1
      then r.open_y1 else DistToY view (r.heap.getD p default).cur_iz surf.h2) := ⟨_, rfl⟩
  obtain ⟨y2, hy2⟩ : ∃ y2, y2 = (if DistToY view (r.heap.getD p default).cur_iz surf.h1 - 1
      > r.open_y2 then r.open_y2 else DistToY view (r.heap.getD p default).cur_iz surf.h1 - 1) :=
    ⟨_, rfl⟩
  have hb : bandRows view r p surf = (y1, y2) := by
    rw [hy1, hy2]
    rfl
  have hcalls : ¬ y1 > y2 → surfaceCalls view r p surf part = [⟨p, part, y1, y2⟩] := by
    intro h12
    unfold surfaceCalls
    rw [if_neg hk, hb, if_neg h12]
  have fin : ¬ y1 > y2 → (∃ y, y1 ≤ y ∧ y ≤ y2 ∧ a = pixelAt view x y) →
      Covers view x (surfaceCalls view r p surf part) a := by
    intro h12 ⟨y, g1, g2, g3⟩
    rw [hcalls h12]
    exact ⟨_, List.mem_singleton.2 rfl, y, g1, g2, g3⟩
  unfold RenderWallSurface at h
  simp only [hk, if_false, ← hy1, ← hy2] at h
  by_cases h12 : y1 > y2
  · rw [if_pos h12] at h
    exact absurd rfl h
  · rw [if_neg h12] at h
    by_cases hq : r.query_mode ≠ 0
    · rw [if_pos hq] at h
      by_cases hit : y1 ≤ r.query_sy ∧ r.query_sy ≤ y2
      · rw [if_pos hit] at h
        exact absurd rfl h
      · rw [if_neg hit] at h
        exact absurd rfl h
    · rw [if_neg hq] at h
      apply fin h12
      cases hi : surf.img with
      | none =>
        rw [hi] at h
        simp only [] at h
        by_cases hf : surf.kind = SurfKind.K_FLAT
        · rw [if_pos hf] at h
          exact SolidFlatColumn_writes X doc view _ _ surf x y1 y2 a h
        · rw [if_neg hf] at h
          exact SolidTexColumn_writes X view _ _ surf x y1 y2 a h
      | some i =>
        rw [hi] at h
        simp only [] at h
        cases hkk : surf.kind with
        | K_INVIS => exact absurd hkk hk
        | K_FLAT =>
          rw [hkk] at h
          exact RenderFlatColumn_writes m X doc view _ _ surf x y1 y2 a h
        | K_TEXTURE =>
          rw [hkk] at h
          exact RenderTexColumn_writes m X doc view _ _ surf x y1 y2 a h

end ColumnWrites

section LoopWrites
variable {F : Type} [LinearOrderedField F] [FloorRing F]

/-- The four calls for a wall write only pixels of the column in the rows of
these calls. -/
theorem renderBands_writes (m : MathLib F) (X : Ext F) (doc : Doc) (view : View F)
    (r : RendInfo F) (p : Nat) (x : Int) (a : Int)
    (h : (renderBands m X doc view r p x).screen a ≠ r.screen a) :
    Covers view x (bandsCalls m X doc view r p x) a := by
  obtain ⟨r1, hr1⟩ : ∃ r1, r1 = RenderWallSurface m X doc view r p (r.heap.getD p default).ceil x
    obj3d_type_e.OB3D_Ceil := ⟨_, rfl⟩
  obtain ⟨r2, hr2⟩ : ∃ r2, r2 = RenderWallSurface m X doc view r1 p (r1.heap.getD p default).floor x
    obj3d_type_e.OB3D_Floor := ⟨_, rfl⟩
  obtain ⟨r3, hr3⟩ : ∃ r3, r3 = RenderWallSurface m X doc view r2 p (r2.heap.getD p default).upper x
    obj3d_type_e.OB3D_Upper := ⟨_, rfl⟩
  obtain ⟨r4, hr4⟩ : ∃ r4, r4 = RenderWallSurface m X doc view r3 p (r3.heap.getD p default).lower x
    obj3d_type_e.OB3D_Lower := ⟨_, rfl⟩
  have eB : renderBands m X doc view r p x = r4 := by
    rw [hr4, hr3, hr2, hr1]
    rfl
  have eC : bandsCalls m X doc view r p x
      = surfaceCalls view r p (r.heap.getD p default).ceil obj3d_type_e.OB3D_Ceil
        ++ (surfaceCalls view r1 p (r1.heap.getD p default).floor obj3d_type_e.OB3D_Floor
        ++ (surfaceCalls view r2 p (r2.heap.getD p default).upper obj3d_type_e.OB3D_Upper
        ++ surfaceCalls view r3 p (r3.heap.getD p default).lower obj3d_type_e.OB3D_Lower)) := by
    rw [hr3, hr2, hr1]
    rfl
  have k1 : r1.screen a ≠ r.screen a → Covers view x
      (surfaceCalls view r p (r.heap.getD p default).ceil obj3d_type_e.OB3D_Ceil) a := by
    rw [hr1]
    exact RenderWallSurface_writes m X doc view r p _ x _ a
  have k2 : r2.screen a ≠ r1.screen a → Covers view x
      (surfaceCalls view r1 p (r1.heap.getD p default).floor obj3d_type_e.OB3D_Floor) a := by
    rw [hr2]
    exact RenderWallSurface_writes m X doc view r1 p _ x _ a
  have k3 : r3.screen a ≠ r2.screen a → Covers view x
      (surfaceCalls view r2 p (r2.heap.getD p default).upper obj3d_type_e.OB3D_Upper) a := by
    rw [hr3]
    exact RenderWallSurface_writes m X doc view r2 p _ x _ a
  have k4 : r4.screen a ≠ r3.screen a → Covers view x
      (surfaceCalls view r3 p (r3.heap.getD p default).lower obj3d_type_e.OB3D_Lower) a := by
    rw [hr4]
    exact RenderWallSurface_writes m X doc view r3 p _ x _ a
  rw [eB] at h
  rw [eC]
  by_cases h4 : r4.screen a = r3.screen a
  · rw [h4] at h
    by_cases h3 : r3.screen a = r2.screen a
    · rw [h3] at h
      by_cases h2 : r2.screen a = r1.screen a
      · rw [h2] at h
        exact Covers_append_left view x _ _ a (k1 h)
      · exact Covers_append_right view x _ _ a (Covers_append_left view x _ _ a (k2 h2))
    · exact Covers_append_right view x _ _ a (Covers_append_right view x _ _ a
        (Covers_append_left view x _ _ a (k3 h3)))
  · exact Covers_append_right view x _ _ a (Covers_append_right view x _ _ a
      (Covers_append_right view x _ _ a (k4 h4)))

/-- The front-to-back loop writes only pixels of the column in the rows of its
calls. -/
theorem frontToBack_writes (m : MathLib F) (X : Ext F) (doc : Doc) (view : View F) (x : Int)
    (a : Int) :
    ∀ (act : List Nat) (k : Nat) (r : RendInfo F),
      (frontToBack m X doc view x act k r).2.screen a ≠ r.screen a →
      Covers view x (frontCalls m X doc view x act r) a := by
  intro act
  induction act with
  | nil =>
    intro k r h
    exact absurd rfl h
  | cons p rest ih =>
    intro k r h
    rw [frontToBack_cons] at h
    rw [frontCalls_cons]
    obtain ⟨R, hR, hscr⟩ : ∃ R, R = rememberOpen r p ∧ R.screen = r.screen := ⟨_, rfl, rfl⟩
    rw [← hR] at h ⊢
    obtain ⟨B, hB⟩ : ∃ B, B = renderBands m X doc view R p x := ⟨_, rfl⟩
    have kB : B.screen a ≠ R.screen a → Covers view x (bandsCalls m X doc view R p x) a := by
      rw [hB]
      exact renderBands_writes m X doc view R p x a
    rw [← hB] at h ⊢
    rw [← hscr] at h
    by_cases h1 : (R.heap.getD p default).th ≥ 0
    · rw [if_pos h1] at h
      rw [if_pos h1]
      exact ih (k + 1) R h
    · rw [if_neg h1] at h
      rw [if_neg h1]
      by_cases h2 : B.open_y1 > B.open_y2
      · rw [if_pos h2] at h
        rw [if_pos h2]
        exact kB h
      · rw [if_neg h2] at h
        rw [if_neg h2]
        by_cases h3 : (frontToBack m X doc view x rest (k + 1) B).2.screen a = B.screen a
        · rw [h3] at h
          exact Covers_append_left view x _ _ a (kB h)
        · exact Covers_append_right view x _ _ a (ih (k + 1) B h3)

/-- A call of `RenderSprite` writes only pixels of its column in the rows of
the call. -/
theorem RenderSprite_writes (X : Ext F) (doc : Doc) (view : View F) (r : RendInfo F)
    (p : Nat) (x : Int) (a : Int)
    (h : (RenderSprite X doc view r p x).screen a ≠ r.screen a) :
    Covers view x (spriteCalls view r p) a := by
  obtain ⟨y1, hy1⟩ : ∃ y1, y1 = (maskedRows view (r.heap.getD p default)
      (r.heap.getD p default).ceil).1 := ⟨_, rfl⟩
  obtain ⟨y2, hy2⟩ : ∃ y2, y2 = (maskedRows view (r.heap.getD p default)
      (r.heap.getD p default).ceil).2 := ⟨_, rfl⟩
  have e2 : spriteCalls view r p
      = (if y1 > y2 then [] else [⟨p, obj3d_type_e.OB3D_Thing, y1, y2⟩]) := by
    rw [hy1, hy2]
    rfl
  obtain ⟨tx, htx⟩ : ∃ tx, tx = toInt ((XToDelta view x (r.heap.getD p default).cur_iz
      - (r.heap.getD p default).spr_tx1) / (r.heap.getD p default).normal) := ⟨_, rfl⟩
  obtain ⟨tw, htw⟩ : ∃ tw, tw = ((r.heap.getD p default).ceil.img.getD default).width :=
    ⟨_, rfl⟩
  have e1 : RenderSprite X doc view r p x
      = (if y1 > y2 then r
         else if r.query_mode ≠ 0 then
           (if y1 ≤ r.query_sy ∧ r.query_sy ≤ y2 then
             { r with query_wall := some p, query_part := obj3d_type_e.OB3D_Thing }
            else r)
         else if tx < 0 ∨ tx ≥ tw then r
         else { r with screen := spriteColumn X doc view (r.heap.getD p default) x y1 y2 tx r.screen }) := by
    rw [hy1, hy2, htx, htw]
    rfl
  rw [e1] at h
  rw [e2]
  by_cases h12 : y1 > y2
  · rw [if_pos h12] at h
    exact absurd rfl h
  · rw [if_neg h12] at h
    rw [if_neg h12]
    split_ifs at h
    · exact absurd rfl h
    · exact absurd rfl h
    · exact absurd rfl h
    · obtain ⟨y, g1, g2, g3⟩ := spriteColumn_writes X doc view _ x y1 y2 _ r.screen a h
      exact ⟨_, List.mem_singleton.2 rfl, y, g1, g2, g3⟩

/-- A call of `RenderMidMasker` writes only pixels of its column in the rows
of the call. -/
theorem RenderMidMasker_writes (m : MathLib F) (X : Ext F) (doc : Doc) (view : View F)
    (r : RendInfo F) (p : Nat) (surf : DrawSurf) (x : Int) (a : Int)
    (h : (RenderMidMasker m X doc view r p surf x).screen a ≠ r.screen a) :
    Covers view x (railCalls view r p surf) a := by
  obtain ⟨y1, hy1⟩ : ∃ y1, y1 = (maskedRows view (r.heap.getD p default) surf).1 := ⟨_, rfl⟩
  obtain ⟨y2, hy2⟩ : ∃ y2, y2 = (maskedRows view (r.heap.getD p default) surf).2 := ⟨_, rfl⟩
  have e2 : railCalls view r p surf
      = (if surf.kind = SurfKind.K_INVIS then []
         else if surf.img.isNone then []
         else if r.query_mode ≠ 0 then []
         else if y1 > y2 then []
         else [⟨p, obj3d_type_e.OB3D_Rail, y1, y2⟩]) := by
    rw [hy1, hy2]
    rfl
  have e1 : RenderMidMasker m X doc view r p surf x
      = (if surf.kind = SurfKind.K_INVIS then r
         else if surf.img.isNone then r
         else if r.query_mode ≠ 0 then r
         else if y1 > y2 then r
         else RenderTexColumn m X doc view r (r.heap.getD p default) surf x y1 y2) := by
    rw [hy1, hy2]
    rfl
  rw [e1] at h
  rw [e2]
  split_ifs at h ⊢
  · exact absurd rfl h
  · exact absurd rfl h
  · exact absurd rfl h
  · exact absurd rfl h
  · obtain ⟨y, g1, g2, g3⟩ := RenderTexColumn_writes m X doc view r _ surf x y1 y2 a h
    exact ⟨_, List.mem_singleton.2 rfl, y, g1, g2, g3⟩

/-- The back-to-front loop writes only pixels of the column in the rows of its
calls. -/
theorem backToFront_writes (m : MathLib F) (X : Ext F) (doc : Doc) (view : View F) (x : Int)
    (a : Int) :
    ∀ (l : List Nat) (r : RendInfo F),
      (backToFront m X doc view x l r).screen a ≠ r.screen a →
      Covers view x (backCalls m X doc view x l r) a := by
  intro l
  induction l with
  | nil =>
    intro r h
    exact absurd rfl h
  | cons p rest ih =>
    intro r h
    have hc : backCalls m X doc view x (p :: rest) r
        = (if (r.heap.getD p default).th ≥ 0 then spriteCalls view r p
           else railCalls view r p (r.heap.getD p default).rail)
          ++ backCalls m X doc view x rest
              (if (r.heap.getD p default).th ≥ 0 then RenderSprite X doc view r p x
               else RenderMidMasker m X doc view r p (r.heap.getD p default).rail x) := rfl
    have hb : backToFront m X doc view x (p :: rest) r
        = backToFront m X doc view x rest
            (if (r.heap.getD p default).th ≥ 0 then RenderSprite X doc view r p x
             else RenderMidMasker m X doc view r p (r.heap.getD p default).rail x) := rfl
    rw [hb] at h
    rw [hc]
    by_cases h1 : (r.heap.getD p default).th ≥ 0
    · rw [if_pos h1] at h
      rw [if_pos h1, if_pos h1]
      by_cases h3 : (backToFront m X doc view x rest (RenderSprite X doc view r p x)).screen a
          = (RenderSprite X doc view r p x).screen a
      · rw [h3] at h
        exact Covers_append_left view x _ _ a (RenderSprite_writes X doc view r p x a h)
      · exact Covers_append_right view x _ _ a (ih _ h3)
    · rw [if_neg h1] at h
      rw [if_neg h1, if_neg h1]
      by_cases h3 : (backToFront m X doc view x rest
            (RenderMidMasker m X doc view r p (r.heap.getD p default).rail x)).screen a
          = (RenderMidMasker m X doc view r p (r.heap.getD p default).rail x).screen a
      · rw [h3] at h
        exact Covers_append_left view x _ _ a
          (RenderMidMasker_writes m X doc view r p _ x a h)
      · exact Covers_append_right view x _ _ a (ih _ h3)

/-- The two loops of a column write only pixels of the column in the rows of
their calls. -/
theorem columnPasses_writes (m : MathLib F) (X : Ext F) (doc : Doc) (view : View F) (x : Int)
    (r : RendInfo F) (a : Int)
    (h : (columnPasses m X doc view x r).screen a ≠ r.screen a) :
    Covers view x (columnCalls m X doc view x r) a := by
  unfold columnPasses at h
  unfold columnCalls
  simp only [] at h ⊢
  by_cases hs : r.query_mode ≠ 0 ∧ x ≠ r.query_sx
  · rw [if_pos hs] at h
    exact absurd rfl h
  · rw [if_neg hs] at h
    by_cases h3 : (backToFront m X doc view x
          ((r.active.take (if (frontToBack m X doc view x r.active 0 r).1 = r.active.length then
            (frontToBack m X doc view x r.active 0 r).1
            else (frontToBack m X doc view x r.active 0 r).1 + 1)).reverse)
          (frontToBack m X doc view x r.active 0 r).2).screen a
        = (frontToBack m X doc view x r.active 0 r).2.screen a
    · rw [h3] at h
      exact Covers_append_left view x _ _ a (frontToBack_writes m X doc view x a _ 0 r h)
    · exact Covers_append_right view x _ _ a (backToFront_writes m X doc view x a _ _ h3)

end LoopWrites

section BufferWrites
variable {F : Type} [LinearOrderedField F] [FloorRing F]

/-- In a column that starts with the whole column open and good pointers, the
rows of every painter call are rows of the buffer. -/
theorem column_rows (m : MathLib F) (X : Ext F) (doc : Doc) (view : View F)
    (W t : RendInfo F) (x : Int) (hv : ∀ p ∈ W.walls, p < W.heap.size)
    (hn : W.walls.Nodup)
    (hsorted : W.walls.Pairwise
      (fun a b => (W.heap.getD a default).sx1 ≤ (W.heap.getD b default).sx1))
    (ht : ColumnInv W x t) :
    ∀ e ∈ columnCalls m X doc view x
        (UpdateActiveList X doc view { t with open_y1 := 0, open_y2 := view.screen_h - 1 } x),
      0 ≤ e.y1 ∧ e.y1 ≤ e.y2 ∧ e.y2 ≤ view.screen_h - 1 := by
  obtain ⟨⟨h1, h2, h3, h4, h5, h6, h7, h8⟩, w1, w2, -, -⟩ :=
    UpdateActiveList_inv X doc view x W t hn hsorted ht
  intro e he
  have hvU : ∀ p ∈ (UpdateActiveList X doc view
      { t with open_y1 := 0, open_y2 := view.screen_h - 1 } x).active,
      p < (UpdateActiveList X doc view
        { t with open_y1 := 0, open_y2 := view.screen_h - 1 } x).heap.size := by
    intro p hp
    rw [h2]
    exact hv p (h5 p hp).1
  have g := columnCalls_inside m X doc view x _ hvU e he
  rw [w1, w2] at g
  exact g

/-- The method `RenderWalls` on a state with good pointers writes only pixels
`(x, y)` of the buffer, `0 ≤ x < screen_w` and `0 ≤ y ≤ screen_h - 1`. -/
theorem RenderWalls_writes (m : MathLib F) (X : Ext F) (doc : Doc) (view : View F)
    (r : RendInfo F) (hr : Tidy r) (a : Int)
    (h : (RenderWalls m X doc view r).screen a ≠ r.screen a) :
    ∃ x y : Int, 0 ≤ x ∧ x < view.screen_w ∧ 0 ≤ y ∧ y ≤ view.screen_h - 1
      ∧ a = pixelAt view x y := by
  obtain ⟨hv, hn, hb⟩ := hr
  have hperm : (stdSort (SX1Cmp r.heap) r.walls).Perm r.walls := List.perm_insertionSort _ _
  have hnW : (stdSort (SX1Cmp r.heap) r.walls).Nodup := hperm.nodup_iff.2 hn
  have hsorted := stdSort_SX1Cmp_sorted r.heap r.walls
  obtain ⟨W, hW⟩ : ∃ W : RendInfo F,
      W = { r with walls := stdSort (SX1Cmp r.heap) r.walls, active := [] } := ⟨_, rfl⟩
  have hWw : W.walls = stdSort (SX1Cmp r.heap) r.walls := by rw [hW]
  have hWh : W.heap = r.heap := by rw [hW]
  have hWa : W.active = [] := by rw [hW]
  have hWs : W.screen = r.screen := by rw [hW]
  have hvW : ∀ p ∈ W.walls, p < W.heap.size := by
    intro p hp
    rw [hWw] at hp
    rw [hWh]
    exact hv p (hperm.mem_iff.1 hp)
  have hnW2 : W.walls.Nodup := by rw [hWw]; exact hnW
  have hsW : W.walls.Pairwise
      (fun a b => (W.heap.getD a default).sx1 ≤ (W.heap.getD b default).sx1) := by
    rw [hWw, hWh]
    exact hsorted
  have hRW : RenderWalls m X doc view r
      = forRange 0 view.screen_w.toNat (renderColumn m X doc view) W := by
    rw [hW]
    rfl
  rw [hRW, ← hWs] at h
  have key := forRange_invariant (renderColumn m X doc view)
    (fun k t => ColumnInv W k t
      ∧ ∀ b, t.screen b ≠ W.screen b →
          ∃ x y : Int, 0 ≤ x ∧ x < k ∧ 0 ≤ y ∧ y ≤ view.screen_h - 1 ∧ b = pixelAt view x y)
    view.screen_w.toNat 0 W
    (by
      intro x t hx0 hx1 ⟨ht, hscr⟩
      rw [renderColumn_eq]
      refine ⟨columnPasses_inv m X doc view x (x + 1) W _
        (UpdateActiveList_inv X doc view x W t hnW2 hsW ht).1, ?_⟩
      intro b hb2
      have hU : (UpdateActiveList X doc view
          { t with open_y1 := 0, open_y2 := view.screen_h - 1 } x).screen = t.screen :=
        (UpdateActiveList_quiet X doc view
          { t with open_y1 := 0, open_y2 := view.screen_h - 1 } x).2
      by_cases hc : (columnPasses m X doc view x (UpdateActiveList X doc view
            { t with open_y1 := 0, open_y2 := view.screen_h - 1 } x)).screen b
          = (UpdateActiveList X doc view
            { t with open_y1 := 0, open_y2 := view.screen_h - 1 } x).screen b
      · rw [hc, hU] at hb2
        obtain ⟨x2, y, g1, g2, g3, g4, g5⟩ := hscr b hb2
        exact ⟨x2, y, g1, by omega, g3, g4, g5⟩
      · obtain ⟨e, he, y, g1, g2, g3⟩ := columnPasses_writes m X doc view x _ b hc
        obtain ⟨f1, f2, f3⟩ := column_rows m X doc view W t x hvW hnW2 hsW ht e he
        exact ⟨x, y, hx0, by omega, by omega, by omega, g3⟩)
    ⟨⟨rfl, rfl, fun j => sameEntity_refl _, by rw [hWa]; exact List.nodup_nil,
      by intro p hp; rw [hWa] at hp; exact absurd hp (List.not_mem_nil _), rfl, rfl, rfl⟩,
     fun b hb2 => absurd rfl hb2⟩
  obtain ⟨x, y, g1, g2, g3, g4, g5⟩ := key.2 a h
  exact ⟨x, y, g1, by omega, g3, g4, g5⟩

end BufferWrites

section QueryResult
variable {F : Type} [LinearOrderedField F] [FloorRing F]

theorem Tidy_new (screen : Int → Nat) : Tidy (RendInfo.new screen : RendInfo F) := by
  refine ⟨?_, List.nodup_nil, ?_⟩
  · intro p hp
    exact absurd hp (List.not_mem_nil _)
  · intro j
    exact Banded_default

/-- The record of `RenderWalls` in query mode, for a query column `x` on the
screen and a state with good pointers: the first candidate of column `x`, in
front-to-back order, whose rows hold the query row, and the record from before
when there is none. -/
theorem RenderWalls_query (m : MathLib F) (X : Ext F) (doc : Doc) (view : View F)
    (r : RendInfo F) (hr : Tidy r) (x : Nat) (hx : (x : Int) < view.screen_w)
    (hq : r.query_mode ≠ 0) (hsx : r.query_sx = x) :
    (RenderWalls m X doc view r).query_wall
        = (firstHit (queryCandidates m X doc view x (columnStart m X doc view r x).active
            (columnStart m X doc view r x)) r.query_sy r.query_wall r.query_part).1
    ∧ (RenderWalls m X doc view r).query_part
        = (firstHit (queryCandidates m X doc view x (columnStart m X doc view r x).active
            (columnStart m X doc view r x)) r.query_sy r.query_wall r.query_part).2 := by
  obtain ⟨hinv, w1, w2, cw, cp⟩ := columnStart_inv m X doc view r hr x
  obtain ⟨f1, f2, f3, -, -, f6, f7, f8⟩ := columnStart_facts m X doc view r hr x
  have hpass := columnPasses_inv m X doc view x ((x : Int) + 1) _ _ hinv
  obtain ⟨-, -, -, -, -, p6, p7, -⟩ := hpass
  -- the columns before `x`
  obtain ⟨b1, b2⟩ := forRange_skip m X doc view x 0
    { r with walls := stdSort (SX1Cmp r.heap) r.walls, active := [] } hq
    (Or.inr (by show (0 : Int) + x ≤ r.query_sx; rw [hsx]; omega))
  have cw2 : (columnStart m X doc view r x).query_wall = r.query_wall := cw.trans b1
  have cp2 : (columnStart m X doc view r x).query_part = r.query_part := cp.trans b2
  -- the columns after `x`
  obtain ⟨a1, a2⟩ := forRange_skip m X doc view (view.screen_w.toNat - (x + 1)) ((x : Int) + 1)
    (columnPasses m X doc view x (columnStart m X doc view r x))
    (by rw [p6]; exact hq)
    (Or.inl (by rw [p7]; show r.query_sx < (x : Int) + 1; rw [hsx]; omega))
  rw [RenderWalls_column m X doc view r x hx, a1, a2]
  -- the column `x`
  have hqC : (columnStart m X doc view r x).query_mode ≠ 0 := by rw [f6]; exact hq
  have hnot : ¬ ((columnStart m X doc view r x).query_mode ≠ 0
      ∧ (x : Int) ≠ (columnStart m X doc view r x).query_sx) := by
    rw [f7, hsx]
    exact fun h => h.2 rfl
  obtain ⟨-, ht⟩ := frontToBack_take m X doc view x (columnStart m X doc view r x).active 0
    (columnStart m X doc view r x)
  rw [Nat.sub_zero] at ht
  obtain ⟨c1, c2⟩ := column_query m X doc view x (columnStart m X doc view r x).active 0
    (columnStart m X doc view r x) hqC f3 f1 f2
  rw [f8, cw2, cp2] at c1 c2
  unfold columnPasses
  simp only []
  rw [if_neg hnot, ht]
  exact ⟨c1, c2⟩

end QueryResult

section CandidatesAreCalls
variable {F : Type} [LinearOrderedField F] [FloorRing F]

theorem backCalls_append (m : MathLib F) (X : Ext F) (doc : Doc) (view : View F) (x : Int) :
    ∀ (l1 l2 : List Nat) (r : RendInfo F),
      backCalls m X doc view x (l1 ++ l2) r
        = backCalls m X doc view x l1 r
          ++ backCalls m X doc view x l2 (backToFront m X doc view x l1 r) := by
  intro l1
  induction l1 with
  | nil => intro l2 r; rfl
  | cons p rest ih =>
    intro l2 r
    have hc : ∀ (t : List Nat), backCalls m X doc view x (p :: t) r
        = (if (r.heap.getD p default).th ≥ 0 then spriteCalls view r p
           else railCalls view r p (r.heap.getD p default).rail)
          ++ backCalls m X doc view x t
              (if (r.heap.getD p default).th ≥ 0 then RenderSprite X doc view r p x
               else RenderMidMasker m X doc view r p (r.heap.getD p default).rail x) :=
      fun t => rfl
    have hb : backToFront m X doc view x (p :: rest) r
        = backToFront m X doc view x rest
            (if (r.heap.getD p default).th ≥ 0 then RenderSprite X doc view r p x
             else RenderMidMasker m X doc view r p (r.heap.getD p default).rail x) := rfl
    rw [List.cons_append, hc, hc, hb, ih, List.append_assoc]

theorem railCalls_query (view : View F) (r : RendInfo F) (p : Nat) (surf : DrawSurf)
    (hq : r.query_mode ≠ 0) : railCalls view r p surf = [] := by
  unfold railCalls
  simp only []
  split_ifs <;> rfl

theorem backCalls_single (m : MathLib F) (X : Ext F) (doc : Doc) (view : View F) (x : Int)
    (p : Nat) (s : RendInfo F) :
    backCalls m X doc view x [p] s
      = (if (s.heap.getD p default).th ≥ 0 then spriteCalls view s p
         else railCalls view s p (s.heap.getD p default).rail) := by
  have hc : backCalls m X doc view x [p] s
      = (if (s.heap.getD p default).th ≥ 0 then spriteCalls view s p
         else railCalls view s p (s.heap.getD p default).rail) ++ [] := rfl
  rw [hc, List.append_nil]

/-- In query mode the candidates of a column are the calls of its two loops,
in another order: the bands are the calls of the front-to-back loop, and the
billboard of a sprite is the call that the back-to-front loop makes for it. -/
theorem queryCandidates_perm (m : MathLib F) (X : Ext F) (doc : Doc) (view : View F)
    (x : Int) :
    ∀ (act : List Nat) (k : Nat) (r : RendInfo F), r.query_mode ≠ 0 →
      act.Nodup → (∀ p ∈ act, p < r.heap.size) →
      (queryCandidates m X doc view x act r).Perm
        (frontCalls m X doc view x act r
          ++ backCalls m X doc view x (visitedOf m X doc view x act r).reverse
              (frontToBack m X doc view x act k r).2) := by
  intro act
  induction act with
  | nil =>
    intro k r _ _ _
    exact List.Perm.refl _
  | cons p rest ih =>
    intro k r hq hnd hv
    have hpr : p ∉ rest := (List.nodup_cons.1 hnd).1
    have hndr : rest.Nodup := (List.nodup_cons.1 hnd).2
    have hsz : (rememberOpen r p).heap.size = r.heap.size := (rememberOpen_heap r p 0).1
    have hqR : (rememberOpen r p).query_mode ≠ 0 := hq
    obtain ⟨b1, -, -, b4, -, -⟩ := renderBands_frame m X doc view (rememberOpen r p) p x
    have hvR : ∀ a ∈ rest, a < (rememberOpen r p).heap.size := by
      intro a ha
      rw [hsz]
      exact hv a (List.mem_cons_of_mem _ ha)
    have hvB : ∀ a ∈ rest, a < (renderBands m X doc view (rememberOpen r p) p x).heap.size := by
      intro a ha
      rw [b1]
      exact hvR a ha
    have hqB : (renderBands m X doc view (rememberOpen r p) p x).query_mode ≠ 0 := by
      rw [b4]
      exact hqR
    rw [frontToBack_cons, visitedOf_cons, queryCandidates_cons, frontCalls_cons]
    by_cases h1 : ((rememberOpen r p).heap.getD p default).th ≥ 0
    · simp only [h1, if_true]
      rw [List.reverse_cons, backCalls_append, backCalls_single]
      have i1 := ih (k + 1) (rememberOpen r p) hqR hndr hvR
      obtain ⟨c1, -⟩ := backToFront_frame m X doc view x
        (visitedOf m X doc view x rest (rememberOpen r p)).reverse
        (frontToBack m X doc view x rest (k + 1) (rememberOpen r p)).2
      have hother := frontToBack_other m X doc view x rest (k + 1) (rememberOpen r p) p hpr
      generalize backToFront m X doc view x
        (visitedOf m X doc view x rest (rememberOpen r p)).reverse
        (frontToBack m X doc view x rest (k + 1) (rememberOpen r p)).2 = s at c1 ⊢
      have hsp : s.heap.getD p default = (rememberOpen r p).heap.getD p default := by
        rw [c1, hother]
      have hth : (s.heap.getD p default).th ≥ 0 := by
        rw [hsp]
        exact h1
      rw [if_pos hth, spriteCalls_congr view (rememberOpen r p) s p hsp]
      refine (List.Perm.append_left _ i1).trans ?_
      rw [← List.append_assoc (frontCalls m X doc view x rest (rememberOpen r p))]
      exact List.perm_append_comm
    · simp only [h1, if_false]
      by_cases h2 : (renderBands m X doc view (rememberOpen r p) p x).open_y1
          > (renderBands m X doc view (rememberOpen r p) p x).open_y2
      · simp only [h2, if_true]
        rw [List.reverse_singleton, backCalls_single,
          if_neg (by rw [b1]; exact h1), railCalls_query view _ p _ hqB, List.append_nil]
      · simp only [h2, if_false]
        rw [List.reverse_cons, backCalls_append, backCalls_single]
        have i1 := ih (k + 1) (renderBands m X doc view (rememberOpen r p) p x) hqB hndr hvB
        obtain ⟨c1, -, -, c4, -⟩ := backToFront_frame m X doc view x
          (visitedOf m X doc view x rest (renderBands m X doc view (rememberOpen r p) p x)).reverse
          (frontToBack m X doc view x rest (k + 1)
            (renderBands m X doc view (rememberOpen r p) p x)).2
        obtain ⟨-, -, d4, -⟩ := frontToBack_frame m X doc view x rest (k + 1)
          (renderBands m X doc view (rememberOpen r p) p x)
        have hother := frontToBack_other m X doc view x rest (k + 1)
          (renderBands m X doc view (rememberOpen r p) p x) p hpr
        generalize backToFront m X doc view x
          (visitedOf m X doc view x rest
            (renderBands m X doc view (rememberOpen r p) p x)).reverse
          (frontToBack m X doc view x rest (k + 1)
            (renderBands m X doc view (rememberOpen r p) p x)).2 = s at c1 c4 ⊢
        have hth : ¬ (s.heap.getD p default).th ≥ 0 := by
          rw [c1, hother, b1]
          exact h1
        have hqs : s.query_mode ≠ 0 := by
          rw [c4, d4]
          exact hqB
        rw [if_neg hth, railCalls_query view s p _ hqs, List.append_nil, List.append_assoc]
        exact List.Perm.append_left _ i1

/-- In query mode the candidates of a column are the calls of the column, in
another order. -/
theorem queryCandidates_columnCalls (m : MathLib F) (X : Ext F) (doc : Doc) (view : View F)
    (x : Int) (r : RendInfo F) (hq : r.query_mode ≠ 0) (hnd : r.active.Nodup)
    (hv : ∀ p ∈ r.active, p < r.heap.size) :
    (queryCandidates m X doc view x r.active r).Perm (columnCalls m X doc view x r) := by
  have h := queryCandidates_perm m X doc view x r.active 0 r hq hnd hv
  obtain ⟨-, ht⟩ := frontToBack_take m X doc view x r.active 0 r
  rw [Nat.sub_zero] at ht
  unfold columnCalls
  simp only []
  rw [ht]
  exact h

end CandidatesAreCalls

section RendererClaims
variable {F : Type} [LinearOrderedField F] [FloorRing F]

/-- Claim C29: no overdraw in the front-to-back pass.  In every column `x` of a
render that starts from a state with good pointers, the row ranges `y1 .. y2`
of the successive calls of `RenderWallSurface` that get to their rows (over all
walls of the active list and their ceiling, floor, upper and lower bands, as
`ComputeWallSurface` has made them) are pairwise disjoint; and the open region
`open_y1 .. open_y2` never grows during the column: in a call of
`RenderWallSurface` and over the front-to-back loop from any position
`open_y1` does not decrease and `open_y2` does not increase, and the
back-to-front loop leaves both alone. -/
theorem front_to_back_no_overdraw (m : MathLib F) (X : Ext F) (doc : Doc) (view : View F)
    (r : RendInfo F) (hr : Tidy r) (x : Nat) :
    (frontCalls m X doc view x (renderColumnState m X doc view r x).active
        (renderColumnState m X doc view r x)).Pairwise (fun e f => e.y2 < f.y1 ∨ f.y2 < e.y1)
    ∧ (∀ (s : RendInfo F) (p : Nat) (surf : DrawSurf) (part : obj3d_type_e),
        s.open_y1 ≤ (RenderWallSurface m X doc view s p surf x part).open_y1
        ∧ (RenderWallSurface m X doc view s p surf x part).open_y2 ≤ s.open_y2)
    ∧ (∀ (s : RendInfo F) (act : List Nat) (k : Nat),
        s.open_y1 ≤ (frontToBack m X doc view x act k s).2.open_y1
        ∧ (frontToBack m X doc view x act k s).2.open_y2 ≤ s.open_y2)
    ∧ (∀ (s : RendInfo F) (l : List Nat),
        (backToFront m X doc view x l s).open_y1 = s.open_y1
        ∧ (backToFront m X doc view x l s).open_y2 = s.open_y2) := by
  obtain ⟨-, -, hb, -⟩ := columnStart_facts m X doc view (renderPrepared m X doc view r)
    (renderPrepared_tidy m X doc view r hr) x
  refine ⟨?_, ?_, ?_, ?_⟩
  · exact (frontToBack_sweep m X doc view x _ 0 _ hb).2.2
  · intro s p surf part
    have h := RenderWallSurface_within m X doc view s p surf x part
    exact ⟨h.1, h.2.1⟩
  · intro s act k
    have h := frontToBack_within m X doc view x act k s
    exact ⟨h.1, h.2.1⟩
  · intro s l
    obtain ⟨-, -, -, -, -, -, h1, h2⟩ := backToFront_frame m X doc view x l s
    exact ⟨h1, h2⟩

/-- Claim C30: pixel writes stay inside the buffer.  In every column `x` of
`RenderWalls`, in a render that starts from a state with good pointers, every
painter call that gets to its rows (a wall band in the front-to-back loop, a
sprite or a mid-masked rail in the back-to-front loop) has
`0 ≤ y1 ≤ y2 ≤ screen_h - 1`; every entity that the back-to-front loop visits
(position `i` of the active list, up to the position where the front-to-back
loop stopped) holds in `oy1`, `oy2` the open region that the front-to-back
loop of this column had left when it came to the entity, a region inside
`0 .. screen_h - 1`; and the pixel buffer after `RenderWalls` differs from the
one before only at addresses `x + y * screen_w` with `0 ≤ x < screen_w` and
`0 ≤ y ≤ screen_h - 1`. -/
theorem painted_rows_inside_buffer (m : MathLib F) (X : Ext F) (doc : Doc) (view : View F)
    (r : RendInfo F) (hr : Tidy r) (x : Nat) :
    (∀ e ∈ columnCalls m X doc view x (renderColumnState m X doc view r x),
        0 ≤ e.y1 ∧ e.y1 ≤ e.y2 ∧ e.y2 ≤ view.screen_h - 1)
    ∧ (∀ i, i < ((renderColumnState m X doc view r x).active.take
          (if (frontToBack m X doc view x (renderColumnState m X doc view r x).active 0
                (renderColumnState m X doc view r x)).1
              = (renderColumnState m X doc view r x).active.length then
            (frontToBack m X doc view x (renderColumnState m X doc view r x).active 0
                (renderColumnState m X doc view r x)).1
           else (frontToBack m X doc view x (renderColumnState m X doc view r x).active 0
                (renderColumnState m X doc view r x)).1 + 1)).length →
        ((frontToBack m X doc view x (renderColumnState m X doc view r x).active 0
            (renderColumnState m X doc view r x)).2.heap.getD
              ((renderColumnState m X doc view r x).active.getD i 0) default).oy1
          = (frontToBack m X doc view x ((renderColumnState m X doc view r x).active.take i) 0
              (renderColumnState m X doc view r x)).2.open_y1
        ∧ ((frontToBack m X doc view x (renderColumnState m X doc view r x).active 0
            (renderColumnState m X doc view r x)).2.heap.getD
              ((renderColumnState m X doc view r x).active.getD i 0) default).oy2
          = (frontToBack m X doc view x ((renderColumnState m X doc view r x).active.take i) 0
              (renderColumnState m X doc view r x)).2.open_y2
        ∧ 0 ≤ ((frontToBack m X doc view x (renderColumnState m X doc view r x).active 0
            (renderColumnState m X doc view r x)).2.heap.getD
              ((renderColumnState m X doc view r x).active.getD i 0) default).oy1
        ∧ ((frontToBack m X doc view x (renderColumnState m X doc view r x).active 0
            (renderColumnState m X doc view r x)).2.heap.getD
              ((renderColumnState m X doc view r x).active.getD i 0) default).oy2
            ≤ view.screen_h - 1)
    ∧ (∀ a, (RenderWalls m X doc view (renderPrepared m X doc view r)).screen a
          ≠ (renderPrepared m X doc view r).screen a →
        ∃ cx cy : Int, 0 ≤ cx ∧ cx < view.screen_w ∧ 0 ≤ cy ∧ cy ≤ view.screen_h - 1
          ∧ a = pixelAt view cx cy) := by
  have hP := renderPrepared_tidy m X doc view r hr
  obtain ⟨hnd, hv, -, w1, w2, -⟩ := columnStart_facts m X doc view
    (renderPrepared m X doc view r) hP x
  refine ⟨?_, ?_, ?_⟩
  · intro e he
    have g := columnCalls_inside m X doc view x (renderColumnState m X doc view r x) hv e he
    have e1 : (renderColumnState m X doc view r x).open_y1 = 0 := w1
    have e2 : (renderColumnState m X doc view r x).open_y2 = view.screen_h - 1 := w2
    rw [e1, e2] at g
    exact g
  · intro i hi
    obtain ⟨-, ht⟩ := frontToBack_take m X doc view x
      (renderColumnState m X doc view r x).active 0 (renderColumnState m X doc view r x)
    rw [Nat.sub_zero] at ht
    rw [ht] at hi
    obtain ⟨g1, g2⟩ := frontToBack_remembers m X doc view x
      (renderColumnState m X doc view r x).active 0 (renderColumnState m X doc view r x)
      hnd hv i hi
    have hw := frontToBack_within m X doc view x
      ((renderColumnState m X doc view r x).active.take i) 0
      (renderColumnState m X doc view r x)
    have e1 : (renderColumnState m X doc view r x).open_y1 = 0 := w1
    have e2 : (renderColumnState m X doc view r x).open_y2 = view.screen_h - 1 := w2
    refine ⟨g1, g2, ?_, ?_⟩
    · rw [g1, ← e1]
      exact hw.1
    · rw [g2, ← e2]
      exact hw.2.1
  · intro a ha
    exact RenderWalls_writes m X doc view _ hP a ha

/-- Claim C26: the record of a query.  For a query at column `x` of the screen
and row `qy`, on a state with good pointers, the entity and part that `Query`
leaves in `query_wall` and `query_part` are those of the first candidate, in
front-to-back order of the active list of column `x`, whose clipped row range
holds `qy`, the candidates being the four bands of every wall and the
billboard of every sprite up to the entity where the front-to-back loop stops;
when no candidate holds `qy`, `query_wall` stays null; `SW_QueryPoint`
returns false, leaving the highlight alone, when its query ends with
`query_wall` null; and the candidates are, in another order, the calls that
the two loops of column `x` make. -/
theorem query_records_first_hit (m : MathLib F) (X : Ext F) (doc : Doc) (view : View F)
    (r : RendInfo F) (hr : Tidy r) (x : Nat) (hx : (x : Int) < view.screen_w) (qy : Int) :
    (Query m X doc view r x qy).query_wall
        = (firstHit (queryCandidates m X doc view x
            (renderColumnState m X doc view
              { r with query_mode := 1, query_wall := none, query_sx := x, query_sy := qy }
              x).active
            (renderColumnState m X doc view
              { r with query_mode := 1, query_wall := none, query_sx := x, query_sy := qy }
              x)) qy none r.query_part).1
    ∧ (Query m X doc view r x qy).query_part
        = (firstHit (queryCandidates m X doc view x
            (renderColumnState m X doc view
              { r with query_mode := 1, query_wall := none, query_sx := x, query_sy := qy }
              x).active
            (renderColumnState m X doc view
              { r with query_mode := 1, query_wall := none, query_sx := x, query_sy := qy }
              x)) qy none r.query_part).2
    ∧ ((∀ e ∈ queryCandidates m X doc view x
            (renderColumnState m X doc view
              { r with query_mode := 1, query_wall := none, query_sx := x, query_sy := qy }
              x).active
            (renderColumnState m X doc view
              { r with query_mode := 1, query_wall := none, query_sx := x, query_sy := qy }
              x), e.holds qy = false) →
        (Query m X doc view r x qy).query_wall = none)
    ∧ (∀ (screen : Int → Nat) (hl : Obj3d_t) (sx sy : Int),
        (Query m X doc view (RendInfo.new screen)
          (if ¬ X.render_high_detail = true then Int.tdiv sx 2 else sx)
          (if ¬ X.render_high_detail = true then Int.tdiv sy 2 else sy)).query_wall = none →
        SW_QueryPoint m X doc view screen hl sx sy = (false, hl))
    ∧ (queryCandidates m X doc view x
          (renderColumnState m X doc view
            { r with query_mode := 1, query_wall := none, query_sx := x, query_sy := qy }
            x).active
          (renderColumnState m X doc view
            { r with query_mode := 1, query_wall := none, query_sx := x, query_sy := qy }
            x)).Perm
        (columnCalls m X doc view x
          (renderColumnState m X doc view
            { r with query_mode := 1, query_wall := none, query_sx := x, query_sy := qy }
            x)) := by
  obtain ⟨rq, hrq⟩ : ∃ rq : RendInfo F,
      rq = { r with query_mode := 1, query_wall := none, query_sx := x, query_sy := qy } :=
    ⟨_, rfl⟩
  have hTq : Tidy rq := by rw [hrq]; exact hr
  have hP := renderPrepared_tidy m X doc view rq hTq
  obtain ⟨p1, p2, p3, p4, p5⟩ := renderPrepared_request m X doc view rq
  have hqP : (renderPrepared m X doc view rq).query_mode ≠ 0 := by
    rw [p1, hrq]
    exact one_ne_zero
  have hsP : (renderPrepared m X doc view rq).query_sx = x := by
    rw [p2, hrq]
  obtain ⟨c1, c2⟩ := RenderWalls_query m X doc view (renderPrepared m X doc view rq) hP x hx
    hqP hsP
  have e3 : (renderPrepared m X doc view rq).query_sy = qy := by rw [p3, hrq]
  have e4 : (renderPrepared m X doc view rq).query_wall = none := by rw [p4, hrq]
  have e5 : (renderPrepared m X doc view rq).query_part = r.query_part := by rw [p5, hrq]
  rw [e3, e4, e5] at c1 c2
  have hQw : (Query m X doc view r x qy).query_wall
      = (RenderWalls m X doc view (renderPrepared m X doc view rq)).query_wall := by
    rw [hrq]
    rfl
  have hQp : (Query m X doc view r x qy).query_part
      = (RenderWalls m X doc view (renderPrepared m X doc view rq)).query_part := by
    rw [hrq]
    rfl
  rw [← hrq, hQw, hQp]
  refine ⟨c1, c2, ?_, ?_, ?_⟩
  · intro hnone
    rw [c1]
    unfold firstHit
    have hf : (queryCandidates m X doc view x (renderColumnState m X doc view rq x).active
        (renderColumnState m X doc view rq x)).find? (fun e => e.holds qy) = none := by
      rw [List.find?_eq_none]
      intro e he
      rw [hnone e he]
      exact Bool.false_ne_true
    have hf2 : (queryCandidates m X doc view x
        (columnStart m X doc view (renderPrepared m X doc view rq) x).active
        (columnStart m X doc view (renderPrepared m X doc view rq) x)).find?
          (fun e => e.holds qy) = none := hf
    rw [hf2]
  · intro screen hl sx sy h
    unfold SW_QueryPoint
    simp only []
    rw [h]
  · obtain ⟨f1, f2, -, -, -, f6, -⟩ := columnStart_facts m X doc view
      (renderPrepared m X doc view rq) hP x
    exact queryCandidates_columnCalls m X doc view x
      (columnStart m X doc view (renderPrepared m X doc view rq) x)
      (by rw [f6]; exact hqP) f1 f2

end RendererClaims

/-- Witness for C29: the render of the room wall of `wallDoc` from a fresh
state, at column 4 of the 8 columns. -/
theorem front_to_back_no_overdraw_witness :
    Tidy (RendInfo.new (fun _ => 0) : RendInfo ℝ)
    ∧ (frontCalls realMath demoExt wallDoc wallView ((4 : Nat) : Int)
        (renderColumnState realMath demoExt wallDoc wallView (RendInfo.new (fun _ => 0)) 4).active
        (renderColumnState realMath demoExt wallDoc wallView (RendInfo.new (fun _ => 0)) 4)).Pairwise
          (fun e f => e.y2 < f.y1 ∨ f.y2 < e.y1) :=
  ⟨Tidy_new _, (front_to_back_no_overdraw realMath demoExt wallDoc wallView
    (RendInfo.new (fun _ => 0)) (Tidy_new _) 4).1⟩

/-- Witness for C30: the render of the room wall of `wallDoc` from a fresh
state, at column 4 of the 8 columns. -/
theorem painted_rows_inside_buffer_witness :
    Tidy (RendInfo.new (fun _ => 0) : RendInfo ℝ)
    ∧ (∀ e ∈ columnCalls realMath demoExt wallDoc wallView ((4 : Nat) : Int)
          (renderColumnState realMath demoExt wallDoc wallView (RendInfo.new (fun _ => 0)) 4),
        0 ≤ e.y1 ∧ e.y1 ≤ e.y2 ∧ e.y2 ≤ (wallView : View ℝ).screen_h - 1)
    ∧ (∀ a, (RenderWalls realMath demoExt wallDoc wallView
          (renderPrepared realMath demoExt wallDoc wallView (RendInfo.new (fun _ => 0)))).screen a
          ≠ (renderPrepared realMath demoExt wallDoc wallView
              (RendInfo.new (fun _ => 0))).screen a →
        ∃ cx cy : Int, 0 ≤ cx ∧ cx < (wallView : View ℝ).screen_w ∧ 0 ≤ cy
          ∧ cy ≤ (wallView : View ℝ).screen_h - 1 ∧ a = pixelAt (wallView : View ℝ) cx cy) :=
  ⟨Tidy_new _,
    (painted_rows_inside_buffer realMath demoExt wallDoc wallView
      (RendInfo.new (fun _ => 0)) (Tidy_new _) 4).1,
    (painted_rows_inside_buffer realMath demoExt wallDoc wallView
      (RendInfo.new (fun _ => 0)) (Tidy_new _) 4).2.2⟩

/-- Witness for C26: a query at column 4 and row 100 of the screen of
`wallView`, from a fresh state. -/
theorem query_records_first_hit_witness :
    Tidy (RendInfo.new (fun _ => 0) : RendInfo ℝ)
    ∧ ((4 : Nat) : Int) < (wallView : View ℝ).screen_w
    ∧ (Query realMath demoExt wallDoc wallView (RendInfo.new (fun _ => 0))
          ((4 : Nat) : Int) 100).query_wall
        = (firstHit (queryCandidates realMath demoExt wallDoc wallView ((4 : Nat) : Int)
            (renderColumnState realMath demoExt wallDoc wallView
              { (RendInfo.new (fun _ => 0) : RendInfo ℝ) with
                query_mode := 1, query_wall := none, query_sx := ((4 : Nat) : Int),
                query_sy := 100 } 4).active
            (renderColumnState realMath demoExt wallDoc wallView
              { (RendInfo.new (fun _ => 0) : RendInfo ℝ) with
                query_mode := 1, query_wall := none, query_sx := ((4 : Nat) : Int),
                query_sy := 100 } 4)) 100 none
            (RendInfo.new (fun _ => 0) : RendInfo ℝ).query_part).1 :=
  ⟨Tidy_new _, by decide,
    (query_records_first_hit realMath demoExt wallDoc wallView (RendInfo.new (fun _ => 0))
      (Tidy_new _) 4 (by decide) 100).1⟩

/-! ## The clipper: what is removed, in the rough depth order -/

section ClipOrder
variable {F : Type} [LinearOrderedField F]

/-- The call `std::sort(walls.begin(), walls.end(), DrawWall::MidDistCmp())`
leaves the list in the order of `mid_iz`, largest first. -/
theorem stdSort_MidDistCmp_sorted (heap : Array (DrawWall F)) (l : List Nat) :
    (stdSort (MidDistCmp heap) l).Pairwise
      (fun a b => (heap.getD b default).mid_iz ≤ (heap.getD a default).mid_iz) := by
  unfold stdSort
  haveI : IsTotal Nat (fun a b => MidDistCmp heap b a = false) := ⟨by
    intro a b
    unfold MidDistCmp
    simp only [decide_eq_false_iff_not, not_lt, gt_iff_lt]
    exact le_total _ _⟩
  haveI : IsTrans Nat (fun a b => MidDistCmp heap b a = false) := ⟨by
    intro a b c
    unfold MidDistCmp
    simp only [decide_eq_false_iff_not, not_lt, gt_iff_lt]
    exact fun h1 h2 => le_trans h2 h1⟩
  have h := List.sorted_insertionSort (fun a b => MidDistCmp heap b a = false) l
  refine List.Pairwise.imp ?_ h
  intro a b hab
  unfold MidDistCmp at hab
  simpa using hab

/-- The entity loop of `ClipSolids` over two stretches of the list, one after
the other. -/
theorem clipLoop_append (doc : Doc) (heap : Array (DrawWall F)) :
    ∀ (l1 l2 : List Nat) (d : Int → F),
      clipLoop doc heap (l1 ++ l2) d
        = ((clipLoop doc heap l1 d).1 ++ (clipLoop doc heap l2 (clipLoop doc heap l1 d).2).1,
           (clipLoop doc heap l2 (clipLoop doc heap l1 d).2).2) := by
  intro l1
  induction l1 with
  | nil => intro l2 d; rfl
  | cons p rest ih =>
    intro l2 d
    rw [List.cons_append]
    simp only [clipLoop]
    rw [ih]
    rfl

/-- The entries of the depth buffer come from one-sided walls: when the buffer
holds only zeros and inverse distances of one-sided walls in `Q`, it still does
after the entity loop over a list of entities in `Q`. -/
theorem clipLoop_source (doc : Doc) (heap : Array (DrawWall F)) (Q : Nat → Prop) :
    ∀ (l : List Nat) (d : Int → F), (∀ p ∈ l, Q p) →
      (∀ x, d x = 0 ∨ ∃ q, Q q ∧ oneSided doc (heap.getD q default) = true
          ∧ (heap.getD q default).sx1 ≤ x ∧ x ≤ (heap.getD q default).sx2
          ∧ d x = izAt (heap.getD q default) x) →
      ∀ x, (clipLoop doc heap l d).2 x = 0 ∨ ∃ q, Q q ∧ oneSided doc (heap.getD q default) = true
          ∧ (heap.getD q default).sx1 ≤ x ∧ x ≤ (heap.getD q default).sx2
          ∧ (clipLoop doc heap l d).2 x = izAt (heap.getD q default) x := by
  intro l
  induction l with
  | nil =>
    intro d _ hinv x
    exact hinv x
  | cons p0 rest ih =>
    intro d hQ hinv x
    simp only [clipLoop]
    refine ih (clipEntity doc (heap.getD p0 default) d).2
      (fun q hq => hQ q (List.mem_cons_of_mem _ hq)) ?_ x
    intro y
    rw [clipEntity_depth]
    by_cases hc : oneSided doc (heap.getD p0 default) = true ∧ (heap.getD p0 default).sx1 ≤ y
        ∧ y ≤ (heap.getD p0 default).sx2 ∧ ¬ (izAt (heap.getD p0 default) y < d y)
    · rw [if_pos hc]
      right
      exact ⟨p0, hQ p0 (List.mem_cons_self _ _), hc.1, hc.2.1, hc.2.2.1, rfl⟩
    · rw [if_neg hc]
      exact hinv y

/-- After the entity loop of `ClipSolids` the depth buffer is, in every column
of a one-sided wall of the list, at least the inverse distance of that wall. -/
theorem clipLoop_reaches (doc : Doc) (heap : Array (DrawWall F)) :
    ∀ (l : List Nat) (d : Int → F) (q : Nat) (x : Int), q ∈ l →
      oneSided doc (heap.getD q default) = true →
      (heap.getD q default).sx1 ≤ x → x ≤ (heap.getD q default).sx2 →
      izAt (heap.getD q default) x ≤ (clipLoop doc heap l d).2 x := by
  intro l
  induction l with
  | nil =>
    intro d q x hq
    exact absurd hq (List.not_mem_nil q)
  | cons p0 rest ih =>
    intro d q x hq hos h1 h2
    simp only [clipLoop]
    rcases List.mem_cons.1 hq with h0 | hrest
    · subst h0
      refine le_trans ?_ (clipLoop_mono doc heap rest _ x)
      rw [clipEntity_depth]
      by_cases hlt : izAt (heap.getD q default) x < d x
      · rw [if_neg (fun hc => hc.2.2.2 hlt)]
        exact le_of_lt hlt
      · rw [if_pos ⟨hos, h1, h2, hlt⟩]
    · exact ih _ q x hrest hos h1 h2

/-- An entity that keeps its slot in the entity loop of `ClipSolids` follows a
stretch `l1` of the list against whose depth buffer its `vis_count` is not
zero. -/
theorem clipLoop_kept (doc : Doc) (heap : Array (DrawWall F)) (p : Nat) :
    ∀ (l : List Nat) (d : Int → F), some p ∈ (clipLoop doc heap l d).1 →
      ∃ l1 l2, l = l1 ++ p :: l2
        ∧ (clipEntity doc (heap.getD p default) (clipLoop doc heap l1 d).2).1 ≠ 0 := by
  intro l
  induction l with
  | nil =>
    intro d h
    exact absurd h (List.not_mem_nil _)
  | cons p0 rest ih =>
    intro d h
    simp only [clipLoop, List.mem_cons] at h
    rcases h with h | h
    · by_cases hv : (clipEntity doc (heap.getD p0 default) d).1 = 0
      · rw [if_pos hv] at h
        exact absurd h (by simp)
      · rw [if_neg hv] at h
        have e : p = p0 := Option.some.inj h
        subst e
        exact ⟨[], rest, rfl, hv⟩
    · obtain ⟨k1, k2, e, hv⟩ := ih _ h
      refine ⟨p0 :: k1, k2, by rw [e]; rfl, ?_⟩
      simpa only [clipLoop] using hv

/-- An entity that loses its slot in the entity loop of `ClipSolids`: its
`vis_count` against the depth buffer left by the stretch before it is zero. -/
theorem clipLoop_lost (doc : Doc) (heap : Array (DrawWall F)) (l1 l2 : List Nat) (p : Nat)
    (d : Int → F) (h : some p ∉ (clipLoop doc heap (l1 ++ p :: l2) d).1) :
    (clipEntity doc (heap.getD p default) (clipLoop doc heap l1 d).2).1 = 0 := by
  rw [clipLoop_append] at h
  by_contra hv
  apply h
  simp only [clipLoop, if_neg hv, List.mem_append, List.mem_cons, true_or, or_true]

/-- Removal only behind one-sided walls that the rough depth sort does not put
later: from a zero depth buffer, an entity that `ClipSolids` removes is, in
every column of its span, at a negative inverse distance or strictly behind a
one-sided wall of the list that covers the column and whose `mid_iz` is not
smaller. -/
theorem ClipSolids_removed_hidden (doc : Doc) (r : RendInfo F) (p : Nat) (x : Int)
    (hzero : ∀ y, r.depth_x y = 0) (hp : p ∈ r.walls) (hgone : p ∉ (ClipSolids doc r).walls)
    (h1 : (r.heap.getD p default).sx1 ≤ x) (h2 : x ≤ (r.heap.getD p default).sx2) :
    izAt (r.heap.getD p default) x < 0
    ∨ ∃ q, q ∈ r.walls ∧ oneSided doc (r.heap.getD q default) = true
        ∧ (r.heap.getD q default).sx1 ≤ x ∧ x ≤ (r.heap.getD q default).sx2
        ∧ (r.heap.getD p default).mid_iz ≤ (r.heap.getD q default).mid_iz
        ∧ izAt (r.heap.getD p default) x < izAt (r.heap.getD q default) x := by
  have hperm : ∀ q, q ∈ stdSort (MidDistCmp r.heap) r.walls ↔ q ∈ r.walls := by
    intro q
    exact (List.perm_insertionSort _ r.walls).mem_iff
  have hslot : some p ∉ (clipLoop doc r.heap (stdSort (MidDistCmp r.heap) r.walls) r.depth_x).1 := by
    intro hmem
    apply hgone
    simp only [ClipSolids, List.mem_filterMap, id]
    exact ⟨some p, hmem, rfl⟩
  obtain ⟨l1, l2, e⟩ := List.append_of_mem ((hperm p).2 hp)
  have hsorted := stdSort_MidDistCmp_sorted r.heap r.walls
  rw [e] at hslot hsorted
  have hv := clipLoop_lost doc r.heap l1 l2 p r.depth_x hslot
  have hlt := clipEntity_removed doc _ _ hv x h1 h2
  have hsrc := clipLoop_source doc r.heap (fun q => q ∈ l1) l1 r.depth_x (fun q hq => hq)
    (fun y => Or.inl (hzero y)) x
  rcases hsrc with hz | ⟨q, hq, hos, hq1, hq2, hqd⟩
  · left
    rw [← hz]
    exact hlt
  · right
    refine ⟨q, (hperm q).1 (by rw [e]; exact List.mem_append_left _ hq), hos, hq1, hq2, ?_, ?_⟩
    · exact (List.pairwise_append.1 hsorted).2.2 q hq p (List.mem_cons_self _ _)
    · rw [← hqd]
      exact hlt

/-- Removal behind one-sided walls that the rough depth sort puts earlier:
from a zero depth buffer, `ClipSolids` removes an entity with `sx1 ≤ sx2` that
is, in every column of its span, at a negative inverse distance or strictly
behind a one-sided wall of the list that covers the column and has a strictly
larger `mid_iz`. -/
theorem ClipSolids_hidden_removed (doc : Doc) (r : RendInfo F) (p : Nat)
    (hzero : ∀ y, r.depth_x y = 0)
    (hspan : (r.heap.getD p default).sx1 ≤ (r.heap.getD p default).sx2)
    (hid : ∀ x, (r.heap.getD p default).sx1 ≤ x → x ≤ (r.heap.getD p default).sx2 →
      izAt (r.heap.getD p default) x < 0
      ∨ ∃ q, q ∈ r.walls ∧ oneSided doc (r.heap.getD q default) = true
          ∧ (r.heap.getD q default).sx1 ≤ x ∧ x ≤ (r.heap.getD q default).sx2
          ∧ (r.heap.getD p default).mid_iz < (r.heap.getD q default).mid_iz
          ∧ izAt (r.heap.getD p default) x < izAt (r.heap.getD q default) x) :
    p ∉ (ClipSolids doc r).walls := by
  have hperm : ∀ q, q ∈ stdSort (MidDistCmp r.heap) r.walls ↔ q ∈ r.walls := by
    intro q
    exact (List.perm_insertionSort _ r.walls).mem_iff
  intro hmem
  have hslot : some p ∈ (clipLoop doc r.heap (stdSort (MidDistCmp r.heap) r.walls) r.depth_x).1 := by
    simp only [ClipSolids, List.mem_filterMap, id] at hmem
    obtain ⟨a, ha, e⟩ := hmem
    rw [e] at ha
    exact ha
  obtain ⟨l1, l2, e, hv⟩ := clipLoop_kept doc r.heap p _ _ hslot
  have hsorted := stdSort_MidDistCmp_sorted r.heap r.walls
  rw [e] at hsorted
  apply hv
  rw [clipEntity_removed_iff doc _ _ (by omega)]
  intro x h1 h2
  have h0 : 0 ≤ (clipLoop doc r.heap l1 r.depth_x).2 x := by
    have := clipLoop_mono doc r.heap l1 r.depth_x x
    rw [hzero x] at this
    exact this
  rcases hid x h1 h2 with hneg | ⟨q, hq, hos, hq1, hq2, hmid, hlt⟩
  · exact lt_of_lt_of_le hneg h0
  · have hq' : q ∈ l1 ++ p :: l2 := by rw [← e]; exact (hperm q).2 hq
    have hin : q ∈ l1 := by
      rcases List.mem_append.1 hq' with h | h
      · exact h
      · rcases List.mem_cons.1 h with h | h
        · rw [h] at hmid
          exact absurd hmid (lt_irrefl _)
        · have := List.rel_of_pairwise_cons (List.pairwise_append.1 hsorted).2.1 h
          exact absurd hmid (not_lt.2 this)
    exact lt_of_lt_of_le hlt (clipLoop_reaches doc r.heap l1 r.depth_x q x hin hos hq1 hq2)

end ClipOrder

section ClipRemoval
variable {F : Type} [LinearOrderedField F]

/-- The column loop of `ClipSolids` for a sprite or a two-sided wall leaves the
depth buffer as it was. -/
theorem clipEntity_masked (doc : Doc) (dw : DrawWall F) (d : Int → F)
    (h : dw.ld = none ∨ ∃ l, dw.ld = some l ∧ (doc.lineDef l).Left ≠ none) :
    (clipEntity doc dw d).2 = d := by
  have hos : ¬ (oneSided doc dw = true) := by
    unfold oneSided
    rcases h with h | ⟨l, hl, hleft⟩
    · rw [h]
      simp
    · rw [hl]
      simpa using hleft
  funext x
  rw [clipEntity_depth, if_neg (fun hc => hos hc.1)]

/-- Claim C3 (amended): starting from a zero depth buffer, `ClipSolids` removes
sprites, two-sided walls and one-sided walls alike, by depth.  An entity of the
list is removed only if, in every column of its span, its inverse distance is
negative or strictly less than that of a one-sided wall of the list that covers
the column and whose `mid_iz` is not smaller than the entity's.  An entity with
`sx1 ≤ sx2` is removed whenever, in every column of its span, its inverse
distance is negative or strictly less than that of a one-sided wall of the list
that covers the column and whose `mid_iz` is strictly larger than the
entity's.  Only one-sided walls hide: the column loop for a sprite or a
two-sided wall leaves the depth buffer unchanged. -/
theorem ClipSolids_removal (doc : Doc) (r : RendInfo F) (hzero : ∀ y, r.depth_x y = 0) :
    (∀ p ∈ r.walls, p ∉ (ClipSolids doc r).walls →
      ∀ x, (r.heap.getD p default).sx1 ≤ x → x ≤ (r.heap.getD p default).sx2 →
        izAt (r.heap.getD p default) x < 0
        ∨ ∃ q, q ∈ r.walls ∧ oneSided doc (r.heap.getD q default) = true
            ∧ (r.heap.getD q default).sx1 ≤ x ∧ x ≤ (r.heap.getD q default).sx2
            ∧ (r.heap.getD p default).mid_iz ≤ (r.heap.getD q default).mid_iz
            ∧ izAt (r.heap.getD p default) x < izAt (r.heap.getD q default) x)
    ∧ (∀ p, (r.heap.getD p default).sx1 ≤ (r.heap.getD p default).sx2 →
        (∀ x, (r.heap.getD p default).sx1 ≤ x → x ≤ (r.heap.getD p default).sx2 →
          izAt (r.heap.getD p default) x < 0
          ∨ ∃ q, q ∈ r.walls ∧ oneSided doc (r.heap.getD q default) = true
              ∧ (r.heap.getD q default).sx1 ≤ x ∧ x ≤ (r.heap.getD q default).sx2
              ∧ (r.heap.getD p default).mid_iz < (r.heap.getD q default).mid_iz
              ∧ izAt (r.heap.getD p default) x < izAt (r.heap.getD q default) x) →
        p ∉ (ClipSolids doc r).walls)
    ∧ (∀ (dw : DrawWall F) (d : Int → F),
        (dw.ld = none ∨ ∃ l, dw.ld = some l ∧ (doc.lineDef l).Left ≠ none) →
        (clipEntity doc dw d).2 = d) :=
  ⟨fun p hp hgone x h1 h2 => ClipSolids_removed_hidden doc r p x hzero hp hgone h1 h2,
   fun p hspan hid => ClipSolids_hidden_removed doc r p hzero hspan hid,
   fun dw d h => clipEntity_masked doc dw d h⟩

end ClipRemoval

/-- In `hiddenScene` an entity over the columns 1 to 2 at inverse distance
1/100 and with `mid_iz` 1/100 is, in each of its columns, strictly behind the
one-sided wall at pointer 0, whose `mid_iz` is larger. -/
theorem hiddenScene_behind (p : Nat) (hp : p = 1 ∨ p = 2) (x : Int)
    (h1 : (hiddenScene.heap.getD p default).sx1 ≤ x)
    (h2 : x ≤ (hiddenScene.heap.getD p default).sx2) :
    izAt (hiddenScene.heap.getD p default) x < 0
    ∨ ∃ q, q ∈ hiddenScene.walls ∧ oneSided demoDoc (hiddenScene.heap.getD q default) = true
        ∧ (hiddenScene.heap.getD q default).sx1 ≤ x ∧ x ≤ (hiddenScene.heap.getD q default).sx2
        ∧ (hiddenScene.heap.getD p default).mid_iz < (hiddenScene.heap.getD q default).mid_iz
        ∧ izAt (hiddenScene.heap.getD p default) x < izAt (hiddenScene.heap.getD q default) x := by
  have i0 : izAt (hiddenScene.heap.getD 0 default) x = 1 / 10 := by
    show (1 / 10 : ℚ) + 0 * _ = 1 / 10
    simp
  have s0 : (hiddenScene.heap.getD 0 default).sx1 = 0 ∧ (hiddenScene.heap.getD 0 default).sx2 = 3 :=
    ⟨rfl, rfl⟩
  have m0 : (hiddenScene.heap.getD 0 default).mid_iz = 1 / 10 := rfl
  have ip : izAt (hiddenScene.heap.getD p default) x = 1 / 100 := by
    rcases hp with hp | hp
    · subst hp
      show (1 / 100 : ℚ) + 0 * _ = 1 / 100
      simp
    · subst hp
      show (1 / 100 : ℚ) + 0 * _ = 1 / 100
      simp
  have sp : (hiddenScene.heap.getD p default).sx1 = 1 ∧ (hiddenScene.heap.getD p default).sx2 = 2
      ∧ (hiddenScene.heap.getD p default).mid_iz = 1 / 100 := by
    rcases hp with hp | hp
    · subst hp
      exact ⟨rfl, rfl, rfl⟩
    · subst hp
      exact ⟨rfl, rfl, rfl⟩
  rw [sp.1] at h1
  rw [sp.2.1] at h2
  right
  refine ⟨0, by decide, rfl, by rw [s0.1]; omega, by rw [s0.2]; omega, ?_, ?_⟩
  · rw [sp.2.2, m0]
    norm_num
  · rw [ip, i0]
    norm_num

/-- Witness for C3 (amended): in `hiddenScene`, from a zero depth buffer, the
sprite at pointer 1 and the two-sided wall at pointer 2 are behind the
one-sided wall at pointer 0 in both of their columns and are removed; the
removed sprite is behind a one-sided wall of no smaller `mid_iz` in column 1;
the column loop for the sprite leaves a zero depth buffer at zero. -/
theorem ClipSolids_removal_witness :
    (∀ y, hiddenScene.depth_x y = 0)
    ∧ 1 ∉ (ClipSolids demoDoc hiddenScene).walls
    ∧ 2 ∉ (ClipSolids demoDoc hiddenScene).walls
    ∧ (izAt (hiddenScene.heap.getD 1 default) 1 < 0
      ∨ ∃ q, q ∈ hiddenScene.walls ∧ oneSided demoDoc (hiddenScene.heap.getD q default) = true
          ∧ (hiddenScene.heap.getD q default).sx1 ≤ 1 ∧ 1 ≤ (hiddenScene.heap.getD q default).sx2
          ∧ (hiddenScene.heap.getD 1 default).mid_iz ≤ (hiddenScene.heap.getD q default).mid_iz
          ∧ izAt (hiddenScene.heap.getD 1 default) 1 < izAt (hiddenScene.heap.getD q default) 1)
    ∧ (clipEntity demoDoc (hiddenScene.heap.getD 1 default) (fun _ => 0)).2 = (fun _ => 0) :=
  ⟨fun _ => rfl,
   (ClipSolids_removal demoDoc hiddenScene (fun _ => rfl)).2.1 1 (by decide)
     (hiddenScene_behind 1 (Or.inl rfl)),
   (ClipSolids_removal demoDoc hiddenScene (fun _ => rfl)).2.1 2 (by decide)
     (hiddenScene_behind 2 (Or.inr rfl)),
   (ClipSolids_removal demoDoc hiddenScene (fun _ => rfl)).1 1 (by decide)
     (by rw [hiddenScene_clipped]; decide) 1 (by decide) (by decide),
   (ClipSolids_removal demoDoc hiddenScene (fun _ => rfl)).2.2
     (hiddenScene.heap.getD 1 default) (fun _ => 0) (Or.inl rfl)⟩

/-- Behind a nearer wall is not enough.  In `slopedScene` the sprite at pointer
1 is, in its only column, strictly behind the one-sided wall at pointer 0
(1/20 against 7/100), but the `mid_iz` of the wall (3/100) is smaller than that
of the sprite (1/20): the rough depth sort puts the sprite first, and
`ClipSolids` keeps it. -/
theorem ClipSolids_keeps_sprite_behind_sloped_wall :
    slopedScene.depth_x = (fun _ => 0)
    ∧ (slopedScene.heap.getD 1 default).th ≥ 0
    ∧ (slopedScene.heap.getD 1 default).sx1 = 0 ∧ (slopedScene.heap.getD 1 default).sx2 = 0
    ∧ oneSided demoDoc (slopedScene.heap.getD 0 default) = true
    ∧ (slopedScene.heap.getD 0 default).sx1 ≤ 0 ∧ 0 ≤ (slopedScene.heap.getD 0 default).sx2
    ∧ izAt (slopedScene.heap.getD 1 default) 0 < izAt (slopedScene.heap.getD 0 default) 0
    ∧ (slopedScene.heap.getD 0 default).mid_iz < (slopedScene.heap.getD 1 default).mid_iz
    ∧ 1 ∈ (ClipSolids demoDoc slopedScene).walls := by
  have i1 : izAt (slopedScene.heap.getD 1 default) 0 = 1 / 20 := by
    show (1 / 20 : ℚ) + 0 * _ = 1 / 20
    simp
  have i0 : izAt (slopedScene.heap.getD 0 default) 0 = 7 / 100 := by
    show (7 / 100 : ℚ) + -(1 / 50) * (((0 : Int) - 0 : Int) : ℚ) = 7 / 100
    simp
  have m0 : (slopedScene.heap.getD 0 default).mid_iz = 3 / 100 := rfl
  have m1 : (slopedScene.heap.getD 1 default).mid_iz = 1 / 20 := rfl
  have o1 : oneSided demoDoc (slopedScene.heap.getD 1 default) = false := rfl
  refine ⟨rfl, by decide, rfl, rfl, rfl, by decide, by decide, ?_, ?_, ?_⟩
  · rw [i1, i0]
    norm_num
  · rw [m0, m1]
    norm_num
  · by_contra hgone
    rcases ClipSolids_removed_hidden demoDoc slopedScene 1 0 (fun _ => rfl) (by decide) hgone
        (by decide) (by decide) with h | ⟨q, hq, hos, _, _, hmid, _⟩
    · rw [i1] at h
      norm_num at h
    · have hq2 : q = 0 ∨ q = 1 := by
        have hw : slopedScene.walls = [0, 1] := rfl
        rw [hw] at hq
        simpa using hq
      rcases hq2 with e | e
      · subst e
        rw [m0, m1] at hmid
        norm_num at hmid
      · subst e
        rw [o1] at hos
        exact absurd hos (by decide)

end Eureka
